import Mathlib

set_option autoImplicit false

/-!
# gerbv: the GDK renderer of `src/draw-gdk.c`

A shallow embedding of the aperture-macro interpreter (`gerbv_gdk_draw_amacro`
with its primitive renderers) and of the net-list traversal (`image2pixmap`),
followed by theorems about them.

## Modelling conventions

* A C `double` is a rational number that IEEE 754 binary64 represents (the
  type `double`).  Every operation `+`, `-`, `*`, `/` and every conversion of
  an integer or of a decimal constant rounds its exact result to the nearest
  such number, ties to even (`fl`), one operation at a time and in the order
  of the source (no fused multiply-add, no extended precision).  A constant
  such as `25.4` or `0.0001` is written as the quotient of two whole numbers
  (`127 / 5`, `1 / 10000`), whose rounded value is that constant.  The
  exponent range is not bounded above, and infinities and NaN are not
  modelled: a quotient by zero is 0 in the model.
* `(int)x` and the implicit conversion of a `double` to `int` / `gint`
  truncate toward zero (`trunc`); a value outside the range of a 32-bit `int`
  becomes `INT_MIN` (`to_gint`), as on x86.  `round` is the macro of the
  source, `ceil((double)(x))`, followed by that conversion.
* Arithmetic on `int` / `gint` itself is on unbounded integers (`ℤ`): signed
  overflow is undefined in C and is not modelled, except for the loop counter
  of primitive 6 whose wrap-around decides how often the loop body runs.
  `a / 2` on `int` is `Int.tdiv` (truncation toward zero).
* An array is a total function from indices to values, so an access outside the
  allocated range (undefined in C) reads or writes a private slot of the model
  instead of faulting.  Theorems that need an access to be inside the array say
  so in a hypothesis.
* The GDK canvas is the list of GDK drawing calls made, each recorded with the
  graphics context (`GdkGC`) it was issued with.  Only the GC fields the source
  ever changes are kept: foreground pixel, line width, line style, cap style
  (the join style is always `GDK_JOIN_MITER`, the function always `GDK_COPY`).
* `sin`, `cos`, `M_PI` and the allocator are not part of the source file; they
  are supplied by a `Host` record that every theorem quantifies over.  Where the
  source tests the result of an allocation, the model branches on the host's
  answer.  `GERB_FATAL_ERROR` (a macro of a header that is not part of the
  source file) reports at the error level of GLib, which ends the program: the
  traversal stops there and the result of `image2pixmap` is marked `fatal`.
* The enumerations and records of `gerb_image.h` are not part of the source
  file; they are modelled from the data model of the specification, each with
  one extra constructor `other` for a value outside the enumeration (the
  `default:` arms of the source).
-/

namespace Gerbv

/-! ## The arithmetic of the C type `double`

The definitions of this section come with the facts that make the type
well formed: rounding a rounded number, its negative, its absolute value or
its ceiling changes nothing. -/

/-- The ring of rational numbers, taken from its algebraic structure, so
that the lemmas on `fl` depend on the algebra of `ℚ` only. -/
instance rat_ring : Ring ℚ := Rat.commRing.toRing

/-- The commutative multiplication of rational numbers, taken from its
algebraic structure. -/
instance rat_nonUnitalCommRing : NonUnitalCommRing ℚ := Rat.commRing.toNonUnitalCommRing

/-- The ring of integers, taken from its algebraic structure. -/
instance int_ring : Ring ℤ := Int.instCommRing.toRing

/-- The commutative multiplication of integers, taken from its algebraic
structure. -/
instance int_nonUnitalCommRing : NonUnitalCommRing ℤ := Int.instCommRing.toNonUnitalCommRing

/-- Rounding of a rational to the nearest integer, ties to the even one. -/
def round_even (y : ℚ) : ℤ :=
  if y - (⌊y⌋ : ℚ) < 1 / 2 then ⌊y⌋
  else if 1 / 2 < y - (⌊y⌋ : ℚ) then ⌊y⌋ + 1
  else if ⌊y⌋ % 2 = 0 then ⌊y⌋ else ⌊y⌋ + 1

/-- The exponent of the unit in the last place of a binary64 number of the
magnitude of `x`: 52 below the binary exponent of `x`, and -1074 in the
subnormal range. -/
def ulp_exp (x : ℚ) : ℤ := max (Int.log 2 |x|) (-1022) - 52

/-- Rounding of a rational to IEEE 754 binary64 (round to nearest, ties to
even).  The exponent range is not bounded above: infinities and NaN are not
part of the model. -/
def fl (x : ℚ) : ℚ := (round_even (x / 2 ^ ulp_exp x) : ℚ) * 2 ^ ulp_exp x

theorem round_even_intCast (n : ℤ) : round_even (n : ℚ) = n := by
  simp [round_even]

theorem round_even_neg (y : ℚ) : round_even (-y) = -round_even y := by
  by_cases hy : (⌊y⌋ : ℚ) = y
  · rw [← hy, ← Int.cast_neg, round_even_intCast, round_even_intCast]
  · have hlt : (⌊y⌋ : ℚ) < y := lt_of_le_of_ne (Int.floor_le y) hy
    have hlt2 : y < (⌊y⌋ : ℚ) + 1 := Int.lt_floor_add_one y
    have hf : ⌊-y⌋ = -⌊y⌋ - 1 := by
      rw [Int.floor_eq_iff]
      push_cast
      constructor <;> linarith
    unfold round_even
    rw [hf]
    push_cast
    by_cases h1 : y - (⌊y⌋ : ℚ) < 1 / 2
    · rw [if_pos h1, if_neg (by linarith), if_pos (by linarith)]
      ring
    · by_cases h2 : 1 / 2 < y - (⌊y⌋ : ℚ)
      · rw [if_neg h1, if_pos h2, if_pos (by linarith)]
        ring
      · rw [if_neg h1, if_neg h2, if_neg (by linarith), if_neg (by linarith)]
        rcases Int.emod_two_eq_zero_or_one ⌊y⌋ with he | he
        · have hn : ¬ ((-⌊y⌋ - 1) % 2 = 0) := by omega
          rw [if_pos he, if_neg hn]
          ring
        · have hn : ¬ (⌊y⌋ % 2 = 0) := by omega
          have hp : (-⌊y⌋ - 1) % 2 = 0 := by omega
          rw [if_neg hn, if_pos hp]
          ring

theorem round_even_sub_le (y : ℚ) : |(round_even y : ℚ) - y| ≤ 1 / 2 := by
  have h1 := Int.floor_le y
  have h2 := Int.lt_floor_add_one y
  unfold round_even
  rw [abs_le]
  split_ifs with a b c
  · constructor <;> linarith
  · push_cast
    constructor <;> linarith
  · constructor <;> linarith
  · push_cast
    constructor <;> linarith

theorem ulp_exp_neg (x : ℚ) : ulp_exp (-x) = ulp_exp x := by
  simp [ulp_exp]

theorem ulp_exp_ge (x : ℚ) : -1074 ≤ ulp_exp x := by
  unfold ulp_exp
  have := le_max_right (Int.log 2 |x|) (-1022)
  omega

theorem fl_zero : fl 0 = 0 := by
  simp [fl, round_even]

theorem fl_neg (x : ℚ) : fl (-x) = -fl x := by
  unfold fl
  rw [ulp_exp_neg, neg_div, round_even_neg]
  push_cast
  ring

theorem two_zpow_pos (e : ℤ) : (0 : ℚ) < 2 ^ e := by positivity

theorem abs_lt_zpow_ulp (x : ℚ) : |x| < (2 : ℚ) ^ (ulp_exp x + 53) := by
  have h := Int.lt_zpow_succ_log_self (R := ℚ) (b := 2) (by norm_num) |x|
  have h2 : Int.log 2 |x| + 1 ≤ ulp_exp x + 53 := by
    unfold ulp_exp
    have := le_max_left (Int.log 2 |x|) (-1022)
    omega
  calc |x| < ((2 : ℕ) : ℚ) ^ (Int.log 2 |x| + 1) := h
    _ = (2 : ℚ) ^ (Int.log 2 |x| + 1) := by norm_num
    _ ≤ (2 : ℚ) ^ (ulp_exp x + 53) := zpow_le_zpow_right₀ (by norm_num) h2

/-- A multiple `m * 2^e` of a power of two with `|m| ≤ 2^53` and `e` not below
the least exponent is a binary64 number: `fl` leaves it as it is. -/
theorem fl_exact (m e : ℤ) (hm : |m| ≤ 9007199254740992) (he : -1074 ≤ e) :
    fl ((m : ℚ) * 2 ^ e) = (m : ℚ) * 2 ^ e := by
  rcases eq_or_ne m 0 with h0 | h0
  · subst h0
    simp [fl_zero]
  have hx0 : (m : ℚ) * 2 ^ e ≠ 0 := by
    apply mul_ne_zero
    · exact_mod_cast h0
    · exact (two_zpow_pos e).ne'
  have hpos : (0 : ℚ) < |(m : ℚ) * 2 ^ e| := abs_pos.mpr hx0
  have habs : |(m : ℚ) * 2 ^ e| = (|m| : ℤ) * 2 ^ e := by
    rw [abs_mul, abs_of_pos (two_zpow_pos e), Int.cast_abs]
  -- the quotient by the unit in the last place is an integer
  have key : ∃ n : ℤ, (m : ℚ) * 2 ^ e / 2 ^ ulp_exp ((m : ℚ) * 2 ^ e) = (n : ℚ) := by
    rcases le_or_lt (ulp_exp ((m : ℚ) * 2 ^ e)) e with hle | hlt
    · generalize ulp_exp ((m : ℚ) * 2 ^ e) = E at hle
      obtain ⟨k, hk⟩ := Int.eq_ofNat_of_zero_le (sub_nonneg.mpr hle)
      refine ⟨m * 2 ^ k, ?_⟩
      have : (2 : ℚ) ^ e = 2 ^ E * 2 ^ (k : ℤ) := by
        rw [← zpow_add₀ (by norm_num : (2 : ℚ) ≠ 0), ← hk]
        congr 1
        ring
      rw [this]
      push_cast
      rw [zpow_natCast]
      field_simp
      ring
    · -- then the exponent is e + 1 and |m| = 2^53
      have hL : ulp_exp ((m : ℚ) * 2 ^ e) = Int.log 2 |(m : ℚ) * 2 ^ e| - 52 := by
        unfold ulp_exp at hlt ⊢
        rcases le_total (Int.log 2 |(m : ℚ) * 2 ^ e|) (-1022) with h | h
        · rw [max_eq_right h] at hlt
          omega
        · rw [max_eq_left h]
      have hle53 : |(m : ℚ) * 2 ^ e| ≤ (2 : ℚ) ^ (e + 53) := by
        rw [habs, zpow_add₀ (by norm_num : (2 : ℚ) ≠ 0), mul_comm ((2 : ℚ) ^ e)]
        apply mul_le_mul_of_nonneg_right _ (two_zpow_pos e).le
        have : ((|m| : ℤ) : ℚ) ≤ ((9007199254740992 : ℤ) : ℚ) := by exact_mod_cast hm
        calc ((|m| : ℤ) : ℚ) ≤ ((9007199254740992 : ℤ) : ℚ) := this
          _ = (2 : ℚ) ^ (53 : ℤ) := by norm_num
      have hlog_le : Int.log 2 |(m : ℚ) * 2 ^ e| ≤ e + 53 := by
        have h1 := Int.zpow_log_le_self (R := ℚ) (b := 2) (by norm_num) hpos
        have h2 : ((2 : ℕ) : ℚ) ^ Int.log 2 |(m : ℚ) * 2 ^ e| ≤ ((2 : ℕ) : ℚ) ^ (e + 53) := by
          refine le_trans h1 ?_
          simpa using hle53
        exact (zpow_le_zpow_iff_right₀ (by norm_num : (1 : ℚ) < ((2 : ℕ) : ℚ))).mp h2
      have hlog : Int.log 2 |(m : ℚ) * 2 ^ e| = e + 53 := by omega
      have hge : (2 : ℚ) ^ (e + 53) ≤ |(m : ℚ) * 2 ^ e| := by
        have h1 := Int.zpow_log_le_self (R := ℚ) (b := 2) (by norm_num) hpos
        rw [hlog] at h1
        simpa using h1
      have hm53 : |m| = 9007199254740992 := by
        apply le_antisymm hm
        rw [habs, zpow_add₀ (by norm_num : (2 : ℚ) ≠ 0), mul_comm ((2 : ℚ) ^ e)] at hge
        have := le_of_mul_le_mul_right hge (two_zpow_pos e)
        have h3 : ((9007199254740992 : ℤ) : ℚ) ≤ ((|m| : ℤ) : ℚ) := by
          calc ((9007199254740992 : ℤ) : ℚ) = (2 : ℚ) ^ (53 : ℤ) := by norm_num
            _ ≤ ((|m| : ℤ) : ℚ) := this
        exact_mod_cast h3
      have hE : ulp_exp ((m : ℚ) * 2 ^ e) = e + 1 := by omega
      rw [hE, zpow_add₀ (by norm_num : (2 : ℚ) ≠ 0)]
      rcases abs_eq (by norm_num : (0 : ℤ) ≤ 9007199254740992) |>.mp hm53 with h | h
      · refine ⟨4503599627370496, ?_⟩
        rw [h]
        field_simp
        ring
      · refine ⟨-4503599627370496, ?_⟩
        rw [h]
        field_simp
        ring
  obtain ⟨n, hn⟩ := key
  unfold fl
  rw [hn, round_even_intCast, ← hn]
  field_simp

theorem fl_idem (x : ℚ) : fl (fl x) = fl x := by
  have hb := abs_lt_zpow_ulp x
  have hq : |x / 2 ^ ulp_exp x| < 9007199254740992 := by
    rw [abs_div, abs_of_pos (two_zpow_pos _), div_lt_iff₀ (two_zpow_pos _)]
    calc |x| < (2 : ℚ) ^ (ulp_exp x + 53) := hb
      _ = 9007199254740992 * 2 ^ ulp_exp x := by
        rw [zpow_add₀ (by norm_num : (2 : ℚ) ≠ 0)]
        norm_num
        ring
  have hr := round_even_sub_le (x / 2 ^ ulp_exp x)
  have hm : |round_even (x / 2 ^ ulp_exp x)| ≤ 9007199254740992 := by
    have h1 : |(round_even (x / 2 ^ ulp_exp x) : ℚ)| < 9007199254740992 + 1 := by
      calc |(round_even (x / 2 ^ ulp_exp x) : ℚ)|
          = |((round_even (x / 2 ^ ulp_exp x) : ℚ) - x / 2 ^ ulp_exp x)
              + x / 2 ^ ulp_exp x| := by ring_nf
        _ ≤ |(round_even (x / 2 ^ ulp_exp x) : ℚ) - x / 2 ^ ulp_exp x|
              + |x / 2 ^ ulp_exp x| := abs_add _ _
        _ < 9007199254740992 + 1 := by linarith
    have h2 : |round_even (x / 2 ^ ulp_exp x)| < 9007199254740992 + 1 := by
      have : ((|round_even (x / 2 ^ ulp_exp x)| : ℤ) : ℚ) < ((9007199254740992 + 1 : ℤ) : ℚ) := by
        push_cast
        linarith
      exact_mod_cast this
    omega
  unfold fl
  exact fl_exact _ _ hm (ulp_exp_ge x)

theorem fl_intCast (n : ℤ) (h : |n| ≤ 9007199254740992) : fl (n : ℚ) = n := by
  have := fl_exact n 0 h (by norm_num)
  simpa using this

theorem fl_abs (x : ℚ) : fl |x| = |fl x| := by
  rcases le_total 0 x with h | h
  · have h2 : 0 ≤ fl x := by
      unfold fl
      apply mul_nonneg _ (two_zpow_pos _).le
      have : (0 : ℚ) ≤ x / 2 ^ ulp_exp x := div_nonneg h (two_zpow_pos _).le
      have hr := round_even_sub_le (x / 2 ^ ulp_exp x)
      rw [abs_le] at hr
      have h3 : (-1 : ℚ) < (round_even (x / 2 ^ ulp_exp x) : ℚ) := by linarith
      have h4 : (-1 : ℤ) < round_even (x / 2 ^ ulp_exp x) := by exact_mod_cast h3
      have h5 : (0 : ℤ) ≤ round_even (x / 2 ^ ulp_exp x) := by omega
      exact_mod_cast h5
    rw [abs_of_nonneg h, abs_of_nonneg h2]
  · have h2 : fl x ≤ 0 := by
      have hx : 0 ≤ -x := by linarith
      have h3 : 0 ≤ fl (-x) := by
        unfold fl
        apply mul_nonneg _ (two_zpow_pos _).le
        have : (0 : ℚ) ≤ -x / 2 ^ ulp_exp (-x) := div_nonneg hx (two_zpow_pos _).le
        have hr := round_even_sub_le (-x / 2 ^ ulp_exp (-x))
        rw [abs_le] at hr
        have h3 : (-1 : ℚ) < (round_even (-x / 2 ^ ulp_exp (-x)) : ℚ) := by linarith
        have h4 : (-1 : ℤ) < round_even (-x / 2 ^ ulp_exp (-x)) := by exact_mod_cast h3
        have h5 : (0 : ℤ) ≤ round_even (-x / 2 ^ ulp_exp (-x)) := by omega
        exact_mod_cast h5
      rw [fl_neg] at h3
      linarith
    rw [abs_of_nonpos h, abs_of_nonpos h2, fl_neg]

/-- The ceiling of a binary64 number is a binary64 number. -/
theorem fl_ceil (x : ℚ) (h : fl x = x) : fl (⌈x⌉ : ℚ) = ⌈x⌉ := by
  rcases le_or_lt 0 (ulp_exp x) with hE | hE
  · obtain ⟨k, hk⟩ := Int.eq_ofNat_of_zero_le hE
    have hx : x = ((round_even (x / 2 ^ ulp_exp x) * 2 ^ k : ℤ) : ℚ) := by
      conv_lhs => rw [← h]
      unfold fl
      rw [hk]
      push_cast
      rw [zpow_natCast]
    rw [hx, Int.ceil_intCast]
    rw [← hx]
    exact h
  · apply fl_intCast
    have hb := abs_lt_zpow_ulp x
    have hb2 : (2 : ℚ) ^ (ulp_exp x + 53) ≤ 2 ^ (52 : ℤ) :=
      zpow_le_zpow_right₀ (by norm_num) (by omega)
    have hb3 : |x| < 4503599627370496 := by
      calc |x| < (2 : ℚ) ^ (ulp_exp x + 53) := hb
        _ ≤ 2 ^ (52 : ℤ) := hb2
        _ = 4503599627370496 := by norm_num
    rw [abs_lt] at hb3
    have h1 : ⌈x⌉ ≤ 4503599627370496 := by
      rw [Int.ceil_le]
      push_cast
      linarith
    have h2 : -4503599627370496 < ⌈x⌉ := by
      rw [Int.lt_ceil]
      push_cast
      linarith
    rw [abs_le]
    constructor <;> omega

/-- A value of the C type `double`: a rational number that IEEE 754 binary64
represents exactly (`fl` leaves it as it is). -/
structure double where
  val : ℚ
  rep : fl val = val

instance : DecidableEq double := fun a b =>
  decidable_of_iff (a.val = b.val)
    ⟨fun h => by
      cases a
      cases b
      simp only [double.mk.injEq]
      exact h, fun h => by rw [h]⟩

/-- The `double` nearest to a rational number: the value of a decimal
constant, of a converted integer and of the exact result of an operation. -/
def double.of (q : ℚ) : double := ⟨fl q, fl_idem q⟩

instance (n : ℕ) : OfNat double n := ⟨double.of (n : ℚ)⟩

instance : NatCast double := ⟨fun n => double.of (n : ℚ)⟩

instance : IntCast double := ⟨fun n => double.of (n : ℚ)⟩

instance : Neg double := ⟨fun a => ⟨-a.val, by rw [fl_neg, a.rep]⟩⟩

instance : Add double := ⟨fun a b => double.of (a.val + b.val)⟩

instance : Sub double := ⟨fun a b => double.of (a.val - b.val)⟩

instance : Mul double := ⟨fun a b => double.of (a.val * b.val)⟩

instance : Div double := ⟨fun a b => double.of (a.val / b.val)⟩

instance : LT double := ⟨fun a b => a.val < b.val⟩

instance : LE double := ⟨fun a b => a.val ≤ b.val⟩

instance (a b : double) : Decidable (a < b) := inferInstanceAs (Decidable (a.val < b.val))

instance (a b : double) : Decidable (a ≤ b) := inferInstanceAs (Decidable (a.val ≤ b.val))

/-- The function `fabs` of `math.h`. -/
def fabs (a : double) : double := ⟨|a.val|, by rw [fl_abs, a.rep]⟩

/-- The function `ceil` of `math.h`. -/
def ceil (a : double) : double := ⟨(⌈a.val⌉ : ℚ), fl_ceil a.val a.rep⟩

/-- The conversion of a whole `double` value to a 32-bit `int`: the value
itself when it is in the range of `int`, and `INT_MIN` otherwise (the
result of the conversion instruction of x86; the C standard leaves the
conversion of a value out of range undefined). -/
def to_gint (n : ℤ) : ℤ :=
  if -2147483648 ≤ n ∧ n ≤ 2147483647 then n else -2147483648

/-- The C conversion `(int)x` of a `double`: truncation toward zero, then
`to_gint`. -/
def trunc (x : double) : ℤ := to_gint (if 0 ≤ x.val then ⌊x.val⌋ else ⌈x.val⌉)

/-- The expression `(int)round(x)` of the source, which replaces `round` by
the ceiling: `#undef round` / `#define round(x) ceil((double)(x))`. -/
def round (x : double) : ℤ := trunc (ceil x)

/-! ## Library services -/

/-- Library services the source calls but does not define. -/
structure Host where
  /-- The function `sin` of `math.h`. -/
  sin : double → double
  /-- The function `cos` of `math.h`. -/
  cos : double → double
  /-- The constant `M_PI` of `math.h`. -/
  M_PI : double
  /-- Whether `malloc` of the local parameter copy returns a non-NULL block. -/
  malloc : Bool
  /-- Whether `g_malloc` of an array of the given number of `GdkPoint`s
  returns a non-NULL block. -/
  g_malloc : ℤ → Bool

/-! ## The GDK canvas -/

inductive GdkLineStyle where
  | GDK_LINE_SOLID
  | GDK_LINE_ON_OFF_DASH
  deriving DecidableEq, Repr

inductive GdkCapStyle where
  | GDK_CAP_BUTT
  | GDK_CAP_ROUND
  | GDK_CAP_PROJECTING
  deriving DecidableEq, Repr

/-- The fields of a GDK graphics context that the source reads or writes. -/
structure GdkGC where
  /-- The field `foreground.pixel`. -/
  foreground : ℕ
  line_width : ℤ
  line_style : GdkLineStyle
  cap_style : GdkCapStyle
  deriving DecidableEq, Repr

/-- The value of `gdk_gc_new`: the GDK defaults. -/
def gdk_gc_new : GdkGC :=
  { foreground := 0, line_width := 0,
    line_style := GdkLineStyle.GDK_LINE_SOLID, cap_style := GdkCapStyle.GDK_CAP_BUTT }

/-- The call `gdk_gc_set_line_attributes(gc, w, style, cap, GDK_JOIN_MITER)`. -/
def gdk_gc_set_line_attributes (gc : GdkGC) (w : ℤ) (style : GdkLineStyle)
    (cap : GdkCapStyle) : GdkGC :=
  { gc with line_width := w, line_style := style, cap_style := cap }

/-- The call `gdk_gc_set_foreground(gc, &color)` with `color.pixel = pixel`. -/
def gdk_gc_set_foreground (gc : GdkGC) (pixel : ℕ) : GdkGC :=
  { gc with foreground := pixel }

structure GdkPoint where
  x : ℤ
  y : ℤ
  deriving DecidableEq, Repr

/-- One GDK drawing call, with the graphics context it was issued with. -/
inductive DrawOp where
  | gdk_draw_arc (gc : GdkGC) (filled : Bool) (x y width height angle1 angle2 : ℤ)
  | gdk_draw_rectangle (gc : GdkGC) (filled : Bool) (x y width height : ℤ)
  | gdk_draw_line (gc : GdkGC) (x1 y1 x2 y2 : ℤ)
  | gdk_draw_polygon (gc : GdkGC) (filled : Bool) (points : List GdkPoint)
  deriving DecidableEq, Repr

/-- The constant `full_circle = 23360` of the source. -/
def full_circle : ℤ := 23360

/-- The first `n` entries of a C array of points, as passed to
`gdk_draw_polygon(…, points, n)`. -/
def take_points (points : ℤ → GdkPoint) (n : ℤ) : List GdkPoint :=
  (List.range n.toNat).map fun (k : ℕ) => points (k : ℤ)

/-! ## The macro stack -/

/-- The record `macro_stack_t`: the value array and the stack pointer `sp`.
`size` is the number of allocated slots. -/
structure macro_stack_t where
  stack : ℤ → double
  sp : ℤ
  size : ℕ

/-- The function `new_stack`: `nuf_push + extra_stack_size` zeroed slots, `sp = 0`.
Its two allocations are taken to succeed: the only caller does not test the
result. -/
def new_stack (nuf_push : ℕ) : macro_stack_t :=
  { stack := fun _ => 0, sp := 0, size := nuf_push + 10 }

/-- The statement `s->stack[s->sp++] = val`. -/
def push (s : macro_stack_t) (val : double) : macro_stack_t :=
  { s with stack := fun i => if i = s.sp then val else s.stack i, sp := s.sp + 1 }

/-- The expression `s->stack[--s->sp]`: the value read and the stack left. -/
def pop (s : macro_stack_t) : double × macro_stack_t :=
  (s.stack (s.sp - 1), { s with sp := s.sp - 1 })

/-! ## Rotation -/

/-- The function `rotate_point`. -/
def rotate_point (H : Host) (point : GdkPoint) (angle : ℤ) : GdkPoint :=
  if angle = 0 then point
  else
    let sint := H.sin (-(angle : double) * H.M_PI / 180)
    let cost := H.cos (-(angle : double) * H.M_PI / 180)
    { x := round (cost * (point.x : double) - sint * (point.y : double)),
      y := round (sint * (point.x : double) + cost * (point.y : double)) }

/-- The statements `p.x += x; p.y += y`. -/
def GdkPoint.offset (p : GdkPoint) (x y : ℤ) : GdkPoint :=
  { x := p.x + x, y := p.y + y }

/-- The exposure test shared by the primitives: when the exposure value is
`0.0` the foreground of the local GC becomes pixel 0. -/
def exposure (gc : GdkGC) (e : double) : GdkGC :=
  if e = 0 then gdk_gc_set_foreground gc 0 else gc

/-! ## The primitive renderers working on the macro stack -/

open GdkLineStyle GdkCapStyle DrawOp

/-- The function `gerbv_gdk_draw_prim1` (filled circle). -/
def gerbv_gdk_draw_prim1 (gc : GdkGC) (s : macro_stack_t) (scale x y : ℤ) : List DrawOp :=
  let dia : ℤ := round (fabs (s.stack 1 * (scale : double)))
  let real_x : ℤ := x - dia.tdiv 2 + trunc (s.stack 2 * (scale : double))
  let real_y : ℤ := y - dia.tdiv 2 - trunc (s.stack 3 * (scale : double))
  let local_gc := exposure gc (s.stack 0)
  let local_gc := gdk_gc_set_line_attributes local_gc 1 GDK_LINE_SOLID GDK_CAP_BUTT
  [gdk_draw_arc local_gc true real_x real_y dia dia 0 full_circle]

/-- The function `gerbv_gdk_draw_prim4` (outline). -/
def gerbv_gdk_draw_prim4 (H : Host) (gc : GdkGC) (s : macro_stack_t) (scale x y : ℤ) :
    List DrawOp :=
  let nuf_points : ℤ := trunc (s.stack 1)
  if H.g_malloc nuf_points = false then []
  else
    let closed_shape : Bool :=
      decide (fabs (s.stack 2 - s.stack (nuf_points * 2 + 2)) < 1 / 10000) &&
      decide (fabs (s.stack 3 - s.stack (nuf_points * 2 + 3)) < 1 / 10000)
    let rotation : double := s.stack (nuf_points * 2 + 4)
    let points : ℤ → GdkPoint := fun point =>
      let p : GdkPoint :=
        { x := round ((scale : double) * s.stack (point * 2 + 2)),
          y := -round ((scale : double) * s.stack (point * 2 + 3)) }
      let p := if rotation > 1 / 10 then rotate_point H p (trunc rotation) else p
      p.offset x y
    let local_gc := exposure gc (s.stack 0)
    let local_gc := gdk_gc_set_line_attributes local_gc 1 GDK_LINE_SOLID GDK_CAP_BUTT
    [gdk_draw_polygon local_gc closed_shape (take_points points nuf_points)]

/-- The function `gerbv_gdk_draw_prim5` (regular polygon). -/
def gerbv_gdk_draw_prim5 (H : Host) (gc : GdkGC) (s : macro_stack_t) (scale x y : ℤ) :
    List DrawOp :=
  if s.sp ≠ 6 then []
  else
    let nuf_vertices : ℤ := trunc (s.stack 1)
    if H.g_malloc nuf_vertices = false then []
    else
      let local_gc := exposure gc (s.stack 0)
      let tick : double := 2 * H.M_PI / (nuf_vertices : double)
      let rotation : double := -s.stack 5 * H.M_PI / 180
      let radius : double := s.stack 4 / 2
      let points : ℤ → GdkPoint := fun i =>
        let vertex : double := tick * (i : double) + rotation
        { x := round ((scale : double) * radius * H.cos vertex) + x,
          y := round ((scale : double) * radius * H.sin vertex) + y }
      [gdk_draw_polygon local_gc true (take_points points nuf_vertices)]

/-- How often the loop `for (circle = 0; circle != n; circle++)` of primitive 6
runs its body for a 32-bit `int`: `n` times when `0 ≤ n`, and after wrapping
round through `INT_MAX` otherwise. -/
def prim6_iterations (n : ℤ) : ℕ := (n % 4294967296).toNat

/-- The value of the 32-bit loop counter `circle` in iteration `k`. -/
def prim6_counter (k : ℕ) : ℤ :=
  if (k : ℤ) < 2147483648 then (k : ℤ) else (k : ℤ) - 4294967296

/-- The function `gerbv_gdk_draw_prim6` (moire). -/
def gerbv_gdk_draw_prim6 (H : Host) (gc : GdkGC) (s : macro_stack_t) (scale x y : ℤ) :
    List DrawOp :=
  let local_gc := gdk_gc_set_line_attributes gc (round ((scale : double) * s.stack 3))
    GDK_LINE_SOLID GDK_CAP_BUTT
  let real_dia : double := s.stack 2 - s.stack 3 / 2
  let real_gap : double := s.stack 4 + s.stack 3
  let circles : List DrawOp :=
    (List.range (prim6_iterations (trunc (s.stack 5)))).map fun k =>
      let dia : ℤ := trunc ((real_dia - real_gap * ((prim6_counter k : ℤ) : double)) * (scale : double))
      gdk_draw_arc local_gc false (x - dia.tdiv 2) (y - dia.tdiv 2) dia dia 0 full_circle
  let c0x : ℤ := trunc (s.stack 7 / 2 * (scale : double))
  let crosshair0 : GdkPoint := { x := c0x, y := 0 }
  let crosshair1 : GdkPoint := { x := -c0x, y := 0 }
  let crosshair2 : GdkPoint := { x := 0, y := c0x }
  let crosshair3 : GdkPoint := { x := 0, y := -c0x }
  let local_gc := gdk_gc_set_line_attributes local_gc (round ((scale : double) * s.stack 6))
    GDK_LINE_SOLID GDK_CAP_BUTT
  let rot := fun (p : GdkPoint) => (rotate_point H p (trunc (s.stack 8))).offset x y
  let c0 := rot crosshair0
  let c1 := rot crosshair1
  let c2 := rot crosshair2
  let c3 := rot crosshair3
  circles ++ [gdk_draw_line local_gc c0.x c0.y c1.x c1.y,
              gdk_draw_line local_gc c2.x c2.y c3.x c3.y]

/-- The function `gerbv_gdk_draw_prim7` (thermal). -/
def gerbv_gdk_draw_prim7 (H : Host) (gc : GdkGC) (s : macro_stack_t) (scale x y : ℤ) :
    List DrawOp :=
  let ci_thickness : double := (s.stack 2 - s.stack 3) / 2
  let local_gc := gdk_gc_set_line_attributes gc (round ((scale : double) * ci_thickness))
    GDK_LINE_SOLID GDK_CAP_BUTT
  let diameter : ℤ := trunc ((s.stack 3 + ci_thickness) * (scale : double))
  let ring := gdk_draw_arc local_gc false (x - diameter.tdiv 2) (y - diameter.tdiv 2)
    diameter diameter 0 full_circle
  let point : ℤ → GdkPoint := fun i =>
    let p : GdkPoint := { x := trunc (ceil (s.stack 2 / 2 * (scale : double)) + 2), y := 0 }
    (rotate_point H p (trunc (s.stack 5 + ((90 * i : ℤ) : double)))).offset x y
  let local_gc := gdk_gc_set_line_attributes local_gc (round ((scale : double) * s.stack 4))
    GDK_LINE_SOLID GDK_CAP_BUTT
  let local_gc := gdk_gc_set_foreground local_gc (if local_gc.foreground = 1 then 0 else 1)
  [ring,
   gdk_draw_line local_gc (point 0).x (point 0).y (point 2).x (point 2).y,
   gdk_draw_line local_gc (point 1).x (point 1).y (point 3).x (point 3).y]

/-- The function `gerbv_gdk_draw_prim20` (vector line). -/
def gerbv_gdk_draw_prim20 (H : Host) (gc : GdkGC) (s : macro_stack_t) (scale x y : ℤ) :
    List DrawOp :=
  let local_gc := exposure gc (s.stack 0)
  let local_gc := gdk_gc_set_line_attributes local_gc (round ((scale : double) * s.stack 1))
    GDK_LINE_SOLID GDK_CAP_BUTT
  let points0 : GdkPoint :=
    { x := trunc (s.stack 2 * (scale : double)), y := trunc (s.stack 3 * (scale : double)) }
  let points1 : GdkPoint :=
    { x := trunc (s.stack 4 * (scale : double)), y := trunc (s.stack 5 * (scale : double)) }
  let place := fun (p : GdkPoint) =>
    let q := rotate_point H p (trunc (s.stack 6))
    ({ x := x + q.x, y := y - q.y } : GdkPoint)
  [gdk_draw_line local_gc (place points0).x (place points0).y
    (place points1).x (place points1).y]

/-- The function `gerbv_gdk_draw_prim21` (centred rectangle). -/
def gerbv_gdk_draw_prim21 (H : Host) (gc : GdkGC) (s : macro_stack_t) (scale x y : ℤ) :
    List DrawOp :=
  let half_width : ℤ := round (s.stack 1 * (scale : double) / 2)
  let half_height : ℤ := round (s.stack 2 * (scale : double) / 2)
  let points : List GdkPoint :=
    [{ x := half_width, y := half_height }, { x := half_width, y := -half_height },
     { x := -half_width, y := -half_height }, { x := -half_width, y := half_height }]
  let points := points.map fun p => (rotate_point H p (trunc (s.stack 5))).offset x y
  let local_gc := exposure gc (s.stack 0)
  [gdk_draw_polygon local_gc true points]

/-- The function `gerbv_gdk_draw_prim22` (lower-left rectangle). -/
def gerbv_gdk_draw_prim22 (H : Host) (gc : GdkGC) (s : macro_stack_t) (scale x y : ℤ) :
    List DrawOp :=
  let points : List GdkPoint :=
    [{ x := round (s.stack 3 * (scale : double)), y := round (s.stack 4 * (scale : double)) },
     { x := round ((s.stack 3 + s.stack 1) * (scale : double)),
       y := round (s.stack 4 * (scale : double)) },
     { x := round ((s.stack 3 + s.stack 1) * (scale : double)),
       y := round ((s.stack 4 - s.stack 2) * (scale : double)) },
     { x := round (s.stack 3 * (scale : double)),
       y := round ((s.stack 4 - s.stack 2) * (scale : double)) }]
  let points := points.map fun p => (rotate_point H p (trunc (s.stack 5))).offset x y
  let local_gc := exposure gc (s.stack 0)
  [gdk_draw_polygon local_gc true points]

/-! ## The primitive renderers working on a parameter vector -/

/-- The function `gerbv_gdk_draw_prim1_new` (filled circle). -/
def gerbv_gdk_draw_prim1_new (gc : GdkGC) (parameters : ℤ → double) (scale x y : ℤ) : List DrawOp :=
  let dia : ℤ := round (fabs (parameters 1 * (scale : double)))
  let real_x : ℤ := x - dia.tdiv 2 + trunc (parameters 2 * (scale : double))
  let real_y : ℤ := y - dia.tdiv 2 - trunc (parameters 3 * (scale : double))
  let local_gc := exposure gc (parameters 0)
  let local_gc := gdk_gc_set_line_attributes local_gc 1 GDK_LINE_SOLID GDK_CAP_BUTT
  [gdk_draw_arc local_gc true real_x real_y dia dia 0 full_circle]

/-- The function `gerbv_gdk_draw_prim4_new` (outline). -/
def gerbv_gdk_draw_prim4_new (H : Host) (gc : GdkGC) (parameters : ℤ → double) (scale x y : ℤ) :
    List DrawOp :=
  let nuf_points : ℤ := trunc (parameters 1)
  if H.g_malloc nuf_points = false then []
  else
    let closed_shape : Bool :=
      decide (fabs (parameters 2 - parameters (nuf_points * 2 + 2)) < 1 / 10000) &&
      decide (fabs (parameters 3 - parameters (nuf_points * 2 + 3)) < 1 / 10000)
    let rotation : double := parameters (nuf_points * 2 + 4)
    let points : ℤ → GdkPoint := fun point =>
      let p : GdkPoint :=
        { x := round ((scale : double) * parameters (point * 2 + 2)),
          y := -round ((scale : double) * parameters (point * 2 + 3)) }
      let p := if rotation > 1 / 10 then rotate_point H p (trunc rotation) else p
      p.offset x y
    let local_gc := exposure gc (parameters 0)
    let local_gc := gdk_gc_set_line_attributes local_gc 1 GDK_LINE_SOLID GDK_CAP_BUTT
    [gdk_draw_polygon local_gc closed_shape (take_points points nuf_points)]

/-- The function `gerbv_gdk_draw_prim5_new` (regular polygon). -/
def gerbv_gdk_draw_prim5_new (H : Host) (gc : GdkGC) (parameters : ℤ → double) (scale x y : ℤ) :
    List DrawOp :=
  let nuf_vertices : ℤ := trunc (parameters 1)
  if H.g_malloc nuf_vertices = false then []
  else
    let local_gc := exposure gc (parameters 0)
    let tick : double := 2 * H.M_PI / (nuf_vertices : double)
    let rotation : double := -parameters 5 * H.M_PI / 180
    let radius : double := parameters 4 / 2
    let points : ℤ → GdkPoint := fun i =>
      let vertex : double := tick * (i : double) + rotation
      { x := round ((scale : double) * radius * H.cos vertex) + x,
        y := round ((scale : double) * radius * H.sin vertex) + y }
    [gdk_draw_polygon local_gc true (take_points points nuf_vertices)]

/-- The function `gerbv_gdk_draw_prim6_new` (moire). -/
def gerbv_gdk_draw_prim6_new (H : Host) (gc : GdkGC) (parameters : ℤ → double) (scale x y : ℤ) :
    List DrawOp :=
  let local_gc := gdk_gc_set_line_attributes gc (round ((scale : double) * parameters 3))
    GDK_LINE_SOLID GDK_CAP_BUTT
  let real_dia : double := parameters 2 - parameters 3 / 2
  let real_gap : double := parameters 4 + parameters 3
  let circles : List DrawOp :=
    (List.range (prim6_iterations (trunc (parameters 5)))).map fun k =>
      let dia : ℤ := trunc ((real_dia - real_gap * ((prim6_counter k : ℤ) : double)) * (scale : double))
      gdk_draw_arc local_gc false (x - dia.tdiv 2) (y - dia.tdiv 2) dia dia 0 full_circle
  let c0x : ℤ := trunc (parameters 7 / 2 * (scale : double))
  let crosshair0 : GdkPoint := { x := c0x, y := 0 }
  let crosshair1 : GdkPoint := { x := -c0x, y := 0 }
  let crosshair2 : GdkPoint := { x := 0, y := c0x }
  let crosshair3 : GdkPoint := { x := 0, y := -c0x }
  let local_gc := gdk_gc_set_line_attributes local_gc (round ((scale : double) * parameters 6))
    GDK_LINE_SOLID GDK_CAP_BUTT
  let rot := fun (p : GdkPoint) => (rotate_point H p (trunc (parameters 8))).offset x y
  let c0 := rot crosshair0
  let c1 := rot crosshair1
  let c2 := rot crosshair2
  let c3 := rot crosshair3
  circles ++ [gdk_draw_line local_gc c0.x c0.y c1.x c1.y,
              gdk_draw_line local_gc c2.x c2.y c3.x c3.y]

/-- The function `gerbv_gdk_draw_prim7_new` (thermal). -/
def gerbv_gdk_draw_prim7_new (H : Host) (gc : GdkGC) (parameters : ℤ → double) (scale x y : ℤ) :
    List DrawOp :=
  let ci_thickness : double := (parameters 2 - parameters 3) / 2
  let local_gc := gdk_gc_set_line_attributes gc (round ((scale : double) * ci_thickness))
    GDK_LINE_SOLID GDK_CAP_BUTT
  let diameter : ℤ := trunc ((parameters 3 + ci_thickness) * (scale : double))
  let ring := gdk_draw_arc local_gc false (x - diameter.tdiv 2) (y - diameter.tdiv 2)
    diameter diameter 0 full_circle
  let point : ℤ → GdkPoint := fun i =>
    let p : GdkPoint := { x := trunc (ceil (parameters 2 / 2 * (scale : double)) + 2), y := 0 }
    (rotate_point H p (trunc (parameters 5 + ((90 * i : ℤ) : double)))).offset x y
  let local_gc := gdk_gc_set_line_attributes local_gc (round ((scale : double) * parameters 4))
    GDK_LINE_SOLID GDK_CAP_BUTT
  let local_gc := gdk_gc_set_foreground local_gc (if local_gc.foreground = 1 then 0 else 1)
  [ring,
   gdk_draw_line local_gc (point 0).x (point 0).y (point 2).x (point 2).y,
   gdk_draw_line local_gc (point 1).x (point 1).y (point 3).x (point 3).y]

/-- The function `gerbv_gdk_draw_prim20_new` (vector line). -/
def gerbv_gdk_draw_prim20_new (H : Host) (gc : GdkGC) (parameters : ℤ → double) (scale x y : ℤ) :
    List DrawOp :=
  let local_gc := exposure gc (parameters 0)
  let local_gc := gdk_gc_set_line_attributes local_gc (round ((scale : double) * parameters 1))
    GDK_LINE_SOLID GDK_CAP_BUTT
  let points0 : GdkPoint :=
    { x := trunc (parameters 2 * (scale : double)), y := trunc (parameters 3 * (scale : double)) }
  let points1 : GdkPoint :=
    { x := trunc (parameters 4 * (scale : double)), y := trunc (parameters 5 * (scale : double)) }
  let place := fun (p : GdkPoint) =>
    let q := rotate_point H p (trunc (parameters 6))
    ({ x := x + q.x, y := y - q.y } : GdkPoint)
  [gdk_draw_line local_gc (place points0).x (place points0).y
    (place points1).x (place points1).y]

/-- The function `gerbv_gdk_draw_prim21_new` (centred rectangle). -/
def gerbv_gdk_draw_prim21_new (H : Host) (gc : GdkGC) (parameters : ℤ → double) (scale x y : ℤ) :
    List DrawOp :=
  let half_width : ℤ := round (parameters 1 * (scale : double) / 2)
  let half_height : ℤ := round (parameters 2 * (scale : double) / 2)
  let points : List GdkPoint :=
    [{ x := half_width, y := half_height }, { x := half_width, y := -half_height },
     { x := -half_width, y := -half_height }, { x := -half_width, y := half_height }]
  let points := points.map fun p => (rotate_point H p (trunc (parameters 5))).offset x y
  let local_gc := exposure gc (parameters 0)
  [gdk_draw_polygon local_gc true points]

/-- The function `gerbv_gdk_draw_prim22_new` (lower-left rectangle). -/
def gerbv_gdk_draw_prim22_new (H : Host) (gc : GdkGC) (parameters : ℤ → double) (scale x y : ℤ) :
    List DrawOp :=
  let points : List GdkPoint :=
    [{ x := round (parameters 3 * (scale : double)), y := round (parameters 4 * (scale : double)) },
     { x := round ((parameters 3 + parameters 1) * (scale : double)),
       y := round (parameters 4 * (scale : double)) },
     { x := round ((parameters 3 + parameters 1) * (scale : double)),
       y := round ((parameters 4 - parameters 2) * (scale : double)) },
     { x := round (parameters 3 * (scale : double)),
       y := round ((parameters 4 - parameters 2) * (scale : double)) }]
  let points := points.map fun p => (rotate_point H p (trunc (parameters 5))).offset x y
  let local_gc := exposure gc (parameters 0)
  [gdk_draw_polygon local_gc true points]

/-! ## The aperture-macro interpreter -/

/-- Modelled from the spec: the enumeration `opcodes` of the instruction record
(declared in a header that is not part of the source file), with the names the
source uses in its `case` labels; `other` is any value outside the enumeration. -/
inductive opcodes where
  | NOP | PUSH | PPUSH | PPOP | ADD | SUB | MUL | DIV | PRIM
  | other (code : ℕ)
  deriving DecidableEq, Repr

/-- Modelled from the spec: the record `instruction_t`, an opcode with one
operand.  The operand is a C union; `ival` is its integer reading and `fval`
its floating reading. -/
structure instruction_t where
  opcode : opcodes
  ival : ℤ
  fval : double

/-- The variables of `gerbv_gdk_draw_amacro` that change while the program
runs, with the drawing calls made so far. -/
structure amacro_state where
  s : macro_stack_t
  /-- The local copy `lp` of the parameters. -/
  lp : ℤ → double
  handled : ℤ
  ops : List DrawOp

/-- The drawing calls of the `switch(ip->data.ival)` under `case PRIM`, and
whether the `default` arm (`handled = 0`) was taken. -/
def prim_dispatch (H : Host) (gc : GdkGC) (s : macro_stack_t) (scale x y : ℤ)
    (code : ℤ) : List DrawOp × Bool :=
  if code = 1 then (gerbv_gdk_draw_prim1 gc s scale x y, false)
  else if code = 4 then (gerbv_gdk_draw_prim4 H gc s scale x y, false)
  else if code = 5 then (gerbv_gdk_draw_prim5 H gc s scale x y, false)
  else if code = 6 then (gerbv_gdk_draw_prim6 H gc s scale x y, false)
  else if code = 7 then (gerbv_gdk_draw_prim7 H gc s scale x y, false)
  else if code = 2 ∨ code = 20 then (gerbv_gdk_draw_prim20 H gc s scale x y, false)
  else if code = 21 then (gerbv_gdk_draw_prim21 H gc s scale x y, false)
  else if code = 22 then (gerbv_gdk_draw_prim22 H gc s scale x y, false)
  else ([], true)

/-- One pass through the body of the loop `for(ip = program; …)`:
the `switch(ip->opcode)`. -/
def amacro_step (H : Host) (gc : GdkGC) (scale x y : ℤ) (st : amacro_state)
    (ip : instruction_t) : amacro_state :=
  match ip.opcode with
  | opcodes.NOP => st
  | opcodes.PUSH => { st with s := push st.s ip.fval }
  | opcodes.PPUSH => { st with s := push st.s (st.lp (ip.ival - 1)) }
  | opcodes.PPOP =>
      let r := pop st.s
      { st with s := r.2, lp := fun i => if i = ip.ival - 1 then r.1 else st.lp i }
  | opcodes.ADD =>
      let a := pop st.s
      let b := pop a.2
      { st with s := push b.2 (a.1 + b.1) }
  | opcodes.SUB =>
      let tmp0 := pop st.s
      let tmp1 := pop tmp0.2
      { st with s := push tmp1.2 (tmp1.1 - tmp0.1) }
  | opcodes.MUL =>
      let a := pop st.s
      let b := pop a.2
      { st with s := push b.2 (a.1 * b.1) }
  | opcodes.DIV =>
      let tmp0 := pop st.s
      let tmp1 := pop tmp0.2
      { st with s := push tmp1.2 (tmp1.1 / tmp0.1) }
  | opcodes.PRIM =>
      let d := prim_dispatch H gc st.s scale x y ip.ival
      { st with
        s := { st.s with sp := 0 },
        handled := if d.2 then 0 else st.handled,
        ops := st.ops ++ d.1 }
  | opcodes.other _ => st

/-- What a call of `gerbv_gdk_draw_amacro` leaves behind: the returned `int`,
the drawing calls made, and the caller's parameter array after the call. -/
structure amacro_result where
  ret : ℤ
  ops : List DrawOp
  parameters : ℤ → double

/-- The state in which the instruction loop starts: a fresh stack, the local
copy `lp` filled from `parameters` by `memcpy`, `handled = 1`. -/
def amacro_init (nuf_push : ℕ) (parameters : ℤ → double) : amacro_state :=
  { s := new_stack nuf_push, lp := parameters, handled := 1, ops := [] }

/-- The instruction loop of `gerbv_gdk_draw_amacro` from a given state. -/
def amacro_run (H : Host) (gc : GdkGC) (scale x y : ℤ) (program : List instruction_t)
    (st : amacro_state) : amacro_state :=
  program.foldl (amacro_step H gc scale x y) st

/-- The function `gerbv_gdk_draw_amacro`.  The program is the linked list of
instructions in order.  Nothing in the function stores into `parameters`. -/
def gerbv_gdk_draw_amacro (H : Host) (gc : GdkGC) (program : List instruction_t)
    (nuf_push : ℕ) (parameters : ℤ → double) (scale x y : ℤ) : amacro_result :=
  if H.malloc = false then { ret := -1, ops := [], parameters := parameters }
  else
    let st := amacro_run H gc scale x y program (amacro_init nuf_push parameters)
    { ret := st.handled, ops := st.ops, parameters := parameters }

/-! ## The image model -/

/-- Modelled from the spec: the enumeration `polarity_t`, used both for a
layer (`DARK`, `CLEAR`) and for the whole image (`NEGATIVE` or not). -/
inductive polarity_t where
  | POSITIVE | NEGATIVE | DARK | CLEAR
  deriving DecidableEq, Repr

/-- Modelled from the spec: the aperture states of a net. -/
inductive aperture_state_t where
  | OFF | ON | FLASH
  | other (code : ℕ)
  deriving DecidableEq, Repr

/-- Modelled from the spec: the interpolation modes of a net. -/
inductive interpolation_t where
  | LINEARx1 | LINEARx10 | LINEARx01 | LINEARx001
  | CW_CIRCULAR | CCW_CIRCULAR | PAREA_START | PAREA_END
  | other (code : ℕ)
  deriving DecidableEq, Repr

/-- Modelled from the spec: the aperture types. -/
inductive aperture_t where
  | CIRCLE | RECTANGLE | OVAL | POLYGON | MACRO
  | MACRO_CIRCLE | MACRO_OUTLINE | MACRO_POLYGON | MACRO_MOIRE | MACRO_THERMAL
  | MACRO_LINE20 | MACRO_LINE21 | MACRO_LINE22
  | other (code : ℕ)
  deriving DecidableEq, Repr

/-- Modelled from the spec: the unit of an aperture. -/
inductive unit_t where
  | INCH | MM
  deriving DecidableEq, Repr

/-- Modelled from the spec: the circular segment of an arc net. -/
structure gerb_cirseg where
  cp_x : double
  cp_y : double
  width : double
  height : double
  angle1 : double
  angle2 : double

/-- Modelled from the spec: the step-and-repeat descriptor of a layer. -/
structure gerb_step_and_repeat where
  X : ℤ
  Y : ℤ
  dist_X : double
  dist_Y : double

/-- Modelled from the spec: a layer. -/
structure gerb_layer where
  polarity : polarity_t
  stepAndRepeat : gerb_step_and_repeat

/-- Modelled from the spec: a net.  `cirseg` is `none` for a NULL pointer. -/
structure gerb_net where
  start_x : double
  start_y : double
  stop_x : double
  stop_y : double
  aperture : ℤ
  aperture_state : aperture_state_t
  interpolation : interpolation_t
  cirseg : Option gerb_cirseg
  nuf_pcorners : ℕ
  layer : gerb_layer

/-- Modelled from the spec: a compiled aperture macro. -/
structure amacro_t where
  program : List instruction_t
  nuf_push : ℕ

/-- Modelled from the spec: an aperture.  The field `amacro` is `none` for a
NULL pointer. -/
structure gerb_aperture where
  type : aperture_t
  amacro : Option amacro_t
  parameter : ℤ → double
  unit : unit_t

/-- Modelled from the spec: the origin offset of the image (`image->info`). -/
structure gerb_image_info where
  offsetA : double
  offsetB : double

/-- Modelled from the spec: the image.  `aperture i` is `none` where the table
holds a NULL pointer; `netlist` is the linked list from `image->netlist` on
(empty for a NULL pointer). -/
structure gerb_image where
  info : gerb_image_info
  aperture : ℤ → Option gerb_aperture
  netlist : List gerb_net

/-- The messages the source sends to the diagnostics sink. -/
inductive Diag where
  | malloc_failed
  | aperture_not_defined (aperture : ℤ)
  | linear_not_x1
  | square_hole
  | bad_at_polygons
  | unknown_aperture_type
  | unknown_aperture_state
  deriving DecidableEq, Repr

/-! ## The helper drawing functions of the traversal -/

/-- The pixel of the colour the source names opaque (`opaque.pixel = 0`). -/
def opaque_pixel : ℕ := 0

/-- The pixel of the colour `transparent` (`transparent.pixel = 1`). -/
def transparent_pixel : ℕ := 1

/-- The function `gerbv_gdk_draw_circle`: a circle centred at `x, y`. -/
def gerbv_gdk_draw_circle (gc : GdkGC) (filled : Bool) (x y dia : ℤ) : DrawOp :=
  gdk_draw_arc gc filled (x - dia.tdiv 2) (y - dia.tdiv 2) dia dia 0 full_circle

/-- The function `gerbv_gdk_draw_rectangle`: a rectangle centred at `x, y`. -/
def gerbv_gdk_draw_rectangle (gc : GdkGC) (filled : Bool) (x y x_side y_side : ℤ) : DrawOp :=
  gdk_draw_rectangle gc filled (x - x_side.tdiv 2) (y - y_side.tdiv 2) x_side y_side

/-- The function `gerbv_gdk_draw_oval`; the parameter `filled` is not used by
the source. -/
def gerbv_gdk_draw_oval (gc : GdkGC) (x y x_axis y_axis : ℤ) : DrawOp :=
  if x_axis > y_axis then
    let delta := x_axis.tdiv 2 - y_axis.tdiv 2
    let local_gc := gdk_gc_set_line_attributes gc y_axis GDK_LINE_SOLID GDK_CAP_ROUND
    gdk_draw_line local_gc (x - delta) y (x + delta) y
  else
    let delta := y_axis.tdiv 2 - x_axis.tdiv 2
    let local_gc := gdk_gc_set_line_attributes gc x_axis GDK_LINE_SOLID GDK_CAP_ROUND
    gdk_draw_line local_gc x (y - delta) x (y + delta)

/-- The function `gerbv_gdk_draw_arc`: the angles are cut to whole degrees
and passed on in units of 1/64 degree. -/
def gerbv_gdk_draw_arc (gc : GdkGC) (x y width height : ℤ) (angle1 angle2 : double) : DrawOp :=
  gdk_draw_arc gc false (x - width.tdiv 2) (y - height.tdiv 2) width height
    (trunc ((trunc angle1 : double) * 64)) (trunc ((trunc (angle2 - angle1) : double) * 64))

/-! ## The net-list traversal -/

open polarity_t aperture_state_t interpolation_t aperture_t unit_t

/-- The vertex array `points` of a polygon area fill: the number of entries
allocated by `g_malloc` and the content. -/
structure point_buffer where
  size : ℕ
  data : ℤ → GdkPoint

/-- The local variables of `image2pixmap` that live across iterations, with
the drawing calls and the diagnostics issued so far.  `points` is `none` for a
NULL pointer. -/
structure render_state where
  gc : GdkGC
  pgc : GdkGC
  cir_width : ℤ
  cir_height : ℤ
  cp_x : ℤ
  cp_y : ℤ
  points : Option point_buffer
  curr_point_idx : ℤ
  in_parea_fill : Bool
  ops : List DrawOp
  log : List Diag

/-- The vertices handed to `gdk_draw_polygon(…, points, n)`; a NULL array is
recorded as the empty vertex list. -/
def buffer_points (points : Option point_buffer) (n : ℤ) : List GdkPoint :=
  match points with
  | some b => take_points b.data n
  | none => []

/-- The statements `points[idx].x = x2; points[idx].y = y2`. -/
def buffer_write (points : Option point_buffer) (idx : ℤ) (p : GdkPoint) :
    Option point_buffer :=
  match points with
  | some b => some { b with data := fun i => if i = idx then p else b.data i }
  | none => none

/-- The device x coordinate of an image x coordinate in a tile:
`(int)round((offsetA + x + sr_x) * unit_scale + trans_x)` with `unit_scale = scale`. -/
def device_x (image : gerb_image) (scale : ℤ) (trans_x : double) (x sr_x : double) : ℤ :=
  round ((image.info.offsetA + x + sr_x) * (scale : double) + trans_x)

/-- The device y coordinate of an image y coordinate in a tile:
`(int)round((-offsetB - y - sr_y) * unit_scale + trans_y)` with `unit_scale = scale`. -/
def device_y (image : gerb_image) (scale : ℤ) (trans_y : double) (y sr_y : double) : ℤ :=
  round ((-image.info.offsetB - y - sr_y) * (scale : double) + trans_y)

/-- The foreground chosen for a net: the opaque pixel when
`(net->layer->polarity == CLEAR) != (polarity == NEGATIVE)`, else `transparent`. -/
def net_pixel (layer_polarity polarity : polarity_t) : ℕ :=
  if (decide (layer_polarity = CLEAR)) != (decide (polarity = NEGATIVE)) then opaque_pixel
  else transparent_pixel

/-- The arm `case ON` of `switch (net->aperture_state)`: stroke a net. -/
def stroke_net (ap : gerb_aperture) (net : gerb_net) (unit_scale : double)
    (x1 y1 x2 y2 : ℤ) (st : render_state) : render_state :=
  let p1 : ℤ := round (ap.parameter 0 * unit_scale)
  let st : render_state :=
    { st with
      gc := if ap.type = RECTANGLE then
              gdk_gc_set_line_attributes st.gc p1 GDK_LINE_SOLID GDK_CAP_PROJECTING
            else gdk_gc_set_line_attributes st.gc p1 GDK_LINE_SOLID GDK_CAP_ROUND }
  let dashed : render_state :=
    let gcd := gdk_gc_set_line_attributes st.gc p1 GDK_LINE_ON_OFF_DASH GDK_CAP_ROUND
    { st with
      log := st.log ++ [Diag.linear_not_x1],
      ops := st.ops ++ [gdk_draw_line gcd x1 y1 x2 y2],
      gc := gdk_gc_set_line_attributes gcd p1 GDK_LINE_SOLID GDK_CAP_ROUND }
  let arc : render_state :=
    match net.cirseg with
    | some cs =>
        { st with
          ops := st.ops ++ [gerbv_gdk_draw_arc st.gc st.cp_x st.cp_y st.cir_width
            st.cir_height cs.angle1 cs.angle2] }
    | none => st
  match net.interpolation with
  | LINEARx10 => dashed
  | LINEARx01 => dashed
  | LINEARx001 => dashed
  | LINEARx1 =>
      if ap.type ≠ RECTANGLE then
        { st with ops := st.ops ++ [gdk_draw_line st.gc x1 y1 x2 y2] }
      else
        let dx : ℤ := round (ap.parameter 0 * unit_scale / 2)
        let dy : ℤ := round (ap.parameter 1 * unit_scale / 2)
        let dx : ℤ := if x1 > x2 then -dx else dx
        let dy : ℤ := if y1 > y2 then -dy else dy
        let poly : List GdkPoint :=
          [{ x := x1 - dx, y := y1 - dy }, { x := x1 - dx, y := y1 + dy },
           { x := x2 - dx, y := y2 + dy }, { x := x2 + dx, y := y2 + dy },
           { x := x2 + dx, y := y2 - dy }, { x := x1 + dx, y := y1 - dy }]
        { st with ops := st.ops ++ [gdk_draw_polygon st.gc true poly] }
  | CW_CIRCULAR => arc
  | CCW_CIRCULAR => arc
  | _ => st

/-- The arm `case FLASH` of `switch (net->aperture_state)`: the state after
the flash, and whether `return 0` was executed (unknown aperture type). -/
def flash_net (H : Host) (ap : gerb_aperture) (scale : ℤ) (unit_scale : double)
    (x2 y2 : ℤ) (st : render_state) : render_state × Bool :=
  let p1 : ℤ := round (ap.parameter 0 * unit_scale)
  let p2 : ℤ := round (ap.parameter 1 * unit_scale)
  let p3 : ℤ := round (ap.parameter 2 * unit_scale)
  match ap.type with
  | CIRCLE =>
      let st : render_state :=
        { st with ops := st.ops ++ [gerbv_gdk_draw_circle st.gc true x2 y2 p1] }
      if p2 ≠ 0 then
        let st : render_state :=
          if p3 ≠ 0 then { st with log := st.log ++ [Diag.square_hole] } else st
        if st.gc.foreground = opaque_pixel then
          ({ st with
             ops := st.ops ++ [gerbv_gdk_draw_circle
               (gdk_gc_set_foreground st.gc transparent_pixel) true x2 y2 p2],
             gc := gdk_gc_set_foreground st.gc opaque_pixel }, false)
        else
          ({ st with
             ops := st.ops ++ [gerbv_gdk_draw_circle
               (gdk_gc_set_foreground st.gc opaque_pixel) true x2 y2 p2],
             gc := gdk_gc_set_foreground st.gc transparent_pixel }, false)
      else (st, false)
  | RECTANGLE =>
      ({ st with ops := st.ops ++ [gerbv_gdk_draw_rectangle st.gc true x2 y2 p1 p2] }, false)
  | OVAL =>
      ({ st with ops := st.ops ++ [gerbv_gdk_draw_oval st.gc x2 y2 p1 p2] }, false)
  | POLYGON =>
      ({ st with
         log := st.log ++ [Diag.bad_at_polygons],
         ops := st.ops ++ [gerbv_gdk_draw_circle st.gc true x2 y2 p1] }, false)
  | MACRO =>
      match ap.amacro with
      | some m =>
          ({ st with
             ops := st.ops ++ ( gerbv_gdk_draw_amacro H st.gc m.program m.nuf_push
               ap.parameter (trunc unit_scale) x2 y2).ops }, false)
      | none => (st, false)
  | MACRO_CIRCLE =>
      ({ st with ops := st.ops ++ gerbv_gdk_draw_prim1_new st.gc ap.parameter scale x2 y2 },
        false)
  | MACRO_OUTLINE =>
      ({ st with ops := st.ops ++ gerbv_gdk_draw_prim4_new H st.gc ap.parameter scale x2 y2 },
        false)
  | MACRO_POLYGON =>
      ({ st with ops := st.ops ++ gerbv_gdk_draw_prim5_new H st.gc ap.parameter scale x2 y2 },
        false)
  | MACRO_MOIRE =>
      ({ st with ops := st.ops ++ gerbv_gdk_draw_prim6_new H st.gc ap.parameter scale x2 y2 },
        false)
  | MACRO_THERMAL =>
      ({ st with ops := st.ops ++ gerbv_gdk_draw_prim7_new H st.gc ap.parameter scale x2 y2 },
        false)
  | MACRO_LINE20 =>
      ({ st with ops := st.ops ++ gerbv_gdk_draw_prim20_new H st.gc ap.parameter scale x2 y2 },
        false)
  | MACRO_LINE21 =>
      ({ st with ops := st.ops ++ gerbv_gdk_draw_prim21_new H st.gc ap.parameter scale x2 y2 },
        false)
  | MACRO_LINE22 =>
      ({ st with ops := st.ops ++ gerbv_gdk_draw_prim22_new H st.gc ap.parameter scale x2 y2 },
        false)
  | aperture_t.other _ =>
      ({ st with log := st.log ++ [Diag.unknown_aperture_type] }, true)

/-- The first part of the loop body of `image2pixmap`: the circular segment of
the net, if any, is scaled and translated, and the foreground of `gc` is set
from the layer polarity and the image polarity. -/
def tile_prepare (image : gerb_image) (scale : ℤ) (trans_x trans_y : double)
    (polarity : polarity_t) (net : gerb_net) (st : render_state) : render_state :=
  let unit_scale : double := (scale : double)
  let st : render_state :=
    match net.cirseg with
    | some cs =>
        { st with
          cir_width := round (cs.width * unit_scale),
          cir_height := round (cs.height * unit_scale),
          cp_x := round ((image.info.offsetA + cs.cp_x) * unit_scale + trans_x),
          cp_y := round ((image.info.offsetB - cs.cp_y) * unit_scale + trans_y) }
    | none => st
  { st with gc := gdk_gc_set_foreground st.gc (net_pixel net.layer.polarity polarity) }

/-- The last part of the loop body of `image2pixmap`, reached outside a polygon
area fill: the aperture lookup, the unit correction and the
`switch (net->aperture_state)`.  The result is the state after it, and
whether `return 0` was executed. -/
def draw_net (H : Host) (image : gerb_image) (scale : ℤ) (net : gerb_net)
    (x1 y1 x2 y2 : ℤ) (st : render_state) : render_state × Bool :=
  match image.aperture net.aperture with
  | none =>
      (if net.aperture_state ≠ OFF then
         { st with log := st.log ++ [Diag.aperture_not_defined net.aperture] }
       else st, false)
  | some ap =>
      let unit_scale : double := if ap.unit = MM then (scale : double) / (127 / 5) else (scale : double)
      match net.aperture_state with
      | ON => (stroke_net ap net unit_scale x1 y1 x2 y2 st, false)
      | OFF => (st, false)
      | FLASH => flash_net H ap scale unit_scale x2 y2 st
      | aperture_state_t.other _ =>
          ({ st with log := st.log ++ [Diag.unknown_aperture_state] }, true)

/-- One pass through the body of the innermost loop of `image2pixmap`, for
the net `net` in the tile `(repeat_i, repeat_j)`: the state after it, and
whether the traversal ends with this pass.  It ends at a `return 0`, and at
the `GERB_FATAL_ERROR` of the arm `PAREA_START` (a macro of a header that is
not part of the source file; it reports at the error level of GLib, which
ends the program): that pass records `Diag.malloc_failed` and nothing after
it is executed.  Every `continue` of the source ends the pass. -/
def tile_step (H : Host) (image : gerb_image) (scale : ℤ) (trans_x trans_y : double)
    (polarity : polarity_t) (net : gerb_net) (repeat_i repeat_j : ℕ)
    (st : render_state) : render_state × Bool :=
  let sr_x : double := (repeat_i : double) * net.layer.stepAndRepeat.dist_X
  let sr_y : double := (repeat_j : double) * net.layer.stepAndRepeat.dist_Y
  let x1 : ℤ := device_x image scale trans_x net.start_x sr_x
  let y1 : ℤ := device_y image scale trans_y net.start_y sr_y
  let x2 : ℤ := device_x image scale trans_x net.stop_x sr_x
  let y2 : ℤ := device_y image scale trans_y net.stop_y sr_y
  let st : render_state := tile_prepare image scale trans_x trans_y polarity net st
  match net.interpolation with
  | PAREA_START =>
      if H.g_malloc (net.nuf_pcorners : ℤ) = false then
        ({ st with log := st.log ++ [Diag.malloc_failed] }, true)
      else
        ({ st with
           points := some { size := net.nuf_pcorners, data := fun _ => { x := 0, y := 0 } },
           curr_point_idx := 0,
           in_parea_fill := true }, false)
  | PAREA_END =>
      let pgc := gdk_gc_set_line_attributes st.gc 1 GDK_LINE_SOLID GDK_CAP_PROJECTING
      ({ st with
         pgc := pgc,
         ops := st.ops ++ [gdk_draw_polygon pgc true
           (buffer_points st.points st.curr_point_idx)],
         points := none,
         in_parea_fill := false }, false)
  | _ =>
      if st.in_parea_fill then
        ({ st with
           points := buffer_write st.points st.curr_point_idx { x := x2, y := y2 },
           curr_point_idx := st.curr_point_idx + 1 }, false)
      else draw_net H image scale net x1 y1 x2 y2 st

/-- The tiles of a net in the order of the two inner loops
`for(repeat_i …) for(repeat_j …)`. -/
def net_tiles (net : gerb_net) : List (gerb_net × ℕ × ℕ) :=
  (List.range net.layer.stepAndRepeat.X.toNat).flatMap fun i =>
    (List.range net.layer.stepAndRepeat.Y.toNat).map fun j => (net, i, j)

/-- The three nested loops of `image2pixmap` over a list of (net, tile) pairs
in visiting order: the state reached, and whether a pass ended the loops
(by `return 0` or by `GERB_FATAL_ERROR`). -/
def run_tiles (H : Host) (image : gerb_image) (scale : ℤ) (trans_x trans_y : double)
    (polarity : polarity_t) : List (gerb_net × ℕ × ℕ) → render_state → render_state × Bool
  | [], st => (st, false)
  | t :: ts, st =>
      match tile_step H image scale trans_x trans_y polarity t.1 t.2.1 t.2.2 st with
      | (st1, true) => (st1, true)
      | (st1, false) => run_tiles H image scale trans_x trans_y polarity ts st1

/-- The state before the net loop: both graphics contexts fresh, the pixmap
cleared with the background colour of the polarity. -/
def render_init (polarity : polarity_t) : render_state :=
  let gc := gdk_gc_new
  let bg : ℕ := if polarity = NEGATIVE then transparent_pixel else opaque_pixel
  let fg : ℕ := if polarity = NEGATIVE then opaque_pixel else transparent_pixel
  { gc := gdk_gc_set_foreground gc fg,
    pgc := gdk_gc_new,
    cir_width := 0, cir_height := 0, cp_x := 0, cp_y := 0,
    points := none, curr_point_idx := 0, in_parea_fill := false,
    ops := [gdk_draw_rectangle (gdk_gc_set_foreground gc bg) true 0 0 (-1) (-1)],
    log := [] }

/-- What a call of `image2pixmap` produces: the returned `int`, the drawing
calls in order, the diagnostics in order, and whether `GERB_FATAL_ERROR` ended
the program inside the call.  In that case nothing is returned: `ret` (then
0) is the value of a `return` only when `fatal` is `false`. -/
structure pixmap_result where
  ret : ℤ
  ops : List DrawOp
  log : List Diag
  fatal : Bool

/-- The function `image2pixmap`.  `image` is `none` for a NULL pointer.  The
traversal starts at `image->netlist->next`: the first node is not visited. -/
def image2pixmap (H : Host) (image : Option gerb_image) (scale : ℤ)
    (trans_x trans_y : double) (polarity : polarity_t) : pixmap_result :=
  match image with
  | none => { ret := 0, ops := [], log := [], fatal := false }
  | some image =>
      match image.netlist with
      | [] => { ret := 0, ops := [], log := [], fatal := false }
      | _ :: nets =>
          let r := run_tiles H image scale trans_x trans_y polarity
            (nets.flatMap net_tiles) (render_init polarity)
          { ret := if r.2 then 0 else 1, ops := r.1.ops, log := r.1.log,
            fatal := decide (Diag.malloc_failed ∈ r.1.log) }

/-! ## Definitions used to state the properties -/

/-- The primitive codes with a `case` label in the dispatch of
`gerbv_gdk_draw_amacro`. -/
def known_prim (code : ℤ) : Bool :=
  decide (code = 1 ∨ code = 2 ∨ code = 4 ∨ code = 5 ∨ code = 6 ∨ code = 7 ∨
    code = 20 ∨ code = 21 ∨ code = 22)

/-- Whether every `PRIM` instruction of a program has a known primitive code. -/
def all_prims_known (program : List instruction_t) : Bool :=
  program.all fun ip => decide (ip.opcode = opcodes.PRIM → known_prim ip.ival = true)

/-- The stack reset `s->sp = 0` alone, as a state transformer. -/
def stack_reset (st : amacro_state) : amacro_state :=
  { st with s := { st.s with sp := 0 } }

/-- The value on top of the stack, `s->stack[s->sp - 1]`. -/
def macro_stack_t.top (s : macro_stack_t) : double := s.stack (s.sp - 1)

/-- An instruction with the given opcode and integer operand. -/
def instr_i (op : opcodes) (ival : ℤ) : instruction_t :=
  { opcode := op, ival := ival, fval := 0 }

/-- The instruction `PUSH v`. -/
def instr_push (v : double) : instruction_t :=
  { opcode := opcodes.PUSH, ival := 0, fval := v }

/-- The graphics context a drawing call was issued with. -/
def DrawOp.gc : DrawOp → GdkGC
  | gdk_draw_arc gc _ _ _ _ _ _ _ => gc
  | gdk_draw_rectangle gc _ _ _ _ _ => gc
  | gdk_draw_line gc _ _ _ _ => gc
  | gdk_draw_polygon gc _ _ => gc

/-- The aperture types that are not macro types: CIRCLE, RECTANGLE, OVAL, POLYGON. -/
def aperture_t.basic : aperture_t → Bool
  | CIRCLE => true
  | RECTANGLE => true
  | OVAL => true
  | POLYGON => true
  | _ => false

/-- A drawing call moved by `(a, b)` in device space: same context, sizes and
angles, every position shifted. -/
def DrawOp.shift (a b : ℤ) : DrawOp → DrawOp
  | gdk_draw_arc gc filled x y w h a1 a2 => gdk_draw_arc gc filled (x + a) (y + b) w h a1 a2
  | gdk_draw_rectangle gc filled x y w h => gdk_draw_rectangle gc filled (x + a) (y + b) w h
  | gdk_draw_line gc x1 y1 x2 y2 => gdk_draw_line gc (x1 + a) (y1 + b) (x2 + a) (y2 + b)
  | gdk_draw_polygon gc filled points =>
      gdk_draw_polygon gc filled (points.map fun p => p.offset a b)

/-- A state of the traversal outside a polygon fill with the given graphics
context and nothing drawn yet. -/
def blank_state (gc : GdkGC) : render_state :=
  { gc := gc, pgc := gc, cir_width := 0, cir_height := 0, cp_x := 0, cp_y := 0,
    points := none, curr_point_idx := 0, in_parea_fill := false, ops := [], log := [] }

/-- The drawing calls of one flash: what `flash_net` draws at `(x2, y2)` when
entered with the graphics context `gc`. -/
def flash_draw (H : Host) (ap : gerb_aperture) (scale : ℤ) (unit_scale : double)
    (x2 y2 : ℤ) (gc : GdkGC) : List DrawOp :=
  (flash_net H ap scale unit_scale x2 y2 (blank_state gc)).1.ops

/-- The tile indices `(i, j)` of an `Nx` by `Ny` step-and-repeat in the
order the two inner loops visit them. -/
def sr_tiles (Nx Ny : ℕ) : List (ℕ × ℕ) :=
  (List.range Nx).flatMap fun i => (List.range Ny).map fun j => (i, j)

/-- The exchange of the two colours: opaque becomes `transparent` and back;
any other pixel value is left alone. -/
def swap_pixel (p : ℕ) : ℕ :=
  if p = opaque_pixel then transparent_pixel
  else if p = transparent_pixel then opaque_pixel
  else p

/-- A graphics context with its foreground colour exchanged. -/
def GdkGC.swap (gc : GdkGC) : GdkGC :=
  { gc with foreground := swap_pixel gc.foreground }

/-- A drawing call with the same geometry and line attributes and the colour
exchanged. -/
def DrawOp.swap_colour : DrawOp → DrawOp
  | gdk_draw_arc gc filled x y w h a1 a2 => gdk_draw_arc gc.swap filled x y w h a1 a2
  | gdk_draw_rectangle gc filled x y w h => gdk_draw_rectangle gc.swap filled x y w h
  | gdk_draw_line gc x1 y1 x2 y2 => gdk_draw_line gc.swap x1 y1 x2 y2
  | gdk_draw_polygon gc filled points => gdk_draw_polygon gc.swap filled points

/-- Two traversal states that agree on everything but colours: the drawing
calls of the second are those of the first with the colours exchanged, the
foreground of `gc` and the whole of `pgc` (both overwritten before they are
used) are left free. -/
def same_geometry (st st1 : render_state) : Prop :=
  st1.gc.line_width = st.gc.line_width ∧ st1.gc.line_style = st.gc.line_style ∧
  st1.gc.cap_style = st.gc.cap_style ∧
  st1.cir_width = st.cir_width ∧ st1.cir_height = st.cir_height ∧
  st1.cp_x = st.cp_x ∧ st1.cp_y = st.cp_y ∧
  st1.points = st.points ∧ st1.curr_point_idx = st.curr_point_idx ∧
  st1.in_parea_fill = st.in_parea_fill ∧
  st1.ops = st.ops.map DrawOp.swap_colour ∧ st1.log = st.log

/-- As `same_geometry`, with the current foreground of the second state the
exchanged foreground of the first, which is one of the two colours. -/
def swapped (st st1 : render_state) : Prop :=
  same_geometry st st1 ∧ st1.gc.foreground = swap_pixel st.gc.foreground ∧
  (st.gc.foreground = opaque_pixel ∨ st.gc.foreground = transparent_pixel)

/-! ## Sample data for the worked instances -/

/-- A host whose allocations all succeed (its trigonometry is a placeholder:
the worked instances below never rotate). -/
def sample_host : Host :=
  { sin := fun _ => 0, cos := fun _ => 1, M_PI := 3, malloc := true, g_malloc := fun _ => true }

/-- A layer with the given polarity and step-and-repeat descriptor. -/
def sample_layer (polarity : polarity_t) (X Y : ℤ) (dist_X dist_Y : double) : gerb_layer :=
  { polarity := polarity,
    stepAndRepeat := { X := X, Y := Y, dist_X := dist_X, dist_Y := dist_Y } }

/-- A net from the origin to `(x, y)` using aperture 10. -/
def sample_net (state : aperture_state_t) (interpolation : interpolation_t) (x y : double)
    (nuf_pcorners : ℕ) (layer : gerb_layer) : gerb_net :=
  { start_x := 0, start_y := 0, stop_x := x, stop_y := y, aperture := 10,
    aperture_state := state, interpolation := interpolation, cirseg := none,
    nuf_pcorners := nuf_pcorners, layer := layer }

/-- An inch-unit CIRCLE aperture of diameter `d` without a hole. -/
def sample_circle (d : double) : gerb_aperture :=
  { type := CIRCLE, amacro := none, parameter := fun i => if i = 0 then d else 0,
    unit := INCH }

/-- An image with zero origin offset whose aperture table holds `ap` at index
10 only, and whose net list is a head node followed by `nets`. -/
def sample_image (ap : gerb_aperture) (nets : List gerb_net) : gerb_image :=
  { info := { offsetA := 0, offsetB := 0 },
    aperture := fun i => if i = 10 then some ap else none,
    netlist := sample_net OFF LINEARx1 0 0 0 (sample_layer DARK 1 1 0 0) :: nets }

/-! ## Hosts and definitions for the rotation, outline and polygon properties -/

/-- Rounding to the nearest integer (halves upward), the rounding the
specification describes for `rotate_point`; the source uses `round`, the
ceiling, instead. -/
def round_nearest (x : double) : ℤ := ⌊x.val + 1 / 2⌋

/-- The sine of the C library at the angles used below, as libm computes it
on `double`s: the arguments are the `double`s `-t * M_PI / 180.0` for
`t` = 45, -45, 89, 90, 180 and 270 degrees, the results the `double`s `sin`
returns there (all written as exact fractions).  At any other argument the
value is a placeholder, the Taylor polynomial of degree 9 rounded to a
`double`, which no proof evaluates. -/
def libm_sin (x : double) : double :=
  if x.val = -884279719003555 / 1125899906842624 then
    double.of (-1592262918131443 / 2251799813685248)
  else if x.val = 884279719003555 / 1125899906842624 then
    double.of (1592262918131443 / 2251799813685248)
  else if x.val = -1748908777584809 / 1125899906842624 then
    double.of (-4502913707333573 / 4503599627370496)
  else if x.val = -884279719003555 / 562949953421312 then -1
  else if x.val = -884279719003555 / 281474976710656 then
    double.of (-4967757600021511 / 40564819207303340847894502572032)
  else if x.val = -2652839157010665 / 562949953421312 then 1
  else
    double.of (x.val - x.val ^ 3 / 6 + x.val ^ 5 / 120 - x.val ^ 7 / 5040
      + x.val ^ 9 / 362880)

/-- The cosine of the C library at the same angles: in particular
`cos(-M_PI/2)` is about 6.1e-17 and `cos(-3*M_PI/2)` about -1.8e-16, not 0.
At any other argument the value is a placeholder, the Taylor polynomial of
degree 8 rounded to a `double`, which no proof evaluates. -/
def libm_cos (x : double) : double :=
  if x.val = -884279719003555 / 1125899906842624 then
    double.of (6369051672525773 / 9007199254740992)
  else if x.val = 884279719003555 / 1125899906842624 then
    double.of (6369051672525773 / 9007199254740992)
  else if x.val = -1748908777584809 / 1125899906842624 then
    double.of (5030313672170743 / 288230376151711744)
  else if x.val = -884279719003555 / 562949953421312 then
    double.of (4967757600021511 / 81129638414606681695789005144064)
  else if x.val = -884279719003555 / 281474976710656 then -1
  else if x.val = -2652839157010665 / 562949953421312 then
    double.of (-3725818200016133 / 20282409603651670423947251286016)
  else
    double.of (1 - x.val ^ 2 / 2 + x.val ^ 4 / 24 - x.val ^ 6 / 720 + x.val ^ 8 / 40320)

/-- A host with GLib's allocator and the C library's trigonometry: `M_PI` is
the `double` nearest to π (884279719003555 / 2^48), `sin` and `cos` are
`libm_sin` and `libm_cos`, and `g_malloc` returns NULL exactly for a request
of no points, as GLib documents for a request of zero bytes. -/
def glib_host : Host :=
  { sin := libm_sin,
    cos := libm_cos,
    M_PI := double.of (884279719003555 / 281474976710656),
    malloc := true,
    g_malloc := fun n => decide (0 < n) }

/-- The change of the stack depth made by an instruction other than `PRIM`:
one up for a push, one down for `PPOP` and for the four arithmetic
instructions (two pops and a push), none for `NOP` and unknown opcodes. -/
def depth_change (ip : instruction_t) : ℤ :=
  match ip.opcode with
  | opcodes.PUSH => 1
  | opcodes.PPUSH => 1
  | opcodes.PPOP => -1
  | opcodes.ADD => -1
  | opcodes.SUB => -1
  | opcodes.MUL => -1
  | opcodes.DIV => -1
  | _ => 0

/-- The number of values pushed by a run of instructions, net of pops. -/
def net_pushes (program : List instruction_t) : ℤ :=
  (program.map depth_change).sum

/-- The vertices primitive 5 computes from the stack `s`. -/
def prim5_points (H : Host) (s : macro_stack_t) (scale x y : ℤ) : List GdkPoint :=
  take_points
    (fun i =>
      { x := round ((scale : double) * (s.stack 4 / 2) *
              H.cos (2 * H.M_PI / ((trunc (s.stack 1) : ℤ) : double) * (i : double)
                + -s.stack 5 * H.M_PI / 180)) + x,
        y := round ((scale : double) * (s.stack 4 / 2) *
              H.sin (2 * H.M_PI / ((trunc (s.stack 1) : ℤ) : double) * (i : double)
                + -s.stack 5 * H.M_PI / 180)) + y })
    (trunc (s.stack 1))

/-- A macro stack holding the given values from slot 0 on, with depth `sp`. -/
def stack_of (values : List double) (sp : ℤ) : macro_stack_t :=
  { stack := fun i => if 0 ≤ i then values.getD i.toNat 0 else 0, sp := sp,
    size := values.length + 10 }

/-- The `closed_shape` flag primitive 4 computes from its values `v`: vertex 0
and vertex `N = trunc(v[1])` coincide within 0.0001 on both axes. -/
def prim4_closed (v : ℤ → double) : Bool :=
  decide (fabs (v 2 - v (2 * trunc (v 1) + 2)) < 1 / 10000 ∧
          fabs (v 3 - v (2 * trunc (v 1) + 3)) < 1 / 10000)

/-- The vertices primitive 4 computes from its values `v`. -/
def prim4_points (H : Host) (v : ℤ → double) (scale x y : ℤ) : List GdkPoint :=
  take_points
    (fun point =>
      (if v (trunc (v 1) * 2 + 4) > 1 / 10 then
        rotate_point H
          { x := round ((scale : double) * v (point * 2 + 2)),
            y := -round ((scale : double) * v (point * 2 + 3)) }
          (trunc (v (trunc (v 1) * 2 + 4)))
       else
        { x := round ((scale : double) * v (point * 2 + 2)),
          y := -round ((scale : double) * v (point * 2 + 3)) }).offset x y)
    (trunc (v 1))

/-- The vertices of primitive 4 scaled, y-negated and moved to the flash
origin, without any rotation. -/
def prim4_unrotated (v : ℤ → double) (scale x y : ℤ) : List GdkPoint :=
  take_points
    (fun point =>
      { x := round ((scale : double) * v (point * 2 + 2)) + x,
        y := -round ((scale : double) * v (point * 2 + 3)) + y })
    (trunc (v 1))

/-! ## Hosts and definitions for the primitive and flash properties -/

/-- The end point `point[i]` of the cross hair of primitive 7 for the values
`v`: the point `(round(v[2] / 2 * scale) + 2, 0)`, the sum being one of
`double`s converted to `gint`, rotated by `(int)(v[5] + 90 * i)` degrees and
moved to the flash origin. -/
def prim7_point (H : Host) (v : ℤ → double) (scale x y : ℤ) (i : ℤ) : GdkPoint :=
  (rotate_point H { x := trunc (ceil (v 2 / 2 * (scale : double)) + 2), y := 0 }
    (trunc (v 5 + ((90 * i : ℤ) : double)))).offset x y

/-- The ring of primitive 6 drawn when the loop counter `circle` is `k`, for
the values `v`: an unfilled circle of diameter
`(int)((real_dia - real_gap * k) * scale)` centred at the flash origin and
stroked with the ring thickness. -/
def prim6_ring (gc : GdkGC) (v : ℤ → double) (scale x y : ℤ) (k : ℤ) : DrawOp :=
  gerbv_gdk_draw_circle
    (gdk_gc_set_line_attributes gc (round ((scale : double) * v 3)) GDK_LINE_SOLID GDK_CAP_BUTT)
    false x y (trunc (((v 2 - v 3 / 2) - (v 4 + v 3) * (k : double)) * (scale : double)))

/-- The eight aperture types that `image2pixmap` flashes with a primitive
renderer working on the parameter vector. -/
def aperture_t.fast_path : aperture_t → Bool
  | MACRO_CIRCLE => true
  | MACRO_OUTLINE => true
  | MACRO_POLYGON => true
  | MACRO_MOIRE => true
  | MACRO_THERMAL => true
  | MACRO_LINE20 => true
  | MACRO_LINE21 => true
  | MACRO_LINE22 => true
  | _ => false

/-- A MACRO aperture with the given program and unit, all parameters 0. -/
def sample_program_aperture (program : List instruction_t) (nuf_push : ℕ) (u : unit_t) : gerb_aperture :=
  { type := MACRO, amacro := some { program := program, nuf_push := nuf_push },
    parameter := fun _ => 0, unit := u }

/-- An inch-unit CIRCLE aperture of diameter `d` with a round hole of
diameter `hole`. -/
def sample_annulus (d hole : double) : gerb_aperture :=
  { type := CIRCLE, amacro := none,
    parameter := fun i => if i = 0 then d else if i = 1 then hole else 0, unit := INCH }

/-- A state of the traversal inside a polygon fill: the vertex array has
`size` zeroed entries of which the first `idx` count as written. -/
def collecting_state (polarity : polarity_t) (size : ℕ) (idx : ℤ) : render_state :=
  { render_init polarity with
    points := some { size := size, data := fun _ => { x := 0, y := 0 } },
    curr_point_idx := idx, in_parea_fill := true }

/-! ## Definitions for the fill cursor, arc centre and angle properties -/

/-- A net from the origin to `(x, y)` in state ON with counter-clockwise
circular interpolation, whose circular segment has its centre at the stop
point `(x, y)` and the given width and height. -/
def sample_arc_net (x y width height : double) (layer : gerb_layer) : gerb_net :=
  { sample_net ON CCW_CIRCULAR x y 0 layer with
    cirseg := some { cp_x := x, cp_y := y, width := width, height := height,
                     angle1 := 0, angle2 := 90 } }

/-! ## Lemmas on the arithmetic -/

theorem round_even_eq (y : ℚ) (m : ℤ) (h : |y - m| < 1 / 2) : round_even y = m := by
  rw [abs_lt] at h
  obtain ⟨h1, h2⟩ := h
  rcases le_or_lt (m : ℚ) y with hm | hm
  · have hf : ⌊y⌋ = m := by
      rw [Int.floor_eq_iff]
      constructor <;> linarith
    unfold round_even
    rw [hf, if_pos (by linarith)]
  · have hf : ⌊y⌋ = m - 1 := by
      rw [Int.floor_eq_iff]
      push_cast
      constructor <;> linarith
    unfold round_even
    rw [hf, if_neg (by push_cast; linarith), if_pos (by push_cast; linarith)]
    ring

/-- The value of `ulp_exp` from a binade: `2^k ≤ |x| < 2^(k+1)` with `k` in the
normal range. -/
theorem ulp_exp_eq (x : ℚ) (k : ℤ) (hk : -1022 ≤ k) (h1 : (2 : ℚ) ^ k ≤ |x|)
    (h2 : |x| < (2 : ℚ) ^ (k + 1)) : ulp_exp x = k - 52 := by
  have hpos : (0 : ℚ) < |x| := lt_of_lt_of_le (two_zpow_pos k) h1
  have hl : Int.log 2 |x| = k := by
    apply le_antisymm
    · have := (Int.lt_zpow_iff_log_lt (R := ℚ) (b := 2) (by norm_num) hpos).mp
        (by rw [Nat.cast_ofNat]; exact h2)
      omega
    · exact (Int.zpow_le_iff_le_log (R := ℚ) (b := 2) (by norm_num) hpos).mp
        (by rw [Nat.cast_ofNat]; exact h1)
  unfold ulp_exp
  rw [hl, max_eq_left hk]

/-- The value of `ulp_exp` in the subnormal range. -/
theorem ulp_exp_small (x : ℚ) (hx : x ≠ 0) (h : |x| < (2 : ℚ) ^ (-1022 : ℤ)) :
    ulp_exp x = -1074 := by
  unfold ulp_exp
  have hpos : (0 : ℚ) < |x| := abs_pos.mpr hx
  · have hl := (Int.lt_zpow_iff_log_lt (R := ℚ) (b := 2) (by norm_num) hpos).mp
      (by rw [Nat.cast_ofNat]; exact h)
    rw [max_eq_right (by omega)]
    norm_num

/-- Evaluation of `fl`: in the binade of exponent `e + 52` the result is the
integer multiple of `2^e` nearest to `x`. -/
theorem fl_eval (x : ℚ) (e m : ℤ) (he : ulp_exp x = e)
    (hm : |x / 2 ^ e - m| < 1 / 2) : fl x = (m : ℚ) * 2 ^ e := by
  unfold fl
  rw [he, round_even_eq _ m hm]

theorem fl_natCast (n : ℕ) (h : n ≤ 9007199254740992) : fl (n : ℚ) = n := by
  have := fl_intCast (n : ℤ) (by rw [abs_of_nonneg (by positivity)]; exact_mod_cast h)
  simpa using this

theorem fl_one : fl 1 = 1 := by
  have := fl_intCast 1 (by norm_num)
  simpa using this

theorem fl_nonneg (x : ℚ) (h : 0 ≤ x) : 0 ≤ fl x := by
  have := fl_abs x
  rw [abs_of_nonneg h] at this
  rw [this]
  exact abs_nonneg _

/-- The error of one rounding: half a unit in the last place, which in the
normal range is at most `2^-53` of the magnitude. -/
theorem fl_err (x : ℚ) : |fl x - x| ≤ |x| / 9007199254740992 + 2 ^ (-1075 : ℤ) := by
  have hr := round_even_sub_le (x / 2 ^ ulp_exp x)
  have hE := two_zpow_pos (ulp_exp x)
  have h1 : |fl x - x| ≤ 2 ^ ulp_exp x / 2 := by
    have e : fl x - x = ((round_even (x / 2 ^ ulp_exp x) : ℚ) - x / 2 ^ ulp_exp x)
        * 2 ^ ulp_exp x := by
      unfold fl
      field_simp
    rw [e, abs_mul, abs_of_pos hE]
    calc |(round_even (x / 2 ^ ulp_exp x) : ℚ) - x / 2 ^ ulp_exp x| * 2 ^ ulp_exp x
        ≤ 1 / 2 * 2 ^ ulp_exp x := mul_le_mul_of_nonneg_right hr hE.le
      _ = 2 ^ ulp_exp x / 2 := by ring
  have hx0 : 0 ≤ |x| / 9007199254740992 := by positivity
  have hs0 : (0 : ℚ) < 2 ^ (-1075 : ℤ) := two_zpow_pos _
  rcases le_total (Int.log 2 |x|) (-1022) with h | h
  · have hu : ulp_exp x = -1074 := by
      unfold ulp_exp
      rw [max_eq_right h]
      norm_num
    rw [hu] at h1
    have e2 : (2 : ℚ) ^ (-1074 : ℤ) / 2 = 2 ^ (-1075 : ℤ) := by
      rw [show (-1074 : ℤ) = -1075 + 1 by norm_num, zpow_add₀ (by norm_num : (2 : ℚ) ≠ 0)]
      simp
    rw [e2] at h1
    exact le_trans h1 (le_add_of_nonneg_left hx0)
  · have hu : ulp_exp x = Int.log 2 |x| - 52 := by
      unfold ulp_exp
      rw [max_eq_left h]
    rcases eq_or_ne x 0 with h0 | h0
    · subst h0
      simp [fl_zero]
      positivity
    have hpos : (0 : ℚ) < |x| := abs_pos.mpr h0
    have hl := Int.zpow_log_le_self (R := ℚ) (b := 2) (by norm_num) hpos
    have e3 : (2 : ℚ) ^ ulp_exp x / 2 = 2 ^ Int.log 2 |x| / 9007199254740992 := by
      rw [hu, zpow_sub₀ (by norm_num : (2 : ℚ) ≠ 0)]
      norm_num
      ring
    rw [e3] at h1
    have hl2 : (2 : ℚ) ^ Int.log 2 |x| / 9007199254740992 ≤ |x| / 9007199254740992 := by
      apply div_le_div_of_nonneg_right _ (by norm_num)
      simpa using hl
    exact le_trans (le_trans h1 hl2) (le_add_of_nonneg_right hs0.le)

/-- Evaluation of `fl` from the binade of `x`: for `2^k ≤ |x| < 2^(k+1)` the
result is the integer multiple of `2^(k-52)` nearest to `x`. -/
theorem fl_binade (x : ℚ) (k m : ℤ) (hk : -1022 ≤ k) (h1 : (2 : ℚ) ^ k ≤ |x|)
    (h2 : |x| < (2 : ℚ) ^ (k + 1)) (hm : |x / 2 ^ (k - 52) - m| < 1 / 2) :
    fl x = (m : ℚ) * 2 ^ (k - 52) :=
  fl_eval x (k - 52) m (ulp_exp_eq x k hk h1 h2) hm

theorem double.ext_val {a b : double} (h : a.val = b.val) : a = b := by
  cases a
  cases b
  simp only [double.mk.injEq]
  exact h

theorem double.eq_iff_val (a b : double) : a = b ↔ a.val = b.val :=
  ⟨fun h => by rw [h], double.ext_val⟩

theorem double.val_of (q : ℚ) : (double.of q).val = fl q := rfl

theorem double.val_add (a b : double) : (a + b).val = fl (a.val + b.val) := rfl

theorem double.val_sub (a b : double) : (a - b).val = fl (a.val - b.val) := rfl

theorem double.val_mul (a b : double) : (a * b).val = fl (a.val * b.val) := rfl

theorem double.val_div (a b : double) : (a / b).val = fl (a.val / b.val) := rfl

theorem double.val_neg (a : double) : (-a).val = -a.val := rfl

theorem double.val_fabs (a : double) : (fabs a).val = |a.val| := rfl

theorem double.val_ceil (a : double) : (ceil a).val = (⌈a.val⌉ : ℚ) := rfl

theorem double.val_natCast (n : ℕ) : ((n : ℕ) : double).val = fl (n : ℚ) := rfl

theorem double.val_intCast (n : ℤ) : ((n : ℤ) : double).val = fl (n : ℚ) := rfl

theorem double.val_int (n : ℤ) (h : |n| ≤ 9007199254740992) :
    ((n : ℤ) : double).val = (n : ℚ) := fl_intCast n h

theorem double.val_nat (n : ℕ) (h : n ≤ 9007199254740992) :
    ((n : ℕ) : double).val = (n : ℚ) := fl_natCast n h

theorem round_eq (x : double) : round x = to_gint ⌈x.val⌉ := by
  simp [round, trunc, ceil]

theorem to_gint_of_range (n : ℤ) (h1 : -2147483648 ≤ n) (h2 : n ≤ 2147483647) :
    to_gint n = n := by
  simp [to_gint, h1, h2]

theorem to_gint_range (n : ℤ) : -2147483648 ≤ to_gint n ∧ to_gint n ≤ 2147483647 := by
  unfold to_gint
  split_ifs with h
  · exact h
  · constructor <;> norm_num

theorem fl_lit (n : ℕ) (h : n ≤ 9007199254740992) :
    fl (no_index (OfNat.ofNat n) : ℚ) = (OfNat.ofNat n : ℚ) :=
  fl_natCast n h

theorem double.val_lit (n : ℕ) (h : n ≤ 9007199254740992) :
    (no_index (OfNat.ofNat n) : double).val = (OfNat.ofNat n : ℚ) :=
  fl_natCast n h

theorem double.val_zero : (0 : double).val = 0 := double.val_lit 0 (by norm_num)

theorem double.val_one : (1 : double).val = 1 := double.val_lit 1 (by norm_num)

@[simp]
theorem natCast_zero_d : ((0 : ℕ) : double) = 0 := rfl

@[simp]
theorem intCast_zero_d : ((0 : ℤ) : double) = 0 := by
  rw [double.eq_iff_val, double.val_intCast, double.val_zero]
  simp [fl_zero]

@[simp]
theorem zero_mul_d (a : double) : 0 * a = 0 := by
  rw [double.eq_iff_val, double.val_mul, double.val_zero, zero_mul, fl_zero]

@[simp]
theorem mul_zero_d (a : double) : a * 0 = 0 := by
  rw [double.eq_iff_val, double.val_mul, double.val_zero, mul_zero, fl_zero]

@[simp]
theorem add_zero_d (a : double) : a + 0 = a := by
  rw [double.eq_iff_val, double.val_add, double.val_zero, add_zero, a.rep]

@[simp]
theorem zero_add_d (a : double) : 0 + a = a := by
  rw [double.eq_iff_val, double.val_add, double.val_zero, zero_add, a.rep]

@[simp]
theorem sub_zero_d (a : double) : a - 0 = a := by
  rw [double.eq_iff_val, double.val_sub, double.val_zero, sub_zero, a.rep]

@[simp]
theorem mul_one_d (a : double) : a * 1 = a := by
  rw [double.eq_iff_val, double.val_mul, double.val_one, mul_one, a.rep]

@[simp]
theorem one_mul_d (a : double) : 1 * a = a := by
  rw [double.eq_iff_val, double.val_mul, double.val_one, one_mul, a.rep]

theorem neg_mul_d (a b : double) : -a * b = -(a * b) := by
  rw [double.eq_iff_val, double.val_mul, double.val_neg, double.val_neg, double.val_mul,
    neg_mul, fl_neg]

theorem mul_neg_d (a b : double) : a * -b = -(a * b) := by
  rw [double.eq_iff_val, double.val_mul, double.val_neg, double.val_neg, double.val_mul,
    mul_neg, fl_neg]

theorem neg_div_d (a b : double) : -a / b = -(a / b) := by
  rw [double.eq_iff_val, double.val_div, double.val_neg, double.val_neg, double.val_div,
    neg_div, fl_neg]

@[simp]
theorem neg_neg_d (a : double) : - -a = a := by
  rw [double.eq_iff_val, double.val_neg, double.val_neg, neg_neg]

@[simp]
theorem neg_zero_d : -(0 : double) = 0 := by
  rw [double.eq_iff_val, double.val_neg, double.val_zero, neg_zero]

theorem fabs_neg (a : double) : fabs (-a) = fabs a := by
  rw [double.eq_iff_val, double.val_fabs, double.val_fabs, double.val_neg, abs_neg]

@[simp]
theorem fabs_zero : fabs 0 = 0 := by
  rw [double.eq_iff_val, double.val_fabs, double.val_zero, abs_zero]

theorem fabs_of_nonneg (a : double) (h : 0 ≤ a.val) : fabs a = a := by
  rw [double.eq_iff_val, double.val_fabs, abs_of_nonneg h]

@[simp]
theorem fabs_lit (n : ℕ) : fabs (no_index (OfNat.ofNat n) : double) = OfNat.ofNat n :=
  fabs_of_nonneg _ (fl_nonneg _ (Nat.cast_nonneg n))

@[simp]
theorem one_ne_zero_d : ¬ (1 : double) = 0 := by
  rw [double.eq_iff_val, double.val_one, double.val_zero]
  norm_num

theorem intCast_neg_d (n : ℤ) : ((-n : ℤ) : double) = -((n : ℤ) : double) := by
  rw [double.eq_iff_val, double.val_neg, double.val_intCast, double.val_intCast]
  push_cast
  rw [fl_neg]

theorem lt_iff_val (a b : double) : a < b ↔ a.val < b.val := Iff.rfl

theorem le_iff_val (a b : double) : a ≤ b ↔ a.val ≤ b.val := Iff.rfl

theorem not_lt_d (a b : double) : ¬ a < b ↔ b ≤ a := by
  rw [lt_iff_val, le_iff_val, not_lt]

theorem trunc_eq_of_nonneg (x : double) (h : 0 ≤ x.val) : trunc x = to_gint ⌊x.val⌋ := by
  simp [trunc, h]

@[simp]
theorem zero_div_d (a : double) : 0 / a = 0 := by
  rw [double.eq_iff_val, double.val_div, double.val_zero, zero_div, fl_zero]

theorem ceil_neg_lit (n : ℕ) : ⌈(-(no_index (OfNat.ofNat n)) : ℚ)⌉ = -(n : ℤ) := by
  show ⌈-((n : ℕ) : ℚ)⌉ = _
  rw [Int.ceil_neg, Int.floor_natCast]

theorem floor_neg_lit (n : ℕ) : ⌊(-(no_index (OfNat.ofNat n)) : ℚ)⌋ = -(n : ℤ) := by
  show ⌊-((n : ℕ) : ℚ)⌋ = _
  rw [Int.floor_neg, Int.ceil_natCast]

@[simp]
theorem trunc_zero : trunc 0 = 0 := by
  simp [trunc, double.val_zero, to_gint]

@[simp]
theorem round_zero : round 0 = 0 := by
  simp [round_eq, double.val_zero, to_gint]

/-- The conversion to `int` of an `int` in the range of 32 bits that was
converted to `double` gives the `int` back. -/
@[simp]
theorem trunc_intCast (n : ℤ) (h1 : -2147483648 ≤ n) (h2 : n ≤ 2147483647) :
    trunc ((n : ℤ) : double) = n := by
  have hv : ((n : ℤ) : double).val = (n : ℚ) :=
    double.val_int n (by rw [abs_le]; constructor <;> omega)
  unfold trunc
  rw [hv]
  split_ifs <;> simp [to_gint, h1, h2]

@[simp]
theorem trunc_trunc (x : double) : trunc ((trunc x : ℤ) : double) = trunc x := by
  have h := to_gint_range (if 0 ≤ x.val then ⌊x.val⌋ else ⌈x.val⌉)
  exact trunc_intCast _ h.1 h.2

@[simp]
theorem round_intCast (n : ℤ) (h1 : -2147483648 ≤ n) (h2 : n ≤ 2147483647) :
    round ((n : ℤ) : double) = n := by
  have hv : ((n : ℤ) : double).val = (n : ℚ) :=
    double.val_int n (by rw [abs_le]; constructor <;> omega)
  rw [round_eq, hv, Int.ceil_intCast, to_gint_of_range n h1 h2]

/-- The upward rounding of the product of a whole constant and an `int`,
when the product is in the range of `int`. -/
@[simp]
theorem round_lit_mul (n : ℕ) (m : ℤ) (hn : n ≤ 2147483647) (hm1 : -2147483648 ≤ m)
    (hm2 : m ≤ 2147483647) (h1 : -2147483648 ≤ (n : ℤ) * m) (h2 : (n : ℤ) * m ≤ 2147483647) :
    round ((no_index (OfNat.ofNat n) : double) * ((m : ℤ) : double)) = (n : ℤ) * m := by
  have hv : ((m : ℤ) : double).val = (m : ℚ) :=
    double.val_int m (by rw [abs_le]; constructor <;> omega)
  have hp : fl (((n : ℤ) * m : ℤ) : ℚ) = (((n : ℤ) * m : ℤ) : ℚ) :=
    fl_intCast _ (by rw [abs_le]; constructor <;> omega)
  rw [round_eq, double.val_mul, double.val_lit n (by omega), hv]
  show to_gint ⌈fl (((n : ℕ) : ℚ) * (m : ℚ))⌉ = _
  rw [show ((n : ℕ) : ℚ) * (m : ℚ) = (((n : ℤ) * m : ℤ) : ℚ) by push_cast; ring, hp,
    Int.ceil_intCast]
  exact to_gint_of_range _ h1 h2

/-- A certificate for one rounding of a positive number: `x` lies in the
binade of exponent `k` and nearer to `m * 2^(k-52)` than to its two
neighbours. -/
theorem fl_cert (x r : ℚ) (k m : ℤ) (hk : -1022 ≤ k) (h1 : (2 : ℚ) ^ k ≤ x)
    (h2 : x < (2 : ℚ) ^ (k + 1)) (h3 : (2 * (m : ℚ) - 1) * 2 ^ (k - 53) < x)
    (h4 : x < (2 * (m : ℚ) + 1) * 2 ^ (k - 53)) (hr : r = (m : ℚ) * 2 ^ (k - 52)) :
    fl x = r := by
  have hx : 0 < x := lt_of_lt_of_le (two_zpow_pos k) h1
  have e : (2 : ℚ) ^ (k - 52) = 2 * 2 ^ (k - 53) := by
    rw [show k - 52 = 1 + (k - 53) by ring, zpow_add₀ (by norm_num : (2 : ℚ) ≠ 0)]
    norm_num
  have hp := two_zpow_pos (k - 53)
  rw [hr]
  apply fl_binade x k m hk
  · rwa [abs_of_pos hx]
  · rwa [abs_of_pos hx]
  · rw [e, abs_lt]
    constructor
    · rw [lt_sub_iff_add_lt, lt_div_iff₀ (by positivity)]
      linarith
    · rw [sub_lt_iff_lt_add, div_lt_iff₀ (by positivity)]
      linarith

/-- The certificate `fl_cert` for a negative number. -/
theorem fl_cert_neg (x r : ℚ) (k m : ℤ) (hk : -1022 ≤ k) (h1 : (2 : ℚ) ^ k ≤ x)
    (h2 : x < (2 : ℚ) ^ (k + 1)) (h3 : (2 * (m : ℚ) - 1) * 2 ^ (k - 53) < x)
    (h4 : x < (2 * (m : ℚ) + 1) * 2 ^ (k - 53)) (hr : r = (m : ℚ) * 2 ^ (k - 52)) :
    fl (-x) = -r := by
  rw [fl_neg, fl_cert x r k m hk h1 h2 h3 h4 hr]

theorem round_even_tie (m e : ℤ) (he : e % 2 = 0) (hm : e = m ∨ e = m + 1) :
    round_even ((m : ℚ) + 1 / 2) = e := by
  have hf : ⌊(m : ℚ) + 1 / 2⌋ = m := by
    rw [Int.floor_eq_iff]
    constructor <;> linarith
  unfold round_even
  rw [hf, if_neg (by simp), if_neg (by simp)]
  rcases hm with h | h
  · subst h
    rw [if_pos he]
  · have hodd : ¬ m % 2 = 0 := by omega
    rw [if_neg hodd, h]

/-- The certificate of a tie: `x` lies halfway between two neighbouring
binary64 numbers of the binade `k`, and `fl x` is the one with the even
mantissa `e`. -/
theorem fl_cert_tie (x r : ℚ) (k m e : ℤ) (hk : -1022 ≤ k) (h1 : (2 : ℚ) ^ k ≤ x)
    (h2 : x < (2 : ℚ) ^ (k + 1)) (hx : x = (2 * (m : ℚ) + 1) * 2 ^ (k - 53))
    (he : e % 2 = 0) (hm : e = m ∨ e = m + 1) (hr : r = (e : ℚ) * 2 ^ (k - 52)) :
    fl x = r := by
  have hx0 : 0 < x := lt_of_lt_of_le (two_zpow_pos k) h1
  have hu : ulp_exp x = k - 52 :=
    ulp_exp_eq x k hk (by rwa [abs_of_pos hx0]) (by rwa [abs_of_pos hx0])
  have e2 : (2 : ℚ) ^ (k - 52) = 2 * 2 ^ (k - 53) := by
    rw [show k - 52 = 1 + (k - 53) by ring, zpow_add₀ (by norm_num : (2 : ℚ) ≠ 0)]
    norm_num
  have hp := two_zpow_pos (k - 53)
  have hy : x / 2 ^ (k - 52) = (m : ℚ) + 1 / 2 := by
    rw [hx, e2]
    field_simp
    ring
  unfold fl
  rw [hu, hy, round_even_tie m e he hm, hr]

/-- The certificate `fl_cert_tie` for a negative number. -/
theorem fl_cert_tie_neg (x r : ℚ) (k m e : ℤ) (hk : -1022 ≤ k) (h1 : (2 : ℚ) ^ k ≤ x)
    (h2 : x < (2 : ℚ) ^ (k + 1)) (hx : x = (2 * (m : ℚ) + 1) * 2 ^ (k - 53))
    (he : e % 2 = 0) (hm : e = m ∨ e = m + 1) (hr : r = (e : ℚ) * 2 ^ (k - 52)) :
    fl (-x) = -r := by
  rw [fl_neg, fl_cert_tie x r k m e hk h1 h2 hx he hm hr]

@[simp]
theorem zero_sub_d (a : double) : 0 - a = -a := by
  rw [double.eq_iff_val, double.val_sub, double.val_zero, zero_sub, double.val_neg, fl_neg, a.rep]

@[simp]
theorem sub_self_d (a : double) : a - a = 0 := by
  rw [double.eq_iff_val, double.val_sub, sub_self, fl_zero, double.val_zero]

@[simp]
theorem round_lit (n : ℕ) (h : n ≤ 2147483647) :
    round (no_index (OfNat.ofNat n) : double) = (n : ℤ) := by
  rw [round_eq, double.val_lit n (by omega)]
  show to_gint ⌈((n : ℕ) : ℚ)⌉ = _
  rw [Int.ceil_natCast]
  exact to_gint_of_range _ (by omega) (by omega)

@[simp]
theorem trunc_lit (n : ℕ) (h : n ≤ 2147483647) :
    trunc (no_index (OfNat.ofNat n) : double) = (n : ℤ) := by
  have hv : (OfNat.ofNat n : double).val = ((n : ℕ) : ℚ) := double.val_lit n (by omega)
  rw [trunc_eq_of_nonneg _ (by rw [hv]; positivity), hv, Int.floor_natCast]
  exact to_gint_of_range _ (by omega) (by omega)

/-- The value of the quotient `1 / 10`: the `double` of the constant `0.1`. -/
theorem fl_tenth : fl (1 / 10) = 3602879701896397 / 36028797018963968 := by
  exact fl_cert (1 / 10) (3602879701896397 / 36028797018963968) (-4) 7205759403792794
    (by norm_num) (by norm_num) (by norm_num) (by norm_num) (by norm_num) (by norm_num)

theorem tenth_val : (1 / 10 : double).val = 3602879701896397 / 36028797018963968 := by
  rw [double.val_div, double.val_one, double.val_lit 10 (by norm_num)]
  exact fl_tenth

/-- In `double` arithmetic `0.1 * 100` is exactly 10. -/
theorem tenth_mul_100 : (1 / 10 : double) * ((100 : ℤ) : double) = 10 := by
  rw [double.eq_iff_val, double.val_mul, tenth_val, double.val_int 100 (by norm_num),
    double.val_lit 10 (by norm_num)]
  rw [show (3602879701896397 / 36028797018963968 * ((100 : ℤ) : ℚ) : ℚ)
    = 90071992547409925 / 9007199254740992 by norm_num]
  exact fl_cert (90071992547409925 / 9007199254740992) 10 3 5629499534213120
    (by norm_num) (by norm_num) (by norm_num) (by norm_num) (by norm_num) (by norm_num)

/-! ## Lemmas on the macro interpreter -/

theorem amacro_run_nil (H : Host) (gc : GdkGC) (scale x y : ℤ) (st : amacro_state) :
    amacro_run H gc scale x y [] st = st := rfl

theorem amacro_run_cons (H : Host) (gc : GdkGC) (scale x y : ℤ) (ip : instruction_t)
    (prog : List instruction_t) (st : amacro_state) :
    amacro_run H gc scale x y (ip :: prog) st =
      amacro_run H gc scale x y prog (amacro_step H gc scale x y st ip) := rfl

theorem amacro_run_append (H : Host) (gc : GdkGC) (scale x y : ℤ)
    (p q : List instruction_t) (st : amacro_state) :
    amacro_run H gc scale x y (p ++ q) st =
      amacro_run H gc scale x y q (amacro_run H gc scale x y p st) := by
  simp [amacro_run, List.foldl_append]

theorem prim_dispatch_flag (H : Host) (gc : GdkGC) (s : macro_stack_t) (scale x y : ℤ)
    (code : ℤ) : (prim_dispatch H gc s scale x y code).2 = !known_prim code := by
  unfold prim_dispatch known_prim
  split_ifs <;> simp_all
  omega

theorem prim_dispatch_unknown (H : Host) (gc : GdkGC) (s : macro_stack_t) (scale x y : ℤ)
    (code : ℤ) (h : known_prim code = false) :
    prim_dispatch H gc s scale x y code = ([], true) := by
  unfold known_prim at h
  unfold prim_dispatch
  simp only [decide_eq_false_iff_not, not_or] at h
  obtain ⟨h1, h2, h4, h5, h6, h7, h20, h21, h22⟩ := h
  simp [h1, h2, h4, h5, h6, h7, h20, h21, h22]

theorem amacro_step_handled (H : Host) (gc : GdkGC) (scale x y : ℤ) (st : amacro_state)
    (ip : instruction_t) :
    (amacro_step H gc scale x y st ip).handled =
      if ip.opcode = opcodes.PRIM ∧ known_prim ip.ival = false then 0 else st.handled := by
  unfold amacro_step
  cases hop : ip.opcode <;> simp [prim_dispatch_flag]

theorem amacro_run_handled (H : Host) (gc : GdkGC) (scale x y : ℤ)
    (prog : List instruction_t) (st : amacro_state) :
    (amacro_run H gc scale x y prog st).handled =
      if all_prims_known prog = true then st.handled else 0 := by
  induction prog generalizing st with
  | nil => simp [amacro_run, all_prims_known]
  | cons ip prog ih =>
    rw [amacro_run_cons, ih, amacro_step_handled]
    by_cases h1 : ip.opcode = opcodes.PRIM ∧ known_prim ip.ival = false
    · have : all_prims_known (ip :: prog) = false := by
        simp [all_prims_known, h1.1, h1.2]
      simp [h1, this]
    · have : all_prims_known (ip :: prog) = all_prims_known prog := by
        simp only [all_prims_known, List.all_cons]
        have : decide (ip.opcode = opcodes.PRIM → known_prim ip.ival = true) = true := by
          simp only [decide_eq_true_eq]
          intro h
          by_contra hc
          exact h1 ⟨h, by simpa using hc⟩
        simp [this]
      simp [h1, this]

theorem amacro_step_same (H : Host) (gc : GdkGC) (scale x y : ℤ) (st st1 : amacro_state)
    (ip : instruction_t) (hs : st.s = st1.s) (hl : st.lp = st1.lp) (ho : st.ops = st1.ops) :
    (amacro_step H gc scale x y st ip).s = (amacro_step H gc scale x y st1 ip).s ∧
    (amacro_step H gc scale x y st ip).lp = (amacro_step H gc scale x y st1 ip).lp ∧
    (amacro_step H gc scale x y st ip).ops = (amacro_step H gc scale x y st1 ip).ops := by
  unfold amacro_step
  cases hop : ip.opcode <;> simp [hs, hl, ho]

theorem amacro_run_same (H : Host) (gc : GdkGC) (scale x y : ℤ)
    (prog : List instruction_t) (st st1 : amacro_state)
    (hs : st.s = st1.s) (hl : st.lp = st1.lp) (ho : st.ops = st1.ops) :
    (amacro_run H gc scale x y prog st).ops = (amacro_run H gc scale x y prog st1).ops := by
  induction prog generalizing st st1 with
  | nil => simpa [amacro_run] using ho
  | cons ip prog ih =>
    rw [amacro_run_cons, amacro_run_cons]
    obtain ⟨h1, h2, h3⟩ := amacro_step_same H gc scale x y st st1 ip hs hl ho
    exact ih _ _ h1 h2 h3

theorem amacro_step_unknown (H : Host) (gc : GdkGC) (scale x y : ℤ) (st : amacro_state)
    (ip : instruction_t) (hop : ip.opcode = opcodes.PRIM) (hk : known_prim ip.ival = false) :
    amacro_step H gc scale x y st ip = { stack_reset st with handled := 0 } := by
  unfold amacro_step stack_reset
  simp [hop, prim_dispatch_unknown H gc st.s scale x y ip.ival hk]

theorem amacro_step_lp_other (H : Host) (gc : GdkGC) (scale x y : ℤ) (st : amacro_state)
    (ip : instruction_t) (i : ℤ) (h : ip.opcode = opcodes.PPOP → ip.ival ≠ i) :
    (amacro_step H gc scale x y st ip).lp (i - 1) = st.lp (i - 1) := by
  unfold amacro_step
  cases hop : ip.opcode <;> simp
  intro hi
  exact absurd (by omega) (h hop)

theorem amacro_run_lp_other (H : Host) (gc : GdkGC) (scale x y : ℤ)
    (prog : List instruction_t) (st : amacro_state) (i : ℤ)
    (h : ∀ ip ∈ prog, ip.opcode = opcodes.PPOP → ip.ival ≠ i) :
    (amacro_run H gc scale x y prog st).lp (i - 1) = st.lp (i - 1) := by
  induction prog generalizing st with
  | nil => rfl
  | cons ip prog ih =>
    rw [amacro_run_cons, ih _ (fun q hq => h q (List.mem_cons_of_mem _ hq)),
      amacro_step_lp_other H gc scale x y st ip i (h ip (List.mem_cons_self _ _))]

/-! ## Lemmas on the net-list traversal -/

theorem net_tiles_one (net : gerb_net) (hX : net.layer.stepAndRepeat.X = 1)
    (hY : net.layer.stepAndRepeat.Y = 1) : net_tiles net = [(net, 0, 0)] := by
  simp [net_tiles, hX, hY]
  rfl

theorem tile_prepare_fields (image : gerb_image) (scale : ℤ) (trans_x trans_y : double)
    (polarity : polarity_t) (net : gerb_net) (st : render_state) :
    (tile_prepare image scale trans_x trans_y polarity net st).gc =
      gdk_gc_set_foreground st.gc (net_pixel net.layer.polarity polarity) ∧
    (tile_prepare image scale trans_x trans_y polarity net st).ops = st.ops ∧
    (tile_prepare image scale trans_x trans_y polarity net st).log = st.log ∧
    (tile_prepare image scale trans_x trans_y polarity net st).points = st.points ∧
    (tile_prepare image scale trans_x trans_y polarity net st).curr_point_idx
      = st.curr_point_idx ∧
    (tile_prepare image scale trans_x trans_y polarity net st).in_parea_fill
      = st.in_parea_fill := by
  unfold tile_prepare
  cases net.cirseg <;> simp

theorem tile_step_flash (H : Host) (image : gerb_image) (scale : ℤ) (trans_x trans_y : double)
    (polarity : polarity_t) (net : gerb_net) (i j : ℕ) (st : render_state)
    (hi1 : net.interpolation ≠ PAREA_START) (hi2 : net.interpolation ≠ PAREA_END)
    (hfill : st.in_parea_fill = false) (ap : gerb_aperture)
    (hap : image.aperture net.aperture = some ap) (hflash : net.aperture_state = FLASH) :
    tile_step H image scale trans_x trans_y polarity net i j st =
      flash_net H ap scale (if ap.unit = MM then (scale : double) / (127 / 5) else (scale : double))
        (device_x image scale trans_x net.stop_x ((i : double) * net.layer.stepAndRepeat.dist_X))
        (device_y image scale trans_y net.stop_y ((j : double) * net.layer.stepAndRepeat.dist_Y))
        (tile_prepare image scale trans_x trans_y polarity net st) := by
  have hf := (tile_prepare_fields image scale trans_x trans_y polarity net st).2.2.2.2.2
  unfold tile_step draw_net
  cases hint : net.interpolation <;> simp_all

theorem net_pixel_cases (l p : polarity_t) :
    net_pixel l p = opaque_pixel ∨ net_pixel l p = transparent_pixel := by
  unfold net_pixel
  split_ifs <;> simp

theorem stroke_net_colour (ap : gerb_aperture) (net : gerb_net) (unit_scale : double)
    (x1 y1 x2 y2 : ℤ) (st : render_state) :
    (stroke_net ap net unit_scale x1 y1 x2 y2 st).gc.foreground = st.gc.foreground ∧
    ∃ new, (stroke_net ap net unit_scale x1 y1 x2 y2 st).ops = st.ops ++ new ∧
      ∀ op ∈ new, op.gc.foreground = st.gc.foreground := by
  unfold stroke_net
  cases hint : net.interpolation <;> cases hcs : net.cirseg <;>
    by_cases ht : ap.type = RECTANGLE <;>
    simp [ht, gdk_gc_set_line_attributes, DrawOp.gc, gerbv_gdk_draw_arc]

theorem flash_net_colour (H : Host) (ap : gerb_aperture) (scale : ℤ) (unit_scale : double)
    (x2 y2 : ℤ) (st : render_state)
    (hfg : st.gc.foreground = opaque_pixel ∨ st.gc.foreground = transparent_pixel) :
    (flash_net H ap scale unit_scale x2 y2 st).1.gc.foreground = st.gc.foreground := by
  unfold flash_net
  cases ht : ap.type <;> simp
  · split_ifs <;> simp_all [gdk_gc_set_foreground, opaque_pixel, transparent_pixel]
  · cases ap.amacro <;> simp

theorem flash_net_first (H : Host) (ap : gerb_aperture) (scale : ℤ) (unit_scale : double)
    (x2 y2 : ℤ) (st : render_state) (hb : ap.type.basic = true) :
    ∃ new, (flash_net H ap scale unit_scale x2 y2 st).1.ops = st.ops ++ new ∧
      ∀ op, new.head? = some op → op.gc.foreground = st.gc.foreground := by
  unfold flash_net
  cases ht : ap.type <;> simp [ht, aperture_t.basic] at hb ⊢
  · split_ifs <;>
      simp [gerbv_gdk_draw_circle, DrawOp.gc, List.append_assoc]
  · simp [gerbv_gdk_draw_rectangle, DrawOp.gc]
  · unfold gerbv_gdk_draw_oval
    split_ifs <;> simp [DrawOp.gc, gdk_gc_set_line_attributes]
  · simp [gerbv_gdk_draw_circle, DrawOp.gc]

theorem net_pixel_xor (l p : polarity_t) :
    net_pixel l p = if Xor' (l = CLEAR) (p = NEGATIVE) then opaque_pixel
      else transparent_pixel := by
  unfold net_pixel
  by_cases h1 : l = CLEAR <;> by_cases h2 : p = NEGATIVE <;> simp [h1, h2, Xor']

theorem draw_net_colour (H : Host) (image : gerb_image) (scale : ℤ) (net : gerb_net)
    (x1 y1 x2 y2 : ℤ) (st : render_state)
    (hfg : st.gc.foreground = opaque_pixel ∨ st.gc.foreground = transparent_pixel) :
    (draw_net H image scale net x1 y1 x2 y2 st).1.gc.foreground = st.gc.foreground ∧
    ((∀ ap, image.aperture net.aperture = some ap → ap.type.basic = true) →
      ∃ new, (draw_net H image scale net x1 y1 x2 y2 st).1.ops = st.ops ++ new ∧
        ∀ op, new.head? = some op → op.gc.foreground = st.gc.foreground) := by
  unfold draw_net
  cases hap : image.aperture net.aperture with
  | none =>
    simp only []
    split_ifs <;> simp
  | some ap =>
    simp only []
    cases hstate : net.aperture_state <;> simp only []
    · simp
    · obtain ⟨h1, new, h2, h3⟩ := stroke_net_colour ap net
        (if ap.unit = MM then (scale : double) / (127 / 5) else (scale : double)) x1 y1 x2 y2 st
      exact ⟨h1, fun _ => ⟨new, h2, fun op hop => h3 op (List.mem_of_mem_head? hop)⟩⟩
    · exact ⟨flash_net_colour _ _ _ _ _ _ _ hfg, fun hb =>
        flash_net_first H ap scale _ x2 y2 st (hb ap rfl)⟩
    · simp

theorem tile_step_colour (H : Host) (image : gerb_image) (scale : ℤ) (trans_x trans_y : double)
    (polarity : polarity_t) (net : gerb_net) (i j : ℕ) (st : render_state) :
    (tile_step H image scale trans_x trans_y polarity net i j st).1.gc.foreground =
      net_pixel net.layer.polarity polarity ∧
    ((∀ ap, image.aperture net.aperture = some ap → ap.type.basic = true) →
      ∃ new, (tile_step H image scale trans_x trans_y polarity net i j st).1.ops
          = st.ops ++ new ∧
        ∀ op, new.head? = some op →
          op.gc.foreground = net_pixel net.layer.polarity polarity) := by
  obtain ⟨hgc, hops, -, -, -, -⟩ :=
    tile_prepare_fields image scale trans_x trans_y polarity net st
  have hgc1 : (tile_prepare image scale trans_x trans_y polarity net st).gc.foreground
      = net_pixel net.layer.polarity polarity := by
    rw [hgc]; rfl
  have hfg := net_pixel_cases net.layer.polarity polarity
  rw [← hgc1] at hfg
  have hdraw := draw_net_colour H image scale net
    (device_x image scale trans_x net.start_x ((i : double) * net.layer.stepAndRepeat.dist_X))
    (device_y image scale trans_y net.start_y ((j : double) * net.layer.stepAndRepeat.dist_Y))
    (device_x image scale trans_x net.stop_x ((i : double) * net.layer.stepAndRepeat.dist_X))
    (device_y image scale trans_y net.stop_y ((j : double) * net.layer.stepAndRepeat.dist_Y))
    (tile_prepare image scale trans_x trans_y polarity net st) hfg
  rw [hgc1, hops] at hdraw
  unfold tile_step
  cases hint : net.interpolation <;> simp only []
  case PAREA_START => split_ifs <;> simp [hgc1, hops]
  case PAREA_END => simp [hgc1, hops, DrawOp.gc, gdk_gc_set_line_attributes]
  all_goals
    by_cases hfill : (tile_prepare image scale trans_x trans_y polarity net st).in_parea_fill
      = true
    · simp [hfill, hgc1, hops]
    · simp only [hfill]
      exact hdraw

theorem run_tiles_append (H : Host) (image : gerb_image) (scale : ℤ) (trans_x trans_y : double)
    (polarity : polarity_t) (ts us : List (gerb_net × ℕ × ℕ)) (st : render_state)
    (h : (run_tiles H image scale trans_x trans_y polarity ts st).2 = false) :
    run_tiles H image scale trans_x trans_y polarity (ts ++ us) st =
      run_tiles H image scale trans_x trans_y polarity us
        (run_tiles H image scale trans_x trans_y polarity ts st).1 := by
  induction ts generalizing st with
  | nil => rfl
  | cons t ts ih =>
    simp only [List.cons_append, run_tiles] at h ⊢
    rcases hstep : tile_step H image scale trans_x trans_y polarity t.1 t.2.1 t.2.2 st
      with ⟨st1, b⟩
    cases b
    · simp only [hstep] at h ⊢
      exact ih st1 h
    · simp [hstep] at h

theorem run_tiles_cons_false (H : Host) (image : gerb_image) (scale : ℤ)
    (trans_x trans_y : double) (polarity : polarity_t) (t : gerb_net × ℕ × ℕ)
    (ts : List (gerb_net × ℕ × ℕ)) (st st1 : render_state)
    (h : tile_step H image scale trans_x trans_y polarity t.1 t.2.1 t.2.2 st = (st1, false)) :
    run_tiles H image scale trans_x trans_y polarity (t :: ts) st =
      run_tiles H image scale trans_x trans_y polarity ts st1 := by
  simp only [run_tiles, h]

theorem take_points_write (data : ℤ → GdkPoint) (n : ℤ) (p : GdkPoint) (hn : 0 ≤ n) :
    take_points (fun i => if i = n then p else data i) (n + 1) = take_points data n ++ [p] := by
  obtain ⟨k, rfl⟩ := Int.eq_ofNat_of_zero_le hn
  have h1 : ((k : ℤ) + 1).toNat = k + 1 := by omega
  simp only [take_points, h1, Int.toNat_ofNat, List.range_succ, List.map_append,
    List.map_cons, List.map_nil, if_true]
  congr 1
  apply List.map_congr_left
  intro a ha
  have : a < k := List.mem_range.mp ha
  have : (a : ℤ) ≠ (k : ℤ) := by omega
  simp [this]

/-- While a polygon area fill is being collected, each ordinary net on a layer
without tiling appends its device-space stop point and draws nothing. -/
theorem collect_run (H : Host) (image : gerb_image) (scale : ℤ) (trans_x trans_y : double)
    (polarity : polarity_t) (nets : List gerb_net) (st : render_state) (b : point_buffer)
    (hfill : st.in_parea_fill = true) (hpts : st.points = some b)
    (hidx : 0 ≤ st.curr_point_idx)
    (hnets : ∀ n ∈ nets, n.interpolation ≠ PAREA_START ∧ n.interpolation ≠ PAREA_END)
    (hsr : ∀ n ∈ nets, n.layer.stepAndRepeat.X = 1 ∧ n.layer.stepAndRepeat.Y = 1) :
    ∃ st1 b1, run_tiles H image scale trans_x trans_y polarity (nets.flatMap net_tiles) st
        = (st1, false) ∧
      st1.in_parea_fill = true ∧ st1.points = some b1 ∧ b1.size = b.size ∧
      st1.ops = st.ops ∧ st1.log = st.log ∧
      st1.curr_point_idx = st.curr_point_idx + nets.length ∧
      take_points b1.data st1.curr_point_idx =
        take_points b.data st.curr_point_idx ++
          nets.map fun n => { x := device_x image scale trans_x n.stop_x 0,
                              y := device_y image scale trans_y n.stop_y 0 } := by
  induction nets generalizing st b with
  | nil => exact ⟨st, b, rfl, hfill, hpts, rfl, rfl, rfl, by simp, by simp⟩
  | cons n nets ih =>
    obtain ⟨hgc, hops, hlog, hp, hc, hf⟩ :=
      tile_prepare_fields image scale trans_x trans_y polarity n st
    have hn := hnets n (List.mem_cons_self _ _)
    have hs := hsr n (List.mem_cons_self _ _)
    have hstep : tile_step H image scale trans_x trans_y polarity n 0 0 st =
        ({ tile_prepare image scale trans_x trans_y polarity n st with
           points := some { b with data := fun i => if i = st.curr_point_idx then
             { x := device_x image scale trans_x n.stop_x 0,
               y := device_y image scale trans_y n.stop_y 0 } else b.data i },
           curr_point_idx := st.curr_point_idx + 1 }, false) := by
      unfold tile_step
      cases hint : n.interpolation <;>
        simp_all [buffer_write, natCast_zero_d, zero_mul_d]
    obtain ⟨st1, b1, h1, h2, h3, h4, h5, h6, h7, h8⟩ := ih
      { tile_prepare image scale trans_x trans_y polarity n st with
        points := some { b with data := fun i => if i = st.curr_point_idx then
          { x := device_x image scale trans_x n.stop_x 0,
            y := device_y image scale trans_y n.stop_y 0 } else b.data i },
        curr_point_idx := st.curr_point_idx + 1 }
      { b with data := fun i => if i = st.curr_point_idx then
          { x := device_x image scale trans_x n.stop_x 0,
            y := device_y image scale trans_y n.stop_y 0 } else b.data i }
      (by simpa using hf.trans hfill) rfl (by simp; omega)
      (fun m hm => hnets m (List.mem_cons_of_mem _ hm))
      (fun m hm => hsr m (List.mem_cons_of_mem _ hm))
    refine ⟨st1, b1, ?_, h2, h3, by simpa using h4, by simpa [hops] using h5,
      by simpa [hlog] using h6, ?_, ?_⟩
    · simp only [List.flatMap_cons, net_tiles_one n hs.1 hs.2, List.singleton_append,
        run_tiles, hstep]
      exact h1
    · rw [h7]; simp; ring
    · rw [h8]
      simp only [take_points_write b.data st.curr_point_idx _ hidx, List.map_cons,
        List.append_assoc, List.singleton_append]

/-- While a polygon area fill is being collected, a pass through a net that is
neither the start nor the end marker does not end the traversal, stays in the
collecting state, advances the cursor by one and neither draws nor logs. -/
theorem tile_step_collect (H : Host) (image : gerb_image) (scale : ℤ)
    (trans_x trans_y : double) (polarity : polarity_t) (net : gerb_net) (i j : ℕ)
    (st : render_state) (hfill : st.in_parea_fill = true)
    (h1 : net.interpolation ≠ PAREA_START) (h2 : net.interpolation ≠ PAREA_END) :
    ∃ st1, tile_step H image scale trans_x trans_y polarity net i j st = (st1, false) ∧
      st1.in_parea_fill = true ∧ st1.curr_point_idx = st.curr_point_idx + 1 ∧
      st1.ops = st.ops ∧ st1.log = st.log := by
  obtain ⟨-, hops, hlog, -, hidx, hf⟩ :=
    tile_prepare_fields image scale trans_x trans_y polarity net st
  rw [hfill] at hf
  refine ⟨(tile_step H image scale trans_x trans_y polarity net i j st).1, ?_, ?_, ?_, ?_, ?_⟩
  all_goals
    unfold tile_step
    cases hint : net.interpolation
    case PAREA_END => exact absurd hint h2
    case PAREA_START => exact absurd hint h1
    all_goals
      simp [hf, hidx, hops, hlog]

theorem tile_step_start (H : Host) (image : gerb_image) (scale : ℤ) (trans_x trans_y : double)
    (polarity : polarity_t) (net : gerb_net) (i j : ℕ) (st : render_state)
    (hstart : net.interpolation = PAREA_START)
    (hm : H.g_malloc (net.nuf_pcorners : ℤ) = true) :
    ∃ st1, tile_step H image scale trans_x trans_y polarity net i j st = (st1, false) ∧
      st1.in_parea_fill = true ∧
      st1.points = some { size := net.nuf_pcorners, data := fun _ => { x := 0, y := 0 } } ∧
      st1.curr_point_idx = 0 ∧ st1.ops = st.ops ∧ st1.log = st.log := by
  obtain ⟨-, hops, hlog, -, -, -⟩ :=
    tile_prepare_fields image scale trans_x trans_y polarity net st
  refine ⟨(tile_step H image scale trans_x trans_y polarity net i j st).1, ?_, ?_, ?_, ?_,
    ?_, ?_⟩ <;>
    · unfold tile_step
      simp [hstart, hops, hlog, hm]

theorem tile_step_end (H : Host) (image : gerb_image) (scale : ℤ) (trans_x trans_y : double)
    (polarity : polarity_t) (net : gerb_net) (i j : ℕ) (st : render_state)
    (hstop : net.interpolation = PAREA_END) :
    ∃ st1, tile_step H image scale trans_x trans_y polarity net i j st = (st1, false) ∧
      st1.in_parea_fill = false ∧ st1.points = none ∧ st1.log = st.log ∧
      st1.ops = st.ops ++
        [gdk_draw_polygon
          ⟨net_pixel net.layer.polarity polarity, 1, GDK_LINE_SOLID, GDK_CAP_PROJECTING⟩
          true (buffer_points st.points st.curr_point_idx)] := by
  obtain ⟨hgc, hops, hlog, hp, hc, -⟩ :=
    tile_prepare_fields image scale trans_x trans_y polarity net st
  refine ⟨(tile_step H image scale trans_x trans_y polarity net i j st).1, ?_, ?_, ?_, ?_,
    ?_⟩ <;>
    · unfold tile_step
      simp [hstop, hops, hlog, hp, hc, hgc, gdk_gc_set_line_attributes,
        gdk_gc_set_foreground]

theorem fill_run (H : Host) (image : gerb_image) (scale : ℤ) (trans_x trans_y : double)
    (polarity : polarity_t) (start stop : gerb_net) (nets : List gerb_net)
    (st : render_state)
    (hstart : start.interpolation = PAREA_START)
    (hm : H.g_malloc (start.nuf_pcorners : ℤ) = true)
    (hstop : stop.interpolation = PAREA_END)
    (hnets : ∀ n ∈ nets, n.interpolation ≠ PAREA_START ∧ n.interpolation ≠ PAREA_END)
    (hsr : ∀ n ∈ start :: stop :: nets,
      n.layer.stepAndRepeat.X = 1 ∧ n.layer.stepAndRepeat.Y = 1) :
    ∃ st1, run_tiles H image scale trans_x trans_y polarity
        ((start :: nets ++ [stop]).flatMap net_tiles) st = (st1, false) ∧
      st1.in_parea_fill = false ∧ st1.log = st.log ∧
      st1.ops = st.ops ++
        [gdk_draw_polygon
          ⟨net_pixel stop.layer.polarity polarity, 1, GDK_LINE_SOLID, GDK_CAP_PROJECTING⟩
          true
          (nets.map fun n => { x := device_x image scale trans_x n.stop_x 0,
                               y := device_y image scale trans_y n.stop_y 0 })] := by
  have hs1 := hsr start (by simp)
  have hs2 := hsr stop (by simp)
  obtain ⟨sA, hstepA, hA1, hA2, hA3, hA4, hA5⟩ := tile_step_start H image scale trans_x
    trans_y polarity start 0 0 st hstart hm
  obtain ⟨sB, bB, hrunB, -, hB2, -, hB4, hB5, -, hB7⟩ := collect_run H image scale trans_x
    trans_y polarity nets sA _ hA1 hA2 (by rw [hA3]) hnets (fun n hn => hsr n (by simp [hn]))
  obtain ⟨sC, hstepC, hC1, -, hC3, hC4⟩ := tile_step_end H image scale trans_x
    trans_y polarity stop 0 0 sB hstop
  refine ⟨sC, ?_, hC1, by rw [hC3, hB5, hA5], ?_⟩
  · have e : (start :: nets ++ [stop]).flatMap net_tiles =
        (start, 0, 0) :: (nets.flatMap net_tiles ++ [(stop, 0, 0)]) := by
      simp [net_tiles_one start hs1.1 hs1.2, net_tiles_one stop hs2.1 hs2.2]
    rw [e, run_tiles_cons_false _ _ _ _ _ _ _ _ _ _ hstepA,
      run_tiles_append _ _ _ _ _ _ _ _ _ (by rw [hrunB]), hrunB,
      run_tiles_cons_false _ _ _ _ _ _ _ _ _ _ hstepC]
    rfl
  · rw [hC4, hB4, hA4, hB2]
    simp only [buffer_points, hB7, hA3]
    simp [take_points]

/-! ## Translation of the flash origin -/

theorem offset_offset (p : GdkPoint) (x y a b : ℤ) :
    p.offset (x + a) (y + b) = (p.offset x y).offset a b := by
  simp [GdkPoint.offset, add_assoc]

theorem take_points_offset (f : ℤ → GdkPoint) (n a b : ℤ) :
    take_points (fun i => (f i).offset a b) n =
      (take_points f n).map fun p => p.offset a b := by
  simp [take_points]

theorem prim1_shift (gc : GdkGC) (s : macro_stack_t) (scale x y a b : ℤ) :
    gerbv_gdk_draw_prim1 gc s scale (x + a) (y + b) =
      (gerbv_gdk_draw_prim1 gc s scale x y).map (DrawOp.shift a b) := by
  simp only [gerbv_gdk_draw_prim1, List.map_cons, List.map_nil, DrawOp.shift]
  congr 2 <;> ring

theorem prim4_shift (H : Host) (gc : GdkGC) (s : macro_stack_t) (scale x y a b : ℤ) :
    gerbv_gdk_draw_prim4 H gc s scale (x + a) (y + b) =
      (gerbv_gdk_draw_prim4 H gc s scale x y).map (DrawOp.shift a b) := by
  unfold gerbv_gdk_draw_prim4
  simp only [offset_offset, take_points_offset]
  split_ifs <;> simp only [List.map_cons, List.map_nil, DrawOp.shift]

theorem prim5_shift (H : Host) (gc : GdkGC) (s : macro_stack_t) (scale x y a b : ℤ) :
    gerbv_gdk_draw_prim5 H gc s scale (x + a) (y + b) =
      (gerbv_gdk_draw_prim5 H gc s scale x y).map (DrawOp.shift a b) := by
  have e : ∀ (f g : ℤ → ℤ) (n : ℤ),
      take_points (fun i => ({ x := f i + (x + a), y := g i + (y + b) } : GdkPoint)) n =
        (take_points (fun i => ({ x := f i + x, y := g i + y } : GdkPoint)) n).map
          fun p => p.offset a b := by
    intro f g n
    simp [take_points, GdkPoint.offset, add_assoc]
  unfold gerbv_gdk_draw_prim5
  simp only [e]
  split_ifs <;> simp only [List.map_cons, List.map_nil, DrawOp.shift]

theorem prim6_shift (H : Host) (gc : GdkGC) (s : macro_stack_t) (scale x y a b : ℤ) :
    gerbv_gdk_draw_prim6 H gc s scale (x + a) (y + b) =
      (gerbv_gdk_draw_prim6 H gc s scale x y).map (DrawOp.shift a b) := by
  simp only [gerbv_gdk_draw_prim6, List.map_append, List.map_map, List.map_cons, List.map_nil,
    DrawOp.shift, GdkPoint.offset, add_assoc]
  congr 1
  apply List.map_congr_left
  intro k _
  simp only [Function.comp, DrawOp.shift]
  congr 1 <;> ring

theorem prim7_shift (H : Host) (gc : GdkGC) (s : macro_stack_t) (scale x y a b : ℤ) :
    gerbv_gdk_draw_prim7 H gc s scale (x + a) (y + b) =
      (gerbv_gdk_draw_prim7 H gc s scale x y).map (DrawOp.shift a b) := by
  simp only [gerbv_gdk_draw_prim7, List.map_cons, List.map_nil, DrawOp.shift, GdkPoint.offset,
    add_assoc]
  congr 2 <;> ring

theorem prim20_shift (H : Host) (gc : GdkGC) (s : macro_stack_t) (scale x y a b : ℤ) :
    gerbv_gdk_draw_prim20 H gc s scale (x + a) (y + b) =
      (gerbv_gdk_draw_prim20 H gc s scale x y).map (DrawOp.shift a b) := by
  simp only [gerbv_gdk_draw_prim20, List.map_cons, List.map_nil, DrawOp.shift]
  congr 2 <;> ring

theorem prim21_shift (H : Host) (gc : GdkGC) (s : macro_stack_t) (scale x y a b : ℤ) :
    gerbv_gdk_draw_prim21 H gc s scale (x + a) (y + b) =
      (gerbv_gdk_draw_prim21 H gc s scale x y).map (DrawOp.shift a b) := by
  simp only [gerbv_gdk_draw_prim21, List.map_cons, List.map_nil, DrawOp.shift, offset_offset]

theorem prim22_shift (H : Host) (gc : GdkGC) (s : macro_stack_t) (scale x y a b : ℤ) :
    gerbv_gdk_draw_prim22 H gc s scale (x + a) (y + b) =
      (gerbv_gdk_draw_prim22 H gc s scale x y).map (DrawOp.shift a b) := by
  simp only [gerbv_gdk_draw_prim22, List.map_cons, List.map_nil, DrawOp.shift, offset_offset]

theorem prim1_new_shift (gc : GdkGC) (s : ℤ → double) (scale x y a b : ℤ) :
    gerbv_gdk_draw_prim1_new gc s scale (x + a) (y + b) =
      (gerbv_gdk_draw_prim1_new gc s scale x y).map (DrawOp.shift a b) := by
  simp only [gerbv_gdk_draw_prim1_new, List.map_cons, List.map_nil, DrawOp.shift]
  congr 2 <;> ring

theorem prim4_new_shift (H : Host) (gc : GdkGC) (s : ℤ → double) (scale x y a b : ℤ) :
    gerbv_gdk_draw_prim4_new H gc s scale (x + a) (y + b) =
      (gerbv_gdk_draw_prim4_new H gc s scale x y).map (DrawOp.shift a b) := by
  unfold gerbv_gdk_draw_prim4_new
  simp only [offset_offset, take_points_offset]
  split_ifs <;> simp only [List.map_cons, List.map_nil, DrawOp.shift]

theorem prim5_new_shift (H : Host) (gc : GdkGC) (s : ℤ → double) (scale x y a b : ℤ) :
    gerbv_gdk_draw_prim5_new H gc s scale (x + a) (y + b) =
      (gerbv_gdk_draw_prim5_new H gc s scale x y).map (DrawOp.shift a b) := by
  have e : ∀ (f g : ℤ → ℤ) (n : ℤ),
      take_points (fun i => ({ x := f i + (x + a), y := g i + (y + b) } : GdkPoint)) n =
        (take_points (fun i => ({ x := f i + x, y := g i + y } : GdkPoint)) n).map
          fun p => p.offset a b := by
    intro f g n
    simp [take_points, GdkPoint.offset, add_assoc]
  unfold gerbv_gdk_draw_prim5_new
  simp only [e]
  split_ifs <;> simp only [List.map_cons, List.map_nil, DrawOp.shift]

theorem prim6_new_shift (H : Host) (gc : GdkGC) (s : ℤ → double) (scale x y a b : ℤ) :
    gerbv_gdk_draw_prim6_new H gc s scale (x + a) (y + b) =
      (gerbv_gdk_draw_prim6_new H gc s scale x y).map (DrawOp.shift a b) := by
  simp only [gerbv_gdk_draw_prim6_new, List.map_append, List.map_map, List.map_cons, List.map_nil,
    DrawOp.shift, GdkPoint.offset, add_assoc]
  congr 1
  apply List.map_congr_left
  intro k _
  simp only [Function.comp, DrawOp.shift]
  congr 1 <;> ring

theorem prim7_new_shift (H : Host) (gc : GdkGC) (s : ℤ → double) (scale x y a b : ℤ) :
    gerbv_gdk_draw_prim7_new H gc s scale (x + a) (y + b) =
      (gerbv_gdk_draw_prim7_new H gc s scale x y).map (DrawOp.shift a b) := by
  simp only [gerbv_gdk_draw_prim7_new, List.map_cons, List.map_nil, DrawOp.shift, GdkPoint.offset,
    add_assoc]
  congr 2 <;> ring

theorem prim20_new_shift (H : Host) (gc : GdkGC) (s : ℤ → double) (scale x y a b : ℤ) :
    gerbv_gdk_draw_prim20_new H gc s scale (x + a) (y + b) =
      (gerbv_gdk_draw_prim20_new H gc s scale x y).map (DrawOp.shift a b) := by
  simp only [gerbv_gdk_draw_prim20_new, List.map_cons, List.map_nil, DrawOp.shift]
  congr 2 <;> ring

theorem prim21_new_shift (H : Host) (gc : GdkGC) (s : ℤ → double) (scale x y a b : ℤ) :
    gerbv_gdk_draw_prim21_new H gc s scale (x + a) (y + b) =
      (gerbv_gdk_draw_prim21_new H gc s scale x y).map (DrawOp.shift a b) := by
  simp only [gerbv_gdk_draw_prim21_new, List.map_cons, List.map_nil, DrawOp.shift, offset_offset]

theorem prim22_new_shift (H : Host) (gc : GdkGC) (s : ℤ → double) (scale x y a b : ℤ) :
    gerbv_gdk_draw_prim22_new H gc s scale (x + a) (y + b) =
      (gerbv_gdk_draw_prim22_new H gc s scale x y).map (DrawOp.shift a b) := by
  simp only [gerbv_gdk_draw_prim22_new, List.map_cons, List.map_nil, DrawOp.shift, offset_offset]

theorem prim_dispatch_shift (H : Host) (gc : GdkGC) (s : macro_stack_t) (scale x y a b : ℤ)
    (code : ℤ) :
    prim_dispatch H gc s scale (x + a) (y + b) code =
      (((prim_dispatch H gc s scale x y code).1).map (DrawOp.shift a b),
        (prim_dispatch H gc s scale x y code).2) := by
  unfold prim_dispatch
  split_ifs <;>
    simp only [prim1_shift, prim4_shift, prim5_shift, prim6_shift, prim7_shift, prim20_shift,
      prim21_shift, prim22_shift, List.map_nil]

theorem amacro_step_shift (H : Host) (gc : GdkGC) (scale x y a b : ℤ) (st st1 : amacro_state)
    (ip : instruction_t) (hs : st1.s = st.s) (hl : st1.lp = st.lp)
    (ho : st1.ops = st.ops.map (DrawOp.shift a b)) :
    (amacro_step H gc scale (x + a) (y + b) st1 ip).s = (amacro_step H gc scale x y st ip).s ∧
    (amacro_step H gc scale (x + a) (y + b) st1 ip).lp
      = (amacro_step H gc scale x y st ip).lp ∧
    (amacro_step H gc scale (x + a) (y + b) st1 ip).ops
      = (amacro_step H gc scale x y st ip).ops.map (DrawOp.shift a b) := by
  unfold amacro_step
  cases hop : ip.opcode <;> simp [hs, hl, ho, prim_dispatch_shift]

theorem amacro_run_shift (H : Host) (gc : GdkGC) (scale x y a b : ℤ)
    (prog : List instruction_t) (st st1 : amacro_state) (hs : st1.s = st.s)
    (hl : st1.lp = st.lp) (ho : st1.ops = st.ops.map (DrawOp.shift a b)) :
    (amacro_run H gc scale (x + a) (y + b) prog st1).ops
      = (amacro_run H gc scale x y prog st).ops.map (DrawOp.shift a b) := by
  induction prog generalizing st st1 with
  | nil => simpa [amacro_run] using ho
  | cons ip prog ih =>
    rw [amacro_run_cons, amacro_run_cons]
    obtain ⟨h1, h2, h3⟩ := amacro_step_shift H gc scale x y a b st st1 ip hs hl ho
    exact ih _ _ h1 h2 h3

theorem amacro_shift (H : Host) (gc : GdkGC) (program : List instruction_t) (nuf_push : ℕ)
    (parameters : ℤ → double) (scale x y a b : ℤ) :
    ( gerbv_gdk_draw_amacro H gc program nuf_push parameters scale (x + a) (y + b)).ops =
      ( gerbv_gdk_draw_amacro H gc program nuf_push parameters scale x y).ops.map
        (DrawOp.shift a b) := by
  unfold gerbv_gdk_draw_amacro
  split_ifs
  · rfl
  · exact amacro_run_shift H gc scale x y a b program _ _ rfl rfl rfl

theorem flash_net_ops (H : Host) (ap : gerb_aperture) (scale : ℤ) (unit_scale : double)
    (x2 y2 : ℤ) (st : render_state) :
    (flash_net H ap scale unit_scale x2 y2 st).1.ops =
      st.ops ++ flash_draw H ap scale unit_scale x2 y2 st.gc := by
  unfold flash_draw flash_net blank_state
  cases ht : ap.type <;> simp
  · split_ifs <;> simp
  · cases ap.amacro <;> simp

theorem flash_draw_shift (H : Host) (ap : gerb_aperture) (scale : ℤ) (unit_scale : double)
    (x2 y2 a b : ℤ) (gc : GdkGC) :
    flash_draw H ap scale unit_scale (x2 + a) (y2 + b) gc =
      (flash_draw H ap scale unit_scale x2 y2 gc).map (DrawOp.shift a b) := by
  have hc : ∀ (g : GdkGC) (f : Bool) (d : ℤ),
      gerbv_gdk_draw_circle g f (x2 + a) (y2 + b) d =
        DrawOp.shift a b (gerbv_gdk_draw_circle g f x2 y2 d) := by
    intro g f d
    simp only [gerbv_gdk_draw_circle, DrawOp.shift]
    congr 1 <;> ring
  have hr : ∀ (g : GdkGC) (f : Bool) (w h : ℤ),
      gerbv_gdk_draw_rectangle g f (x2 + a) (y2 + b) w h =
        DrawOp.shift a b (gerbv_gdk_draw_rectangle g f x2 y2 w h) := by
    intro g f w h
    simp only [gerbv_gdk_draw_rectangle, DrawOp.shift]
    congr 1 <;> ring
  have ho : ∀ (g : GdkGC) (w h : ℤ),
      gerbv_gdk_draw_oval g (x2 + a) (y2 + b) w h =
        DrawOp.shift a b (gerbv_gdk_draw_oval g x2 y2 w h) := by
    intro g w h
    unfold gerbv_gdk_draw_oval
    split_ifs <;> simp only [DrawOp.shift] <;> congr 1 <;> ring
  unfold flash_draw flash_net blank_state
  cases ht : ap.type <;>
    simp [hc, hr, ho, prim1_new_shift, prim4_new_shift, prim5_new_shift, prim6_new_shift,
      prim7_new_shift, prim20_new_shift, prim21_new_shift, prim22_new_shift]
  · split_ifs <;> simp
  · cases ap.amacro <;> simp [amacro_shift]

theorem flash_net_flag (H : Host) (ap : gerb_aperture) (scale : ℤ) (unit_scale : double)
    (x2 y2 : ℤ) (st : render_state) (hk : ∀ c, ap.type ≠ aperture_t.other c) :
    (flash_net H ap scale unit_scale x2 y2 st).2 = false := by
  unfold flash_net
  cases ht : ap.type <;> simp
  · split_ifs <;> simp
  · cases ap.amacro <;> simp
  · exact absurd ht (hk _)

theorem flash_net_gc (H : Host) (ap : gerb_aperture) (scale : ℤ) (unit_scale : double)
    (x2 y2 : ℤ) (st : render_state)
    (hfg : st.gc.foreground = opaque_pixel ∨ st.gc.foreground = transparent_pixel) :
    (flash_net H ap scale unit_scale x2 y2 st).1.gc = st.gc ∧
    (flash_net H ap scale unit_scale x2 y2 st).1.in_parea_fill = st.in_parea_fill := by
  unfold flash_net
  cases ht : ap.type <;> simp
  · split_ifs with h1 h2 h3 h4 <;>
      simp_all [gdk_gc_set_foreground, opaque_pixel, transparent_pixel] <;>
      (cases hgc : st.gc; simp_all)
  · cases ap.amacro <;> simp

theorem net_tiles_eq (net : gerb_net) :
    net_tiles net =
      (sr_tiles net.layer.stepAndRepeat.X.toNat net.layer.stepAndRepeat.Y.toNat).map
        fun t => (net, t.1, t.2) := by
  simp only [net_tiles, sr_tiles, List.map_flatMap, List.map_map]
  rfl

theorem sr_tiles_length (Nx Ny : ℕ) : (sr_tiles Nx Ny).length = Nx * Ny := by
  have h : ∀ n : ℕ, ((List.range n).flatMap fun i =>
      (List.range Ny).map fun j => (i, j)).length = n * Ny := by
    intro n
    induction n with
    | zero => simp
    | succ n ih =>
      rw [List.range_succ, List.flatMap_append, List.length_append, ih]
      simp [Nat.succ_mul]
  exact h Nx

theorem flash_tiles_run (H : Host) (image : gerb_image) (scale : ℤ) (trans_x trans_y : double)
    (polarity : polarity_t) (net : gerb_net) (ap : gerb_aperture) (G : GdkGC)
    (hi1 : net.interpolation ≠ PAREA_START) (hi2 : net.interpolation ≠ PAREA_END)
    (hap : image.aperture net.aperture = some ap) (hflash : net.aperture_state = FLASH)
    (hk : ∀ c, ap.type ≠ aperture_t.other c)
    (L : List (ℕ × ℕ)) (st : render_state) (hfill : st.in_parea_fill = false)
    (hG : gdk_gc_set_foreground st.gc (net_pixel net.layer.polarity polarity) = G) :
    ∃ st1, run_tiles H image scale trans_x trans_y polarity
        (L.map fun t => (net, t.1, t.2)) st = (st1, false) ∧
      st1.in_parea_fill = false ∧
      gdk_gc_set_foreground st1.gc (net_pixel net.layer.polarity polarity) = G ∧
      st1.ops = st.ops ++ L.flatMap fun t =>
        flash_draw H ap scale (if ap.unit = MM then (scale : double) / (127 / 5) else (scale : double))
          (device_x image scale trans_x net.stop_x
            ((t.1 : double) * net.layer.stepAndRepeat.dist_X))
          (device_y image scale trans_y net.stop_y
            ((t.2 : double) * net.layer.stepAndRepeat.dist_Y)) G := by
  induction L generalizing st with
  | nil => exact ⟨st, rfl, hfill, hG, by simp⟩
  | cons t L ih =>
    obtain ⟨hgc, hops, -, -, -, hf⟩ :=
      tile_prepare_fields image scale trans_x trans_y polarity net st
    rw [hG] at hgc
    have hGfg : G.foreground = net_pixel net.layer.polarity polarity := by
      rw [← hG]; rfl
    have hfg : (tile_prepare image scale trans_x trans_y polarity net st).gc.foreground
        = opaque_pixel ∨
        (tile_prepare image scale trans_x trans_y polarity net st).gc.foreground
        = transparent_pixel := by
      rw [hgc, hGfg]; exact net_pixel_cases _ _
    have hstep := tile_step_flash H image scale trans_x trans_y polarity net t.1 t.2 st
      hi1 hi2 hfill ap hap hflash
    obtain ⟨hg1, hf1⟩ := flash_net_gc H ap scale
      (if ap.unit = MM then (scale : double) / (127 / 5) else (scale : double))
      (device_x image scale trans_x net.stop_x ((t.1 : double) * net.layer.stepAndRepeat.dist_X))
      (device_y image scale trans_y net.stop_y ((t.2 : double) * net.layer.stepAndRepeat.dist_Y))
      (tile_prepare image scale trans_x trans_y polarity net st) hfg
    have hflag := flash_net_flag H ap scale
      (if ap.unit = MM then (scale : double) / (127 / 5) else (scale : double))
      (device_x image scale trans_x net.stop_x ((t.1 : double) * net.layer.stepAndRepeat.dist_X))
      (device_y image scale trans_y net.stop_y ((t.2 : double) * net.layer.stepAndRepeat.dist_Y))
      (tile_prepare image scale trans_x trans_y polarity net st) hk
    have ho1 := flash_net_ops H ap scale
      (if ap.unit = MM then (scale : double) / (127 / 5) else (scale : double))
      (device_x image scale trans_x net.stop_x ((t.1 : double) * net.layer.stepAndRepeat.dist_X))
      (device_y image scale trans_y net.stop_y ((t.2 : double) * net.layer.stepAndRepeat.dist_Y))
      (tile_prepare image scale trans_x trans_y polarity net st)
    rw [← hstep] at hg1 hf1 hflag ho1
    have hpair : tile_step H image scale trans_x trans_y polarity net t.1 t.2 st =
        ((tile_step H image scale trans_x trans_y polarity net t.1 t.2 st).1, false) := by
      rw [← hflag]
    have hG1 : gdk_gc_set_foreground
        (tile_step H image scale trans_x trans_y polarity net t.1 t.2 st).1.gc
        (net_pixel net.layer.polarity polarity) = G := by
      rw [hg1, hgc, ← hG]; rfl
    obtain ⟨st2, h1, h2, h3, h4⟩ := ih
      (tile_step H image scale trans_x trans_y polarity net t.1 t.2 st).1
      (by rw [hf1, hf, hfill]) hG1
    refine ⟨st2, ?_, h2, h3, ?_⟩
    · rw [List.map_cons, run_tiles_cons_false _ _ _ _ _ _ _ _ _ _ hpair]
      exact h1
    · rw [h4, ho1, hops, hgc, List.flatMap_cons, List.append_assoc]

/-! ## Exchange of the two colours -/

theorem net_pixel_negative (l p : polarity_t) (hp : p ≠ NEGATIVE) :
    net_pixel l NEGATIVE = swap_pixel (net_pixel l p) := by
  unfold net_pixel swap_pixel
  by_cases h : l = CLEAR <;> simp [h, hp, opaque_pixel, transparent_pixel]

theorem gc_eq_swap (g g1 : GdkGC) (h1 : g1.line_width = g.line_width)
    (h2 : g1.line_style = g.line_style) (h3 : g1.cap_style = g.cap_style)
    (h4 : g1.foreground = swap_pixel g.foreground) : g1 = g.swap := by
  cases g; cases g1
  simp_all [GdkGC.swap]

theorem tile_prepare_swapped (image : gerb_image) (scale : ℤ) (trans_x trans_y : double)
    (p : polarity_t) (net : gerb_net) (st st1 : render_state) (hp : p ≠ NEGATIVE)
    (h : same_geometry st st1) :
    swapped (tile_prepare image scale trans_x trans_y p net st)
      (tile_prepare image scale trans_x trans_y NEGATIVE net st1) := by
  obtain ⟨h1, h2, h3, h4, h5, h6, h7, h8, h9, h10, h11, h12⟩ := h
  have hn := net_pixel_negative net.layer.polarity p hp
  have hc := net_pixel_cases net.layer.polarity p
  unfold swapped same_geometry tile_prepare
  cases net.cirseg <;>
    simp [gdk_gc_set_foreground, h1, h2, h3, h4, h5, h6, h7, h8, h9, h10, h11, h12, hn, hc]

theorem stroke_net_swapped (ap : gerb_aperture) (net : gerb_net) (unit_scale : double)
    (x1 y1 x2 y2 : ℤ) (st st1 : render_state) (h : swapped st st1) :
    swapped (stroke_net ap net unit_scale x1 y1 x2 y2 st)
      (stroke_net ap net unit_scale x1 y1 x2 y2 st1) := by
  obtain ⟨⟨h1, h2, h3, h4, h5, h6, h7, h8, h9, h10, h11, h12⟩, h13, h14⟩ := h
  have hg := gc_eq_swap st.gc st1.gc h1 h2 h3 h13
  unfold swapped same_geometry stroke_net
  cases hint : net.interpolation <;> cases hcs : net.cirseg <;>
    by_cases ht : ap.type = RECTANGLE <;>
    simp [ht, gdk_gc_set_line_attributes, h4, h5, h6, h7, h8, h9, h10, h11, h12, h13, h14,
      hg, DrawOp.swap_colour, GdkGC.swap, gerbv_gdk_draw_arc]

theorem flash_net_swapped (H : Host) (ap : gerb_aperture) (scale : ℤ) (unit_scale : double)
    (x2 y2 : ℤ) (st st1 : render_state) (hb : ap.type.basic = true) (h : swapped st st1) :
    (flash_net H ap scale unit_scale x2 y2 st1).2 = (flash_net H ap scale unit_scale x2 y2 st).2 ∧
    swapped (flash_net H ap scale unit_scale x2 y2 st).1
      (flash_net H ap scale unit_scale x2 y2 st1).1 := by
  obtain ⟨⟨h1, h2, h3, h4, h5, h6, h7, h8, h9, h10, h11, h12⟩, h13, h14⟩ := h
  have hg := gc_eq_swap st.gc st1.gc h1 h2 h3 h13
  unfold swapped same_geometry flash_net
  cases ht : ap.type <;> simp [ht, aperture_t.basic] at hb ⊢
  · rcases h14 with h14 | h14 <;>
      split_ifs <;>
      simp_all [gdk_gc_set_foreground, DrawOp.swap_colour, GdkGC.swap,
        gerbv_gdk_draw_circle, swap_pixel, opaque_pixel, transparent_pixel]
  · simp [h4, h5, h6, h7, h8, h9, h10, h11, h12, h13, h14, hg, DrawOp.swap_colour,
      GdkGC.swap, gerbv_gdk_draw_rectangle]
  · unfold gerbv_gdk_draw_oval
    split_ifs <;>
      simp [h4, h5, h6, h7, h8, h9, h10, h11, h12, h13, h14, hg, DrawOp.swap_colour,
        GdkGC.swap, gdk_gc_set_line_attributes]
  · simp [h4, h5, h6, h7, h8, h9, h10, h11, h12, h13, h14, hg, DrawOp.swap_colour,
      GdkGC.swap, gerbv_gdk_draw_circle]

theorem draw_net_swapped (H : Host) (image : gerb_image) (scale : ℤ) (net : gerb_net)
    (x1 y1 x2 y2 : ℤ) (st st1 : render_state)
    (hb : ∀ i ap, image.aperture i = some ap → ap.type.basic = true) (h : swapped st st1) :
    (draw_net H image scale net x1 y1 x2 y2 st1).2 =
      (draw_net H image scale net x1 y1 x2 y2 st).2 ∧
    swapped (draw_net H image scale net x1 y1 x2 y2 st).1
      (draw_net H image scale net x1 y1 x2 y2 st1).1 := by
  unfold draw_net
  cases hap : image.aperture net.aperture with
  | none =>
    simp only []
    obtain ⟨⟨h1, h2, h3, h4, h5, h6, h7, h8, h9, h10, h11, h12⟩, h13, h14⟩ := h
    split_ifs <;>
      simp [swapped, same_geometry, h1, h2, h3, h4, h5, h6, h7, h8, h9, h10, h11, h12, h13,
        h14]
  | some ap =>
    simp only []
    cases hstate : net.aperture_state <;> simp only []
    · exact ⟨trivial, h⟩
    · exact ⟨trivial, stroke_net_swapped ap net _ x1 y1 x2 y2 st st1 h⟩
    · exact flash_net_swapped H ap scale _ x2 y2 st st1 (hb _ ap hap) h
    · obtain ⟨⟨h1, h2, h3, h4, h5, h6, h7, h8, h9, h10, h11, h12⟩, h13, h14⟩ := h
      simp [swapped, same_geometry, h1, h2, h3, h4, h5, h6, h7, h8, h9, h10, h11, h12, h13,
        h14]

theorem tile_step_swapped (H : Host) (image : gerb_image) (scale : ℤ) (trans_x trans_y : double)
    (p : polarity_t) (net : gerb_net) (i j : ℕ) (st st1 : render_state)
    (hb : ∀ i ap, image.aperture i = some ap → ap.type.basic = true) (hp : p ≠ NEGATIVE)
    (h : same_geometry st st1) :
    (tile_step H image scale trans_x trans_y NEGATIVE net i j st1).2 =
      (tile_step H image scale trans_x trans_y p net i j st).2 ∧
    same_geometry (tile_step H image scale trans_x trans_y p net i j st).1
      (tile_step H image scale trans_x trans_y NEGATIVE net i j st1).1 := by
  have hprep := tile_prepare_swapped image scale trans_x trans_y p net st st1 hp h
  have hdraw := draw_net_swapped H image scale net
    (device_x image scale trans_x net.start_x ((i : double) * net.layer.stepAndRepeat.dist_X))
    (device_y image scale trans_y net.start_y ((j : double) * net.layer.stepAndRepeat.dist_Y))
    (device_x image scale trans_x net.stop_x ((i : double) * net.layer.stepAndRepeat.dist_X))
    (device_y image scale trans_y net.stop_y ((j : double) * net.layer.stepAndRepeat.dist_Y))
    _ _ hb hprep
  obtain ⟨⟨h1, h2, h3, h4, h5, h6, h7, h8, h9, h10, h11, h12⟩, h13, h14⟩ := hprep
  have hg := gc_eq_swap _ _ h1 h2 h3 h13
  unfold tile_step
  cases hint : net.interpolation <;> simp only []
  case PAREA_START =>
    split_ifs <;>
      simp [same_geometry, h1, h2, h3, h4, h5, h6, h7, h8, h9, h10, h11, h12]
  case PAREA_END =>
    simp [same_geometry, h1, h2, h3, h4, h5, h6, h7, h8, h9, h11, h12, hg,
      DrawOp.swap_colour, GdkGC.swap, gdk_gc_set_line_attributes]
  all_goals
    rw [h10]
    by_cases hfill : (tile_prepare image scale trans_x trans_y p net st).in_parea_fill = true
    · simp [hfill, same_geometry, h1, h2, h3, h4, h5, h6, h7, h8, h9, h10, h11, h12]
    · simp only [hfill]
      exact ⟨hdraw.1, hdraw.2.1⟩

theorem run_tiles_swapped (H : Host) (image : gerb_image) (scale : ℤ) (trans_x trans_y : double)
    (p : polarity_t) (ts : List (gerb_net × ℕ × ℕ)) (st st1 : render_state)
    (hb : ∀ i ap, image.aperture i = some ap → ap.type.basic = true) (hp : p ≠ NEGATIVE)
    (h : same_geometry st st1) :
    (run_tiles H image scale trans_x trans_y NEGATIVE ts st1).2 =
      (run_tiles H image scale trans_x trans_y p ts st).2 ∧
    same_geometry (run_tiles H image scale trans_x trans_y p ts st).1
      (run_tiles H image scale trans_x trans_y NEGATIVE ts st1).1 := by
  induction ts generalizing st st1 with
  | nil => exact ⟨rfl, h⟩
  | cons t ts ih =>
    obtain ⟨hf, hs⟩ := tile_step_swapped H image scale trans_x trans_y p t.1 t.2.1 t.2.2
      st st1 hb hp h
    simp only [run_tiles]
    rcases hA : tile_step H image scale trans_x trans_y p t.1 t.2.1 t.2.2 st with ⟨sa, fa⟩
    rcases hB : tile_step H image scale trans_x trans_y NEGATIVE t.1 t.2.1 t.2.2 st1
      with ⟨sb, fb⟩
    rw [hA, hB] at hf hs
    simp only at hf hs
    subst hf
    cases fb
    · exact ih sa sb hs
    · exact ⟨rfl, hs⟩

/-! ## The fatal path -/

theorem stroke_net_log (ap : gerb_aperture) (net : gerb_net) (unit_scale : double)
    (x1 y1 x2 y2 : ℤ) (st : render_state) :
    Diag.malloc_failed ∈ (stroke_net ap net unit_scale x1 y1 x2 y2 st).log ↔
      Diag.malloc_failed ∈ st.log := by
  unfold stroke_net
  cases hint : net.interpolation <;> cases hcs : net.cirseg <;>
    by_cases ht : ap.type = RECTANGLE <;> simp [ht]

theorem flash_net_log (H : Host) (ap : gerb_aperture) (scale : ℤ) (unit_scale : double)
    (x2 y2 : ℤ) (st : render_state) :
    Diag.malloc_failed ∈ (flash_net H ap scale unit_scale x2 y2 st).1.log ↔
      Diag.malloc_failed ∈ st.log := by
  unfold flash_net
  cases ht : ap.type <;> simp
  · split_ifs <;> simp
  · cases ap.amacro <;> simp

theorem draw_net_log (H : Host) (image : gerb_image) (scale : ℤ) (net : gerb_net)
    (x1 y1 x2 y2 : ℤ) (st : render_state) :
    Diag.malloc_failed ∈ (draw_net H image scale net x1 y1 x2 y2 st).1.log ↔
      Diag.malloc_failed ∈ st.log := by
  unfold draw_net
  cases hap : image.aperture net.aperture with
  | none =>
    simp only []
    split_ifs <;> simp
  | some ap =>
    simp only []
    cases hstate : net.aperture_state <;> simp only []
    · exact stroke_net_log ap net _ x1 y1 x2 y2 st
    · exact flash_net_log H ap scale _ x2 y2 st
    · simp

/-- A pass that does not end the traversal has not reported a failed
allocation. -/
theorem tile_step_log (H : Host) (image : gerb_image) (scale : ℤ) (trans_x trans_y : double)
    (polarity : polarity_t) (net : gerb_net) (i j : ℕ) (st : render_state)
    (h : (tile_step H image scale trans_x trans_y polarity net i j st).2 = false) :
    Diag.malloc_failed ∈ (tile_step H image scale trans_x trans_y polarity net i j st).1.log ↔
      Diag.malloc_failed ∈ st.log := by
  obtain ⟨-, -, hlog, -, -, -⟩ :=
    tile_prepare_fields image scale trans_x trans_y polarity net st
  have hdraw := draw_net_log H image scale net
    (device_x image scale trans_x net.start_x ((i : double) * net.layer.stepAndRepeat.dist_X))
    (device_y image scale trans_y net.start_y ((j : double) * net.layer.stepAndRepeat.dist_Y))
    (device_x image scale trans_x net.stop_x ((i : double) * net.layer.stepAndRepeat.dist_X))
    (device_y image scale trans_y net.stop_y ((j : double) * net.layer.stepAndRepeat.dist_Y))
    (tile_prepare image scale trans_x trans_y polarity net st)
  rw [hlog] at hdraw
  unfold tile_step at h ⊢
  cases hint : net.interpolation <;> simp only [hint] at h ⊢
  case PAREA_START =>
    split_ifs at h ⊢ with hm
    simp [hlog]
  case PAREA_END => simp [hlog]
  all_goals
    split_ifs with hfill
    · simp [hlog]
    · exact hdraw

theorem run_tiles_log (H : Host) (image : gerb_image) (scale : ℤ) (trans_x trans_y : double)
    (polarity : polarity_t) (ts : List (gerb_net × ℕ × ℕ)) (st : render_state)
    (h : (run_tiles H image scale trans_x trans_y polarity ts st).2 = false) :
    Diag.malloc_failed ∈ (run_tiles H image scale trans_x trans_y polarity ts st).1.log ↔
      Diag.malloc_failed ∈ st.log := by
  induction ts generalizing st with
  | nil => rfl
  | cons t ts ih =>
    simp only [run_tiles] at h ⊢
    rcases hstep : tile_step H image scale trans_x trans_y polarity t.1 t.2.1 t.2.2 st
      with ⟨st1, b⟩
    cases b
    · simp only [hstep] at h ⊢
      rw [ih st1 h]
      have := tile_step_log H image scale trans_x trans_y polarity t.1 t.2.1 t.2.2 st
        (by rw [hstep])
      rw [hstep] at this
      exact this
    · simp [hstep] at h

theorem image2pixmap_cons (H : Host) (image : gerb_image) (scale : ℤ) (trans_x trans_y : double)
    (polarity : polarity_t) (head : gerb_net) (nets : List gerb_net)
    (hnl : image.netlist = head :: nets) :
    image2pixmap H (some image) scale trans_x trans_y polarity =
      { ret := if (run_tiles H image scale trans_x trans_y polarity
            (nets.flatMap net_tiles) (render_init polarity)).2 then 0 else 1,
        ops := (run_tiles H image scale trans_x trans_y polarity
            (nets.flatMap net_tiles) (render_init polarity)).1.ops,
        log := (run_tiles H image scale trans_x trans_y polarity
            (nets.flatMap net_tiles) (render_init polarity)).1.log,
        fatal := decide (Diag.malloc_failed ∈ (run_tiles H image scale trans_x trans_y polarity
            (nets.flatMap net_tiles) (render_init polarity)).1.log) } := by
  simp only [image2pixmap, hnl]

/-- A call of `image2pixmap` that returns 1 has not met `GERB_FATAL_ERROR`. -/
theorem image2pixmap_not_fatal (H : Host) (image : Option gerb_image) (scale : ℤ)
    (trans_x trans_y : double) (polarity : polarity_t)
    (h : (image2pixmap H image scale trans_x trans_y polarity).ret = 1) :
    (image2pixmap H image scale trans_x trans_y polarity).fatal = false := by
  cases image with
  | none => rfl
  | some image =>
    cases hnl : image.netlist with
    | nil => simp [image2pixmap, hnl]
    | cons head nets =>
      rw [image2pixmap_cons H image scale trans_x trans_y polarity head nets hnl] at h ⊢
      simp only at h ⊢
      have hflag : (run_tiles H image scale trans_x trans_y polarity
          (nets.flatMap net_tiles) (render_init polarity)).2 = false := by
        by_contra hc
        simp [hc] at h
      have := run_tiles_log H image scale trans_x trans_y polarity _ _ hflag
      rw [decide_eq_false_iff_not, this]
      simp [render_init]

/-- A fill-start pass whose allocation fails ends the traversal: it adds no
drawing call and records `Diag.malloc_failed`. -/
theorem tile_step_start_fails (H : Host) (image : gerb_image) (scale : ℤ)
    (trans_x trans_y : double) (polarity : polarity_t) (net : gerb_net) (i j : ℕ)
    (st : render_state) (hstart : net.interpolation = PAREA_START)
    (hm : H.g_malloc (net.nuf_pcorners : ℤ) = false) :
    (tile_step H image scale trans_x trans_y polarity net i j st).2 = true ∧
    (tile_step H image scale trans_x trans_y polarity net i j st).1.ops = st.ops ∧
    (tile_step H image scale trans_x trans_y polarity net i j st).1.log =
      st.log ++ [Diag.malloc_failed] := by
  obtain ⟨-, hops, hlog, -, -, -⟩ :=
    tile_prepare_fields image scale trans_x trans_y polarity net st
  refine ⟨?_, ?_, ?_⟩ <;>
    · unfold tile_step
      simp [hstart, hops, hlog, hm]

/-- An image whose first visited net is a fill start with a failing
allocation: the call ends in `GERB_FATAL_ERROR` after the background fill. -/
theorem image2pixmap_start_fails (H : Host) (image : gerb_image) (scale : ℤ)
    (trans_x trans_y : double) (polarity : polarity_t) (head start : gerb_net)
    (rest : List gerb_net) (hnl : image.netlist = head :: start :: rest)
    (hstart : start.interpolation = PAREA_START)
    (hX : start.layer.stepAndRepeat.X = 1) (hY : start.layer.stepAndRepeat.Y = 1)
    (hm : H.g_malloc (start.nuf_pcorners : ℤ) = false) :
    (image2pixmap H (some image) scale trans_x trans_y polarity).fatal = true ∧
    (image2pixmap H (some image) scale trans_x trans_y polarity).ops =
      [gdk_draw_rectangle
        ⟨if polarity = NEGATIVE then transparent_pixel else opaque_pixel, 0,
          GDK_LINE_SOLID, GDK_CAP_BUTT⟩ true 0 0 (-1) (-1)] := by
  obtain ⟨h1, h2, h3⟩ := tile_step_start_fails H image scale trans_x trans_y polarity start 0 0
    (render_init polarity) hstart hm
  have hr : run_tiles H image scale trans_x trans_y polarity
      ((start :: rest).flatMap net_tiles) (render_init polarity) =
      ((tile_step H image scale trans_x trans_y polarity start 0 0 (render_init polarity)).1,
        true) := by
    rw [List.flatMap_cons, net_tiles_one start hX hY]
    simp only [List.singleton_append, run_tiles]
    rcases hs : tile_step H image scale trans_x trans_y polarity start 0 0
      (render_init polarity) with ⟨s1, b⟩
    rw [hs] at h1
    simp only at h1
    subst h1
    rfl
  rw [image2pixmap_cons H image scale trans_x trans_y polarity head (start :: rest) hnl, hr]
  simp only [h2, h3]
  simp [render_init, gdk_gc_set_foreground, gdk_gc_new]

/-! ## Images of one flash net -/

/-- The calls of an image whose net list is the head node and one flash net:
the background fill, then for every tile in loop order the flash at the
device point of the tile. -/
theorem single_flash_image (H : Host) (image : gerb_image) (scale : ℤ)
    (trans_x trans_y : double) (polarity : polarity_t) (head net : gerb_net)
    (ap : gerb_aperture) (Nx Ny : ℕ)
    (hnets : image.netlist = [head, net])
    (hflash : net.aperture_state = FLASH)
    (hi1 : net.interpolation ≠ PAREA_START) (hi2 : net.interpolation ≠ PAREA_END)
    (hap : image.aperture net.aperture = some ap)
    (hk : ∀ c, ap.type ≠ aperture_t.other c)
    (hX : net.layer.stepAndRepeat.X = (Nx : ℤ)) (hY : net.layer.stepAndRepeat.Y = (Ny : ℤ)) :
    (image2pixmap H (some image) scale trans_x trans_y polarity).ret = 1 ∧
    (image2pixmap H (some image) scale trans_x trans_y polarity).fatal = false ∧
    (image2pixmap H (some image) scale trans_x trans_y polarity).ops =
      gdk_draw_rectangle
        ⟨if polarity = NEGATIVE then transparent_pixel else opaque_pixel, 0,
          GDK_LINE_SOLID, GDK_CAP_BUTT⟩ true 0 0 (-1) (-1) ::
      (sr_tiles Nx Ny).flatMap (fun t =>
        flash_draw H ap scale
          (if ap.unit = MM then (scale : double) / (127 / 5) else (scale : double))
          (device_x image scale trans_x net.stop_x
            ((t.1 : double) * net.layer.stepAndRepeat.dist_X))
          (device_y image scale trans_y net.stop_y
            ((t.2 : double) * net.layer.stepAndRepeat.dist_Y))
          ⟨net_pixel net.layer.polarity polarity, 0, GDK_LINE_SOLID, GDK_CAP_BUTT⟩) := by
  obtain ⟨st1, h1, -, -, h4⟩ := flash_tiles_run H image scale trans_x trans_y polarity net ap
    ⟨net_pixel net.layer.polarity polarity, 0, GDK_LINE_SOLID, GDK_CAP_BUTT⟩
    hi1 hi2 hap hflash hk (sr_tiles Nx Ny) (render_init polarity) rfl rfl
  have e : (nets : List gerb_net) → nets = [net] → nets.flatMap net_tiles =
      (sr_tiles Nx Ny).map fun t => (net, t.1, t.2) := by
    intro nets hn
    subst hn
    simp only [List.flatMap_cons, List.flatMap_nil, List.append_nil, net_tiles_eq, hX, hY,
      Int.toNat_ofNat]
  have hret : (image2pixmap H (some image) scale trans_x trans_y polarity).ret = 1 := by
    rw [image2pixmap_cons H image scale trans_x trans_y polarity head [net] hnets, e _ rfl, h1]
    rfl
  refine ⟨hret, image2pixmap_not_fatal H (some image) scale trans_x trans_y polarity hret, ?_⟩
  rw [image2pixmap_cons H image scale trans_x trans_y polarity head [net] hnets, e _ rfl, h1]
  simp only [h4]
  have hbg : (render_init polarity).ops =
      [gdk_draw_rectangle
        ⟨if polarity = NEGATIVE then transparent_pixel else opaque_pixel, 0,
          GDK_LINE_SOLID, GDK_CAP_BUTT⟩ true 0 0 (-1) (-1)] := by
    simp [render_init, gdk_gc_set_foreground, gdk_gc_new]
  rw [hbg, List.singleton_append]

/-! ## Whole numbers in `double` arithmetic -/

theorem natCast_eq_intCast_d (n : ℕ) : ((n : ℕ) : double) = (((n : ℤ)) : double) := by
  rw [double.eq_iff_val, double.val_natCast, double.val_intCast]
  simp

theorem intCast_add_d (m n : ℤ) (hm : |m| ≤ 9007199254740992) (hn : |n| ≤ 9007199254740992)
    (h : |m + n| ≤ 9007199254740992) :
    ((m : ℤ) : double) + ((n : ℤ) : double) = ((m + n : ℤ) : double) := by
  rw [double.eq_iff_val, double.val_add, double.val_int m hm, double.val_int n hn,
    double.val_int (m + n) h]
  rw [← Int.cast_add]
  exact fl_intCast (m + n) h

theorem intCast_sub_d (m n : ℤ) (hm : |m| ≤ 9007199254740992) (hn : |n| ≤ 9007199254740992)
    (h : |m - n| ≤ 9007199254740992) :
    ((m : ℤ) : double) - ((n : ℤ) : double) = ((m - n : ℤ) : double) := by
  rw [double.eq_iff_val, double.val_sub, double.val_int m hm, double.val_int n hn,
    double.val_int (m - n) h]
  rw [← Int.cast_sub]
  exact fl_intCast (m - n) h

theorem intCast_mul_d (m n : ℤ) (hm : |m| ≤ 9007199254740992) (hn : |n| ≤ 9007199254740992)
    (h : |m * n| ≤ 9007199254740992) :
    ((m : ℤ) : double) * ((n : ℤ) : double) = ((m * n : ℤ) : double) := by
  rw [double.eq_iff_val, double.val_mul, double.val_int m hm, double.val_int n hn,
    double.val_int (m * n) h]
  rw [← Int.cast_mul]
  exact fl_intCast (m * n) h

/-- The tile offset `repeat_i * repeat_dist` for a whole pitch. -/
theorem tile_offset_whole (i : ℕ) (d : ℤ) (hd : |d| ≤ 1000000) (hi : (i : ℤ) * |d| ≤ 1000000) :
    ((i : ℕ) : double) * ((d : ℤ) : double) = (((i : ℤ) * d : ℤ) : double) := by
  rcases eq_or_ne d 0 with h0 | h0
  · subst h0
    rw [intCast_zero_d, mul_zero_d, mul_zero, intCast_zero_d]
  · have h1 : 1 ≤ |d| := Int.one_le_abs h0
    have h2 : (i : ℤ) ≤ 1000000 := by nlinarith [Int.natCast_nonneg i]
    have h3 : |(i : ℤ)| = (i : ℤ) := abs_of_nonneg (Int.natCast_nonneg i)
    rw [natCast_eq_intCast_d]
    apply intCast_mul_d
    · rw [h3]; omega
    · omega
    · rw [abs_mul, h3]; omega

theorem whole_bound (a i d s t : ℤ) (ha : |a| ≤ 1000000) (hi : |i * d| ≤ 1000000)
    (hs : |s| ≤ 1000) (ht : |t| ≤ 1000000) :
    |a + i * d| ≤ 2000000 ∧ |(a + i * d) * s| ≤ 2000000000 ∧
      |(a + i * d) * s + t| ≤ 2001000000 := by
  have h1 : |a + i * d| ≤ 2000000 := (abs_add a (i * d)).trans (by omega)
  have h2 : |(a + i * d) * s| ≤ 2000000000 := by
    rw [abs_mul]
    calc |a + i * d| * |s| ≤ 2000000 * 1000 :=
          mul_le_mul h1 hs (abs_nonneg s) (by norm_num)
      _ = 2000000000 := by norm_num
  exact ⟨h1, h2, (abs_add _ t).trans (by omega)⟩

/-- The device coordinate computed from whole numbers is the exact one. -/
theorem device_whole (p d : double) (i : ℕ) (scale a dx tx : ℤ) (trans : double)
    (ha : p = ((a : ℤ) : double)) (hd : d = ((dx : ℤ) : double))
    (ht : trans = ((tx : ℤ) : double))
    (ba : |a| ≤ 1000000) (bd : |dx| ≤ 1000000) (bi : (i : ℤ) * |dx| ≤ 1000000)
    (bs : |scale| ≤ 1000) (bt : |tx| ≤ 1000000) :
    round ((p + ((i : ℕ) : double) * d) * ((scale : ℤ) : double) + trans) =
      (a + (i : ℤ) * dx) * scale + tx := by
  have hid : |(i : ℤ) * dx| ≤ 1000000 := by
    rw [abs_mul, abs_of_nonneg (Int.natCast_nonneg i)]
    exact bi
  obtain ⟨h1, h2, h3⟩ := whole_bound a i dx scale tx ba hid bs bt
  rw [ha, hd, ht, tile_offset_whole i dx bd bi,
    intCast_add_d a _ (by omega) (by omega) (by omega),
    intCast_mul_d _ scale (by omega) (by omega) (by omega),
    intCast_add_d _ tx (by omega) (by omega) (by omega)]
  rw [abs_le] at h3
  exact round_intCast _ (by omega) (by omega)

theorem device_whole_sub (p d : double) (j : ℕ) (scale b dy ty : ℤ) (trans : double)
    (hb : p = ((b : ℤ) : double)) (hd : d = ((dy : ℤ) : double))
    (ht : trans = ((ty : ℤ) : double))
    (bb : |b| ≤ 1000000) (bd : |dy| ≤ 1000000) (bj : (j : ℤ) * |dy| ≤ 1000000)
    (bs : |scale| ≤ 1000) (bt : |ty| ≤ 1000000) :
    round ((p - ((j : ℕ) : double) * d) * ((scale : ℤ) : double) + trans) =
      (b - (j : ℤ) * dy) * scale + ty := by
  have hid : |(j : ℤ) * -dy| ≤ 1000000 := by
    rw [abs_mul, abs_neg, abs_of_nonneg (Int.natCast_nonneg j)]
    exact bj
  have hid2 : |(j : ℤ) * dy| ≤ 1000000 := by
    rw [abs_mul, abs_of_nonneg (Int.natCast_nonneg j)]
    exact bj
  obtain ⟨h1, h2, h3⟩ := whole_bound b j (-dy) scale ty bb hid bs bt
  have e : b + (j : ℤ) * -dy = b - (j : ℤ) * dy := by ring
  rw [e] at h1 h2 h3
  rw [hb, hd, ht, tile_offset_whole j dy bd bj,
    intCast_sub_d b _ (by omega) (by omega) (by omega),
    intCast_mul_d _ scale (by omega) (by omega) (by omega),
    intCast_add_d _ ty (by omega) (by omega) (by omega)]
  rw [abs_le] at h3
  exact round_intCast _ (by omega) (by omega)

/-! ## Worked values of the step-and-repeat tiling -/

/-- The device x of a flash at `x = 0.07`, scale 100, in tile 0: `0.07 * 100` is
slightly above 7 in `double` arithmetic. -/
theorem tile_x_0 : round ((7 / 100) * ((100 : ℤ) : double)) = 8 := by
  have h1 : double.val (7) = 7 := double.val_lit 7 (by norm_num)
  have h2 : double.val (100) = 100 := double.val_lit 100 (by norm_num)
  have h3 : double.val (7 / 100) = 1261007895663739 / 18014398509481984 := by
    rw [double.val_div, h1, h2]
    rw [show (7 / 100 : ℚ) = 7 / 100 by norm_num]
    exact fl_cert (7 / 100) (1261007895663739 / 18014398509481984) (-4) 5044031582654956
      (by norm_num) (by norm_num) (by norm_num) (by norm_num) (by norm_num) (by norm_num)
  have h4 : double.val (((100 : ℤ) : double)) = 100 := by
    rw [double.val_int 100 (by norm_num)]
    norm_num
  have h5 : double.val ((7 / 100) * ((100 : ℤ) : double)) = 7881299347898369 / 1125899906842624
    := by
    rw [double.val_mul, h3, h4]
    rw [show ((1261007895663739 / 18014398509481984) * 100 : ℚ) = 31525197391593475 /
      4503599627370496 by norm_num]
    exact fl_cert (31525197391593475 / 4503599627370496) (7881299347898369 / 1125899906842624)
      (2) 7881299347898369 (by norm_num) (by norm_num) (by norm_num) (by norm_num) (by norm_num)
      (by norm_num)
  have c7 : ⌈(7881299347898369 / 1125899906842624 : ℚ)⌉ = 8 := by
    rw [Int.ceil_eq_iff]
    norm_num
  have r6 : round ((7 / 100) * ((100 : ℤ) : double)) = 8 := by
    rw [round_eq, h5, c7]
    norm_num [to_gint]
  exact r6

/-- The device x of the same flash in tile 1 of pitch 10: `(0.07 + 10) * 100` is
exactly 1007 in `double` arithmetic. -/
theorem tile_x_1 : round (((7 / 100) + (((1 : ℕ) : double) * 10)) * ((100 : ℤ) : double)) = 1007
    := by
  have h1 : double.val (7) = 7 := double.val_lit 7 (by norm_num)
  have h2 : double.val (100) = 100 := double.val_lit 100 (by norm_num)
  have h3 : double.val (7 / 100) = 1261007895663739 / 18014398509481984 := by
    rw [double.val_div, h1, h2]
    rw [show (7 / 100 : ℚ) = 7 / 100 by norm_num]
    exact fl_cert (7 / 100) (1261007895663739 / 18014398509481984) (-4) 5044031582654956
      (by norm_num) (by norm_num) (by norm_num) (by norm_num) (by norm_num) (by norm_num)
  have h4 : double.val (((1 : ℕ) : double)) = 1 := by
    rw [double.val_nat 1 (by norm_num)]
    norm_num
  have h5 : double.val (10) = 10 := double.val_lit 10 (by norm_num)
  have h6 : double.val (((1 : ℕ) : double) * 10) = 10 := by
    rw [double.val_mul, h4, h5]
    rw [show (1 * 10 : ℚ) = 10 by norm_num]
    exact fl_cert (10) (10) (3) 5629499534213120 (by norm_num) (by norm_num) (by norm_num)
      (by norm_num) (by norm_num) (by norm_num)
  have h7 : double.val ((7 / 100) + (((1 : ℕ) : double) * 10)) = 1417226507738153 /
    140737488355328 := by
    rw [double.val_add, h3, h6]
    rw [show ((1261007895663739 / 18014398509481984) + 10 : ℚ) = 181404992990483579 /
      18014398509481984 by norm_num]
    exact fl_cert (181404992990483579 / 18014398509481984) (1417226507738153 / 140737488355328)
      (3) 5668906030952612 (by norm_num) (by norm_num) (by norm_num) (by norm_num) (by norm_num)
      (by norm_num)
  have h8 : double.val (((100 : ℤ) : double)) = 100 := by
    rw [double.val_int 100 (by norm_num)]
    norm_num
  have h9 : double.val (((7 / 100) + (((1 : ℕ) : double) * 10)) * ((100 : ℤ) : double)) = 1007 :=
    by
    rw [double.val_mul, h7, h8]
    rw [show ((1417226507738153 / 140737488355328) * 100 : ℚ) = 35430662693453825 /
      35184372088832 by norm_num]
    exact fl_cert (35430662693453825 / 35184372088832) (1007) (9) 8857665673363456 (by norm_num)
      (by norm_num) (by norm_num) (by norm_num) (by norm_num) (by norm_num)
  have c11 : ⌈(1007 : ℚ)⌉ = 1007 := by
    rw [Int.ceil_eq_iff]
    norm_num
  have r10 : round (((7 / 100) + (((1 : ℕ) : double) * 10)) * ((100 : ℤ) : double)) = 1007 := by
    rw [round_eq, h9, c11]
    norm_num [to_gint]
  exact r10

/-! ## The properties -/

/-- C1: for an image with zero origin offset whose net list is the head node
and one net on a DARK layer without step-and-repeat, the net flashing an
inch-unit CIRCLE aperture with `parameter[0] = d` and `parameter[1] = 0` at the
stop point `(px, py)`, `image2pixmap` with a polarity other than NEGATIVE
returns 1 and makes exactly two drawing calls: the background fill in the
opaque colour, and one filled full-circle arc in the transparent colour of
diameter `round(d*s)` whose bounding box is centred at
`(round(px*s + tx), round(-py*s + ty))`, where `round` is the source's
`round`, the ceiling, converted to `int`, and the products and sums are those
of `double`s. -/
theorem C1_single_circle_flash (H : Host) (image : gerb_image) (head net : gerb_net)
    (ap : gerb_aperture) (scale : ℤ) (trans_x trans_y : double) (polarity : polarity_t)
    (hnets : image.netlist = [head, net])
    (hoffA : image.info.offsetA = 0) (hoffB : image.info.offsetB = 0)
    (hdark : net.layer.polarity = DARK)
    (hX : net.layer.stepAndRepeat.X = 1) (hY : net.layer.stepAndRepeat.Y = 1)
    (hflash : net.aperture_state = FLASH)
    (hi1 : net.interpolation ≠ PAREA_START) (hi2 : net.interpolation ≠ PAREA_END)
    (hap : image.aperture net.aperture = some ap)
    (htype : ap.type = CIRCLE) (hunit : ap.unit = INCH) (hp1 : ap.parameter 1 = 0)
    (hpol : polarity ≠ NEGATIVE) :
    (image2pixmap H (some image) scale trans_x trans_y polarity).ops =
      [gdk_draw_rectangle ⟨opaque_pixel, 0, GDK_LINE_SOLID, GDK_CAP_BUTT⟩ true 0 0 (-1) (-1),
       gdk_draw_arc ⟨transparent_pixel, 0, GDK_LINE_SOLID, GDK_CAP_BUTT⟩ true
         (round (net.stop_x * (scale : double) + trans_x)
           - (round (ap.parameter 0 * (scale : double))).tdiv 2)
         (round (-net.stop_y * (scale : double) + trans_y)
           - (round (ap.parameter 0 * (scale : double))).tdiv 2)
         (round (ap.parameter 0 * (scale : double))) (round (ap.parameter 0 * (scale : double)))
         0 23360] ∧
    (image2pixmap H (some image) scale trans_x trans_y polarity).ret = 1 ∧
    (image2pixmap H (some image) scale trans_x trans_y polarity).fatal = false := by
  have hstep := tile_step_flash H image scale trans_x trans_y polarity net 0 0
    (render_init polarity) hi1 hi2 (by simp [render_init]) ap hap hflash
  have hpx : net_pixel DARK polarity = transparent_pixel := by
    simp [net_pixel, hpol]
  simp only [image2pixmap, hnets, List.flatMap_cons, List.flatMap_nil, List.append_nil,
    net_tiles_one net hX hY, run_tiles, hstep]
  cases hcs : net.cirseg <;>
    simp [tile_prepare, hcs, flash_net, htype, hunit, hp1, render_init, hpol, hdark, hpx,
      gerbv_gdk_draw_circle, device_x, device_y, hoffA, hoffB, gdk_gc_set_foreground,
      gdk_gc_new, full_circle, natCast_zero_d, zero_mul_d, zero_add_d, add_zero_d, sub_zero_d,
      neg_zero_d, zero_sub_d, round_zero]

/-- Witness of C1: diameter 2 flashed at (0,0) with scale 100 and translation
(50,50) gives the background fill and one filled circle of diameter 200 whose
bounding box has its corner at (-50,-50), so that its centre is (50,50); the
diameter 0.1 gives a circle of diameter 10 (the `double` product `0.1 * 100` is
exactly 10) with its box at (45,45). -/
theorem C1_single_circle_flash_witness :
    (image2pixmap sample_host
      (some (sample_image (sample_circle 2)
        [sample_net FLASH LINEARx1 0 0 0 (sample_layer DARK 1 1 0 0)]))
      100 50 50 POSITIVE).ops =
      [gdk_draw_rectangle ⟨0, 0, GDK_LINE_SOLID, GDK_CAP_BUTT⟩ true 0 0 (-1) (-1),
       gdk_draw_arc ⟨1, 0, GDK_LINE_SOLID, GDK_CAP_BUTT⟩ true (-50) (-50) 200 200 0 23360] ∧
    (image2pixmap sample_host
      (some (sample_image (sample_circle (1 / 10))
        [sample_net FLASH LINEARx1 0 0 0 (sample_layer DARK 1 1 0 0)]))
      100 50 50 POSITIVE).ops =
      [gdk_draw_rectangle ⟨0, 0, GDK_LINE_SOLID, GDK_CAP_BUTT⟩ true 0 0 (-1) (-1),
       gdk_draw_arc ⟨1, 0, GDK_LINE_SOLID, GDK_CAP_BUTT⟩ true 45 45 10 10 0 23360] := by
  have h := (C1_single_circle_flash sample_host
    (sample_image (sample_circle 2)
      [sample_net FLASH LINEARx1 0 0 0 (sample_layer DARK 1 1 0 0)])
    (sample_net OFF LINEARx1 0 0 0 (sample_layer DARK 1 1 0 0))
    (sample_net FLASH LINEARx1 0 0 0 (sample_layer DARK 1 1 0 0))
    (sample_circle 2) 100 50 50 POSITIVE rfl rfl rfl rfl rfl rfl rfl
    (by decide) (by decide) (by simp [sample_image, sample_net]) rfl rfl
    (by simp [sample_circle]) (by decide)).1
  have h2 := (C1_single_circle_flash sample_host
    (sample_image (sample_circle (1 / 10))
      [sample_net FLASH LINEARx1 0 0 0 (sample_layer DARK 1 1 0 0)])
    (sample_net OFF LINEARx1 0 0 0 (sample_layer DARK 1 1 0 0))
    (sample_net FLASH LINEARx1 0 0 0 (sample_layer DARK 1 1 0 0))
    (sample_circle (1 / 10)) 100 50 50 POSITIVE rfl rfl rfl rfl rfl rfl rfl
    (by decide) (by decide) (by simp [sample_image, sample_net]) rfl rfl
    (by simp [sample_circle]) (by decide)).1
  have r200 : round ((2 : double) * ((100 : ℤ) : double)) = 200 := by
    norm_num [round_eq, to_gint, double.val_mul, double.val_intCast, double.val_lit, fl_lit]
  have d1 : Int.tdiv 200 2 = 100 := by decide
  have d2 : Int.tdiv 10 2 = 5 := by decide
  rw [h, h2]
  simp [sample_net, sample_circle, opaque_pixel, transparent_pixel, zero_mul_d, zero_add_d,
    neg_zero_d, round_lit, tenth_mul_100, r200, d1, d2]

/-- C2: for every image whose defined apertures are all of a non-macro type
(CIRCLE, RECTANGLE, OVAL, POLYGON), rendering with polarity NEGATIVE makes the
same sequence of drawing calls as rendering with any other polarity, with
identical coordinates, sizes and line attributes, and with the colour of every
call (the background fill included) exchanged opaque <-> transparent; the
return value and the diagnostics are the same. -/
theorem C2_negative_polarity_swaps_colours (H : Host) (image : gerb_image) (scale : ℤ)
    (trans_x trans_y : double) (p : polarity_t)
    (hb : ∀ i ap, image.aperture i = some ap →
      ap.type = CIRCLE ∨ ap.type = RECTANGLE ∨ ap.type = OVAL ∨ ap.type = POLYGON)
    (hp : p ≠ NEGATIVE) :
    (image2pixmap H (some image) scale trans_x trans_y NEGATIVE).ops =
      (image2pixmap H (some image) scale trans_x trans_y p).ops.map DrawOp.swap_colour ∧
    (image2pixmap H (some image) scale trans_x trans_y NEGATIVE).ret =
      (image2pixmap H (some image) scale trans_x trans_y p).ret ∧
    (image2pixmap H (some image) scale trans_x trans_y NEGATIVE).log =
      (image2pixmap H (some image) scale trans_x trans_y p).log := by
  have hb1 : ∀ i ap, image.aperture i = some ap → ap.type.basic = true := by
    intro i ap hap
    rcases hb i ap hap with h | h | h | h <;> simp [h, aperture_t.basic]
  have hinit : same_geometry (render_init p) (render_init NEGATIVE) := by
    simp [same_geometry, render_init, hp, gdk_gc_set_foreground, gdk_gc_new,
      DrawOp.swap_colour, GdkGC.swap, swap_pixel, opaque_pixel, transparent_pixel]
  cases hn : image.netlist with
  | nil => simp [image2pixmap, hn]
  | cons head nets =>
    obtain ⟨hf, -, -, -, -, -, -, -, -, -, -, hops, hlog⟩ := run_tiles_swapped H image scale
      trans_x trans_y p (nets.flatMap net_tiles) _ _ hb1 hp hinit
    simp only [image2pixmap, hn, hf, hops, hlog, and_self]

/-- Witness of C2: the image with one CIRCLE flash, rendered NEGATIVE and
rendered POSITIVE. -/
theorem C2_negative_polarity_swaps_colours_witness :
    (image2pixmap sample_host
      (some (sample_image (sample_circle 2)
        [sample_net FLASH LINEARx1 0 0 0 (sample_layer DARK 1 1 0 0)]))
      100 50 50 NEGATIVE).ops =
    (image2pixmap sample_host
      (some (sample_image (sample_circle 2)
        [sample_net FLASH LINEARx1 0 0 0 (sample_layer DARK 1 1 0 0)]))
      100 50 50 POSITIVE).ops.map DrawOp.swap_colour :=
  (C2_negative_polarity_swaps_colours sample_host
    (sample_image (sample_circle 2)
      [sample_net FLASH LINEARx1 0 0 0 (sample_layer DARK 1 1 0 0)])
    100 50 50 POSITIVE
    (by
      intro i ap h
      simp only [sample_image] at h
      split_ifs at h
      cases h
      exact Or.inl rfl)
    (by decide)).1

/-- C3: after every pass of `image2pixmap` through a net (in every tile and
from every state) the foreground of the drawing context is the opaque (erase)
pixel exactly when (layer polarity is CLEAR) XOR (image polarity is NEGATIVE)
holds, and the transparent (draw) pixel otherwise; and when the net's aperture
is not a macro aperture, the first drawing call made for the net is issued in
that colour. -/
theorem C3_net_draw_colour (H : Host) (image : gerb_image) (scale : ℤ)
    (trans_x trans_y : double) (polarity : polarity_t) (net : gerb_net) (i j : ℕ)
    (st : render_state) :
    (tile_step H image scale trans_x trans_y polarity net i j st).1.gc.foreground =
      (if Xor' (net.layer.polarity = CLEAR) (polarity = NEGATIVE) then opaque_pixel
        else transparent_pixel) ∧
    ((∀ ap, image.aperture net.aperture = some ap → ap.type.basic = true) →
      ∃ new, (tile_step H image scale trans_x trans_y polarity net i j st).1.ops
          = st.ops ++ new ∧
        ∀ op, new.head? = some op →
          op.gc.foreground =
            (if Xor' (net.layer.polarity = CLEAR) (polarity = NEGATIVE) then opaque_pixel
              else transparent_pixel)) := by
  rw [← net_pixel_xor]
  exact tile_step_colour H image scale trans_x trans_y polarity net i j st

/-- Witness of C3: a flash on a CLEAR layer of a positive image is drawn in the
opaque colour. -/
theorem C3_net_draw_colour_witness :
    ∃ new, (tile_step sample_host
        (sample_image (sample_circle 2)
          [sample_net FLASH LINEARx1 0 0 0 (sample_layer CLEAR 1 1 0 0)])
        100 50 50 POSITIVE (sample_net FLASH LINEARx1 0 0 0 (sample_layer CLEAR 1 1 0 0))
        0 0 (render_init POSITIVE)).1.ops = (render_init POSITIVE).ops ++ new ∧
      ∀ op, new.head? = some op → op.gc.foreground = opaque_pixel := by
  have h := (C3_net_draw_colour sample_host
    (sample_image (sample_circle 2)
      [sample_net FLASH LINEARx1 0 0 0 (sample_layer CLEAR 1 1 0 0)])
    100 50 50 POSITIVE (sample_net FLASH LINEARx1 0 0 0 (sample_layer CLEAR 1 1 0 0))
    0 0 (render_init POSITIVE)).2
    (by
      intro ap h
      simp only [sample_image, sample_net] at h
      split_ifs at h with h1
      · cases h; rfl
      · exact absurd trivial h1)
  simpa [sample_net, sample_layer, Xor'] using h

/-- C4 as stated fails: the pitch 10 and the scale 100 have the whole product
1000, yet a flash at x = 0.07 on a layer repeated twice in X is drawn with its
centre at x = 8 in tile (0, 0) and at x = 1007 in tile (1, 0): the two
centres are 999 apart, not 1000, because the coordinate of each tile is the
ceiling of a `double` expression of its own (`0.07 * 100` is
`7.000000000000001`, `10.07 * 100` is exactly `1007`). -/
theorem C4_counterexample :
    (10 : double) * ((100 : ℤ) : double) = ((1000 : ℤ) : double) ∧
    (image2pixmap sample_host
      (some (sample_image (sample_circle 2)
        [sample_net FLASH LINEARx1 (7 / 100) 0 0 (sample_layer DARK 2 1 10 0)]))
      100 0 0 POSITIVE).ops =
      [gdk_draw_rectangle ⟨0, 0, GDK_LINE_SOLID, GDK_CAP_BUTT⟩ true 0 0 (-1) (-1),
       gdk_draw_arc ⟨1, 0, GDK_LINE_SOLID, GDK_CAP_BUTT⟩ true (8 - 100) (-100) 200 200 0 23360,
       gdk_draw_arc ⟨1, 0, GDK_LINE_SOLID, GDK_CAP_BUTT⟩ true (1007 - 100) (-100) 200 200 0
         23360] ∧
    (1007 : ℤ) - 8 ≠ 1000 := by
  have h := (single_flash_image sample_host
    (sample_image (sample_circle 2)
      [sample_net FLASH LINEARx1 (7 / 100) 0 0 (sample_layer DARK 2 1 10 0)])
    100 0 0 POSITIVE
    (sample_net OFF LINEARx1 0 0 0 (sample_layer DARK 1 1 0 0))
    (sample_net FLASH LINEARx1 (7 / 100) 0 0 (sample_layer DARK 2 1 10 0))
    (sample_circle 2) 2 1 rfl rfl (by decide) (by decide)
    (by simp [sample_image, sample_net])
    (by intro c; simp [sample_circle])
    rfl rfl).2.2
  have e : sr_tiles 2 1 = [(0, 0), (1, 0)] := by decide
  have r200 : round ((2 : double) * ((100 : ℤ) : double)) = 200 := by
    norm_num [round_eq, to_gint, double.val_mul, double.val_intCast, double.val_lit, fl_lit]
  have d1 : Int.tdiv 200 2 = 100 := by decide
  refine ⟨?_, ?_, by decide⟩
  · rw [double.eq_iff_val]
    norm_num [double.val_mul, double.val_intCast, double.val_lit, fl_lit]
  · rw [h, e]
    simp [flash_draw, flash_net, blank_state, sample_circle, sample_net, sample_layer, net_pixel,
      gerbv_gdk_draw_circle, opaque_pixel, transparent_pixel, full_circle, tile_x_0, tile_x_1,
      r200, d1, device_x, device_y, sample_image, add_zero_d, zero_sub_d, neg_zero_d, zero_mul_d, zero_add_d, sub_zero_d,
      natCast_zero_d, round_zero]

/-- C4, amended: for an image whose net list is the head node and one flash
net with a defined aperture of a known type, on a layer with step-and-repeat
counts `Nx`, `Ny`, `image2pixmap` returns 1 and emits, after the background
fill, one flash per tile, `Nx*Ny` flashes in all, in loop order; the flash of
tile `(i, j)` is drawn at the device point of the tile,
`(round((offsetA + x + i*dx) * scale + tx), round((-offsetB - y - j*dy) * scale + ty))`
in `double` arithmetic, and is the flash of tile `(0, 0)` with every position
shifted by the difference of the two device points.  When `offsetA + x`,
`-offsetB - y`, the pitches and the translation are whole numbers of magnitude
at most 1000000, the extent `Nx*|dx|`, `Ny*|dy|` of the tiling is at most
1000000 and the scale at most 1000, that difference is exactly
`(i*dx*scale, -j*dy*scale)`. -/
theorem C4_step_and_repeat (H : Host) (image : gerb_image) (scale : ℤ)
    (trans_x trans_y : double) (polarity : polarity_t) (head net : gerb_net)
    (ap : gerb_aperture) (Nx Ny : ℕ)
    (hnets : image.netlist = [head, net])
    (hflash : net.aperture_state = FLASH)
    (hi1 : net.interpolation ≠ PAREA_START) (hi2 : net.interpolation ≠ PAREA_END)
    (hap : image.aperture net.aperture = some ap)
    (hk : ∀ c, ap.type ≠ aperture_t.other c)
    (hX : net.layer.stepAndRepeat.X = (Nx : ℤ)) (hY : net.layer.stepAndRepeat.Y = (Ny : ℤ)) :
    (image2pixmap H (some image) scale trans_x trans_y polarity).ret = 1 ∧
    (image2pixmap H (some image) scale trans_x trans_y polarity).fatal = false ∧
    (image2pixmap H (some image) scale trans_x trans_y polarity).ops =
      gdk_draw_rectangle
        ⟨if polarity = NEGATIVE then transparent_pixel else opaque_pixel, 0,
          GDK_LINE_SOLID, GDK_CAP_BUTT⟩ true 0 0 (-1) (-1) ::
      (sr_tiles Nx Ny).flatMap (fun t =>
        flash_draw H ap scale
          (if ap.unit = MM then (scale : double) / (127 / 5) else (scale : double))
          (round ((image.info.offsetA + net.stop_x
            + (t.1 : double) * net.layer.stepAndRepeat.dist_X) * (scale : double) + trans_x))
          (round ((-image.info.offsetB - net.stop_y
            - (t.2 : double) * net.layer.stepAndRepeat.dist_Y) * (scale : double) + trans_y))
          ⟨net_pixel net.layer.polarity polarity, 0, GDK_LINE_SOLID, GDK_CAP_BUTT⟩) ∧
    (image2pixmap H (some image) scale trans_x trans_y polarity).ops =
      gdk_draw_rectangle
        ⟨if polarity = NEGATIVE then transparent_pixel else opaque_pixel, 0,
          GDK_LINE_SOLID, GDK_CAP_BUTT⟩ true 0 0 (-1) (-1) ::
      (sr_tiles Nx Ny).flatMap (fun t =>
        (flash_draw H ap scale
          (if ap.unit = MM then (scale : double) / (127 / 5) else (scale : double))
          (device_x image scale trans_x net.stop_x 0)
          (device_y image scale trans_y net.stop_y 0)
          ⟨net_pixel net.layer.polarity polarity, 0, GDK_LINE_SOLID, GDK_CAP_BUTT⟩).map
          (DrawOp.shift
            (device_x image scale trans_x net.stop_x
                ((t.1 : double) * net.layer.stepAndRepeat.dist_X)
              - device_x image scale trans_x net.stop_x 0)
            (device_y image scale trans_y net.stop_y
                ((t.2 : double) * net.layer.stepAndRepeat.dist_Y)
              - device_y image scale trans_y net.stop_y 0))) ∧
    (sr_tiles Nx Ny).length = Nx * Ny ∧
    (∀ a b dx dy tx ty : ℤ,
      image.info.offsetA + net.stop_x = ((a : ℤ) : double) →
      -image.info.offsetB - net.stop_y = ((b : ℤ) : double) →
      net.layer.stepAndRepeat.dist_X = ((dx : ℤ) : double) →
      net.layer.stepAndRepeat.dist_Y = ((dy : ℤ) : double) →
      trans_x = ((tx : ℤ) : double) → trans_y = ((ty : ℤ) : double) →
      |a| ≤ 1000000 → |b| ≤ 1000000 → |dx| ≤ 1000000 → |dy| ≤ 1000000 →
      |tx| ≤ 1000000 → |ty| ≤ 1000000 → |scale| ≤ 1000 →
      (Nx : ℤ) * |dx| ≤ 1000000 → (Ny : ℤ) * |dy| ≤ 1000000 →
      ∀ i j : ℕ, i < Nx → j < Ny →
        device_x image scale trans_x net.stop_x ((i : double) * net.layer.stepAndRepeat.dist_X)
            - device_x image scale trans_x net.stop_x 0 = (i : ℤ) * dx * scale ∧
        device_y image scale trans_y net.stop_y ((j : double) * net.layer.stepAndRepeat.dist_Y)
            - device_y image scale trans_y net.stop_y 0 = -((j : ℤ) * dy * scale)) := by
  obtain ⟨h1, h2, h3⟩ := single_flash_image H image scale trans_x trans_y polarity head net ap
    Nx Ny hnets hflash hi1 hi2 hap hk hX hY
  refine ⟨h1, h2, h3, ?_, sr_tiles_length Nx Ny, ?_⟩
  · rw [h3]
    congr 1
    apply List.flatMap_congr
    intro t _
    rw [← flash_draw_shift]
    congr 1 <;> ring
  · intro a b dx dy tx ty ha hb hdx hdy htx hty ba bb bdx bdy btx bty bs bNx bNy i j hi hj
    have hi2 : (i : ℤ) * |dx| ≤ 1000000 :=
      le_trans (mul_le_mul_of_nonneg_right (by exact_mod_cast hi.le) (abs_nonneg dx)) bNx
    have hj2 : (j : ℤ) * |dy| ≤ 1000000 :=
      le_trans (mul_le_mul_of_nonneg_right (by exact_mod_cast hj.le) (abs_nonneg dy)) bNy
    have hx := device_whole (image.info.offsetA + net.stop_x) net.layer.stepAndRepeat.dist_X i
      scale a dx tx trans_x ha hdx htx ba bdx hi2 bs btx
    have hx0 := device_whole (image.info.offsetA + net.stop_x) net.layer.stepAndRepeat.dist_X 0
      scale a dx tx trans_x ha hdx htx ba bdx (by simp) bs btx
    have hy := device_whole_sub (-image.info.offsetB - net.stop_y)
      net.layer.stepAndRepeat.dist_Y j scale b dy ty trans_y hb hdy hty bb bdy hj2 bs bty
    have hy0 := device_whole_sub (-image.info.offsetB - net.stop_y)
      net.layer.stepAndRepeat.dist_Y 0 scale b dy ty trans_y hb hdy hty bb bdy (by simp) bs bty
    rw [natCast_zero_d, zero_mul_d, add_zero_d] at hx0
    rw [natCast_zero_d, zero_mul_d, sub_zero_d] at hy0
    unfold device_x device_y
    rw [hx, hy, add_zero_d, sub_zero_d, hx0, hy0]
    constructor
    · push_cast
      ring
    · push_cast
      ring

/-- Witness of C4: diameter 2 flashed at (0,0) on a layer repeated 2 x 1 with
pitch 10 along X, scale 100, translation (50,50): two circles whose bounding
boxes are 1000 = 10 * 100 apart along X and at the same Y. -/
theorem C4_step_and_repeat_witness :
    (image2pixmap sample_host
      (some (sample_image (sample_circle 2)
        [sample_net FLASH LINEARx1 0 0 0 (sample_layer DARK 2 1 10 0)]))
      100 50 50 POSITIVE).ops =
      [gdk_draw_rectangle ⟨0, 0, GDK_LINE_SOLID, GDK_CAP_BUTT⟩ true 0 0 (-1) (-1),
       gdk_draw_arc ⟨1, 0, GDK_LINE_SOLID, GDK_CAP_BUTT⟩ true (-50) (-50) 200 200 0 23360,
       gdk_draw_arc ⟨1, 0, GDK_LINE_SOLID, GDK_CAP_BUTT⟩ true 950 (-50) 200 200 0 23360] := by
  have h := (C4_step_and_repeat sample_host
    (sample_image (sample_circle 2)
      [sample_net FLASH LINEARx1 0 0 0 (sample_layer DARK 2 1 10 0)])
    100 50 50 POSITIVE
    (sample_net OFF LINEARx1 0 0 0 (sample_layer DARK 1 1 0 0))
    (sample_net FLASH LINEARx1 0 0 0 (sample_layer DARK 2 1 10 0))
    (sample_circle 2) 2 1 rfl rfl (by decide) (by decide)
    (by simp [sample_image, sample_net])
    (by intro c; simp [sample_circle])
    rfl rfl).2.2.1
  rw [h]
  have e : sr_tiles 2 1 = [(0, 0), (1, 0)] := by decide
  have r200 : round ((2 : double) * ((100 : ℤ) : double)) = 200 := by
    norm_num [round_eq, to_gint, double.val_mul, double.val_intCast, double.val_lit, fl_lit]
  have r1050 : round (((1 : ℕ) : double) * 10 * ((100 : ℤ) : double) + 50) = 1050 := by
    norm_num [round_eq, to_gint, double.val_mul, double.val_add, double.val_intCast,
      double.val_natCast, double.val_lit, fl_lit, fl_zero, fl_one]
  have d1 : Int.tdiv 200 2 = 100 := by decide
  rw [e]
  simp [flash_draw, flash_net, blank_state, sample_circle, sample_net, sample_layer,
    sample_image, net_pixel, gerbv_gdk_draw_circle, opaque_pixel, transparent_pixel,
    full_circle, zero_add_d, zero_sub_d, neg_zero_d, natCast_zero_d, zero_mul_d, sub_zero_d,
    add_zero_d, round_zero, round_lit, r200, r1050, d1]

/-- C5 as stated fails at N = 0: on a host with GLib's allocator the run made
of a fill start declaring 0 corners and a fill end emits no polygon: the
request of zero bytes returns NULL, the source reports `Malloc failed` with
`GERB_FATAL_ERROR`, and the background fill is the only drawing call. -/
theorem C5_counterexample :
    glib_host.g_malloc 0 = false ∧
    (image2pixmap glib_host
      (some (sample_image (sample_circle 2)
        [sample_net OFF PAREA_START 0 0 0 (sample_layer DARK 1 1 0 0),
         sample_net OFF PAREA_END 0 0 0 (sample_layer DARK 1 1 0 0)]))
      100 0 0 POSITIVE).ops =
      [gdk_draw_rectangle ⟨0, 0, GDK_LINE_SOLID, GDK_CAP_BUTT⟩ true 0 0 (-1) (-1)] ∧
    (image2pixmap glib_host
      (some (sample_image (sample_circle 2)
        [sample_net OFF PAREA_START 0 0 0 (sample_layer DARK 1 1 0 0),
         sample_net OFF PAREA_END 0 0 0 (sample_layer DARK 1 1 0 0)]))
      100 0 0 POSITIVE).fatal = true := by
  obtain ⟨h1, h2⟩ := image2pixmap_start_fails glib_host
    (sample_image (sample_circle 2)
      [sample_net OFF PAREA_START 0 0 0 (sample_layer DARK 1 1 0 0),
       sample_net OFF PAREA_END 0 0 0 (sample_layer DARK 1 1 0 0)])
    100 0 0 POSITIVE
    (sample_net OFF LINEARx1 0 0 0 (sample_layer DARK 1 1 0 0))
    (sample_net OFF PAREA_START 0 0 0 (sample_layer DARK 1 1 0 0))
    [sample_net OFF PAREA_END 0 0 0 (sample_layer DARK 1 1 0 0)]
    rfl rfl rfl rfl (by decide)
  refine ⟨by decide, ?_, h1⟩
  rw [h2]
  simp [opaque_pixel, transparent_pixel]

/-- C5, amended: a run made of a POLYGON_FILL_START net declaring N corners,
then exactly N nets that are neither a fill start nor a fill end, then a
POLYGON_FILL_END net, all on layers without step-and-repeat tiling, makes,
when the allocation of the N-entry vertex array succeeds (with GLib: when
N >= 1), exactly one drawing call, from whatever state it is entered: one
filled polygon whose vertex list is the list of the device-space stop points
of the N nets, in net order (so it has exactly N vertices), the k-th being
`(round((offsetA + x_k) * scale + trans_x), round((-offsetB - y_k) * scale + trans_y))`
in `double` arithmetic.  An image whose net list is the head node followed by
such a run yields the background fill and that polygon, and `image2pixmap`
returns 1.  When the allocation fails, the call ends in `GERB_FATAL_ERROR`
with the background fill as its only drawing call. -/
theorem C5_polygon_fill_run (H : Host) (image : gerb_image) (scale : ℤ)
    (trans_x trans_y : double) (polarity : polarity_t) (head start stop : gerb_net)
    (nets : List gerb_net) (N : ℕ) (st : render_state)
    (hstart : start.interpolation = PAREA_START)
    (hN : start.nuf_pcorners = N) (hlen : nets.length = N)
    (hstop : stop.interpolation = PAREA_END)
    (hnets : ∀ n ∈ nets, n.interpolation ≠ PAREA_START ∧ n.interpolation ≠ PAREA_END)
    (hsr : ∀ n ∈ start :: stop :: nets,
      n.layer.stepAndRepeat.X = 1 ∧ n.layer.stepAndRepeat.Y = 1) :
    (H.g_malloc (N : ℤ) = true →
      (run_tiles H image scale trans_x trans_y polarity
          ((start :: nets ++ [stop]).flatMap net_tiles) st).2 = false ∧
      (run_tiles H image scale trans_x trans_y polarity
          ((start :: nets ++ [stop]).flatMap net_tiles) st).1.ops = st.ops ++
        [gdk_draw_polygon
          ⟨net_pixel stop.layer.polarity polarity, 1, GDK_LINE_SOLID, GDK_CAP_PROJECTING⟩
          true
          (nets.map fun n => { x := device_x image scale trans_x n.stop_x 0,
                               y := device_y image scale trans_y n.stop_y 0 })] ∧
      (image.netlist = head :: (start :: nets ++ [stop]) →
        (image2pixmap H (some image) scale trans_x trans_y polarity).ret = 1 ∧
        (image2pixmap H (some image) scale trans_x trans_y polarity).fatal = false ∧
        (image2pixmap H (some image) scale trans_x trans_y polarity).ops =
          [gdk_draw_rectangle
            ⟨if polarity = NEGATIVE then transparent_pixel else opaque_pixel, 0,
              GDK_LINE_SOLID, GDK_CAP_BUTT⟩ true 0 0 (-1) (-1),
           gdk_draw_polygon
            ⟨net_pixel stop.layer.polarity polarity, 1, GDK_LINE_SOLID, GDK_CAP_PROJECTING⟩
            true
            (nets.map fun n => { x := device_x image scale trans_x n.stop_x 0,
                                 y := device_y image scale trans_y n.stop_y 0 })])) ∧
    (nets.map fun n => ({ x := device_x image scale trans_x n.stop_x 0,
                          y := device_y image scale trans_y n.stop_y 0 } : GdkPoint)).length
      = N ∧
    (∀ n ∈ nets,
      device_x image scale trans_x n.stop_x 0 =
        round ((image.info.offsetA + n.stop_x) * (scale : double) + trans_x) ∧
      device_y image scale trans_y n.stop_y 0 =
        round ((-image.info.offsetB - n.stop_y) * (scale : double) + trans_y)) ∧
    (H.g_malloc (N : ℤ) = false →
      image.netlist = head :: (start :: nets ++ [stop]) →
      (image2pixmap H (some image) scale trans_x trans_y polarity).fatal = true ∧
      (image2pixmap H (some image) scale trans_x trans_y polarity).ops =
        [gdk_draw_rectangle
          ⟨if polarity = NEGATIVE then transparent_pixel else opaque_pixel, 0,
            GDK_LINE_SOLID, GDK_CAP_BUTT⟩ true 0 0 (-1) (-1)]) := by
  refine ⟨fun hm => ⟨?_, ?_, ?_⟩, by simpa using hlen, ?_, ?_⟩
  · obtain ⟨st1, h1, -, -, -⟩ := fill_run H image scale trans_x trans_y polarity start stop
      nets st hstart (by rw [hN]; exact hm) hstop hnets hsr
    rw [h1]
  · obtain ⟨st1, h1, -, -, h4⟩ := fill_run H image scale trans_x trans_y polarity start stop
      nets st hstart (by rw [hN]; exact hm) hstop hnets hsr
    rw [h1]; exact h4
  · intro hnl
    obtain ⟨st1, h1, -, -, h4⟩ := fill_run H image scale trans_x trans_y polarity start stop
      nets (render_init polarity) hstart (by rw [hN]; exact hm) hstop hnets hsr
    have hret : (image2pixmap H (some image) scale trans_x trans_y polarity).ret = 1 := by
      rw [image2pixmap_cons H image scale trans_x trans_y polarity head _ hnl, h1]
      rfl
    refine ⟨hret, image2pixmap_not_fatal H (some image) scale trans_x trans_y polarity hret, ?_⟩
    rw [image2pixmap_cons H image scale trans_x trans_y polarity head _ hnl, h1]
    simp only [h4]
    simp [render_init, gdk_gc_set_foreground, gdk_gc_new]
  · intro n _
    simp [device_x, device_y, add_zero_d, sub_zero_d]
  · intro hm hnl
    exact image2pixmap_start_fails H image scale trans_x trans_y polarity head start
      (nets ++ [stop]) hnl hstart (hsr start (by simp)).1 (hsr start (by simp)).2
      (by rw [hN]; exact hm)

/-- Witness of C5: a fill run declaring 2 corners with the two stop points
(1,0) and (1,1), scale 100, no translation: one filled polygon with the two
vertices (100,0) and (100,-100). -/
theorem C5_polygon_fill_run_witness :
    (image2pixmap sample_host
      (some (sample_image (sample_circle 2)
        (sample_net OFF PAREA_START 0 0 2 (sample_layer DARK 1 1 0 0) ::
          [sample_net ON LINEARx1 1 0 0 (sample_layer DARK 1 1 0 0),
           sample_net ON LINEARx1 1 1 0 (sample_layer DARK 1 1 0 0)] ++
          [sample_net OFF PAREA_END 0 0 0 (sample_layer DARK 1 1 0 0)])))
      100 0 0 POSITIVE).ops =
      [gdk_draw_rectangle ⟨0, 0, GDK_LINE_SOLID, GDK_CAP_BUTT⟩ true 0 0 (-1) (-1),
       gdk_draw_polygon ⟨1, 1, GDK_LINE_SOLID, GDK_CAP_PROJECTING⟩ true
         [{ x := 100, y := 0 }, { x := 100, y := -100 }]] := by
  have h := (((C5_polygon_fill_run sample_host
    (sample_image (sample_circle 2)
      (sample_net OFF PAREA_START 0 0 2 (sample_layer DARK 1 1 0 0) ::
        [sample_net ON LINEARx1 1 0 0 (sample_layer DARK 1 1 0 0),
         sample_net ON LINEARx1 1 1 0 (sample_layer DARK 1 1 0 0)] ++
        [sample_net OFF PAREA_END 0 0 0 (sample_layer DARK 1 1 0 0)]))
    100 0 0 POSITIVE
    (sample_net OFF LINEARx1 0 0 0 (sample_layer DARK 1 1 0 0))
    (sample_net OFF PAREA_START 0 0 2 (sample_layer DARK 1 1 0 0))
    (sample_net OFF PAREA_END 0 0 0 (sample_layer DARK 1 1 0 0))
    [sample_net ON LINEARx1 1 0 0 (sample_layer DARK 1 1 0 0),
     sample_net ON LINEARx1 1 1 0 (sample_layer DARK 1 1 0 0)]
    2 (render_init POSITIVE) rfl rfl rfl rfl
    (by intro n hn; simp at hn; rcases hn with h | h <;> subst h <;> simp [sample_net])
    (by
      intro n hn
      simp at hn
      rcases hn with h | h | h | h <;> subst h <;> simp [sample_net, sample_layer])).1
    rfl).2.2
    rfl).2.2
  rw [h]
  have r100 : round ((1 : double) * ((100 : ℤ) : double)) = 100 := by
    norm_num [round_eq, to_gint, double.val_mul, double.val_intCast, double.val_lit, fl_lit]
  have c100 : ⌈(-100 : ℚ)⌉ = -100 := by
    rw [Int.ceil_eq_iff]
    norm_num
  have rm100 : round (-(1 : double) * ((100 : ℤ) : double)) = -100 := by
    norm_num [round_eq, to_gint, double.val_mul, double.val_neg, double.val_intCast,
      double.val_lit, fl_lit, fl_neg, c100]
  simp [sample_image, sample_net, sample_layer, net_pixel, device_x, device_y,
    opaque_pixel, transparent_pixel, zero_add_d, add_zero_d, sub_zero_d, zero_sub_d,
    neg_zero_d, zero_mul_d, round_zero, r100, rm100]

/-- C6: when the allocation of the local parameter copy succeeds,
`gerbv_gdk_draw_amacro` returns 1 exactly when every `PRIM` instruction of the
program has a code in {1, 2, 4, 5, 6, 7, 20, 21, 22}, and 0 otherwise, whatever
the other instructions, the parameters and the stack contents are. -/
theorem C6_amacro_return_value (H : Host) (gc : GdkGC) (program : List instruction_t)
    (nuf_push : ℕ) (parameters : ℤ → double) (scale x y : ℤ) (hm : H.malloc = true) :
    (( gerbv_gdk_draw_amacro H gc program nuf_push parameters scale x y).ret = 1 ↔
      ∀ ip ∈ program, ip.opcode = opcodes.PRIM →
        ip.ival ∈ ([1, 2, 4, 5, 6, 7, 20, 21, 22] : List ℤ)) ∧
    (( gerbv_gdk_draw_amacro H gc program nuf_push parameters scale x y).ret = 0 ↔
      ¬ ∀ ip ∈ program, ip.opcode = opcodes.PRIM →
        ip.ival ∈ ([1, 2, 4, 5, 6, 7, 20, 21, 22] : List ℤ)) := by
  have hall : all_prims_known program = true ↔
      ∀ ip ∈ program, ip.opcode = opcodes.PRIM →
        ip.ival ∈ ([1, 2, 4, 5, 6, 7, 20, 21, 22] : List ℤ) := by
    simp only [all_prims_known, known_prim, List.all_eq_true, decide_eq_true_eq,
      List.mem_cons, List.mem_singleton, List.not_mem_nil, or_false]
  have hret : ( gerbv_gdk_draw_amacro H gc program nuf_push parameters scale x y).ret =
      if all_prims_known program = true then 1 else 0 := by
    simp [ gerbv_gdk_draw_amacro, hm, amacro_run_handled, amacro_init]
  rw [hret, ← hall]
  by_cases h : all_prims_known program = true <;> simp [h]

/-- Witness of C6: a program whose only primitive has the unknown code 3
returns 0. -/
theorem C6_amacro_return_value_witness :
    ( gerbv_gdk_draw_amacro sample_host gdk_gc_new
      [instr_push 1, instr_i opcodes.PRIM 3] 2 (fun _ => 0) 100 0 0).ret = 0 :=
  ((C6_amacro_return_value sample_host gdk_gc_new
      [instr_push 1, instr_i opcodes.PRIM 3] 2 (fun _ => 0) 100 0 0 rfl).2).2
    (by simp [instr_push, instr_i])

/-- C7: a `PRIM` instruction with an unrecognised code does not stop the
evaluation.  The instruction itself emits no drawing call, leaves the stack
empty (`sp = 0`) and clears `handled`; the instructions after it are all
executed, and the drawing calls of the whole program are those of running the
instructions before it, resetting the stack, and running the instructions
after it. -/
theorem C7_unknown_primitive_continues (H : Host) (gc : GdkGC) (scale x y : ℤ)
    (pre post : List instruction_t) (ip : instruction_t) (st : amacro_state)
    (hop : ip.opcode = opcodes.PRIM) (hk : known_prim ip.ival = false) :
    (amacro_step H gc scale x y st ip).ops = st.ops ∧
    (amacro_step H gc scale x y st ip).s.sp = 0 ∧
    (amacro_step H gc scale x y st ip).handled = 0 ∧
    amacro_run H gc scale x y (pre ++ ip :: post) st =
      amacro_run H gc scale x y post
        (amacro_step H gc scale x y (amacro_run H gc scale x y pre st) ip) ∧
    (amacro_run H gc scale x y (pre ++ ip :: post) st).ops =
      (amacro_run H gc scale x y post
        (stack_reset (amacro_run H gc scale x y pre st))).ops := by
  refine ⟨?_, ?_, ?_, ?_, ?_⟩
  · rw [amacro_step_unknown H gc scale x y st ip hop hk]; rfl
  · rw [amacro_step_unknown H gc scale x y st ip hop hk]; rfl
  · rw [amacro_step_unknown H gc scale x y st ip hop hk]
  · rw [amacro_run_append, amacro_run_cons]
  · rw [amacro_run_append, amacro_run_cons, amacro_step_unknown H gc scale x y _ ip hop hk]
    exact amacro_run_same H gc scale x y post _ _ rfl rfl rfl

/-- Witness of C7: in `PUSH 1, PUSH 2, PRIM 3, PUSH 1, PUSH 2, PUSH 0, PUSH 0, PRIM 1`
the unknown primitive 3 is passed over and the circle of primitive 1 is still drawn. -/
theorem C7_unknown_primitive_continues_witness :
    (amacro_run sample_host gdk_gc_new 100 0 0
      ([instr_push 1, instr_push 2] ++ instr_i opcodes.PRIM 3 ::
        [instr_push 1, instr_push 2, instr_push 0, instr_push 0, instr_i opcodes.PRIM 1])
      (amacro_init 4 fun _ => 0)).ops =
    (amacro_run sample_host gdk_gc_new 100 0 0
      [instr_push 1, instr_push 2, instr_push 0, instr_push 0, instr_i opcodes.PRIM 1]
      (stack_reset (amacro_run sample_host gdk_gc_new
        100 0 0 [instr_push 1, instr_push 2] (amacro_init 4 fun _ => 0)))).ops :=
  (C7_unknown_primitive_continues sample_host
    gdk_gc_new 100 0 0 [instr_push 1, instr_push 2]
    [instr_push 1, instr_push 2, instr_push 0, instr_push 0, instr_i opcodes.PRIM 1]
    (instr_i opcodes.PRIM 3) (amacro_init 4 fun _ => 0) rfl (by decide)).2.2.2.2

/-- C8: on a stack that holds at least two values, `a` on top and `b` directly
below, the `SUB` instruction lowers the depth by one and leaves `b - a` on top
(the value popped first is the subtrahend); the values below the two operands,
the parameter copy, the drawing calls and `handled` are untouched.  Pushing 10,
then 3, then `SUB` leaves 7 on top of a stack of depth 1. -/
theorem C8_sub_semantics (H : Host) (gc : GdkGC) (scale x y : ℤ) (st : amacro_state)
    (ip : instruction_t) (a b : double) (hop : ip.opcode = opcodes.SUB)
    (_hsp : 2 ≤ st.s.sp) (ha : st.s.stack (st.s.sp - 1) = a)
    (hb : st.s.stack (st.s.sp - 2) = b) :
    (amacro_step H gc scale x y st ip).s.sp = st.s.sp - 1 ∧
    (amacro_step H gc scale x y st ip).s.top = b - a ∧
    (∀ i, i < st.s.sp - 2 →
      (amacro_step H gc scale x y st ip).s.stack i = st.s.stack i) ∧
    (amacro_step H gc scale x y st ip).lp = st.lp ∧
    (amacro_step H gc scale x y st ip).ops = st.ops ∧
    (amacro_step H gc scale x y st ip).handled = st.handled ∧
    (amacro_run H gc scale x y [instr_push 10, instr_push 3, instr_i opcodes.SUB 0]
      (amacro_init 2 fun _ => 0)).s.top = 7 ∧
    (amacro_run H gc scale x y [instr_push 10, instr_push 3, instr_i opcodes.SUB 0]
      (amacro_init 2 fun _ => 0)).s.sp = 1 := by
  have e : st.s.sp - 1 - 1 = st.s.sp - 2 := by ring
  refine ⟨?_, ?_, ?_, ?_, ?_, ?_, ?_, ?_⟩
  · simp [amacro_step, hop, push, pop]
  · simp [amacro_step, hop, push, pop, macro_stack_t.top, e, ha, hb]
  · intro i hi
    have : i ≠ st.s.sp - 1 - 1 := by omega
    simp [amacro_step, hop, push, pop, this]
  · simp [amacro_step, hop]
  · simp [amacro_step, hop]
  · simp [amacro_step, hop]
  · simp [amacro_run, amacro_step, amacro_init, new_stack, instr_push, instr_i, push, pop,
      macro_stack_t.top]
    rw [double.eq_iff_val]
    norm_num [double.val_sub, double.val_lit, fl_lit]
  · simp [amacro_run, amacro_step, amacro_init, new_stack, instr_push, instr_i, push, pop]

/-- Witness of C8: the stack holding 10 below 3, where `SUB` leaves 10 - 3. -/
theorem C8_sub_semantics_witness :
    (amacro_step sample_host gdk_gc_new 100 0 0
      { s := { stack := fun i => if i = 0 then 10 else if i = 1 then 3 else 0,
               sp := 2, size := 12 },
        lp := fun _ => 0, handled := 1, ops := [] }
      (instr_i opcodes.SUB 0)).s.top = 10 - 3 :=
  (C8_sub_semantics sample_host gdk_gc_new 100 0 0
    { s := { stack := fun i => if i = 0 then 10 else if i = 1 then 3 else 0,
             sp := 2, size := 12 },
      lp := fun _ => 0, handled := 1, ops := [] }
    (instr_i opcodes.SUB 0) 3 10 rfl (by decide) (by simp) (by simp)).2.1

/-- C9 as stated fails: pushing 10, then 3, then `SUB` does not leave
second-pushed minus first-pushed (3 - 10) on the stack. -/
theorem C9_counterexample :
    (amacro_run sample_host gdk_gc_new 100 0 0
      [instr_push 10, instr_push 3, instr_i opcodes.SUB 0]
      (amacro_init 2 fun _ => 0)).s.top ≠ 3 - 10 := by
  simp [amacro_run, amacro_step, amacro_init, new_stack, instr_push, instr_i, push, pop,
    macro_stack_t.top]
  rw [double.eq_iff_val]
  norm_num [double.val_sub, double.val_lit, fl_lit, fl_neg]

/-- C9, amended: a macro program that pushes `u`, then pushes `v`, then
executes `SUB` leaves first-pushed minus second-pushed, `u - v`, as the only
value on the stack. -/
theorem C9_push_push_sub (H : Host) (gc : GdkGC) (scale x y : ℤ) (nuf_push : ℕ)
    (parameters : ℤ → double) (u v : double) :
    (amacro_run H gc scale x y [instr_push u, instr_push v, instr_i opcodes.SUB 0]
      (amacro_init nuf_push parameters)).s.top = u - v ∧
    (amacro_run H gc scale x y [instr_push u, instr_push v, instr_i opcodes.SUB 0]
      (amacro_init nuf_push parameters)).s.sp = 1 := by
  constructor <;>
    simp [amacro_run, amacro_step, amacro_init, new_stack, instr_push, instr_i, push, pop,
      macro_stack_t.top]

/-- C10: `gerbv_gdk_draw_amacro` leaves the aperture's parameter vector as it
was, whatever the program does (the result records the caller's array after the
call); `PPOP i` stores the popped value in the private copy `lp` only, and a
later `PPUSH i` of the same evaluation, with no `PPOP i` in between, pushes
that popped value. -/
theorem C10_parameters_unchanged (H : Host) (gc : GdkGC) (program mid : List instruction_t)
    (nuf_push : ℕ) (parameters : ℤ → double) (scale x y : ℤ) (st : amacro_state) (i : ℤ)
    (hmid : ∀ ip ∈ mid, ip.opcode = opcodes.PPOP → ip.ival ≠ i) :
    ( gerbv_gdk_draw_amacro H gc program nuf_push parameters scale x y).parameters
      = parameters ∧
    (amacro_step H gc scale x y st (instr_i opcodes.PPOP i)).lp (i - 1) = st.s.top ∧
    (amacro_step H gc scale x y
      (amacro_run H gc scale x y (instr_i opcodes.PPOP i :: mid) st)
      (instr_i opcodes.PPUSH i)).s.top = st.s.top := by
  refine ⟨?_, ?_, ?_⟩
  · unfold gerbv_gdk_draw_amacro
    split_ifs <;> rfl
  · simp [amacro_step, instr_i, pop, macro_stack_t.top]
  · have h1 := amacro_run_lp_other H gc scale x y mid
      (amacro_step H gc scale x y st (instr_i opcodes.PPOP i)) i hmid
    have h2 : (amacro_step H gc scale x y st (instr_i opcodes.PPOP i)).lp (i - 1)
        = st.s.top := by
      simp [amacro_step, instr_i, pop, macro_stack_t.top]
    have h3 : ∀ st1 : amacro_state,
        (amacro_step H gc scale x y st1 (instr_i opcodes.PPUSH i)).s.top = st1.lp (i - 1) := by
      intro st1
      simp [amacro_step, instr_i, push, macro_stack_t.top]
    rw [amacro_run_cons, h3, h1, h2]

/-- Witness of C10: `PUSH 5, PPOP 1, PUSH 7, PPUSH 1` on parameters that are all
zero pushes the popped 5, and the parameters handed in are still all zero. -/
theorem C10_parameters_unchanged_witness :
    ( gerbv_gdk_draw_amacro sample_host gdk_gc_new
      [instr_push 5, instr_i opcodes.PPOP 1, instr_push 7, instr_i opcodes.PPUSH 1]
      2 (fun _ => 0) 100 0 0).parameters = (fun _ => 0) ∧
    (amacro_step sample_host gdk_gc_new 100 0 0
      (amacro_run sample_host gdk_gc_new 100 0 0
        (instr_i opcodes.PPOP 1 :: [instr_push 7])
        (amacro_step sample_host gdk_gc_new 100 0 0
          (amacro_init 2 fun _ => 0) (instr_push 5)))
      (instr_i opcodes.PPUSH 1)).s.top =
    (amacro_step sample_host gdk_gc_new 100 0 0
      (amacro_init 2 fun _ => 0) (instr_push 5)).s.top :=
  have h := C10_parameters_unchanged sample_host
    gdk_gc_new
    [instr_push 5, instr_i opcodes.PPOP 1, instr_push 7, instr_i opcodes.PPUSH 1]
    [instr_push 7] 2 (fun _ => 0) 100 0 0
    (amacro_step sample_host gdk_gc_new 100 0 0
      (amacro_init 2 fun _ => 0) (instr_push 5)) 1
    (by simp [instr_push])
  ⟨h.1, h.2.2⟩

/-! ## Lemmas on the rotation of a point

The values of `glib_host` at the angles of its table, each with the
certificate of its roundings; the rotations evaluated with them; and the
bound on rotating a point there and back. -/

/-- The constant `M_PI` of `glib_host`. -/
theorem glib_M_PI : double.val (glib_host.M_PI) = 884279719003555 / 281474976710656 := by
  show double.val (double.of _) = _
  rw [double.val_of]
  exact fl_cert (884279719003555 / 281474976710656) (884279719003555 / 281474976710656) (1)
    7074237752028440 (by norm_num) (by norm_num) (by norm_num) (by norm_num) (by norm_num)
    (by norm_num)

/-- The angle `-t * M_PI / 180.0` of `rotate_point` for `t` = 45 degrees. -/
theorem glib_angle_45 : double.val (((-((45 : ℤ) : double)) * glib_host.M_PI) / 180) =
    -(884279719003555 / 1125899906842624) := by
  have h1 : double.val (((45 : ℤ) : double)) = 45 := by
    rw [double.val_int 45 (by norm_num)]
    norm_num
  have h2 : double.val (-((45 : ℤ) : double)) = -45 := by
    rw [double.val_neg, h1]
  have h3 : double.val (glib_host.M_PI) = 884279719003555 / 281474976710656 := glib_M_PI
  have h4 : double.val ((-((45 : ℤ) : double)) * glib_host.M_PI) = -(4974073419394997 /
    35184372088832) := by
    rw [double.val_mul, h2, h3]
    rw [show ((-45) * (884279719003555 / 281474976710656) : ℚ) = -(39792587355159975 /
      281474976710656) by norm_num]
    exact fl_cert_neg (39792587355159975 / 281474976710656) (4974073419394997 / 35184372088832)
      (7) 4974073419394997 (by norm_num) (by norm_num) (by norm_num) (by norm_num) (by norm_num)
      (by norm_num)
  have h5 : double.val (180) = 180 := double.val_lit 180 (by norm_num)
  have h6 : double.val (((-((45 : ℤ) : double)) * glib_host.M_PI) / 180) = -(884279719003555 /
    1125899906842624) := by
    rw [double.val_div, h4, h5]
    rw [show ((-(4974073419394997 / 35184372088832)) / 180 : ℚ) = -(4974073419394997 /
      6333186975989760) by norm_num]
    exact fl_cert_neg (4974073419394997 / 6333186975989760) (884279719003555 / 1125899906842624)
      (-1) 7074237752028440 (by norm_num) (by norm_num) (by norm_num) (by norm_num) (by norm_num)
      (by norm_num)
  exact h6

/-- The sine of `glib_host` at the angle for `t` = 45 degrees. -/
theorem glib_sin_45 : double.val (glib_host.sin (((-((45 : ℤ) : double)) * glib_host.M_PI) /
    180)) = -(1592262918131443 / 2251799813685248) := by
  show double.val (libm_sin _) = _
  unfold libm_sin
  rw [glib_angle_45]
  norm_num [double.val_of, double.val_lit, double.val_neg, fl_lit]
  rw [show (-(1592262918131443 / 2251799813685248) : ℚ) = -(1592262918131443 / 2251799813685248)
    by norm_num]
  exact fl_cert_neg (1592262918131443 / 2251799813685248) (1592262918131443 / 2251799813685248)
    (-1) 6369051672525772 (by norm_num) (by norm_num) (by norm_num) (by norm_num) (by norm_num)
    (by norm_num)

/-- The cosine of `glib_host` at the angle for `t` = 45 degrees. -/
theorem glib_cos_45 : double.val (glib_host.cos (((-((45 : ℤ) : double)) * glib_host.M_PI) /
    180)) = 6369051672525773 / 9007199254740992 := by
  show double.val (libm_cos _) = _
  unfold libm_cos
  rw [glib_angle_45]
  norm_num [double.val_of, double.val_lit, double.val_neg, fl_lit]
  exact fl_cert (6369051672525773 / 9007199254740992) (6369051672525773 / 9007199254740992) (-1)
    6369051672525773 (by norm_num) (by norm_num) (by norm_num) (by norm_num) (by norm_num)
    (by norm_num)

/-- The angle `-t * M_PI / 180.0` of `rotate_point` for `t` = -45 degrees. -/
theorem glib_angle_m45 : double.val (((-(((-45) : ℤ) : double)) * glib_host.M_PI) / 180) =
    884279719003555 / 1125899906842624 := by
  have h1 : double.val ((((-45) : ℤ) : double)) = -45 := by
    rw [double.val_int (-45) (by norm_num)]
    norm_num
  have h2 : double.val (-(((-45) : ℤ) : double)) = 45 := by
    rw [double.val_neg, h1]
    norm_num
  have h3 : double.val (glib_host.M_PI) = 884279719003555 / 281474976710656 := glib_M_PI
  have h4 : double.val ((-(((-45) : ℤ) : double)) * glib_host.M_PI) = 4974073419394997 /
    35184372088832 := by
    rw [double.val_mul, h2, h3]
    rw [show (45 * (884279719003555 / 281474976710656) : ℚ) = 39792587355159975 / 281474976710656
      by norm_num]
    exact fl_cert (39792587355159975 / 281474976710656) (4974073419394997 / 35184372088832) (7)
      4974073419394997 (by norm_num) (by norm_num) (by norm_num) (by norm_num) (by norm_num)
      (by norm_num)
  have h5 : double.val (180) = 180 := double.val_lit 180 (by norm_num)
  have h6 : double.val (((-(((-45) : ℤ) : double)) * glib_host.M_PI) / 180) = 884279719003555 /
    1125899906842624 := by
    rw [double.val_div, h4, h5]
    rw [show ((4974073419394997 / 35184372088832) / 180 : ℚ) = 4974073419394997 /
      6333186975989760 by norm_num]
    exact fl_cert (4974073419394997 / 6333186975989760) (884279719003555 / 1125899906842624) (-1)
      7074237752028440 (by norm_num) (by norm_num) (by norm_num) (by norm_num) (by norm_num)
      (by norm_num)
  exact h6

/-- The sine of `glib_host` at the angle for `t` = -45 degrees. -/
theorem glib_sin_m45 : double.val (glib_host.sin (((-(((-45) : ℤ) : double)) * glib_host.M_PI) /
    180)) = 1592262918131443 / 2251799813685248 := by
  show double.val (libm_sin _) = _
  unfold libm_sin
  rw [glib_angle_m45]
  norm_num [double.val_of, double.val_lit, double.val_neg, fl_lit]
  exact fl_cert (1592262918131443 / 2251799813685248) (1592262918131443 / 2251799813685248) (-1)
    6369051672525772 (by norm_num) (by norm_num) (by norm_num) (by norm_num) (by norm_num)
    (by norm_num)

/-- The cosine of `glib_host` at the angle for `t` = -45 degrees. -/
theorem glib_cos_m45 : double.val (glib_host.cos (((-(((-45) : ℤ) : double)) * glib_host.M_PI) /
    180)) = 6369051672525773 / 9007199254740992 := by
  show double.val (libm_cos _) = _
  unfold libm_cos
  rw [glib_angle_m45]
  norm_num [double.val_of, double.val_lit, double.val_neg, fl_lit]
  exact fl_cert (6369051672525773 / 9007199254740992) (6369051672525773 / 9007199254740992) (-1)
    6369051672525773 (by norm_num) (by norm_num) (by norm_num) (by norm_num) (by norm_num)
    (by norm_num)

/-- The angle `-t * M_PI / 180.0` of `rotate_point` for `t` = 90 degrees. -/
theorem glib_angle_90 : double.val (((-((90 : ℤ) : double)) * glib_host.M_PI) / 180) =
    -(884279719003555 / 562949953421312) := by
  have h1 : double.val (((90 : ℤ) : double)) = 90 := by
    rw [double.val_int 90 (by norm_num)]
    norm_num
  have h2 : double.val (-((90 : ℤ) : double)) = -90 := by
    rw [double.val_neg, h1]
  have h3 : double.val (glib_host.M_PI) = 884279719003555 / 281474976710656 := glib_M_PI
  have h4 : double.val ((-((90 : ℤ) : double)) * glib_host.M_PI) = -(4974073419394997 /
    17592186044416) := by
    rw [double.val_mul, h2, h3]
    rw [show ((-90) * (884279719003555 / 281474976710656) : ℚ) = -(39792587355159975 /
      140737488355328) by norm_num]
    exact fl_cert_neg (39792587355159975 / 140737488355328) (4974073419394997 / 17592186044416)
      (8) 4974073419394997 (by norm_num) (by norm_num) (by norm_num) (by norm_num) (by norm_num)
      (by norm_num)
  have h5 : double.val (180) = 180 := double.val_lit 180 (by norm_num)
  have h6 : double.val (((-((90 : ℤ) : double)) * glib_host.M_PI) / 180) = -(884279719003555 /
    562949953421312) := by
    rw [double.val_div, h4, h5]
    rw [show ((-(4974073419394997 / 17592186044416)) / 180 : ℚ) = -(4974073419394997 /
      3166593487994880) by norm_num]
    exact fl_cert_neg (4974073419394997 / 3166593487994880) (884279719003555 / 562949953421312)
      (0) 7074237752028440 (by norm_num) (by norm_num) (by norm_num) (by norm_num) (by norm_num)
      (by norm_num)
  exact h6

/-- The sine of `glib_host` at the angle for `t` = 90 degrees. -/
theorem glib_sin_90 : double.val (glib_host.sin (((-((90 : ℤ) : double)) * glib_host.M_PI) /
    180)) = -1 := by
  show double.val (libm_sin _) = _
  unfold libm_sin
  rw [glib_angle_90]
  norm_num [double.val_of, double.val_lit, double.val_neg, fl_lit]

/-- The cosine of `glib_host` at the angle for `t` = 90 degrees. -/
theorem glib_cos_90 : double.val (glib_host.cos (((-((90 : ℤ) : double)) * glib_host.M_PI) /
    180)) = 4967757600021511 / 81129638414606681695789005144064 := by
  show double.val (libm_cos _) = _
  unfold libm_cos
  rw [glib_angle_90]
  norm_num [double.val_of, double.val_lit, double.val_neg, fl_lit]
  exact fl_cert (4967757600021511 / 81129638414606681695789005144064) (4967757600021511 /
    81129638414606681695789005144064) (-54) 4967757600021511 (by norm_num) (by norm_num)
    (by norm_num) (by norm_num) (by norm_num) (by norm_num)

/-- The angle `-t * M_PI / 180.0` of `rotate_point` for `t` = 180 degrees. -/
theorem glib_angle_180 : double.val (((-((180 : ℤ) : double)) * glib_host.M_PI) / 180) =
    -(884279719003555 / 281474976710656) := by
  have h1 : double.val (((180 : ℤ) : double)) = 180 := by
    rw [double.val_int 180 (by norm_num)]
    norm_num
  have h2 : double.val (-((180 : ℤ) : double)) = -180 := by
    rw [double.val_neg, h1]
  have h3 : double.val (glib_host.M_PI) = 884279719003555 / 281474976710656 := glib_M_PI
  have h4 : double.val ((-((180 : ℤ) : double)) * glib_host.M_PI) = -(4974073419394997 /
    8796093022208) := by
    rw [double.val_mul, h2, h3]
    rw [show ((-180) * (884279719003555 / 281474976710656) : ℚ) = -(39792587355159975 /
      70368744177664) by norm_num]
    exact fl_cert_neg (39792587355159975 / 70368744177664) (4974073419394997 / 8796093022208) (9)
      4974073419394997 (by norm_num) (by norm_num) (by norm_num) (by norm_num) (by norm_num)
      (by norm_num)
  have h5 : double.val (180) = 180 := double.val_lit 180 (by norm_num)
  have h6 : double.val (((-((180 : ℤ) : double)) * glib_host.M_PI) / 180) = -(884279719003555 /
    281474976710656) := by
    rw [double.val_div, h4, h5]
    rw [show ((-(4974073419394997 / 8796093022208)) / 180 : ℚ) = -(4974073419394997 /
      1583296743997440) by norm_num]
    exact fl_cert_neg (4974073419394997 / 1583296743997440) (884279719003555 / 281474976710656)
      (1) 7074237752028440 (by norm_num) (by norm_num) (by norm_num) (by norm_num) (by norm_num)
      (by norm_num)
  exact h6

/-- The sine of `glib_host` at the angle for `t` = 180 degrees. -/
theorem glib_sin_180 : double.val (glib_host.sin (((-((180 : ℤ) : double)) * glib_host.M_PI) /
    180)) = -(4967757600021511 / 40564819207303340847894502572032) := by
  show double.val (libm_sin _) = _
  unfold libm_sin
  rw [glib_angle_180]
  norm_num [double.val_of, double.val_lit, double.val_neg, fl_lit]
  rw [show (-(4967757600021511 / 40564819207303340847894502572032) : ℚ) = -(4967757600021511 /
    40564819207303340847894502572032) by norm_num]
  exact fl_cert_neg (4967757600021511 / 40564819207303340847894502572032) (4967757600021511 /
    40564819207303340847894502572032) (-53) 4967757600021511 (by norm_num) (by norm_num)
    (by norm_num) (by norm_num) (by norm_num) (by norm_num)

/-- The cosine of `glib_host` at the angle for `t` = 180 degrees. -/
theorem glib_cos_180 : double.val (glib_host.cos (((-((180 : ℤ) : double)) * glib_host.M_PI) /
    180)) = -1 := by
  show double.val (libm_cos _) = _
  unfold libm_cos
  rw [glib_angle_180]
  norm_num [double.val_of, double.val_lit, double.val_neg, fl_lit]

/-- The angle `-t * M_PI / 180.0` of `rotate_point` for `t` = 270 degrees. -/
theorem glib_angle_270 : double.val (((-((270 : ℤ) : double)) * glib_host.M_PI) / 180) =
    -(2652839157010665 / 562949953421312) := by
  have h1 : double.val (((270 : ℤ) : double)) = 270 := by
    rw [double.val_int 270 (by norm_num)]
    norm_num
  have h2 : double.val (-((270 : ℤ) : double)) = -270 := by
    rw [double.val_neg, h1]
  have h3 : double.val (glib_host.M_PI) = 884279719003555 / 281474976710656 := glib_M_PI
  have h4 : double.val ((-((270 : ℤ) : double)) * glib_host.M_PI) = -(7461110129092495 /
    8796093022208) := by
    rw [double.val_mul, h2, h3]
    rw [show ((-270) * (884279719003555 / 281474976710656) : ℚ) = -(119377762065479925 /
      140737488355328) by norm_num]
    exact fl_cert_neg (119377762065479925 / 140737488355328) (7461110129092495 / 8796093022208)
      (9) 7461110129092495 (by norm_num) (by norm_num) (by norm_num) (by norm_num) (by norm_num)
      (by norm_num)
  have h5 : double.val (180) = 180 := double.val_lit 180 (by norm_num)
  have h6 : double.val (((-((270 : ℤ) : double)) * glib_host.M_PI) / 180) = -(2652839157010665 /
    562949953421312) := by
    rw [double.val_div, h4, h5]
    rw [show ((-(7461110129092495 / 8796093022208)) / 180 : ℚ) = -(1492222025818499 /
      316659348799488) by norm_num]
    exact fl_cert_neg (1492222025818499 / 316659348799488) (2652839157010665 / 562949953421312)
      (2) 5305678314021330 (by norm_num) (by norm_num) (by norm_num) (by norm_num) (by norm_num)
      (by norm_num)
  exact h6

/-- The sine of `glib_host` at the angle for `t` = 270 degrees. -/
theorem glib_sin_270 : double.val (glib_host.sin (((-((270 : ℤ) : double)) * glib_host.M_PI) /
    180)) = 1 := by
  show double.val (libm_sin _) = _
  unfold libm_sin
  rw [glib_angle_270]
  norm_num [double.val_of, double.val_lit, double.val_neg, fl_lit]

/-- The cosine of `glib_host` at the angle for `t` = 270 degrees. -/
theorem glib_cos_270 : double.val (glib_host.cos (((-((270 : ℤ) : double)) * glib_host.M_PI) /
    180)) = -(3725818200016133 / 20282409603651670423947251286016) := by
  show double.val (libm_cos _) = _
  unfold libm_cos
  rw [glib_angle_270]
  norm_num [double.val_of, double.val_lit, double.val_neg, fl_lit]
  rw [show (-(3725818200016133 / 20282409603651670423947251286016) : ℚ) = -(3725818200016133 /
    20282409603651670423947251286016) by norm_num]
  exact fl_cert_neg (3725818200016133 / 20282409603651670423947251286016) (3725818200016133 /
    20282409603651670423947251286016) (-53) 7451636400032266 (by norm_num) (by norm_num)
    (by norm_num) (by norm_num) (by norm_num) (by norm_num)

/-- The point (2, 1) rotated by 45 degrees with the values of the C library. -/
theorem rotate_glib_45 : rotate_point glib_host { x := 2, y := 1 } 45 = { x := 3, y := 0 } := by
  have h1 : double.val (glib_host.cos (((-((45 : ℤ) : double)) * glib_host.M_PI) / 180)) =
    6369051672525773 / 9007199254740992 := glib_cos_45
  have h2 : double.val (((2 : ℤ) : double)) = 2 := by
    rw [double.val_int 2 (by norm_num)]
    norm_num
  have h3 : double.val ((glib_host.cos (((-((45 : ℤ) : double)) * glib_host.M_PI) / 180)) * ((2 :
    ℤ) : double)) = 6369051672525773 / 4503599627370496 := by
    rw [double.val_mul, h1, h2]
    rw [show ((6369051672525773 / 9007199254740992) * 2 : ℚ) = 6369051672525773 /
      4503599627370496 by norm_num]
    exact fl_cert (6369051672525773 / 4503599627370496) (6369051672525773 / 4503599627370496) (0)
      6369051672525773 (by norm_num) (by norm_num) (by norm_num) (by norm_num) (by norm_num)
      (by norm_num)
  have h4 : double.val (glib_host.sin (((-((45 : ℤ) : double)) * glib_host.M_PI) / 180)) =
    -(1592262918131443 / 2251799813685248) := glib_sin_45
  have h5 : double.val (((1 : ℤ) : double)) = 1 := by
    rw [double.val_int 1 (by norm_num)]
    norm_num
  have h6 : double.val ((glib_host.sin (((-((45 : ℤ) : double)) * glib_host.M_PI) / 180)) * ((1 :
    ℤ) : double)) = -(1592262918131443 / 2251799813685248) := by
    rw [double.val_mul, h4, h5]
    rw [show ((-(1592262918131443 / 2251799813685248)) * 1 : ℚ) = -(1592262918131443 /
      2251799813685248) by norm_num]
    exact fl_cert_neg (1592262918131443 / 2251799813685248) (1592262918131443 / 2251799813685248)
      (-1) 6369051672525772 (by norm_num) (by norm_num) (by norm_num) (by norm_num) (by norm_num)
      (by norm_num)
  have h7 : double.val (((glib_host.cos (((-((45 : ℤ) : double)) * glib_host.M_PI) / 180)) * ((2
    : ℤ) : double)) - ((glib_host.sin (((-((45 : ℤ) : double)) * glib_host.M_PI) / 180)) * ((1 :
    ℤ) : double))) = 2388394377197165 / 1125899906842624 := by
    rw [double.val_sub, h3, h6]
    rw [show ((6369051672525773 / 4503599627370496) - (-(1592262918131443 / 2251799813685248)) :
      ℚ) = 9553577508788659 / 4503599627370496 by norm_num]
    exact fl_cert_tie (9553577508788659 / 4503599627370496) (2388394377197165 / 1125899906842624)
      (1) 4776788754394329 4776788754394330 (by norm_num) (by norm_num) (by norm_num)
      (by norm_num) (by norm_num) (by norm_num) (by norm_num)
  have c9 : ⌈(2388394377197165 / 1125899906842624 : ℚ)⌉ = 3 := by
    rw [Int.ceil_eq_iff]
    norm_num
  have r8 : round (((glib_host.cos (((-((45 : ℤ) : double)) * glib_host.M_PI) / 180)) * ((2 : ℤ)
    : double)) - ((glib_host.sin (((-((45 : ℤ) : double)) * glib_host.M_PI) / 180)) * ((1 : ℤ) :
    double))) = 3 := by
    rw [round_eq, h7, c9]
    norm_num [to_gint]
  have h10 : double.val ((glib_host.sin (((-((45 : ℤ) : double)) * glib_host.M_PI) / 180)) * ((2
    : ℤ) : double)) = -(1592262918131443 / 1125899906842624) := by
    rw [double.val_mul, h4, h2]
    rw [show ((-(1592262918131443 / 2251799813685248)) * 2 : ℚ) = -(1592262918131443 /
      1125899906842624) by norm_num]
    exact fl_cert_neg (1592262918131443 / 1125899906842624) (1592262918131443 / 1125899906842624)
      (0) 6369051672525772 (by norm_num) (by norm_num) (by norm_num) (by norm_num) (by norm_num)
      (by norm_num)
  have h11 : double.val ((glib_host.cos (((-((45 : ℤ) : double)) * glib_host.M_PI) / 180)) * ((1
    : ℤ) : double)) = 6369051672525773 / 9007199254740992 := by
    rw [double.val_mul, h1, h5]
    rw [show ((6369051672525773 / 9007199254740992) * 1 : ℚ) = 6369051672525773 /
      9007199254740992 by norm_num]
    exact fl_cert (6369051672525773 / 9007199254740992) (6369051672525773 / 9007199254740992)
      (-1) 6369051672525773 (by norm_num) (by norm_num) (by norm_num) (by norm_num) (by norm_num)
      (by norm_num)
  have h12 : double.val (((glib_host.sin (((-((45 : ℤ) : double)) * glib_host.M_PI) / 180)) * ((2
    : ℤ) : double)) + ((glib_host.cos (((-((45 : ℤ) : double)) * glib_host.M_PI) / 180)) * ((1 :
    ℤ) : double))) = -(6369051672525771 / 9007199254740992) := by
    rw [double.val_add, h10, h11]
    rw [show ((-(1592262918131443 / 1125899906842624)) + (6369051672525773 / 9007199254740992) :
      ℚ) = -(6369051672525771 / 9007199254740992) by norm_num]
    exact fl_cert_neg (6369051672525771 / 9007199254740992) (6369051672525771 / 9007199254740992)
      (-1) 6369051672525771 (by norm_num) (by norm_num) (by norm_num) (by norm_num) (by norm_num)
      (by norm_num)
  have c14 : ⌈(-(6369051672525771 / 9007199254740992) : ℚ)⌉ = 0 := by
    rw [Int.ceil_eq_iff]
    norm_num
  have r13 : round (((glib_host.sin (((-((45 : ℤ) : double)) * glib_host.M_PI) / 180)) * ((2 : ℤ)
    : double)) + ((glib_host.cos (((-((45 : ℤ) : double)) * glib_host.M_PI) / 180)) * ((1 : ℤ) :
    double))) = 0 := by
    rw [round_eq, h12, c14]
    norm_num [to_gint]
  simp only [rotate_point]
  rw [if_neg (by norm_num)]
  rw [r8, r13]

/-- The point (3, 0) rotated by -45 degrees with the values of the C library. -/
theorem rotate_glib_back : rotate_point glib_host { x := 3, y := 0 } (-45) = { x := 3, y := 3 }
    := by
  have h1 : double.val (glib_host.cos (((-(((-45) : ℤ) : double)) * glib_host.M_PI) / 180)) =
    6369051672525773 / 9007199254740992 := glib_cos_m45
  have h2 : double.val (((3 : ℤ) : double)) = 3 := by
    rw [double.val_int 3 (by norm_num)]
    norm_num
  have h3 : double.val ((glib_host.cos (((-(((-45) : ℤ) : double)) * glib_host.M_PI) / 180)) *
    ((3 : ℤ) : double)) = 2388394377197165 / 1125899906842624 := by
    rw [double.val_mul, h1, h2]
    rw [show ((6369051672525773 / 9007199254740992) * 3 : ℚ) = 19107155017577319 /
      9007199254740992 by norm_num]
    exact fl_cert (19107155017577319 / 9007199254740992) (2388394377197165 / 1125899906842624)
      (1) 4776788754394330 (by norm_num) (by norm_num) (by norm_num) (by norm_num) (by norm_num)
      (by norm_num)
  have h4 : double.val (glib_host.sin (((-(((-45) : ℤ) : double)) * glib_host.M_PI) / 180)) =
    1592262918131443 / 2251799813685248 := glib_sin_m45
  have h5 : double.val (((0 : ℤ) : double)) = 0 := by
    rw [double.val_int 0 (by norm_num)]
    norm_num
  have h6 : double.val ((glib_host.sin (((-(((-45) : ℤ) : double)) * glib_host.M_PI) / 180)) *
    ((0 : ℤ) : double)) = 0 := by
    rw [double.val_mul, h4, h5]
    rw [show ((1592262918131443 / 2251799813685248) * 0 : ℚ) = 0 by norm_num]
    exact fl_zero
  have h7 : double.val (((glib_host.cos (((-(((-45) : ℤ) : double)) * glib_host.M_PI) / 180)) *
    ((3 : ℤ) : double)) - ((glib_host.sin (((-(((-45) : ℤ) : double)) * glib_host.M_PI) / 180)) *
    ((0 : ℤ) : double))) = 2388394377197165 / 1125899906842624 := by
    rw [double.val_sub, h3, h6]
    rw [show ((2388394377197165 / 1125899906842624) - 0 : ℚ) = 2388394377197165 /
      1125899906842624 by norm_num]
    exact fl_cert (2388394377197165 / 1125899906842624) (2388394377197165 / 1125899906842624) (1)
      4776788754394330 (by norm_num) (by norm_num) (by norm_num) (by norm_num) (by norm_num)
      (by norm_num)
  have c9 : ⌈(2388394377197165 / 1125899906842624 : ℚ)⌉ = 3 := by
    rw [Int.ceil_eq_iff]
    norm_num
  have r8 : round (((glib_host.cos (((-(((-45) : ℤ) : double)) * glib_host.M_PI) / 180)) * ((3 :
    ℤ) : double)) - ((glib_host.sin (((-(((-45) : ℤ) : double)) * glib_host.M_PI) / 180)) * ((0 :
    ℤ) : double))) = 3 := by
    rw [round_eq, h7, c9]
    norm_num [to_gint]
  have h10 : double.val ((glib_host.sin (((-(((-45) : ℤ) : double)) * glib_host.M_PI) / 180)) *
    ((3 : ℤ) : double)) = 4776788754394329 / 2251799813685248 := by
    rw [double.val_mul, h4, h2]
    rw [show ((1592262918131443 / 2251799813685248) * 3 : ℚ) = 4776788754394329 /
      2251799813685248 by norm_num]
    exact fl_cert (4776788754394329 / 2251799813685248) (4776788754394329 / 2251799813685248) (1)
      4776788754394329 (by norm_num) (by norm_num) (by norm_num) (by norm_num) (by norm_num)
      (by norm_num)
  have h11 : double.val ((glib_host.cos (((-(((-45) : ℤ) : double)) * glib_host.M_PI) / 180)) *
    ((0 : ℤ) : double)) = 0 := by
    rw [double.val_mul, h1, h5]
    rw [show ((6369051672525773 / 9007199254740992) * 0 : ℚ) = 0 by norm_num]
    exact fl_zero
  have h12 : double.val (((glib_host.sin (((-(((-45) : ℤ) : double)) * glib_host.M_PI) / 180)) *
    ((3 : ℤ) : double)) + ((glib_host.cos (((-(((-45) : ℤ) : double)) * glib_host.M_PI) / 180)) *
    ((0 : ℤ) : double))) = 4776788754394329 / 2251799813685248 := by
    rw [double.val_add, h10, h11]
    rw [show ((4776788754394329 / 2251799813685248) + 0 : ℚ) = 4776788754394329 /
      2251799813685248 by norm_num]
    exact fl_cert (4776788754394329 / 2251799813685248) (4776788754394329 / 2251799813685248) (1)
      4776788754394329 (by norm_num) (by norm_num) (by norm_num) (by norm_num) (by norm_num)
      (by norm_num)
  have c14 : ⌈(4776788754394329 / 2251799813685248 : ℚ)⌉ = 3 := by
    rw [Int.ceil_eq_iff]
    norm_num
  have r13 : round (((glib_host.sin (((-(((-45) : ℤ) : double)) * glib_host.M_PI) / 180)) * ((3 :
    ℤ) : double)) + ((glib_host.cos (((-(((-45) : ℤ) : double)) * glib_host.M_PI) / 180)) * ((0 :
    ℤ) : double))) = 3 := by
    rw [round_eq, h12, c14]
    norm_num [to_gint]
  simp only [rotate_point]
  rw [if_neg (by norm_num)]
  rw [r8, r13]

/-- The point (100, 0) rotated by -45 degrees with the values of the C library. -/
theorem rotate_glib_100_m45 : rotate_point glib_host { x := 100, y := 0 } (-45) = { x := 71, y :=
    71 } := by
  have h1 : double.val (glib_host.cos (((-(((-45) : ℤ) : double)) * glib_host.M_PI) / 180)) =
    6369051672525773 / 9007199254740992 := glib_cos_m45
  have h2 : double.val (((100 : ℤ) : double)) = 100 := by
    rw [double.val_int 100 (by norm_num)]
    norm_num
  have h3 : double.val ((glib_host.cos (((-(((-45) : ℤ) : double)) * glib_host.M_PI) / 180)) *
    ((100 : ℤ) : double)) = 621977702395095 / 8796093022208 := by
    rw [double.val_mul, h1, h2]
    rw [show ((6369051672525773 / 9007199254740992) * 100 : ℚ) = 159226291813144325 /
      2251799813685248 by norm_num]
    exact fl_cert (159226291813144325 / 2251799813685248) (621977702395095 / 8796093022208) (6)
      4975821619160760 (by norm_num) (by norm_num) (by norm_num) (by norm_num) (by norm_num)
      (by norm_num)
  have h4 : double.val (glib_host.sin (((-(((-45) : ℤ) : double)) * glib_host.M_PI) / 180)) =
    1592262918131443 / 2251799813685248 := glib_sin_m45
  have h5 : double.val (((0 : ℤ) : double)) = 0 := by
    rw [double.val_int 0 (by norm_num)]
    norm_num
  have h6 : double.val ((glib_host.sin (((-(((-45) : ℤ) : double)) * glib_host.M_PI) / 180)) *
    ((0 : ℤ) : double)) = 0 := by
    rw [double.val_mul, h4, h5]
    rw [show ((1592262918131443 / 2251799813685248) * 0 : ℚ) = 0 by norm_num]
    exact fl_zero
  have h7 : double.val (((glib_host.cos (((-(((-45) : ℤ) : double)) * glib_host.M_PI) / 180)) *
    ((100 : ℤ) : double)) - ((glib_host.sin (((-(((-45) : ℤ) : double)) * glib_host.M_PI) / 180))
    * ((0 : ℤ) : double))) = 621977702395095 / 8796093022208 := by
    rw [double.val_sub, h3, h6]
    rw [show ((621977702395095 / 8796093022208) - 0 : ℚ) = 621977702395095 / 8796093022208 by
      norm_num]
    exact fl_cert (621977702395095 / 8796093022208) (621977702395095 / 8796093022208) (6)
      4975821619160760 (by norm_num) (by norm_num) (by norm_num) (by norm_num) (by norm_num)
      (by norm_num)
  have c9 : ⌈(621977702395095 / 8796093022208 : ℚ)⌉ = 71 := by
    rw [Int.ceil_eq_iff]
    norm_num
  have r8 : round (((glib_host.cos (((-(((-45) : ℤ) : double)) * glib_host.M_PI) / 180)) * ((100
    : ℤ) : double)) - ((glib_host.sin (((-(((-45) : ℤ) : double)) * glib_host.M_PI) / 180)) * ((0
    : ℤ) : double))) = 71 := by
    rw [round_eq, h7, c9]
    norm_num [to_gint]
  have h10 : double.val ((glib_host.sin (((-(((-45) : ℤ) : double)) * glib_host.M_PI) / 180)) *
    ((100 : ℤ) : double)) = 4975821619160759 / 70368744177664 := by
    rw [double.val_mul, h4, h2]
    rw [show ((1592262918131443 / 2251799813685248) * 100 : ℚ) = 39806572953286075 /
      562949953421312 by norm_num]
    exact fl_cert (39806572953286075 / 562949953421312) (4975821619160759 / 70368744177664) (6)
      4975821619160759 (by norm_num) (by norm_num) (by norm_num) (by norm_num) (by norm_num)
      (by norm_num)
  have h11 : double.val ((glib_host.cos (((-(((-45) : ℤ) : double)) * glib_host.M_PI) / 180)) *
    ((0 : ℤ) : double)) = 0 := by
    rw [double.val_mul, h1, h5]
    rw [show ((6369051672525773 / 9007199254740992) * 0 : ℚ) = 0 by norm_num]
    exact fl_zero
  have h12 : double.val (((glib_host.sin (((-(((-45) : ℤ) : double)) * glib_host.M_PI) / 180)) *
    ((100 : ℤ) : double)) + ((glib_host.cos (((-(((-45) : ℤ) : double)) * glib_host.M_PI) / 180))
    * ((0 : ℤ) : double))) = 4975821619160759 / 70368744177664 := by
    rw [double.val_add, h10, h11]
    rw [show ((4975821619160759 / 70368744177664) + 0 : ℚ) = 4975821619160759 / 70368744177664 by
      norm_num]
    exact fl_cert (4975821619160759 / 70368744177664) (4975821619160759 / 70368744177664) (6)
      4975821619160759 (by norm_num) (by norm_num) (by norm_num) (by norm_num) (by norm_num)
      (by norm_num)
  have c14 : ⌈(4975821619160759 / 70368744177664 : ℚ)⌉ = 71 := by
    rw [Int.ceil_eq_iff]
    norm_num
  have r13 : round (((glib_host.sin (((-(((-45) : ℤ) : double)) * glib_host.M_PI) / 180)) * ((100
    : ℤ) : double)) + ((glib_host.cos (((-(((-45) : ℤ) : double)) * glib_host.M_PI) / 180)) * ((0
    : ℤ) : double))) = 71 := by
    rw [round_eq, h12, c14]
    norm_num [to_gint]
  simp only [rotate_point]
  rw [if_neg (by norm_num)]
  rw [r8, r13]

/-- The point (100, 0) rotated by 45 degrees with the values of the C library. -/
theorem rotate_glib_100_45 : rotate_point glib_host { x := 100, y := 0 } 45 = { x := 71, y := -70
    } := by
  have h1 : double.val (glib_host.cos (((-((45 : ℤ) : double)) * glib_host.M_PI) / 180)) =
    6369051672525773 / 9007199254740992 := glib_cos_45
  have h2 : double.val (((100 : ℤ) : double)) = 100 := by
    rw [double.val_int 100 (by norm_num)]
    norm_num
  have h3 : double.val ((glib_host.cos (((-((45 : ℤ) : double)) * glib_host.M_PI) / 180)) * ((100
    : ℤ) : double)) = 621977702395095 / 8796093022208 := by
    rw [double.val_mul, h1, h2]
    rw [show ((6369051672525773 / 9007199254740992) * 100 : ℚ) = 159226291813144325 /
      2251799813685248 by norm_num]
    exact fl_cert (159226291813144325 / 2251799813685248) (621977702395095 / 8796093022208) (6)
      4975821619160760 (by norm_num) (by norm_num) (by norm_num) (by norm_num) (by norm_num)
      (by norm_num)
  have h4 : double.val (glib_host.sin (((-((45 : ℤ) : double)) * glib_host.M_PI) / 180)) =
    -(1592262918131443 / 2251799813685248) := glib_sin_45
  have h5 : double.val (((0 : ℤ) : double)) = 0 := by
    rw [double.val_int 0 (by norm_num)]
    norm_num
  have h6 : double.val ((glib_host.sin (((-((45 : ℤ) : double)) * glib_host.M_PI) / 180)) * ((0 :
    ℤ) : double)) = 0 := by
    rw [double.val_mul, h4, h5]
    rw [show ((-(1592262918131443 / 2251799813685248)) * 0 : ℚ) = 0 by norm_num]
    exact fl_zero
  have h7 : double.val (((glib_host.cos (((-((45 : ℤ) : double)) * glib_host.M_PI) / 180)) *
    ((100 : ℤ) : double)) - ((glib_host.sin (((-((45 : ℤ) : double)) * glib_host.M_PI) / 180)) *
    ((0 : ℤ) : double))) = 621977702395095 / 8796093022208 := by
    rw [double.val_sub, h3, h6]
    rw [show ((621977702395095 / 8796093022208) - 0 : ℚ) = 621977702395095 / 8796093022208 by
      norm_num]
    exact fl_cert (621977702395095 / 8796093022208) (621977702395095 / 8796093022208) (6)
      4975821619160760 (by norm_num) (by norm_num) (by norm_num) (by norm_num) (by norm_num)
      (by norm_num)
  have c9 : ⌈(621977702395095 / 8796093022208 : ℚ)⌉ = 71 := by
    rw [Int.ceil_eq_iff]
    norm_num
  have r8 : round (((glib_host.cos (((-((45 : ℤ) : double)) * glib_host.M_PI) / 180)) * ((100 :
    ℤ) : double)) - ((glib_host.sin (((-((45 : ℤ) : double)) * glib_host.M_PI) / 180)) * ((0 : ℤ)
    : double))) = 71 := by
    rw [round_eq, h7, c9]
    norm_num [to_gint]
  have h10 : double.val ((glib_host.sin (((-((45 : ℤ) : double)) * glib_host.M_PI) / 180)) *
    ((100 : ℤ) : double)) = -(4975821619160759 / 70368744177664) := by
    rw [double.val_mul, h4, h2]
    rw [show ((-(1592262918131443 / 2251799813685248)) * 100 : ℚ) = -(39806572953286075 /
      562949953421312) by norm_num]
    exact fl_cert_neg (39806572953286075 / 562949953421312) (4975821619160759 / 70368744177664)
      (6) 4975821619160759 (by norm_num) (by norm_num) (by norm_num) (by norm_num) (by norm_num)
      (by norm_num)
  have h11 : double.val ((glib_host.cos (((-((45 : ℤ) : double)) * glib_host.M_PI) / 180)) * ((0
    : ℤ) : double)) = 0 := by
    rw [double.val_mul, h1, h5]
    rw [show ((6369051672525773 / 9007199254740992) * 0 : ℚ) = 0 by norm_num]
    exact fl_zero
  have h12 : double.val (((glib_host.sin (((-((45 : ℤ) : double)) * glib_host.M_PI) / 180)) *
    ((100 : ℤ) : double)) + ((glib_host.cos (((-((45 : ℤ) : double)) * glib_host.M_PI) / 180)) *
    ((0 : ℤ) : double))) = -(4975821619160759 / 70368744177664) := by
    rw [double.val_add, h10, h11]
    rw [show ((-(4975821619160759 / 70368744177664)) + 0 : ℚ) = -(4975821619160759 /
      70368744177664) by norm_num]
    exact fl_cert_neg (4975821619160759 / 70368744177664) (4975821619160759 / 70368744177664) (6)
      4975821619160759 (by norm_num) (by norm_num) (by norm_num) (by norm_num) (by norm_num)
      (by norm_num)
  have c14 : ⌈(-(4975821619160759 / 70368744177664) : ℚ)⌉ = -70 := by
    rw [Int.ceil_eq_iff]
    norm_num
  have r13 : round (((glib_host.sin (((-((45 : ℤ) : double)) * glib_host.M_PI) / 180)) * ((100 :
    ℤ) : double)) + ((glib_host.cos (((-((45 : ℤ) : double)) * glib_host.M_PI) / 180)) * ((0 : ℤ)
    : double))) = -70 := by
    rw [round_eq, h12, c14]
    norm_num [to_gint]
  simp only [rotate_point]
  rw [if_neg (by norm_num)]
  rw [r8, r13]

/-- The point (52, 0) rotated by 90 degrees with the values of the C library. -/
theorem rotate_glib_90 : rotate_point glib_host { x := 52, y := 0 } 90 = { x := 1, y := -52 } :=
    by
  have h1 : double.val (glib_host.cos (((-((90 : ℤ) : double)) * glib_host.M_PI) / 180)) =
    4967757600021511 / 81129638414606681695789005144064 := glib_cos_90
  have h2 : double.val (((52 : ℤ) : double)) = 52 := by
    rw [double.val_int 52 (by norm_num)]
    norm_num
  have h3 : double.val ((glib_host.cos (((-((90 : ℤ) : double)) * glib_host.M_PI) / 180)) * ((52
    : ℤ) : double)) = 8072606100034955 / 2535301200456458802993406410752 := by
    rw [double.val_mul, h1, h2]
    rw [show ((4967757600021511 / 81129638414606681695789005144064) * 52 : ℚ) = 64580848800279643
      / 20282409603651670423947251286016 by norm_num]
    exact fl_cert (64580848800279643 / 20282409603651670423947251286016) (8072606100034955 /
      2535301200456458802993406410752) (-49) 8072606100034955 (by norm_num) (by norm_num)
      (by norm_num) (by norm_num) (by norm_num) (by norm_num)
  have h4 : double.val (glib_host.sin (((-((90 : ℤ) : double)) * glib_host.M_PI) / 180)) = -1 :=
    glib_sin_90
  have h5 : double.val (((0 : ℤ) : double)) = 0 := by
    rw [double.val_int 0 (by norm_num)]
    norm_num
  have h6 : double.val ((glib_host.sin (((-((90 : ℤ) : double)) * glib_host.M_PI) / 180)) * ((0 :
    ℤ) : double)) = 0 := by
    rw [double.val_mul, h4, h5]
    rw [show ((-1) * 0 : ℚ) = 0 by norm_num]
    exact fl_zero
  have h7 : double.val (((glib_host.cos (((-((90 : ℤ) : double)) * glib_host.M_PI) / 180)) * ((52
    : ℤ) : double)) - ((glib_host.sin (((-((90 : ℤ) : double)) * glib_host.M_PI) / 180)) * ((0 :
    ℤ) : double))) = 8072606100034955 / 2535301200456458802993406410752 := by
    rw [double.val_sub, h3, h6]
    rw [show ((8072606100034955 / 2535301200456458802993406410752) - 0 : ℚ) = 8072606100034955 /
      2535301200456458802993406410752 by norm_num]
    exact fl_cert (8072606100034955 / 2535301200456458802993406410752) (8072606100034955 /
      2535301200456458802993406410752) (-49) 8072606100034955 (by norm_num) (by norm_num)
      (by norm_num) (by norm_num) (by norm_num) (by norm_num)
  have c9 : ⌈(8072606100034955 / 2535301200456458802993406410752 : ℚ)⌉ = 1 := by
    rw [Int.ceil_eq_iff]
    norm_num
  have r8 : round (((glib_host.cos (((-((90 : ℤ) : double)) * glib_host.M_PI) / 180)) * ((52 : ℤ)
    : double)) - ((glib_host.sin (((-((90 : ℤ) : double)) * glib_host.M_PI) / 180)) * ((0 : ℤ) :
    double))) = 1 := by
    rw [round_eq, h7, c9]
    norm_num [to_gint]
  have h10 : double.val ((glib_host.sin (((-((90 : ℤ) : double)) * glib_host.M_PI) / 180)) * ((52
    : ℤ) : double)) = -52 := by
    rw [double.val_mul, h4, h2]
    rw [show ((-1) * 52 : ℚ) = -(52) by norm_num]
    exact fl_cert_neg (52) (52) (5) 7318349394477056 (by norm_num) (by norm_num) (by norm_num)
      (by norm_num) (by norm_num) (by norm_num)
  have h11 : double.val ((glib_host.cos (((-((90 : ℤ) : double)) * glib_host.M_PI) / 180)) * ((0
    : ℤ) : double)) = 0 := by
    rw [double.val_mul, h1, h5]
    rw [show ((4967757600021511 / 81129638414606681695789005144064) * 0 : ℚ) = 0 by norm_num]
    exact fl_zero
  have h12 : double.val (((glib_host.sin (((-((90 : ℤ) : double)) * glib_host.M_PI) / 180)) *
    ((52 : ℤ) : double)) + ((glib_host.cos (((-((90 : ℤ) : double)) * glib_host.M_PI) / 180)) *
    ((0 : ℤ) : double))) = -52 := by
    rw [double.val_add, h10, h11]
    rw [show ((-52) + 0 : ℚ) = -(52) by norm_num]
    exact fl_cert_neg (52) (52) (5) 7318349394477056 (by norm_num) (by norm_num) (by norm_num)
      (by norm_num) (by norm_num) (by norm_num)
  have c14 : ⌈(-52 : ℚ)⌉ = -52 := by
    rw [Int.ceil_eq_iff]
    norm_num
  have r13 : round (((glib_host.sin (((-((90 : ℤ) : double)) * glib_host.M_PI) / 180)) * ((52 :
    ℤ) : double)) + ((glib_host.cos (((-((90 : ℤ) : double)) * glib_host.M_PI) / 180)) * ((0 : ℤ)
    : double))) = -52 := by
    rw [round_eq, h12, c14]
    norm_num [to_gint]
  simp only [rotate_point]
  rw [if_neg (by norm_num)]
  rw [r8, r13]

/-- The point (52, 0) rotated by 180 degrees with the values of the C library. -/
theorem rotate_glib_180 : rotate_point glib_host { x := 52, y := 0 } 180 = { x := -52, y := 0 }
    := by
  have h1 : double.val (glib_host.cos (((-((180 : ℤ) : double)) * glib_host.M_PI) / 180)) = -1 :=
    glib_cos_180
  have h2 : double.val (((52 : ℤ) : double)) = 52 := by
    rw [double.val_int 52 (by norm_num)]
    norm_num
  have h3 : double.val ((glib_host.cos (((-((180 : ℤ) : double)) * glib_host.M_PI) / 180)) * ((52
    : ℤ) : double)) = -52 := by
    rw [double.val_mul, h1, h2]
    rw [show ((-1) * 52 : ℚ) = -(52) by norm_num]
    exact fl_cert_neg (52) (52) (5) 7318349394477056 (by norm_num) (by norm_num) (by norm_num)
      (by norm_num) (by norm_num) (by norm_num)
  have h4 : double.val (glib_host.sin (((-((180 : ℤ) : double)) * glib_host.M_PI) / 180)) =
    -(4967757600021511 / 40564819207303340847894502572032) := glib_sin_180
  have h5 : double.val (((0 : ℤ) : double)) = 0 := by
    rw [double.val_int 0 (by norm_num)]
    norm_num
  have h6 : double.val ((glib_host.sin (((-((180 : ℤ) : double)) * glib_host.M_PI) / 180)) * ((0
    : ℤ) : double)) = 0 := by
    rw [double.val_mul, h4, h5]
    rw [show ((-(4967757600021511 / 40564819207303340847894502572032)) * 0 : ℚ) = 0 by norm_num]
    exact fl_zero
  have h7 : double.val (((glib_host.cos (((-((180 : ℤ) : double)) * glib_host.M_PI) / 180)) *
    ((52 : ℤ) : double)) - ((glib_host.sin (((-((180 : ℤ) : double)) * glib_host.M_PI) / 180)) *
    ((0 : ℤ) : double))) = -52 := by
    rw [double.val_sub, h3, h6]
    rw [show ((-52) - 0 : ℚ) = -(52) by norm_num]
    exact fl_cert_neg (52) (52) (5) 7318349394477056 (by norm_num) (by norm_num) (by norm_num)
      (by norm_num) (by norm_num) (by norm_num)
  have c9 : ⌈(-52 : ℚ)⌉ = -52 := by
    rw [Int.ceil_eq_iff]
    norm_num
  have r8 : round (((glib_host.cos (((-((180 : ℤ) : double)) * glib_host.M_PI) / 180)) * ((52 :
    ℤ) : double)) - ((glib_host.sin (((-((180 : ℤ) : double)) * glib_host.M_PI) / 180)) * ((0 :
    ℤ) : double))) = -52 := by
    rw [round_eq, h7, c9]
    norm_num [to_gint]
  have h10 : double.val ((glib_host.sin (((-((180 : ℤ) : double)) * glib_host.M_PI) / 180)) *
    ((52 : ℤ) : double)) = -(8072606100034955 / 1267650600228229401496703205376) := by
    rw [double.val_mul, h4, h2]
    rw [show ((-(4967757600021511 / 40564819207303340847894502572032)) * 52 : ℚ) =
      -(64580848800279643 / 10141204801825835211973625643008) by norm_num]
    exact fl_cert_neg (64580848800279643 / 10141204801825835211973625643008) (8072606100034955 /
      1267650600228229401496703205376) (-48) 8072606100034955 (by norm_num) (by norm_num)
      (by norm_num) (by norm_num) (by norm_num) (by norm_num)
  have h11 : double.val ((glib_host.cos (((-((180 : ℤ) : double)) * glib_host.M_PI) / 180)) * ((0
    : ℤ) : double)) = 0 := by
    rw [double.val_mul, h1, h5]
    rw [show ((-1) * 0 : ℚ) = 0 by norm_num]
    exact fl_zero
  have h12 : double.val (((glib_host.sin (((-((180 : ℤ) : double)) * glib_host.M_PI) / 180)) *
    ((52 : ℤ) : double)) + ((glib_host.cos (((-((180 : ℤ) : double)) * glib_host.M_PI) / 180)) *
    ((0 : ℤ) : double))) = -(8072606100034955 / 1267650600228229401496703205376) := by
    rw [double.val_add, h10, h11]
    rw [show ((-(8072606100034955 / 1267650600228229401496703205376)) + 0 : ℚ) =
      -(8072606100034955 / 1267650600228229401496703205376) by norm_num]
    exact fl_cert_neg (8072606100034955 / 1267650600228229401496703205376) (8072606100034955 /
      1267650600228229401496703205376) (-48) 8072606100034955 (by norm_num) (by norm_num)
      (by norm_num) (by norm_num) (by norm_num) (by norm_num)
  have c14 : ⌈(-(8072606100034955 / 1267650600228229401496703205376) : ℚ)⌉ = 0 := by
    rw [Int.ceil_eq_iff]
    norm_num
  have r13 : round (((glib_host.sin (((-((180 : ℤ) : double)) * glib_host.M_PI) / 180)) * ((52 :
    ℤ) : double)) + ((glib_host.cos (((-((180 : ℤ) : double)) * glib_host.M_PI) / 180)) * ((0 :
    ℤ) : double))) = 0 := by
    rw [round_eq, h12, c14]
    norm_num [to_gint]
  simp only [rotate_point]
  rw [if_neg (by norm_num)]
  rw [r8, r13]

/-- The point (52, 0) rotated by 270 degrees with the values of the C library. -/
theorem rotate_glib_270 : rotate_point glib_host { x := 52, y := 0 } 270 = { x := 0, y := 52 } :=
    by
  have h1 : double.val (glib_host.cos (((-((270 : ℤ) : double)) * glib_host.M_PI) / 180)) =
    -(3725818200016133 / 20282409603651670423947251286016) := glib_cos_270
  have h2 : double.val (((52 : ℤ) : double)) = 52 := by
    rw [double.val_int 52 (by norm_num)]
    norm_num
  have h3 : double.val ((glib_host.cos (((-((270 : ℤ) : double)) * glib_host.M_PI) / 180)) * ((52
    : ℤ) : double)) = -(756806821878277 / 79228162514264337593543950336) := by
    rw [double.val_mul, h1, h2]
    rw [show ((-(3725818200016133 / 20282409603651670423947251286016)) * 52 : ℚ) =
      -(48435636600209729 / 5070602400912917605986812821504) by norm_num]
    exact fl_cert_neg (48435636600209729 / 5070602400912917605986812821504) (756806821878277 /
      79228162514264337593543950336) (-47) 6054454575026216 (by norm_num) (by norm_num)
      (by norm_num) (by norm_num) (by norm_num) (by norm_num)
  have h4 : double.val (glib_host.sin (((-((270 : ℤ) : double)) * glib_host.M_PI) / 180)) = 1 :=
    glib_sin_270
  have h5 : double.val (((0 : ℤ) : double)) = 0 := by
    rw [double.val_int 0 (by norm_num)]
    norm_num
  have h6 : double.val ((glib_host.sin (((-((270 : ℤ) : double)) * glib_host.M_PI) / 180)) * ((0
    : ℤ) : double)) = 0 := by
    rw [double.val_mul, h4, h5]
    rw [show (1 * 0 : ℚ) = 0 by norm_num]
    exact fl_zero
  have h7 : double.val (((glib_host.cos (((-((270 : ℤ) : double)) * glib_host.M_PI) / 180)) *
    ((52 : ℤ) : double)) - ((glib_host.sin (((-((270 : ℤ) : double)) * glib_host.M_PI) / 180)) *
    ((0 : ℤ) : double))) = -(756806821878277 / 79228162514264337593543950336) := by
    rw [double.val_sub, h3, h6]
    rw [show ((-(756806821878277 / 79228162514264337593543950336)) - 0 : ℚ) = -(756806821878277 /
      79228162514264337593543950336) by norm_num]
    exact fl_cert_neg (756806821878277 / 79228162514264337593543950336) (756806821878277 /
      79228162514264337593543950336) (-47) 6054454575026216 (by norm_num) (by norm_num)
      (by norm_num) (by norm_num) (by norm_num) (by norm_num)
  have c9 : ⌈(-(756806821878277 / 79228162514264337593543950336) : ℚ)⌉ = 0 := by
    rw [Int.ceil_eq_iff]
    norm_num
  have r8 : round (((glib_host.cos (((-((270 : ℤ) : double)) * glib_host.M_PI) / 180)) * ((52 :
    ℤ) : double)) - ((glib_host.sin (((-((270 : ℤ) : double)) * glib_host.M_PI) / 180)) * ((0 :
    ℤ) : double))) = 0 := by
    rw [round_eq, h7, c9]
    norm_num [to_gint]
  have h10 : double.val ((glib_host.sin (((-((270 : ℤ) : double)) * glib_host.M_PI) / 180)) *
    ((52 : ℤ) : double)) = 52 := by
    rw [double.val_mul, h4, h2]
    rw [show (1 * 52 : ℚ) = 52 by norm_num]
    exact fl_cert (52) (52) (5) 7318349394477056 (by norm_num) (by norm_num) (by norm_num)
      (by norm_num) (by norm_num) (by norm_num)
  have h11 : double.val ((glib_host.cos (((-((270 : ℤ) : double)) * glib_host.M_PI) / 180)) * ((0
    : ℤ) : double)) = 0 := by
    rw [double.val_mul, h1, h5]
    rw [show ((-(3725818200016133 / 20282409603651670423947251286016)) * 0 : ℚ) = 0 by norm_num]
    exact fl_zero
  have h12 : double.val (((glib_host.sin (((-((270 : ℤ) : double)) * glib_host.M_PI) / 180)) *
    ((52 : ℤ) : double)) + ((glib_host.cos (((-((270 : ℤ) : double)) * glib_host.M_PI) / 180)) *
    ((0 : ℤ) : double))) = 52 := by
    rw [double.val_add, h10, h11]
    rw [show (52 + 0 : ℚ) = 52 by norm_num]
    exact fl_cert (52) (52) (5) 7318349394477056 (by norm_num) (by norm_num) (by norm_num)
      (by norm_num) (by norm_num) (by norm_num)
  have c14 : ⌈(52 : ℚ)⌉ = 52 := by
    rw [Int.ceil_eq_iff]
    norm_num
  have r13 : round (((glib_host.sin (((-((270 : ℤ) : double)) * glib_host.M_PI) / 180)) * ((52 :
    ℤ) : double)) + ((glib_host.cos (((-((270 : ℤ) : double)) * glib_host.M_PI) / 180)) * ((0 :
    ℤ) : double))) = 52 := by
    rw [round_eq, h12, c14]
    norm_num [to_gint]
  simp only [rotate_point]
  rw [if_neg (by norm_num)]
  rw [r8, r13]

/-- The first coordinate of (2, 1) rotated by 45 degrees with the values of the
C library, before the rounding to an integer. -/
theorem rot_45_x_val : double.val (((glib_host.cos (((-((45 : ℤ) : double)) * glib_host.M_PI) /
    180)) * ((2 : ℤ) : double)) - ((glib_host.sin (((-((45 : ℤ) : double)) * glib_host.M_PI) /
    180)) * ((1 : ℤ) : double))) = 2388394377197165 / 1125899906842624 := by
  have h1 : double.val (glib_host.cos (((-((45 : ℤ) : double)) * glib_host.M_PI) / 180)) =
    6369051672525773 / 9007199254740992 := glib_cos_45
  have h2 : double.val (((2 : ℤ) : double)) = 2 := by
    rw [double.val_int 2 (by norm_num)]
    norm_num
  have h3 : double.val ((glib_host.cos (((-((45 : ℤ) : double)) * glib_host.M_PI) / 180)) * ((2 :
    ℤ) : double)) = 6369051672525773 / 4503599627370496 := by
    rw [double.val_mul, h1, h2]
    rw [show ((6369051672525773 / 9007199254740992) * 2 : ℚ) = 6369051672525773 /
      4503599627370496 by norm_num]
    exact fl_cert (6369051672525773 / 4503599627370496) (6369051672525773 / 4503599627370496) (0)
      6369051672525773 (by norm_num) (by norm_num) (by norm_num) (by norm_num) (by norm_num)
      (by norm_num)
  have h4 : double.val (glib_host.sin (((-((45 : ℤ) : double)) * glib_host.M_PI) / 180)) =
    -(1592262918131443 / 2251799813685248) := glib_sin_45
  have h5 : double.val (((1 : ℤ) : double)) = 1 := by
    rw [double.val_int 1 (by norm_num)]
    norm_num
  have h6 : double.val ((glib_host.sin (((-((45 : ℤ) : double)) * glib_host.M_PI) / 180)) * ((1 :
    ℤ) : double)) = -(1592262918131443 / 2251799813685248) := by
    rw [double.val_mul, h4, h5]
    rw [show ((-(1592262918131443 / 2251799813685248)) * 1 : ℚ) = -(1592262918131443 /
      2251799813685248) by norm_num]
    exact fl_cert_neg (1592262918131443 / 2251799813685248) (1592262918131443 / 2251799813685248)
      (-1) 6369051672525772 (by norm_num) (by norm_num) (by norm_num) (by norm_num) (by norm_num)
      (by norm_num)
  have h7 : double.val (((glib_host.cos (((-((45 : ℤ) : double)) * glib_host.M_PI) / 180)) * ((2
    : ℤ) : double)) - ((glib_host.sin (((-((45 : ℤ) : double)) * glib_host.M_PI) / 180)) * ((1 :
    ℤ) : double))) = 2388394377197165 / 1125899906842624 := by
    rw [double.val_sub, h3, h6]
    rw [show ((6369051672525773 / 4503599627370496) - (-(1592262918131443 / 2251799813685248)) :
      ℚ) = 9553577508788659 / 4503599627370496 by norm_num]
    exact fl_cert_tie (9553577508788659 / 4503599627370496) (2388394377197165 / 1125899906842624)
      (1) 4776788754394329 4776788754394330 (by norm_num) (by norm_num) (by norm_num)
      (by norm_num) (by norm_num) (by norm_num) (by norm_num)
  exact h7

/-- The second coordinate of (2, 1) rotated by 45 degrees with the values of
the C library, before the rounding to an integer. -/
theorem rot_45_y_val : double.val (((glib_host.sin (((-((45 : ℤ) : double)) * glib_host.M_PI) /
    180)) * ((2 : ℤ) : double)) + ((glib_host.cos (((-((45 : ℤ) : double)) * glib_host.M_PI) /
    180)) * ((1 : ℤ) : double))) = -(6369051672525771 / 9007199254740992) := by
  have h1 : double.val (glib_host.sin (((-((45 : ℤ) : double)) * glib_host.M_PI) / 180)) =
    -(1592262918131443 / 2251799813685248) := glib_sin_45
  have h2 : double.val (((2 : ℤ) : double)) = 2 := by
    rw [double.val_int 2 (by norm_num)]
    norm_num
  have h3 : double.val ((glib_host.sin (((-((45 : ℤ) : double)) * glib_host.M_PI) / 180)) * ((2 :
    ℤ) : double)) = -(1592262918131443 / 1125899906842624) := by
    rw [double.val_mul, h1, h2]
    rw [show ((-(1592262918131443 / 2251799813685248)) * 2 : ℚ) = -(1592262918131443 /
      1125899906842624) by norm_num]
    exact fl_cert_neg (1592262918131443 / 1125899906842624) (1592262918131443 / 1125899906842624)
      (0) 6369051672525772 (by norm_num) (by norm_num) (by norm_num) (by norm_num) (by norm_num)
      (by norm_num)
  have h4 : double.val (glib_host.cos (((-((45 : ℤ) : double)) * glib_host.M_PI) / 180)) =
    6369051672525773 / 9007199254740992 := glib_cos_45
  have h5 : double.val (((1 : ℤ) : double)) = 1 := by
    rw [double.val_int 1 (by norm_num)]
    norm_num
  have h6 : double.val ((glib_host.cos (((-((45 : ℤ) : double)) * glib_host.M_PI) / 180)) * ((1 :
    ℤ) : double)) = 6369051672525773 / 9007199254740992 := by
    rw [double.val_mul, h4, h5]
    rw [show ((6369051672525773 / 9007199254740992) * 1 : ℚ) = 6369051672525773 /
      9007199254740992 by norm_num]
    exact fl_cert (6369051672525773 / 9007199254740992) (6369051672525773 / 9007199254740992)
      (-1) 6369051672525773 (by norm_num) (by norm_num) (by norm_num) (by norm_num) (by norm_num)
      (by norm_num)
  have h7 : double.val (((glib_host.sin (((-((45 : ℤ) : double)) * glib_host.M_PI) / 180)) * ((2
    : ℤ) : double)) + ((glib_host.cos (((-((45 : ℤ) : double)) * glib_host.M_PI) / 180)) * ((1 :
    ℤ) : double))) = -(6369051672525771 / 9007199254740992) := by
    rw [double.val_add, h3, h6]
    rw [show ((-(1592262918131443 / 1125899906842624)) + (6369051672525773 / 9007199254740992) :
      ℚ) = -(6369051672525771 / 9007199254740992) by norm_num]
    exact fl_cert_neg (6369051672525771 / 9007199254740992) (6369051672525771 / 9007199254740992)
      (-1) 6369051672525771 (by norm_num) (by norm_num) (by norm_num) (by norm_num) (by norm_num)
      (by norm_num)
  exact h7

theorem tiny_le : (2 : ℚ) ^ (-1075 : ℤ) ≤ 1 / 1000000000000 := by
  have h : (2 : ℚ) ^ (-1075 : ℤ) ≤ 2 ^ (-40 : ℤ) :=
    zpow_le_zpow_right₀ (by norm_num) (by norm_num)
  refine le_trans h ?_
  norm_num

/-- One rounding of a number of magnitude at most `2^34` moves it by less
than `1/4000`. -/
theorem fl_near (x : ℚ) (h : |x| ≤ 17179869184) : |fl x - x| ≤ 1 / 4000 := by
  have h1 := fl_err x
  have h2 := tiny_le
  have h3 : |x| / 9007199254740992 ≤ 17179869184 / 9007199254740992 :=
    div_le_div_of_nonneg_right h (by norm_num)
  have h4 : (17179869184 / 9007199254740992 : ℚ) + 1 / 1000000000000 ≤ 1 / 4000 := by norm_num
  linarith

/-- The sum of two rounded numbers, rounded: within `1/1000` of the exact
sum when both are of magnitude at most `2^32`. -/
theorem fl_two_add (p q : ℚ) (hp : |p| ≤ 4294967296) (hq : |q| ≤ 4294967296) :
    |fl (fl p + fl q) - (p + q)| ≤ 1 / 1000 := by
  have h1 := fl_near p (le_trans hp (by norm_num))
  have h2 := fl_near q (le_trans hq (by norm_num))
  rw [abs_le] at h1 h2 hp hq
  have h3 : |fl p + fl q| ≤ 17179869184 := by
    rw [abs_le]
    constructor <;> linarith [h1.1, h1.2, h2.1, h2.2, hp.1, hp.2, hq.1, hq.2]
  have h4 := fl_near (fl p + fl q) h3
  rw [abs_le] at h4 ⊢
  constructor <;> linarith [h1.1, h1.2, h2.1, h2.2, h4.1, h4.2]

theorem fl_two_sub (p q : ℚ) (hp : |p| ≤ 4294967296) (hq : |q| ≤ 4294967296) :
    |fl (fl p - fl q) - (p - q)| ≤ 1 / 1000 := by
  have h := fl_two_add p (-q) hp (by rwa [abs_neg])
  rw [fl_neg] at h
  simpa [sub_eq_add_neg] using h

/-- The angle of `rotate_point` for `-t` is the negative of the angle for
`t`: negation is exact in `double` arithmetic. -/
theorem angle_neg (H : Host) (t : ℤ) :
    -((-t : ℤ) : double) * H.M_PI / 180 = -(-(t : double) * H.M_PI / 180) := by
  rw [intCast_neg_d, neg_neg_d, neg_mul_d, neg_div_d, neg_neg_d]

theorem int_abs_cast (x : ℤ) (b : ℤ) (h : |x| ≤ b) : |(x : ℚ)| ≤ (b : ℚ) := by
  exact_mod_cast h

theorem prod_bound (c : ℚ) (x : ℤ) (hc : |c| ≤ 2) (hx : |x| ≤ 2147483648) :
    |c * (x : ℚ)| ≤ 4294967296 := by
  have h := int_abs_cast x 2147483648 hx
  rw [abs_mul]
  have h0 := abs_nonneg c
  have h1 := abs_nonneg (x : ℚ)
  push_cast at h
  nlinarith

/-- The first coordinate of a rotation, computed in `double` arithmetic, is
within `1/1000` of the exact `c * x - s * y`. -/
theorem rot_x_near (c s : double) (x y : ℤ) (hc : |c.val| ≤ 2) (hs : |s.val| ≤ 2)
    (hx : |x| ≤ 2147483648) (hy : |y| ≤ 2147483648) :
    |double.val (c * (x : double) - s * (y : double)) - (c.val * x - s.val * y)|
      ≤ 1 / 1000 := by
  rw [double.val_sub, double.val_mul, double.val_mul,
    double.val_int x (le_trans hx (by norm_num)), double.val_int y (le_trans hy (by norm_num))]
  exact fl_two_sub _ _ (prod_bound _ _ hc hx) (prod_bound _ _ hs hy)

/-- The second coordinate of a rotation, computed in `double` arithmetic, is
within `1/1000` of the exact `s * x + c * y`. -/
theorem rot_y_near (c s : double) (x y : ℤ) (hc : |c.val| ≤ 2) (hs : |s.val| ≤ 2)
    (hx : |x| ≤ 2147483648) (hy : |y| ≤ 2147483648) :
    |double.val (s * (x : double) + c * (y : double)) - (s.val * x + c.val * y)|
      ≤ 1 / 1000 := by
  rw [double.val_add, double.val_mul, double.val_mul,
    double.val_int x (le_trans hx (by norm_num)), double.val_int y (le_trans hy (by norm_num))]
  exact fl_two_add _ _ (prod_bound _ _ hs hx) (prod_bound _ _ hc hy)

/-- The integer `round d` of a `double` within `1/1000` of `z`, when `z` is
in the range of `int`: it exceeds `z` by less than `1 + 1/1000` and falls
short of it by at most `1/1000`. -/
theorem round_near (d : double) (z : ℚ) (h : |d.val - z| ≤ 1 / 1000)
    (hz : |z| ≤ 2147483000) :
    -(1 / 1000) ≤ (round d : ℚ) - z ∧ (round d : ℚ) - z < 1 + 1 / 1000 := by
  rw [abs_le] at h hz
  have h1 := Int.le_ceil d.val
  have h2 := Int.ceil_lt_add_one d.val
  have h3 : -2147483648 ≤ ⌈d.val⌉ := by
    have : ((-2147483648 : ℤ) : ℚ) ≤ (⌈d.val⌉ : ℚ) := by
      push_cast
      linarith [h.1, hz.1]
    exact_mod_cast this
  have h4 : ⌈d.val⌉ ≤ 2147483647 := by
    have : (⌈d.val⌉ : ℚ) < ((2147483647 : ℤ) : ℚ) + 1 := by
      push_cast
      linarith [h.2, hz.2]
    have h5 : ⌈d.val⌉ < 2147483647 + 1 := by exact_mod_cast this
    omega
  rw [round_eq, to_gint_of_range _ h3 h4]
  constructor <;> linarith [h.1, h.2]

theorem sq_le_abs (c : ℚ) (h : c ^ 2 ≤ 4) : |c| ≤ 2 := by
  rw [abs_le]
  constructor <;> nlinarith

/-- The combination `c * e1 + s * e2` of two rounding excesses is of
magnitude less than 3/2 when `(c, s)` is nearly a unit vector. -/
theorem excess_bound (c s e1 e2 : ℚ) (h : c ^ 2 + s ^ 2 ≤ 1 + 1 / 1000)
    (h1 : -(1 / 1000) ≤ e1) (h2 : e1 < 1 + 1 / 1000)
    (h3 : -(1 / 1000) ≤ e2) (h4 : e2 < 1 + 1 / 1000) :
    |c * e1 + s * e2| < 3 / 2 := by
  have hc : (c * e1 + s * e2) ^ 2 ≤ (c ^ 2 + s ^ 2) * (e1 ^ 2 + e2 ^ 2) := by
    nlinarith [sq_nonneg (c * e2 - s * e1)]
  have he1 : e1 ^ 2 ≤ (1 + 1 / 1000) ^ 2 := by nlinarith
  have he2 : e2 ^ 2 ≤ (1 + 1 / 1000) ^ 2 := by nlinarith
  have hcs : 0 ≤ c ^ 2 + s ^ 2 := by positivity
  have hsq : (c * e1 + s * e2) ^ 2 < (3 / 2) ^ 2 := by
    have : (c ^ 2 + s ^ 2) * (e1 ^ 2 + e2 ^ 2) ≤ (1 + 1 / 1000) * (2 * (1 + 1 / 1000) ^ 2) := by
      apply mul_le_mul h (by linarith) (by positivity) (by norm_num)
    have h5 : ((1 : ℚ) + 1 / 1000) * (2 * (1 + 1 / 1000) ^ 2) < (3 / 2) ^ 2 := by norm_num
    linarith
  exact abs_lt_of_sq_lt_sq hsq (by norm_num)

theorem abs_le_of_sq (u b : ℚ) (hb : 0 ≤ b) (h : u ^ 2 ≤ b ^ 2) : |u| ≤ b :=
  abs_le_of_sq_le_sq h hb

/-- A coordinate of a rotated point of magnitude at most `10^9` stays below
`3/2 * 10^9` when `(c, s)` is nearly a unit vector. -/
theorem rot_bound (c s : ℚ) (x y : ℤ) (h : c ^ 2 + s ^ 2 ≤ 1 + 1 / 1000)
    (hx : |x| ≤ 1000000000) (hy : |y| ≤ 1000000000) :
    |c * (x : ℚ) - s * y| ≤ 1500000000 ∧ |s * (x : ℚ) + c * y| ≤ 1500000000 := by
  have hx1 := int_abs_cast x _ hx
  have hy1 := int_abs_cast y _ hy
  push_cast at hx1 hy1
  have hx2 : (x : ℚ) ^ 2 ≤ 1000000000 ^ 2 := by
    rw [abs_le] at hx1
    nlinarith
  have hy2 : (y : ℚ) ^ 2 ≤ 1000000000 ^ 2 := by
    rw [abs_le] at hy1
    nlinarith
  have hid : (c * (x : ℚ) - s * y) ^ 2 + (s * (x : ℚ) + c * y) ^ 2
      = (c ^ 2 + s ^ 2) * ((x : ℚ) ^ 2 + (y : ℚ) ^ 2) := by ring
  have hprod : (c ^ 2 + s ^ 2) * ((x : ℚ) ^ 2 + (y : ℚ) ^ 2)
      ≤ (1 + 1 / 1000) * (1000000000 ^ 2 + 1000000000 ^ 2) :=
    mul_le_mul h (by linarith) (by positivity) (by norm_num)
  have hnum : ((1 : ℚ) + 1 / 1000) * (1000000000 ^ 2 + 1000000000 ^ 2) ≤ 1500000000 ^ 2 := by
    norm_num
  constructor
  · apply abs_le_of_sq _ _ (by norm_num)
    nlinarith [sq_nonneg (s * (x : ℚ) + c * y)]
  · apply abs_le_of_sq _ _ (by norm_num)
    nlinarith [sq_nonneg (c * (x : ℚ) - s * y)]

/-- Rotating an integer point with the `double`s `c` and `s`, and rotating
the result back with `c` and `-s`, gives a point at most two units away in
each coordinate, when `c^2 + s^2` is within `10^-12` of 1 and the coordinates
are of magnitude at most `10^9`. -/
theorem round_trip (c s : double) (x y : ℤ)
    (hp : |s.val ^ 2 + c.val ^ 2 - 1| ≤ 1 / 1000000000000)
    (hx : |x| ≤ 1000000000) (hy : |y| ≤ 1000000000) :
    |round (c * ((round (c * (x : double) - s * (y : double)) : ℤ) : double)
        - -s * ((round (s * (x : double) + c * (y : double)) : ℤ) : double)) - x| ≤ 2 ∧
    |round (-s * ((round (c * (x : double) - s * (y : double)) : ℤ) : double)
        + c * ((round (s * (x : double) + c * (y : double)) : ℤ) : double)) - y| ≤ 2 := by
  rw [abs_le] at hp
  have hcs : c.val ^ 2 + s.val ^ 2 ≤ 1 + 1 / 1000 := by linarith [hp.2]
  have hcs2 : c.val ^ 2 + (-s).val ^ 2 ≤ 1 + 1 / 1000 := by
    rw [double.val_neg, neg_sq]
    exact hcs
  have hc : |c.val| ≤ 2 := sq_le_abs _ (by nlinarith [sq_nonneg s.val])
  have hs : |s.val| ≤ 2 := sq_le_abs _ (by nlinarith [sq_nonneg c.val])
  have hns : |(-s).val| ≤ 2 := by rwa [double.val_neg, abs_neg]
  obtain ⟨bu, bv⟩ := rot_bound c.val s.val x y hcs hx hy
  have hx1 := int_abs_cast x _ hx
  have hy1 := int_abs_cast y _ hy
  push_cast at hx1 hy1
  obtain ⟨a1, a2⟩ := round_near _ _
    (rot_x_near c s x y hc hs (le_trans hx (by norm_num)) (le_trans hy (by norm_num)))
    (le_trans bu (by norm_num))
  obtain ⟨b1, b2⟩ := round_near _ _
    (rot_y_near c s x y hc hs (le_trans hx (by norm_num)) (le_trans hy (by norm_num)))
    (le_trans bv (by norm_num))
  generalize round (c * (x : double) - s * (y : double)) = X at a1 a2 ⊢
  generalize round (s * (x : double) + c * (y : double)) = Y at b1 b2 ⊢
  rw [abs_le] at bu bv hx1 hy1
  have hX : |X| ≤ 2147483648 := by
    have h : |(X : ℚ)| ≤ ((2147483648 : ℤ) : ℚ) := by
      rw [abs_le]
      push_cast
      constructor <;> linarith [bu.1, bu.2]
    exact_mod_cast h
  have hY : |Y| ≤ 2147483648 := by
    have h : |(Y : ℚ)| ≤ ((2147483648 : ℤ) : ℚ) := by
      rw [abs_le]
      push_cast
      constructor <;> linarith [bv.1, bv.2]
    exact_mod_cast h
  obtain ⟨e1, he1⟩ : ∃ e1 : ℚ, (X : ℚ) = c.val * x - s.val * y + e1 :=
    ⟨(X : ℚ) - (c.val * x - s.val * y), by ring⟩
  obtain ⟨e2, he2⟩ : ∃ e2 : ℚ, (Y : ℚ) = s.val * x + c.val * y + e2 :=
    ⟨(Y : ℚ) - (s.val * x + c.val * y), by ring⟩
  have a1e : -(1 / 1000) ≤ e1 := by linarith
  have a2e : e1 < 1 + 1 / 1000 := by linarith
  have b1e : -(1 / 1000) ≤ e2 := by linarith
  have b2e : e2 < 1 + 1 / 1000 := by linarith
  have hw1 := excess_bound c.val s.val e1 e2 hcs a1e a2e b1e b2e
  have hw2 := excess_bound c.val (-s.val) e2 e1 (by rw [neg_sq]; exact hcs) b1e b2e a1e a2e
  rw [abs_lt] at hw1 hw2
  have hpx : |(s.val ^ 2 + c.val ^ 2 - 1) * (x : ℚ)| ≤ 1 / 1000 := by
    rw [abs_mul]
    have h1 : |s.val ^ 2 + c.val ^ 2 - 1| ≤ 1 / 1000000000000 := abs_le.mpr hp
    have h2 : |(x : ℚ)| ≤ 1000000000 := abs_le.mpr hx1
    calc |s.val ^ 2 + c.val ^ 2 - 1| * |(x : ℚ)|
        ≤ 1 / 1000000000000 * 1000000000 :=
          mul_le_mul h1 h2 (abs_nonneg _) (by norm_num)
      _ = 1 / 1000 := by norm_num
  have hpy : |(s.val ^ 2 + c.val ^ 2 - 1) * (y : ℚ)| ≤ 1 / 1000 := by
    rw [abs_mul]
    have h1 : |s.val ^ 2 + c.val ^ 2 - 1| ≤ 1 / 1000000000000 := abs_le.mpr hp
    have h2 : |(y : ℚ)| ≤ 1000000000 := abs_le.mpr hy1
    calc |s.val ^ 2 + c.val ^ 2 - 1| * |(y : ℚ)|
        ≤ 1 / 1000000000000 * 1000000000 :=
          mul_le_mul h1 h2 (abs_nonneg _) (by norm_num)
      _ = 1 / 1000 := by norm_num
  rw [abs_le] at hpx hpy
  have zx : c.val * (X : ℚ) - (-s).val * (Y : ℚ)
      = x + ((s.val ^ 2 + c.val ^ 2 - 1) * (x : ℚ) + (c.val * e1 + s.val * e2)) := by
    rw [he1, he2, double.val_neg]
    ring
  have zy : (-s).val * (X : ℚ) + c.val * (Y : ℚ)
      = y + ((s.val ^ 2 + c.val ^ 2 - 1) * (y : ℚ) + (c.val * e2 + -s.val * e1)) := by
    rw [he1, he2, double.val_neg]
    ring
  have nx := rot_x_near c (-s) X Y hc hns hX hY
  have ny := rot_y_near c (-s) X Y hc hns hX hY
  obtain ⟨c1, c2⟩ := round_near _ _ nx (by
    rw [zx, abs_le]
    constructor <;> linarith [hpx.1, hpx.2, hw1.1, hw1.2])
  obtain ⟨d1, d2⟩ := round_near _ _ ny (by
    rw [zy, abs_le]
    constructor <;> linarith [hpy.1, hpy.2, hw2.1, hw2.2])
  rw [zx] at c1 c2
  rw [zy] at d1 d2
  constructor
  · rw [abs_le]
    have l : ((-3 : ℤ) : ℚ) <
        ((round (c * ((X : ℤ) : double) - -s * ((Y : ℤ) : double)) - x : ℤ) : ℚ) := by
      push_cast
      linarith [hpx.1, hw1.1]
    have u : ((round (c * ((X : ℤ) : double) - -s * ((Y : ℤ) : double)) - x : ℤ) : ℚ)
        < ((3 : ℤ) : ℚ) := by
      push_cast
      linarith [hpx.2, hw1.2]
    have l1 := Int.cast_lt.mp l
    have u1 := Int.cast_lt.mp u
    constructor <;> omega
  · rw [abs_le]
    have l : ((-3 : ℤ) : ℚ) <
        ((round (-s * ((X : ℤ) : double) + c * ((Y : ℤ) : double)) - y : ℤ) : ℚ) := by
      push_cast
      linarith [hpy.1, hw2.1]
    have u : ((round (-s * ((X : ℤ) : double) + c * ((Y : ℤ) : double)) - y : ℤ) : ℚ)
        < ((3 : ℤ) : ℚ) := by
      push_cast
      linarith [hpy.2, hw2.2]
    have l1 := Int.cast_lt.mp l
    have u1 := Int.cast_lt.mp u
    constructor <;> omega

/-! ## Lemmas on primitives 4 and 5 and on the stack depth -/

/-- The `double` of the constant `0.0001`. -/
theorem val_1_10000 : double.val (1 / 10000) = 7378697629483821 / 73786976294838206464 := by
  have h1 : double.val (1) = 1 := double.val_lit 1 (by norm_num)
  have h2 : double.val (10000) = 10000 := double.val_lit 10000 (by norm_num)
  have h3 : double.val (1 / 10000) = 7378697629483821 / 73786976294838206464 := by
    rw [double.val_div, h1, h2]
    rw [show (1 / 10000 : ℚ) = 1 / 10000 by norm_num]
    exact fl_cert (1 / 10000) (7378697629483821 / 73786976294838206464) (-14) 7378697629483821
      (by norm_num) (by norm_num) (by norm_num) (by norm_num) (by norm_num) (by norm_num)
  exact h3

theorem prim5_cases (H : Host) (gc : GdkGC) (s : macro_stack_t) (scale x y : ℤ) :
    gerbv_gdk_draw_prim5 H gc s scale x y =
      if s.sp = 6 ∧ H.g_malloc (trunc (s.stack 1)) = true then
        [gdk_draw_polygon (exposure gc (s.stack 0)) true (prim5_points H s scale x y)]
      else [] := by
  unfold gerbv_gdk_draw_prim5 prim5_points
  by_cases h6 : s.sp = 6 <;> by_cases hm : H.g_malloc (trunc (s.stack 1)) = true <;>
    simp [h6, hm]

theorem amacro_step_prim5 (H : Host) (gc : GdkGC) (scale x y : ℤ) (st : amacro_state)
    (ip : instruction_t) (hop : ip.opcode = opcodes.PRIM) (h5 : ip.ival = 5) :
    amacro_step H gc scale x y st ip =
      { st with
        s := { st.s with sp := 0 },
        ops := st.ops ++ gerbv_gdk_draw_prim5 H gc st.s scale x y } := by
  unfold amacro_step
  simp [hop, h5, prim_dispatch]

theorem prim4_cases (H : Host) (gc : GdkGC) (s : macro_stack_t) (scale x y : ℤ) :
    gerbv_gdk_draw_prim4 H gc s scale x y =
      if H.g_malloc (trunc (s.stack 1)) = true then
        [gdk_draw_polygon
          (gdk_gc_set_line_attributes (exposure gc (s.stack 0)) 1 GDK_LINE_SOLID GDK_CAP_BUTT)
          (prim4_closed s.stack) (prim4_points H s.stack scale x y)]
      else [] := by
  have e2 : ∀ n : ℤ, 2 * n + 2 = n * 2 + 2 := fun n => by ring
  have e3 : ∀ n : ℤ, 2 * n + 3 = n * 2 + 3 := fun n => by ring
  unfold gerbv_gdk_draw_prim4 prim4_closed prim4_points
  by_cases hm : H.g_malloc (trunc (s.stack 1)) = true <;>
    simp [hm, e2, e3, Bool.decide_and]

theorem prim4_new_cases (H : Host) (gc : GdkGC) (parameters : ℤ → double) (scale x y : ℤ) :
    gerbv_gdk_draw_prim4_new H gc parameters scale x y =
      if H.g_malloc (trunc (parameters 1)) = true then
        [gdk_draw_polygon
          (gdk_gc_set_line_attributes (exposure gc (parameters 0)) 1 GDK_LINE_SOLID
            GDK_CAP_BUTT)
          (prim4_closed parameters) (prim4_points H parameters scale x y)]
      else [] := by
  have e2 : ∀ n : ℤ, 2 * n + 2 = n * 2 + 2 := fun n => by ring
  have e3 : ∀ n : ℤ, 2 * n + 3 = n * 2 + 3 := fun n => by ring
  unfold gerbv_gdk_draw_prim4_new prim4_closed prim4_points
  by_cases hm : H.g_malloc (trunc (parameters 1)) = true <;>
    simp [hm, e2, e3, Bool.decide_and]

theorem exposure_foreground (gc : GdkGC) (e : double) :
    (exposure gc e).foreground = if e = 0 then opaque_pixel else gc.foreground := by
  unfold exposure
  split_ifs <;> rfl

theorem prim4_points_unrotated (H : Host) (v : ℤ → double) (scale x y : ℤ)
    (h : v (trunc (v 1) * 2 + 4) ≤ 1 / 10) :
    prim4_points H v scale x y = prim4_unrotated v scale x y := by
  have h1 : ¬ v (trunc (v 1) * 2 + 4) > 1 / 10 := (not_lt_d _ _).mpr h
  simp only [prim4_points, prim4_unrotated, h1, if_false, GdkPoint.offset]

/-- Primitive 4 leaves its vertices unrotated whenever the rotation parameter
is at most 0.1, every negative rotation included. -/
theorem prim4_small_rotation (H : Host) (gc : GdkGC) (s : macro_stack_t) (scale x y : ℤ)
    (h : s.stack (trunc (s.stack 1) * 2 + 4) ≤ 1 / 10)
    (hm : H.g_malloc (trunc (s.stack 1)) = true) :
    gerbv_gdk_draw_prim4 H gc s scale x y =
      [gdk_draw_polygon
        (gdk_gc_set_line_attributes (exposure gc (s.stack 0)) 1 GDK_LINE_SOLID GDK_CAP_BUTT)
        (prim4_closed s.stack) (prim4_unrotated s.stack scale x y)] := by
  rw [prim4_cases, prim4_points_unrotated H s.stack scale x y h]
  simp [hm]

theorem amacro_step_depth (H : Host) (gc : GdkGC) (scale x y : ℤ) (st : amacro_state)
    (ip : instruction_t) (h : ip.opcode ≠ opcodes.PRIM) :
    (amacro_step H gc scale x y st ip).s.sp = st.s.sp + depth_change ip := by
  unfold amacro_step depth_change
  cases hop : ip.opcode <;> first
    | exact absurd hop h
    | (simp [push, pop]; try omega)

theorem amacro_run_depth (H : Host) (gc : GdkGC) (scale x y : ℤ)
    (prog : List instruction_t) (st : amacro_state)
    (h : ∀ ip ∈ prog, ip.opcode ≠ opcodes.PRIM) :
    (amacro_run H gc scale x y prog st).s.sp = st.s.sp + net_pushes prog := by
  induction prog generalizing st with
  | nil => simp [amacro_run, net_pushes]
  | cons ip prog ih =>
    rw [amacro_run_cons, ih _ (fun q hq => h q (List.mem_cons_of_mem _ hq)),
      amacro_step_depth H gc scale x y st ip (h ip (List.mem_cons_self _ _))]
    simp [net_pushes]
    ring

theorem amacro_step_prim_depth (H : Host) (gc : GdkGC) (scale x y : ℤ) (st : amacro_state)
    (ip : instruction_t) (h : ip.opcode = opcodes.PRIM) :
    (amacro_step H gc scale x y st ip).s.sp = 0 := by
  unfold amacro_step
  simp [h]

/-! ## Lemmas on the end of the traversal -/

theorem run_tiles_cons_true (H : Host) (image : gerb_image) (scale : ℤ)
    (trans_x trans_y : double) (polarity : polarity_t) (t : gerb_net × ℕ × ℕ)
    (ts : List (gerb_net × ℕ × ℕ)) (st st1 : render_state)
    (h : tile_step H image scale trans_x trans_y polarity t.1 t.2.1 t.2.2 st = (st1, true)) :
    run_tiles H image scale trans_x trans_y polarity (t :: ts) st = (st1, true) := by
  simp only [run_tiles, h]

theorem run_tiles_append_true (H : Host) (image : gerb_image) (scale : ℤ)
    (trans_x trans_y : double) (polarity : polarity_t) (ts us : List (gerb_net × ℕ × ℕ))
    (st : render_state)
    (h : (run_tiles H image scale trans_x trans_y polarity ts st).2 = true) :
    run_tiles H image scale trans_x trans_y polarity (ts ++ us) st =
      run_tiles H image scale trans_x trans_y polarity ts st := by
  induction ts generalizing st with
  | nil => simp [run_tiles] at h
  | cons t ts ih =>
    simp only [List.cons_append, run_tiles] at h ⊢
    rcases hstep : tile_step H image scale trans_x trans_y polarity t.1 t.2.1 t.2.2 st
      with ⟨st1, b⟩
    cases b
    · simp only [hstep] at h ⊢
      exact ih st1 h
    · simp only [hstep]

theorem net_tiles_head (net : gerb_net) (hX : 1 ≤ net.layer.stepAndRepeat.X)
    (hY : 1 ≤ net.layer.stepAndRepeat.Y) :
    ∃ rest, net_tiles net = (net, 0, 0) :: rest := by
  obtain ⟨a, ha⟩ : ∃ a : ℕ, net.layer.stepAndRepeat.X.toNat = a + 1 :=
    ⟨net.layer.stepAndRepeat.X.toNat - 1, by omega⟩
  obtain ⟨b, hb⟩ : ∃ b : ℕ, net.layer.stepAndRepeat.Y.toNat = b + 1 :=
    ⟨net.layer.stepAndRepeat.Y.toNat - 1, by omega⟩
  simp only [net_tiles, ha, hb, List.range_succ_eq_map, List.flatMap_cons, List.map_cons,
    List.cons_append]
  exact ⟨_, rfl⟩

theorem run_tiles_netlist (H : Host) (image : gerb_image) (l : List gerb_net) (scale : ℤ)
    (trans_x trans_y : double) (polarity : polarity_t) (ts : List (gerb_net × ℕ × ℕ))
    (st : render_state) :
    run_tiles H { image with netlist := l } scale trans_x trans_y polarity ts st =
      run_tiles H image scale trans_x trans_y polarity ts st := by
  induction ts generalizing st with
  | nil => rfl
  | cons t ts ih =>
    have hstep : tile_step H { image with netlist := l } scale trans_x trans_y polarity
        t.1 t.2.1 t.2.2 st =
        tile_step H image scale trans_x trans_y polarity t.1 t.2.1 t.2.2 st := rfl
    simp only [run_tiles, hstep, ih]

theorem tile_step_fatal (H : Host) (image : gerb_image) (scale : ℤ) (trans_x trans_y : double)
    (polarity : polarity_t) (net : gerb_net) (i j : ℕ) (st : render_state)
    (ap : gerb_aperture)
    (hfill : st.in_parea_fill = false)
    (hi1 : net.interpolation ≠ PAREA_START) (hi2 : net.interpolation ≠ PAREA_END)
    (hap : image.aperture net.aperture = some ap)
    (hbad : (∃ c, net.aperture_state = aperture_state_t.other c) ∨
      (net.aperture_state = FLASH ∧ ∃ c, ap.type = aperture_t.other c)) :
    (tile_step H image scale trans_x trans_y polarity net i j st).2 = true ∧
    (tile_step H image scale trans_x trans_y polarity net i j st).1.ops = st.ops := by
  obtain ⟨-, hops, -, -, -, hf⟩ :=
    tile_prepare_fields image scale trans_x trans_y polarity net st
  rw [hfill] at hf
  unfold tile_step draw_net
  rcases hbad with ⟨c, hc⟩ | ⟨hfl, c, hc⟩
  · cases hint : net.interpolation <;> simp_all
  · cases hint : net.interpolation <;> simp_all [flash_net]

theorem tile_step_no_return (H : Host) (image : gerb_image) (scale : ℤ)
    (trans_x trans_y : double) (polarity : polarity_t) (net : gerb_net) (i j : ℕ)
    (st : render_state)
    (hstate : ∀ c, net.aperture_state ≠ aperture_state_t.other c)
    (htype : ∀ ap, image.aperture net.aperture = some ap →
      ∀ c, ap.type ≠ aperture_t.other c)
    (hm : net.interpolation = PAREA_START → H.g_malloc (net.nuf_pcorners : ℤ) = true) :
    (tile_step H image scale trans_x trans_y polarity net i j st).2 = false := by
  unfold tile_step
  cases hint : net.interpolation <;> simp only []
  case PAREA_START => rw [if_neg (by rw [hm hint]; decide)]
  all_goals
    split_ifs
    · rfl
    · unfold draw_net
      cases hap : image.aperture net.aperture with
      | none => rfl
      | some ap =>
        simp only []
        cases hs : net.aperture_state with
        | OFF => rfl
        | ON => rfl
        | FLASH => exact flash_net_flag H ap scale _ _ _ _ (htype ap hap)
        | other c => exact absurd hs (hstate c)

theorem run_tiles_no_return (H : Host) (image : gerb_image) (scale : ℤ)
    (trans_x trans_y : double) (polarity : polarity_t) (ts : List (gerb_net × ℕ × ℕ))
    (st : render_state)
    (hstate : ∀ t ∈ ts, ∀ c, t.1.aperture_state ≠ aperture_state_t.other c)
    (htype : ∀ t ∈ ts, ∀ ap, image.aperture t.1.aperture = some ap →
      ∀ c, ap.type ≠ aperture_t.other c)
    (hm : ∀ t ∈ ts, t.1.interpolation = PAREA_START →
      H.g_malloc (t.1.nuf_pcorners : ℤ) = true) :
    (run_tiles H image scale trans_x trans_y polarity ts st).2 = false := by
  induction ts generalizing st with
  | nil => rfl
  | cons t ts ih =>
    have h := tile_step_no_return H image scale trans_x trans_y polarity t.1 t.2.1 t.2.2 st
      (hstate t (List.mem_cons_self _ _)) (htype t (List.mem_cons_self _ _))
      (hm t (List.mem_cons_self _ _))
    have hpair : tile_step H image scale trans_x trans_y polarity t.1 t.2.1 t.2.2 st =
        ((tile_step H image scale trans_x trans_y polarity t.1 t.2.1 t.2.2 st).1, false) := by
      rw [← h]
    rw [run_tiles_cons_false _ _ _ _ _ _ _ _ _ _ hpair]
    exact ih _ (fun u hu => hstate u (List.mem_cons_of_mem _ hu))
      (fun u hu => htype u (List.mem_cons_of_mem _ hu))
      (fun u hu => hm u (List.mem_cons_of_mem _ hu))

theorem mem_net_tiles (nets : List gerb_net) (t : gerb_net × ℕ × ℕ)
    (h : t ∈ nets.flatMap net_tiles) : t.1 ∈ nets := by
  rw [List.mem_flatMap] at h
  obtain ⟨net, hnet, ht⟩ := h
  rw [net_tiles_eq, List.mem_map] at ht
  obtain ⟨u, -, rfl⟩ := ht
  exact hnet

/-! ## The properties of the second group -/

/-- C11 as stated fails: a PRIMITIVE 5 reached with a stack of depth exactly 6
whose vertex count is 0 emits nothing, because the vertex array of no points
is a NULL pointer and the renderer returns. -/
theorem C11_counterexample :
    (stack_of [1, 0, 0, 0, 1, 0] 6).sp = 6 ∧
    (amacro_step glib_host gdk_gc_new 100 0 0
      { s := stack_of [1, 0, 0, 0, 1, 0] 6, lp := fun _ => 0, handled := 1, ops := [] }
      (instr_i opcodes.PRIM 5)).ops = [] := by
  refine ⟨rfl, ?_⟩
  rw [amacro_step_prim5 _ _ _ _ _ _ _ rfl rfl, prim5_cases]
  simp [stack_of, trunc_zero, trunc_lit, glib_host]

/-- C11, amended: a `PRIM 5` instruction reached when the stack depth is not
exactly 6 emits no drawing call; when the depth is exactly 6 it emits exactly
one filled polygon if the allocation of its vertex array succeeds, and no
drawing call if that allocation fails.  In every case `handled` (the return
value) is left as it was and the evaluation continues with the next
instruction. -/
theorem C11_primitive5_depth (H : Host) (gc : GdkGC) (scale x y : ℤ)
    (st st0 : amacro_state) (pre post : List instruction_t) (ip : instruction_t)
    (hop : ip.opcode = opcodes.PRIM) (h5 : ip.ival = 5) :
    (st.s.sp ≠ 6 → (amacro_step H gc scale x y st ip).ops = st.ops) ∧
    (st.s.sp = 6 → H.g_malloc (trunc (st.s.stack 1)) = false →
      (amacro_step H gc scale x y st ip).ops = st.ops) ∧
    (st.s.sp = 6 → H.g_malloc (trunc (st.s.stack 1)) = true →
      (amacro_step H gc scale x y st ip).ops =
        st.ops ++ [gdk_draw_polygon (exposure gc (st.s.stack 0)) true
          (prim5_points H st.s scale x y)]) ∧
    (amacro_step H gc scale x y st ip).handled = st.handled ∧
    amacro_run H gc scale x y (pre ++ ip :: post) st0 =
      amacro_run H gc scale x y post
        (amacro_step H gc scale x y (amacro_run H gc scale x y pre st0) ip) := by
  rw [amacro_step_prim5 H gc scale x y st ip hop h5, prim5_cases]
  refine ⟨?_, ?_, ?_, rfl, ?_⟩
  · intro h; simp [h]
  · intro _ h; simp [h]
  · intro h1 h2; simp [h1, h2]
  · rw [amacro_run_append, amacro_run_cons]

/-- Witness of C11: depth 6 with three vertices on a host whose allocations
succeed gives one filled polygon; the same values at depth 7 give nothing. -/
theorem C11_primitive5_depth_witness :
    (amacro_step sample_host gdk_gc_new 100 0 0
      { s := stack_of [1, 3, 0, 0, 1, 0] 6, lp := fun _ => 0, handled := 1, ops := [] }
      (instr_i opcodes.PRIM 5)).ops =
      [] ++ [gdk_draw_polygon (exposure gdk_gc_new ((stack_of [1, 3, 0, 0, 1, 0] 6).stack 0))
        true (prim5_points sample_host (stack_of [1, 3, 0, 0, 1, 0] 6) 100 0 0)] ∧
    (amacro_step sample_host gdk_gc_new 100 0 0
      { s := stack_of [1, 3, 0, 0, 1, 0] 7, lp := fun _ => 0, handled := 1, ops := [] }
      (instr_i opcodes.PRIM 5)).ops = [] :=
  ⟨(C11_primitive5_depth sample_host gdk_gc_new 100 0 0
      { s := stack_of [1, 3, 0, 0, 1, 0] 6, lp := fun _ => 0, handled := 1, ops := [] }
      (amacro_init 0 fun _ => 0) [] [] (instr_i opcodes.PRIM 5) rfl rfl).2.2.1 rfl rfl,
   (C11_primitive5_depth sample_host gdk_gc_new 100 0 0
      { s := stack_of [1, 3, 0, 0, 1, 0] 7, lp := fun _ => 0, handled := 1, ops := [] }
      (amacro_init 0 fun _ => 0) [] [] (instr_i opcodes.PRIM 5) rfl rfl).1 (by decide)⟩

/-- C12 as stated fails at N = 0: with every parameter 0 the vertex count is
0 and vertex 0 and vertex N coincide, yet on a host with GLib's allocator
primitive 4 emits no polygon at all, in either renderer: the vertex array of
no points is a NULL pointer and the renderer returns before drawing. -/
theorem C12_counterexample :
    trunc ((fun _ : ℤ => (0 : double)) 1) = 0 ∧
    prim4_closed (fun _ => 0) = true ∧
    gerbv_gdk_draw_prim4_new glib_host gdk_gc_new (fun _ => 0) 100 0 0 = [] ∧
    gerbv_gdk_draw_prim4 glib_host gdk_gc_new (new_stack 0) 100 0 0 = [] := by
  have hc : (0 : double) < 1 / 10000 := by
    rw [lt_iff_val, val_1_10000, double.val_zero]
    norm_num
  refine ⟨trunc_zero, ?_, ?_, ?_⟩
  · simp [prim4_closed, hc]
  · rw [prim4_new_cases]
    simp [glib_host]
  · rw [prim4_cases]
    simp [glib_host, new_stack]

/-- C12, amended: primitive 4, in both of its renderers, emits exactly one
polygon when the allocation of its array of `N = trunc(param[1])` vertices
succeeds, and that polygon has the `filled` flag set exactly when
`fabs(param[2] - param[2N+2]) < 0.0001` and
`fabs(param[3] - param[2N+3]) < 0.0001`, the differences being computed and
compared in `double` arithmetic; when the allocation fails (with GLib: for
N = 0) it emits nothing. -/
theorem C12_outline_closed_flag (H : Host) (gc : GdkGC) (s : macro_stack_t)
    (parameters : ℤ → double) (scale x y : ℤ) :
    (H.g_malloc (trunc (s.stack 1)) = true →
      ∃ g points, gerbv_gdk_draw_prim4 H gc s scale x y =
        [gdk_draw_polygon g
          (decide (fabs (s.stack 2 - s.stack (2 * trunc (s.stack 1) + 2)) < 1 / 10000 ∧
                   fabs (s.stack 3 - s.stack (2 * trunc (s.stack 1) + 3)) < 1 / 10000))
          points]) ∧
    (H.g_malloc (trunc (s.stack 1)) = false →
      gerbv_gdk_draw_prim4 H gc s scale x y = []) ∧
    (H.g_malloc (trunc (parameters 1)) = true →
      ∃ g points, gerbv_gdk_draw_prim4_new H gc parameters scale x y =
        [gdk_draw_polygon g
          (decide (fabs (parameters 2 - parameters (2 * trunc (parameters 1) + 2)) < 1 / 10000 ∧
                   fabs (parameters 3 - parameters (2 * trunc (parameters 1) + 3)) < 1 / 10000))
          points]) ∧
    (H.g_malloc (trunc (parameters 1)) = false →
      gerbv_gdk_draw_prim4_new H gc parameters scale x y = []) := by
  rw [prim4_cases, prim4_new_cases]
  refine ⟨?_, ?_, ?_, ?_⟩
  · intro hm
    rw [if_pos hm]
    exact ⟨_, _, rfl⟩
  · intro hm
    rw [if_neg (by rw [hm]; decide)]
  · intro hm
    rw [if_pos hm]
    exact ⟨_, _, rfl⟩
  · intro hm
    rw [if_neg (by rw [hm]; decide)]

/-- Witness of C12: an outline of one vertex whose vertex 0 and vertex 1 are
both (1, 0) is emitted as one filled polygon; with vertex 1 at (2, 0) it is
emitted as one open polygon. -/
theorem C12_outline_closed_flag_witness :
    (∃ g points,
      gerbv_gdk_draw_prim4 sample_host gdk_gc_new (stack_of [1, 1, 1, 0, 1, 0, 0] 7) 100 0 0
        = [gdk_draw_polygon g true points]) ∧
    (∃ g points,
      gerbv_gdk_draw_prim4 sample_host gdk_gc_new (stack_of [1, 1, 1, 0, 2, 0, 0] 7) 100 0 0
        = [gdk_draw_polygon g false points]) := by
  have hc : (0 : double) < 1 / 10000 := by
    rw [lt_iff_val, val_1_10000, double.val_zero]
    norm_num
  have ho : ¬ fabs ((1 : double) - 2) < 1 / 10000 := by
    rw [lt_iff_val, val_1_10000, double.val_fabs, double.val_sub, double.val_one,
      double.val_lit 2 (by norm_num)]
    norm_num [fl_neg, fl_one]
  have t1 : trunc (1 : double) = 1 := by simp
  constructor
  · obtain ⟨g, points, h⟩ := (C12_outline_closed_flag sample_host gdk_gc_new
      (stack_of [1, 1, 1, 0, 1, 0, 0] 7) (fun _ => 0) 100 0 0).1 rfl
    refine ⟨g, points, ?_⟩
    rw [h]
    simp [stack_of, t1, hc]
  · obtain ⟨g, points, h⟩ := (C12_outline_closed_flag sample_host gdk_gc_new
      (stack_of [1, 1, 1, 0, 2, 0, 0] 7) (fun _ => 0) 100 0 0).1 rfl
    refine ⟨g, points, ?_⟩
    rw [h]
    simp [stack_of, t1, ho]

/-- C13: for every point `p` (and every host), `rotate_point(p, 0) = p`. -/
theorem C13_rotate_zero (H : Host) (p : GdkPoint) : rotate_point H p 0 = p := by
  simp [rotate_point]

/-- C14 as stated fails: with the sine and cosine of the C library, rotating
the point (2, 1) by 45 degrees gives (3, 0) and rotating that by -45 degrees
gives (3, 3), whose y coordinate is two device units away from the original. -/
theorem C14_counterexample :
    rotate_point glib_host (rotate_point glib_host { x := 2, y := 1 } 45) (-45)
      = { x := 3, y := 3 } ∧ ¬ (|(3 : ℤ) - 1| ≤ 1) := by
  constructor
  · rw [rotate_glib_45, rotate_glib_back]
  · decide

/-- C14, amended: rotating an integer point by an integer angle `t` and then
by `-t` gives a point that differs from the original by at most two device
units in each coordinate (the source rounds upward, not to the nearest
integer), for coordinates of magnitude at most 10^9 and a host whose `sin` and
`cos` at the angle `a = -t * M_PI / 180` satisfy `sin(-a) = -sin(a)`,
`cos(-a) = cos(a)` and `sin(a)^2 + cos(a)^2 = 1` to within 10^-12, as the
`double`s of the C library do; every operation of the two rotations is one of
`double` arithmetic. -/
theorem C14_rotate_round_trip (H : Host) (p : GdkPoint) (t : ℤ)
    (hx : |p.x| ≤ 1000000000) (hy : |p.y| ≤ 1000000000)
    (hodd : H.sin (-(-(t : double) * H.M_PI / 180)) = -H.sin (-(t : double) * H.M_PI / 180))
    (heven : H.cos (-(-(t : double) * H.M_PI / 180)) = H.cos (-(t : double) * H.M_PI / 180))
    (hpyth : |(H.sin (-(t : double) * H.M_PI / 180)).val ^ 2
      + (H.cos (-(t : double) * H.M_PI / 180)).val ^ 2 - 1| ≤ 1 / 1000000000000) :
    |(rotate_point H (rotate_point H p t) (-t)).x - p.x| ≤ 2 ∧
    |(rotate_point H (rotate_point H p t) (-t)).y - p.y| ≤ 2 := by
  by_cases ht : t = 0
  · subst ht
    simp [rotate_point]
  · have hnt : -t ≠ 0 := by omega
    simp only [rotate_point, ht, hnt, if_false, angle_neg, hodd, heven]
    exact round_trip _ _ p.x p.y hpyth hx hy

/-- Witness of C14: the host with the C library's values, the point (2, 1)
and the angle 45: the round trip ends at (3, 3). -/
theorem C14_rotate_round_trip_witness :
    |(rotate_point glib_host (rotate_point glib_host { x := 2, y := 1 } 45) (-45)).x - 2| ≤ 2 ∧
    |(rotate_point glib_host (rotate_point glib_host { x := 2, y := 1 } 45) (-45)).y - 1| ≤ 2 :=
  C14_rotate_round_trip glib_host { x := 2, y := 1 } 45 (by norm_num) (by norm_num)
    (by
      rw [← angle_neg, double.eq_iff_val, double.val_neg, glib_sin_45, neg_neg]
      exact glib_sin_m45)
    (by
      rw [← angle_neg, double.eq_iff_val, glib_cos_45]
      exact glib_cos_m45)
    (by
      rw [glib_sin_45, glib_cos_45]
      norm_num [abs_le])

/-- C15 as stated fails: a net that strokes (state ON) with an aperture of an
unknown type is drawn as a line and `image2pixmap` returns 1. -/
theorem C15_counterexample :
    (image2pixmap sample_host
      (some (sample_image { sample_circle 2 with type := aperture_t.other 99 }
        [sample_net ON LINEARx1 1 0 0 (sample_layer DARK 1 1 0 0)]))
      100 0 0 POSITIVE).ret = 1 ∧
    (image2pixmap sample_host
      (some (sample_image { sample_circle 2 with type := aperture_t.other 99 }
        [sample_net ON LINEARx1 1 0 0 (sample_layer DARK 1 1 0 0)]))
      100 0 0 POSITIVE).ops =
      [gdk_draw_rectangle ⟨0, 0, GDK_LINE_SOLID, GDK_CAP_BUTT⟩ true 0 0 (-1) (-1),
       gdk_draw_line ⟨1, 200, GDK_LINE_SOLID, GDK_CAP_ROUND⟩ 0 0 100 0] := by
  rw [image2pixmap_cons _ _ _ _ _ _ _ _ rfl]
  simp [net_tiles, sample_net, sample_layer, run_tiles, tile_step, tile_prepare, draw_net,
    sample_image, sample_circle, stroke_net, render_init, net_pixel, device_x, device_y,
    round_zero, round_lit, gdk_gc_set_foreground, gdk_gc_set_line_attributes, gdk_gc_new, opaque_pixel,
    transparent_pixel]

/-- C15, amended: if a net that is not a fill marker, is processed outside a
polygon-fill run and has at least one tile, has a defined aperture and either
an unknown aperture state, or an unknown aperture type while its state is
FLASH, then `image2pixmap` returns 0 and its drawing calls are exactly those
of rendering the net list truncated before that net: nothing is drawn for
that net or any later one.  (A net in state ON is stroked whatever its
aperture type is.) -/
theorem C15_fatal_net (H : Host) (image : gerb_image) (scale : ℤ) (trans_x trans_y : double)
    (polarity : polarity_t) (head net : gerb_net) (pre post : List gerb_net)
    (ap : gerb_aperture)
    (hnl : image.netlist = head :: (pre ++ net :: post))
    (hfill : (run_tiles H image scale trans_x trans_y polarity (pre.flatMap net_tiles)
      (render_init polarity)).1.in_parea_fill = false)
    (hX : 1 ≤ net.layer.stepAndRepeat.X) (hY : 1 ≤ net.layer.stepAndRepeat.Y)
    (hi1 : net.interpolation ≠ PAREA_START) (hi2 : net.interpolation ≠ PAREA_END)
    (hap : image.aperture net.aperture = some ap)
    (hbad : (∃ c, net.aperture_state = aperture_state_t.other c) ∨
      (net.aperture_state = FLASH ∧ ∃ c, ap.type = aperture_t.other c)) :
    (image2pixmap H (some image) scale trans_x trans_y polarity).ret = 0 ∧
    (image2pixmap H (some image) scale trans_x trans_y polarity).ops =
      (image2pixmap H (some { image with netlist := head :: pre }) scale trans_x trans_y
        polarity).ops := by
  rw [image2pixmap_cons H image scale trans_x trans_y polarity head _ hnl,
    image2pixmap_cons H { image with netlist := head :: pre } scale trans_x trans_y polarity
      head pre rfl, run_tiles_netlist H image (head :: pre)]
  simp only [List.flatMap_append, List.flatMap_cons]
  rcases hpre : run_tiles H image scale trans_x trans_y polarity (pre.flatMap net_tiles)
    (render_init polarity) with ⟨st, b⟩
  rw [hpre] at hfill
  cases b
  · obtain ⟨rest, hrest⟩ := net_tiles_head net hX hY
    obtain ⟨hflag, hops⟩ := tile_step_fatal H image scale trans_x trans_y polarity net 0 0 st
      ap hfill hi1 hi2 hap hbad
    have hstep : tile_step H image scale trans_x trans_y polarity net 0 0 st =
        ((tile_step H image scale trans_x trans_y polarity net 0 0 st).1, true) := by
      rw [← hflag]
    rw [run_tiles_append _ _ _ _ _ _ _ _ _ (by rw [hpre]), hpre, hrest, List.cons_append,
      run_tiles_cons_true _ _ _ _ _ _ _ _ _ _ hstep]
    exact ⟨rfl, hops⟩
  · rw [run_tiles_append_true _ _ _ _ _ _ _ _ _ (by rw [hpre]), hpre]
    exact ⟨rfl, rfl⟩

/-- Witness of C15: a flash with an aperture of unknown type after one
ordinary flash; only the background fill and the first flash are drawn. -/
theorem C15_fatal_net_witness :
    (image2pixmap sample_host
      (some (sample_image { sample_circle 2 with type := aperture_t.other 99 }
        ([sample_net OFF LINEARx1 1 0 0 (sample_layer DARK 1 1 0 0)] ++
          sample_net FLASH LINEARx1 1 0 0 (sample_layer DARK 1 1 0 0) :: [])))
      100 0 0 POSITIVE).ret = 0 :=
  (C15_fatal_net sample_host
    (sample_image { sample_circle 2 with type := aperture_t.other 99 }
      ([sample_net OFF LINEARx1 1 0 0 (sample_layer DARK 1 1 0 0)] ++
        sample_net FLASH LINEARx1 1 0 0 (sample_layer DARK 1 1 0 0) :: []))
    100 0 0 POSITIVE
    (sample_net OFF LINEARx1 0 0 0 (sample_layer DARK 1 1 0 0))
    (sample_net FLASH LINEARx1 1 0 0 (sample_layer DARK 1 1 0 0))
    [sample_net OFF LINEARx1 1 0 0 (sample_layer DARK 1 1 0 0)] []
    { sample_circle 2 with type := aperture_t.other 99 }
    rfl
    (by
      simp [net_tiles, sample_net, sample_layer, run_tiles, tile_step, tile_prepare,
        draw_net, sample_image, render_init])
    (by decide) (by decide) (by decide) (by decide)
    (by simp [sample_image, sample_net])
    (Or.inr ⟨rfl, 99, rfl⟩)).1

/-- C16 as stated fails twice.  A net that is the end marker of a fill run
and references an undefined aperture (index 11) does make a drawing call, the
polygon of the run: the marker is handled before the aperture is looked up.
And an image whose only net is a fill start declaring 0 corners, with a known
state and a defined aperture of a known type, does not return 1 on a host
with GLib's allocator: the call ends in `GERB_FATAL_ERROR`. -/
theorem C16_counterexample :
    (sample_image (sample_circle 2) []).aperture 11 = none ∧
    (image2pixmap sample_host
      (some (sample_image (sample_circle 2)
        [{ sample_net ON PAREA_END 1 0 0 (sample_layer DARK 1 1 0 0) with aperture := 11 }]))
      100 0 0 POSITIVE).ops =
      [gdk_draw_rectangle ⟨0, 0, GDK_LINE_SOLID, GDK_CAP_BUTT⟩ true 0 0 (-1) (-1),
       gdk_draw_polygon ⟨1, 1, GDK_LINE_SOLID, GDK_CAP_PROJECTING⟩ true []] ∧
    (image2pixmap glib_host
      (some (sample_image (sample_circle 2)
        [sample_net OFF PAREA_START 0 0 0 (sample_layer DARK 1 1 0 0)]))
      100 0 0 POSITIVE).fatal = true ∧
    (image2pixmap glib_host
      (some (sample_image (sample_circle 2)
        [sample_net OFF PAREA_START 0 0 0 (sample_layer DARK 1 1 0 0)]))
      100 0 0 POSITIVE).ret ≠ 1 := by
  have hf := (image2pixmap_start_fails glib_host
    (sample_image (sample_circle 2)
      [sample_net OFF PAREA_START 0 0 0 (sample_layer DARK 1 1 0 0)])
    100 0 0 POSITIVE
    (sample_net OFF LINEARx1 0 0 0 (sample_layer DARK 1 1 0 0))
    (sample_net OFF PAREA_START 0 0 0 (sample_layer DARK 1 1 0 0)) []
    rfl rfl rfl rfl (by decide)).1
  refine ⟨rfl, ?_, hf, ?_⟩
  · rw [image2pixmap_cons _ _ _ _ _ _ _ _ rfl]
    simp [net_tiles, sample_net, sample_layer, run_tiles, tile_step, tile_prepare,
      render_init, net_pixel, gdk_gc_set_foreground, gdk_gc_set_line_attributes, gdk_gc_new,
      opaque_pixel, transparent_pixel, buffer_points]
  · intro h
    have h2 := image2pixmap_not_fatal _ _ _ _ _ _ h
    rw [hf] at h2
    exact Bool.noConfusion h2

/-- C16, amended: for every image with a non-empty net list in which every
net after the head node has a known aperture state and references an aperture
that is either undefined or of a known type, and in which the allocation of
every fill-start marker succeeds, `image2pixmap` returns 1 (and has not met
`GERB_FATAL_ERROR`), whatever the interpolation modes, the aperture types and
the macro programs are.  A net that references an undefined aperture makes no
drawing call and does not end the traversal, the tiles after it being
processed from the state it leaves, unless it is the end marker of a fill
run, which draws the polygon of the run and does not end the traversal
either, or a fill-start marker whose allocation fails. -/
theorem C16_diagnostics_do_not_fail (H : Host) (image : gerb_image) (scale : ℤ)
    (trans_x trans_y : double) (polarity : polarity_t) (head : gerb_net)
    (nets : List gerb_net)
    (hnl : image.netlist = head :: nets)
    (hstate : ∀ net ∈ nets, ∀ c, net.aperture_state ≠ aperture_state_t.other c)
    (htype : ∀ net ∈ nets, ∀ ap, image.aperture net.aperture = some ap →
      ∀ c, ap.type ≠ aperture_t.other c)
    (hm : ∀ net ∈ nets, net.interpolation = PAREA_START →
      H.g_malloc (net.nuf_pcorners : ℤ) = true) :
    (image2pixmap H (some image) scale trans_x trans_y polarity).ret = 1 ∧
    (image2pixmap H (some image) scale trans_x trans_y polarity).fatal = false ∧
    (∀ (net : gerb_net) (i j : ℕ) (st : render_state),
      image.aperture net.aperture = none → net.interpolation ≠ PAREA_END →
      (net.interpolation = PAREA_START → H.g_malloc (net.nuf_pcorners : ℤ) = true) →
      (tile_step H image scale trans_x trans_y polarity net i j st).1.ops = st.ops ∧
      (tile_step H image scale trans_x trans_y polarity net i j st).2 = false) ∧
    (∀ (net : gerb_net) (i j : ℕ) (st : render_state) (rest : List (gerb_net × ℕ × ℕ)),
      image.aperture net.aperture = none → net.interpolation ≠ PAREA_END →
      (net.interpolation = PAREA_START → H.g_malloc (net.nuf_pcorners : ℤ) = true) →
      run_tiles H image scale trans_x trans_y polarity ((net, i, j) :: rest) st =
        run_tiles H image scale trans_x trans_y polarity rest
          (tile_step H image scale trans_x trans_y polarity net i j st).1) ∧
    (∀ (net : gerb_net) (i j : ℕ) (st : render_state),
      image.aperture net.aperture = none → net.interpolation = PAREA_END →
      (tile_step H image scale trans_x trans_y polarity net i j st).1.ops = st.ops ++
        [gdk_draw_polygon
          ⟨net_pixel net.layer.polarity polarity, 1, GDK_LINE_SOLID, GDK_CAP_PROJECTING⟩
          true (buffer_points st.points st.curr_point_idx)] ∧
      (tile_step H image scale trans_x trans_y polarity net i j st).2 = false) ∧
    (∀ (net : gerb_net) (i j : ℕ) (st : render_state),
      net.interpolation = PAREA_START → H.g_malloc (net.nuf_pcorners : ℤ) = false →
      (tile_step H image scale trans_x trans_y polarity net i j st).1.ops = st.ops ∧
      (tile_step H image scale trans_x trans_y polarity net i j st).2 = true) := by
  have key : ∀ (net : gerb_net) (i j : ℕ) (st : render_state),
      image.aperture net.aperture = none → net.interpolation ≠ PAREA_END →
      (net.interpolation = PAREA_START → H.g_malloc (net.nuf_pcorners : ℤ) = true) →
      (tile_step H image scale trans_x trans_y polarity net i j st).1.ops = st.ops ∧
      (tile_step H image scale trans_x trans_y polarity net i j st).2 = false := by
    intro net i j st hap hi2 hm1
    obtain ⟨-, hops, -, -, -, -⟩ :=
      tile_prepare_fields image scale trans_x trans_y polarity net st
    unfold tile_step draw_net
    cases hint : net.interpolation
    case PAREA_END => exact absurd hint hi2
    case PAREA_START =>
      simp only []
      rw [if_neg (by rw [hm1 hint]; decide)]
      exact ⟨hops, rfl⟩
    all_goals
      simp only [hap]
      split_ifs <;> exact ⟨hops, rfl⟩
  have hret : (image2pixmap H (some image) scale trans_x trans_y polarity).ret = 1 := by
    rw [image2pixmap_cons H image scale trans_x trans_y polarity head nets hnl]
    have h := run_tiles_no_return H image scale trans_x trans_y polarity
      (nets.flatMap net_tiles) (render_init polarity)
      (fun t ht => hstate t.1 (mem_net_tiles nets t ht))
      (fun t ht => htype t.1 (mem_net_tiles nets t ht))
      (fun t ht => hm t.1 (mem_net_tiles nets t ht))
    simp [h]
  refine ⟨hret, image2pixmap_not_fatal H _ scale trans_x trans_y polarity hret, key, ?_, ?_,
    ?_⟩
  · intro net i j st rest hap hi2 hm1
    exact run_tiles_cons_false H image scale trans_x trans_y polarity (net, i, j) rest st _
      (Prod.ext rfl (key net i j st hap hi2 hm1).2)
  · intro net i j st _ hend
    obtain ⟨st1, h1, -, -, -, h5⟩ := tile_step_end H image scale trans_x trans_y polarity net
      i j st hend
    rw [h1]
    exact ⟨h5, rfl⟩
  · intro net i j st hstart hfail
    obtain ⟨h1, h2, -⟩ := tile_step_start_fails H image scale trans_x trans_y polarity net i j
      st hstart hfail
    exact ⟨h2, h1⟩

/-- Witness of C16: an image whose only net strokes with an undefined
aperture (index 11) renders successfully. -/
theorem C16_diagnostics_do_not_fail_witness :
    (image2pixmap sample_host
      (some (sample_image (sample_circle 2)
        [{ sample_net ON LINEARx10 1 0 0 (sample_layer DARK 1 1 0 0) with aperture := 11 }]))
      100 0 0 POSITIVE).ret = 1 :=
  (C16_diagnostics_do_not_fail sample_host
    (sample_image (sample_circle 2)
      [{ sample_net ON LINEARx10 1 0 0 (sample_layer DARK 1 1 0 0) with aperture := 11 }])
    100 0 0 POSITIVE
    (sample_net OFF LINEARx1 0 0 0 (sample_layer DARK 1 1 0 0))
    [{ sample_net ON LINEARx10 1 0 0 (sample_layer DARK 1 1 0 0) with aperture := 11 }]
    rfl
    (by
      intro net hnet c
      rw [List.mem_singleton] at hnet
      subst hnet
      simp [sample_net])
    (by
      intro net hnet ap hap c
      rw [List.mem_singleton] at hnet
      subst hnet
      simp [sample_image, sample_net] at hap)
    (by
      intro net hnet _
      rfl)).1

/-- C17 as stated fails: primitive 6 with exposure 0.0 (all parameters zero)
and the current colour `transparent` makes two drawing calls, both in the
current colour and none in the erase colour. -/
theorem C17_counterexample :
    (new_stack 0).stack 0 = 0 ∧
    (gerbv_gdk_draw_prim6 sample_host ⟨transparent_pixel, 0, GDK_LINE_SOLID, GDK_CAP_BUTT⟩
      (new_stack 0) 100 0 0).length = 2 ∧
    ∀ op ∈ gerbv_gdk_draw_prim6 sample_host
        ⟨transparent_pixel, 0, GDK_LINE_SOLID, GDK_CAP_BUTT⟩ (new_stack 0) 100 0 0,
      op.gc.foreground = transparent_pixel ∧ op.gc.foreground ≠ opaque_pixel := by
  refine ⟨rfl, ?_, ?_⟩
  · simp [gerbv_gdk_draw_prim6, new_stack, trunc_zero, trunc_lit, prim6_iterations]
  · intro op hop
    simp [gerbv_gdk_draw_prim6, new_stack, trunc_zero, trunc_lit, prim6_iterations] at hop
    subst hop
    simp [DrawOp.gc, gdk_gc_set_line_attributes, transparent_pixel, opaque_pixel]

/-- C17, amended: the six renderers of the primitives 1, 4, 5, 20, 21 and 22
(on the stack and on a parameter vector) treat value 0 as the exposure: every
drawing call they make is in the erase colour (pixel 0) when it equals 0.0 and
in the current draw colour otherwise.  The renderers of the primitives 6 and
7 do not read value 0: primitive 6 draws everything in the current colour,
primitive 7 draws its ring in the current colour and its two lines in the
inverse of the current colour. -/
theorem C17_exposure (H : Host) (gc : GdkGC) (s : macro_stack_t) (v : ℤ → double)
    (scale x y : ℤ) :
    ((∀ op ∈ gerbv_gdk_draw_prim1 gc s scale x y,
        op.gc.foreground = if s.stack 0 = 0 then opaque_pixel else gc.foreground) ∧
     (∀ op ∈ gerbv_gdk_draw_prim4 H gc s scale x y,
        op.gc.foreground = if s.stack 0 = 0 then opaque_pixel else gc.foreground) ∧
     (∀ op ∈ gerbv_gdk_draw_prim5 H gc s scale x y,
        op.gc.foreground = if s.stack 0 = 0 then opaque_pixel else gc.foreground) ∧
     (∀ op ∈ gerbv_gdk_draw_prim20 H gc s scale x y,
        op.gc.foreground = if s.stack 0 = 0 then opaque_pixel else gc.foreground) ∧
     (∀ op ∈ gerbv_gdk_draw_prim21 H gc s scale x y,
        op.gc.foreground = if s.stack 0 = 0 then opaque_pixel else gc.foreground) ∧
     (∀ op ∈ gerbv_gdk_draw_prim22 H gc s scale x y,
        op.gc.foreground = if s.stack 0 = 0 then opaque_pixel else gc.foreground)) ∧
    ((∀ op ∈ gerbv_gdk_draw_prim1_new gc v scale x y,
        op.gc.foreground = if v 0 = 0 then opaque_pixel else gc.foreground) ∧
     (∀ op ∈ gerbv_gdk_draw_prim4_new H gc v scale x y,
        op.gc.foreground = if v 0 = 0 then opaque_pixel else gc.foreground) ∧
     (∀ op ∈ gerbv_gdk_draw_prim5_new H gc v scale x y,
        op.gc.foreground = if v 0 = 0 then opaque_pixel else gc.foreground) ∧
     (∀ op ∈ gerbv_gdk_draw_prim20_new H gc v scale x y,
        op.gc.foreground = if v 0 = 0 then opaque_pixel else gc.foreground) ∧
     (∀ op ∈ gerbv_gdk_draw_prim21_new H gc v scale x y,
        op.gc.foreground = if v 0 = 0 then opaque_pixel else gc.foreground) ∧
     (∀ op ∈ gerbv_gdk_draw_prim22_new H gc v scale x y,
        op.gc.foreground = if v 0 = 0 then opaque_pixel else gc.foreground)) ∧
    ((∀ op ∈ gerbv_gdk_draw_prim6 H gc s scale x y, op.gc.foreground = gc.foreground) ∧
     (∀ op ∈ gerbv_gdk_draw_prim6_new H gc v scale x y, op.gc.foreground = gc.foreground)) ∧
    ((gerbv_gdk_draw_prim7 H gc s scale x y).map (fun op => op.gc.foreground) =
        [gc.foreground, if gc.foreground = 1 then 0 else 1,
          if gc.foreground = 1 then 0 else 1] ∧
     (gerbv_gdk_draw_prim7_new H gc v scale x y).map (fun op => op.gc.foreground) =
        [gc.foreground, if gc.foreground = 1 then 0 else 1,
          if gc.foreground = 1 then 0 else 1]) := by
  refine ⟨⟨?_, ?_, ?_, ?_, ?_, ?_⟩, ⟨?_, ?_, ?_, ?_, ?_, ?_⟩, ⟨?_, ?_⟩, ⟨?_, ?_⟩⟩
  · intro op hop
    simp only [gerbv_gdk_draw_prim1, List.mem_singleton] at hop
    rw [hop, ← exposure_foreground]; rfl
  · intro op hop
    rw [prim4_cases] at hop
    split_ifs at hop
    · rw [List.mem_singleton] at hop
      rw [hop, ← exposure_foreground]; rfl
    · simp at hop
  · intro op hop
    rw [prim5_cases] at hop
    split_ifs at hop
    · rw [List.mem_singleton] at hop
      rw [hop, ← exposure_foreground]; rfl
    · simp at hop
  · intro op hop
    simp only [gerbv_gdk_draw_prim20, List.mem_singleton] at hop
    rw [hop, ← exposure_foreground]; rfl
  · intro op hop
    simp only [gerbv_gdk_draw_prim21, List.mem_singleton] at hop
    rw [hop, ← exposure_foreground]; rfl
  · intro op hop
    simp only [gerbv_gdk_draw_prim22, List.mem_singleton] at hop
    rw [hop, ← exposure_foreground]; rfl
  · intro op hop
    simp only [gerbv_gdk_draw_prim1_new, List.mem_singleton] at hop
    rw [hop, ← exposure_foreground]; rfl
  · intro op hop
    rw [prim4_new_cases] at hop
    split_ifs at hop
    · rw [List.mem_singleton] at hop
      rw [hop, ← exposure_foreground]; rfl
    · simp at hop
  · intro op hop
    unfold gerbv_gdk_draw_prim5_new at hop
    simp only [] at hop
    split_ifs at hop
    · simp at hop
    · rw [List.mem_singleton] at hop
      rw [hop, ← exposure_foreground]; rfl
  · intro op hop
    simp only [gerbv_gdk_draw_prim20_new, List.mem_singleton] at hop
    rw [hop, ← exposure_foreground]; rfl
  · intro op hop
    simp only [gerbv_gdk_draw_prim21_new, List.mem_singleton] at hop
    rw [hop, ← exposure_foreground]; rfl
  · intro op hop
    simp only [gerbv_gdk_draw_prim22_new, List.mem_singleton] at hop
    rw [hop, ← exposure_foreground]; rfl
  · intro op hop
    simp only [gerbv_gdk_draw_prim6, List.mem_append, List.mem_map, List.mem_cons,
      List.mem_singleton, List.not_mem_nil, or_false] at hop
    rcases hop with ⟨k, -, h⟩ | h | h <;> subst h <;> rfl
  · intro op hop
    simp only [gerbv_gdk_draw_prim6_new, List.mem_append, List.mem_map, List.mem_cons,
      List.mem_singleton, List.not_mem_nil, or_false] at hop
    rcases hop with ⟨k, -, h⟩ | h | h <;> subst h <;> rfl
  · simp [gerbv_gdk_draw_prim7, DrawOp.gc, gdk_gc_set_line_attributes, gdk_gc_set_foreground]
  · simp [gerbv_gdk_draw_prim7_new, DrawOp.gc, gdk_gc_set_line_attributes,
      gdk_gc_set_foreground]

/-- C18 as stated fails: with the sine and cosine of the C library the point
(2, 1) rotated by 45 degrees has the image (2.12…, -0.70…) in `double`
arithmetic; the source returns (3, 0), the coordinates rounded upward, not the
nearest integers (2, -1). -/
theorem C18_counterexample :
    rotate_point glib_host { x := 2, y := 1 } 45 = { x := 3, y := 0 } ∧
    round_nearest (glib_host.cos (-((45 : ℤ) : double) * glib_host.M_PI / 180) * ((2 : ℤ) : double)
      - glib_host.sin (-((45 : ℤ) : double) * glib_host.M_PI / 180) * ((1 : ℤ) : double)) = 2 ∧
    round_nearest (glib_host.sin (-((45 : ℤ) : double) * glib_host.M_PI / 180) * ((2 : ℤ) : double)
      + glib_host.cos (-((45 : ℤ) : double) * glib_host.M_PI / 180) * ((1 : ℤ) : double)) = -1 := by
  refine ⟨rotate_glib_45, ?_, ?_⟩
  · unfold round_nearest
    rw [rot_45_x_val, Int.floor_eq_iff]
    norm_num
  · unfold round_nearest
    rw [rot_45_y_val, Int.floor_eq_iff]
    norm_num

/-- C18, amended: for every integer point `(px, py)` and every nonzero integer
angle `t`, `rotate_point` returns the point whose x is
`cos(a) * px - sin(a) * py` and whose y is `sin(a) * px + cos(a) * py`, with
`a = -t * M_PI / 180` (the angle converted from degrees to radians and
negated before sine and cosine), every operation being one of `double`
arithmetic, each rounded upward to an integer (the ceiling, converted to
`int`) after the rotation.  For coordinates of magnitude at most 10^9 and a
sine and cosine of magnitude at most 1, each coordinate returned is less than
1 + 1/1000 above the exact value of its expression and at most 1/1000 below
it. -/
theorem C18_rotate_point_formula (H : Host) (p : GdkPoint) (t : ℤ) (ht : t ≠ 0) :
    rotate_point H p t =
      { x := round (H.cos (-(t : double) * H.M_PI / 180) * (p.x : double)
            - H.sin (-(t : double) * H.M_PI / 180) * (p.y : double)),
        y := round (H.sin (-(t : double) * H.M_PI / 180) * (p.x : double)
            + H.cos (-(t : double) * H.M_PI / 180) * (p.y : double)) } ∧
    (rotate_point H p t).x =
      to_gint ⌈double.val (H.cos (-(t : double) * H.M_PI / 180) * (p.x : double)
            - H.sin (-(t : double) * H.M_PI / 180) * (p.y : double))⌉ ∧
    (rotate_point H p t).y =
      to_gint ⌈double.val (H.sin (-(t : double) * H.M_PI / 180) * (p.x : double)
            + H.cos (-(t : double) * H.M_PI / 180) * (p.y : double))⌉ ∧
    (|p.x| ≤ 1000000000 → |p.y| ≤ 1000000000 →
      |(H.cos (-(t : double) * H.M_PI / 180)).val| ≤ 1 →
      |(H.sin (-(t : double) * H.M_PI / 180)).val| ≤ 1 →
      (-(1 / 1000) ≤ ((rotate_point H p t).x : ℚ)
          - ((H.cos (-(t : double) * H.M_PI / 180)).val * p.x
            - (H.sin (-(t : double) * H.M_PI / 180)).val * p.y) ∧
       ((rotate_point H p t).x : ℚ)
          - ((H.cos (-(t : double) * H.M_PI / 180)).val * p.x
            - (H.sin (-(t : double) * H.M_PI / 180)).val * p.y) < 1 + 1 / 1000) ∧
      (-(1 / 1000) ≤ ((rotate_point H p t).y : ℚ)
          - ((H.sin (-(t : double) * H.M_PI / 180)).val * p.x
            + (H.cos (-(t : double) * H.M_PI / 180)).val * p.y) ∧
       ((rotate_point H p t).y : ℚ)
          - ((H.sin (-(t : double) * H.M_PI / 180)).val * p.x
            + (H.cos (-(t : double) * H.M_PI / 180)).val * p.y) < 1 + 1 / 1000)) := by
  have h : rotate_point H p t =
      { x := round (H.cos (-(t : double) * H.M_PI / 180) * (p.x : double)
            - H.sin (-(t : double) * H.M_PI / 180) * (p.y : double)),
        y := round (H.sin (-(t : double) * H.M_PI / 180) * (p.x : double)
            + H.cos (-(t : double) * H.M_PI / 180) * (p.y : double)) } := by
    simp only [rotate_point, ht, if_false]
  refine ⟨h, ?_, ?_, ?_⟩
  · rw [h]
    exact round_eq _
  · rw [h]
    exact round_eq _
  · intro hx hy hc hs
    rw [h]
    have hx1 := int_abs_cast _ _ hx
    have hy1 := int_abs_cast _ _ hy
    push_cast at hx1 hy1
    have bx : |(H.cos (-(t : double) * H.M_PI / 180)).val * (p.x : ℚ)| ≤ 1000000000 := by
      rw [abs_mul]
      calc |(H.cos (-(t : double) * H.M_PI / 180)).val| * |(p.x : ℚ)|
          ≤ 1 * 1000000000 := mul_le_mul hc hx1 (abs_nonneg _) (by norm_num)
        _ = 1000000000 := by norm_num
    have by1 : |(H.sin (-(t : double) * H.M_PI / 180)).val * (p.y : ℚ)| ≤ 1000000000 := by
      rw [abs_mul]
      calc |(H.sin (-(t : double) * H.M_PI / 180)).val| * |(p.y : ℚ)|
          ≤ 1 * 1000000000 := mul_le_mul hs hy1 (abs_nonneg _) (by norm_num)
        _ = 1000000000 := by norm_num
    have sx : |(H.sin (-(t : double) * H.M_PI / 180)).val * (p.x : ℚ)| ≤ 1000000000 := by
      rw [abs_mul]
      calc |(H.sin (-(t : double) * H.M_PI / 180)).val| * |(p.x : ℚ)|
          ≤ 1 * 1000000000 := mul_le_mul hs hx1 (abs_nonneg _) (by norm_num)
        _ = 1000000000 := by norm_num
    have cy : |(H.cos (-(t : double) * H.M_PI / 180)).val * (p.y : ℚ)| ≤ 1000000000 := by
      rw [abs_mul]
      calc |(H.cos (-(t : double) * H.M_PI / 180)).val| * |(p.y : ℚ)|
          ≤ 1 * 1000000000 := mul_le_mul hc hy1 (abs_nonneg _) (by norm_num)
        _ = 1000000000 := by norm_num
    rw [abs_le] at bx by1 sx cy
    constructor
    · exact round_near _ _
        (rot_x_near _ _ p.x p.y (le_trans hc (by norm_num)) (le_trans hs (by norm_num))
          (le_trans hx (by norm_num)) (le_trans hy (by norm_num)))
        (by
          rw [abs_le]
          constructor <;> linarith [bx.1, bx.2, by1.1, by1.2])
    · exact round_near _ _
        (rot_y_near _ _ p.x p.y (le_trans hc (by norm_num)) (le_trans hs (by norm_num))
          (le_trans hx (by norm_num)) (le_trans hy (by norm_num)))
        (by
          rw [abs_le]
          constructor <;> linarith [sx.1, sx.2, cy.1, cy.2])

/-- Witness of C18: the point (2, 1) and the angle 45 with the values of the
C library: the two expressions round upward to 3 and 0. -/
theorem C18_rotate_point_formula_witness :
    round (glib_host.cos (-((45 : ℤ) : double) * glib_host.M_PI / 180) * ((2 : ℤ) : double)
      - glib_host.sin (-((45 : ℤ) : double) * glib_host.M_PI / 180) * ((1 : ℤ) : double)) = 3 ∧
    round (glib_host.sin (-((45 : ℤ) : double) * glib_host.M_PI / 180) * ((2 : ℤ) : double)
      + glib_host.cos (-((45 : ℤ) : double) * glib_host.M_PI / 180) * ((1 : ℤ) : double)) = 0 := by
  have h := (C18_rotate_point_formula glib_host { x := 2, y := 1 } 45 (by decide)).1
  rw [rotate_glib_45] at h
  exact ⟨(congrArg GdkPoint.x h).symm, (congrArg GdkPoint.y h).symm⟩

/-- C19, the code at the failing input: an outline of one vertex (1, 0) with
rotation -45 degrees, scale 100, is emitted with the unrotated vertex
(100, 0), although rotating that vertex by -45 degrees gives (71, 71); the
same outline with rotation +45 degrees is emitted rotated, at (71, -70). -/
theorem C19_negative_rotation_ignored :
    gerbv_gdk_draw_prim4 glib_host gdk_gc_new (stack_of [1, 1, 1, 0, 1, 0, -45] 7) 100 0 0 =
      [gdk_draw_polygon ⟨0, 1, GDK_LINE_SOLID, GDK_CAP_BUTT⟩ true [{ x := 100, y := 0 }]] ∧
    rotate_point glib_host { x := 100, y := 0 } (-45) = { x := 71, y := 71 } ∧
    gerbv_gdk_draw_prim4 glib_host gdk_gc_new (stack_of [1, 1, 1, 0, 1, 0, 45] 7) 100 0 0 =
      [gdk_draw_polygon ⟨0, 1, GDK_LINE_SOLID, GDK_CAP_BUTT⟩ true [{ x := 71, y := -70 }]] := by
  have t1 : trunc (1 : double) = 1 := by simp
  have t45 : trunc (45 : double) = 45 := by simp
  have e1 : (stack_of [1, 1, 1, 0, 1, 0, -45] 7).stack 1 = 1 := by simp [stack_of]
  have e2 : (stack_of [1, 1, 1, 0, 1, 0, 45] 7).stack 1 = 1 := by simp [stack_of]
  have hg : glib_host.g_malloc 1 = true := by simp [glib_host]
  have hc : (0 : double) < 1 / 10000 := by
    rw [lt_iff_val, val_1_10000, double.val_zero]
    norm_num
  have h10 : ¬ (1 : double) = 0 := by
    rw [double.eq_iff_val, double.val_one, double.val_zero]
    norm_num
  have hn : (-45 : double) ≤ 1 / 10 := by
    rw [le_iff_val, tenth_val, double.val_neg, double.val_lit 45 (by norm_num)]
    norm_num
  have hp : (45 : double) > 1 / 10 := by
    rw [gt_iff_lt, lt_iff_val, tenth_val, double.val_lit 45 (by norm_num)]
    norm_num
  refine ⟨?_, rotate_glib_100_m45, ?_⟩
  · rw [prim4_cases, prim4_points_unrotated]
    · simp [e1, t1, hg, hc, h10, prim4_closed, prim4_unrotated, take_points, stack_of, exposure,
        gdk_gc_set_line_attributes, gdk_gc_new, List.range_succ]
    · simp [e1, t1, stack_of, hn]
  · rw [prim4_cases]
    simp only [e2, t1, prim4_points, prim4_closed]
    simp [hg, hc, hp, h10, take_points, stack_of, exposure, gdk_gc_set_line_attributes, gdk_gc_new,
      t45, GdkPoint.offset, List.range_succ, rotate_glib_100_45]

/-- C20 as stated fails: after `PRIM 1`, six values are pushed (vertex count 0)
and `PRIM 5` is reached at depth 6, yet it draws nothing, because the vertex
array of no points is a NULL pointer. -/
theorem C20_counterexample :
    net_pushes [instr_push 1, instr_push 0, instr_push 0, instr_push 0, instr_push 1,
      instr_push 0] = 6 ∧
    (amacro_step glib_host gdk_gc_new 100 0 0
      (amacro_run glib_host gdk_gc_new 100 0 0
        (instr_i opcodes.PRIM 1 :: [instr_push 1, instr_push 0, instr_push 0, instr_push 0,
          instr_push 1, instr_push 0]) (amacro_init 6 fun _ => 0))
      (instr_i opcodes.PRIM 5)).ops =
    (amacro_run glib_host gdk_gc_new 100 0 0
        (instr_i opcodes.PRIM 1 :: [instr_push 1, instr_push 0, instr_push 0, instr_push 0,
          instr_push 1, instr_push 0]) (amacro_init 6 fun _ => 0)).ops := by
  constructor
  · simp [net_pushes, depth_change, instr_push]
  · rw [amacro_step_prim5 _ _ _ _ _ _ _ rfl rfl, prim5_cases]
    have h1 : (amacro_run glib_host gdk_gc_new 100 0 0
        (instr_i opcodes.PRIM 1 :: [instr_push 1, instr_push 0, instr_push 0, instr_push 0,
          instr_push 1, instr_push 0]) (amacro_init 6 fun _ => 0)).s.stack 1 = 0 := by
      simp [amacro_run, amacro_step, amacro_init, new_stack, instr_push, instr_i, push]
    have h2 : glib_host.g_malloc 0 = false := by
      simp [glib_host]
    simp [h1, h2]

/-- C20, amended: the stack depth is 0 immediately after every `PRIM`
instruction, whether its code is recognised or not; so after an earlier
`PRIM` and a run of other instructions the depth is the number of values that
run pushed, net of pops, whatever the depth before the earlier `PRIM` was, and
a following `PRIM 5` draws its polygon if and only if that number is exactly 6
and the allocation of its vertex array succeeds. -/
theorem C20_depth_reset (H : Host) (gc : GdkGC) (scale x y : ℤ) (st : amacro_state)
    (ip1 ip5 : instruction_t) (mid : List instruction_t)
    (h1 : ip1.opcode = opcodes.PRIM) (hmid : ∀ ip ∈ mid, ip.opcode ≠ opcodes.PRIM)
    (h5 : ip5.opcode = opcodes.PRIM) (h5c : ip5.ival = 5) :
    (amacro_step H gc scale x y st ip1).s.sp = 0 ∧
    (amacro_run H gc scale x y (ip1 :: mid) st).s.sp = net_pushes mid ∧
    (amacro_step H gc scale x y (amacro_run H gc scale x y (ip1 :: mid) st) ip5).s.sp = 0 ∧
    (amacro_step H gc scale x y (amacro_run H gc scale x y (ip1 :: mid) st) ip5).ops =
      (amacro_run H gc scale x y (ip1 :: mid) st).ops ++
        (if net_pushes mid = 6 ∧
            H.g_malloc (trunc ((amacro_run H gc scale x y (ip1 :: mid) st).s.stack 1)) = true
         then
          [gdk_draw_polygon
            (exposure gc ((amacro_run H gc scale x y (ip1 :: mid) st).s.stack 0)) true
            (prim5_points H (amacro_run H gc scale x y (ip1 :: mid) st).s scale x y)]
         else []) := by
  have hsp : (amacro_run H gc scale x y (ip1 :: mid) st).s.sp = net_pushes mid := by
    rw [amacro_run_cons, amacro_run_depth H gc scale x y mid _ hmid,
      amacro_step_prim_depth H gc scale x y st ip1 h1, zero_add]
  refine ⟨amacro_step_prim_depth H gc scale x y st ip1 h1, hsp,
    amacro_step_prim_depth H gc scale x y _ ip5 h5, ?_⟩
  rw [amacro_step_prim5 H gc scale x y _ ip5 h5 h5c, prim5_cases, hsp]

/-- Witness of C20: after `PRIM 3` (an unknown code) and six pushes with vertex
count 3, the depth is 6. -/
theorem C20_depth_reset_witness :
    (amacro_run sample_host gdk_gc_new 100 0 0
      (instr_i opcodes.PRIM 3 :: [instr_push 1, instr_push 3, instr_push 0, instr_push 0,
        instr_push 1, instr_push 0])
      { s := stack_of [7, 7, 7] 3, lp := fun _ => 0, handled := 1, ops := [] }).s.sp =
    net_pushes [instr_push 1, instr_push 3, instr_push 0, instr_push 0, instr_push 1,
      instr_push 0] :=
  (C20_depth_reset sample_host gdk_gc_new 100 0 0
    { s := stack_of [7, 7, 7] 3, lp := fun _ => 0, handled := 1, ops := [] }
    (instr_i opcodes.PRIM 3) (instr_i opcodes.PRIM 5)
    [instr_push 1, instr_push 3, instr_push 0, instr_push 0, instr_push 1, instr_push 0]
    rfl
    (by
      intro ip hip
      simp only [List.mem_cons, List.mem_singleton, List.not_mem_nil, or_false] at hip
      rcases hip with h | h | h | h | h | h <;> subst h <;> simp [instr_push])
    rfl rfl).2.1

/-! ## Lemmas on the moire, thermal and polygon primitives -/

theorem prim6_iterations_nonneg (n : ℤ) (h0 : 0 ≤ n) (h1 : n < 4294967296) :
    prim6_iterations n = n.toNat := by
  unfold prim6_iterations
  rw [Int.emod_eq_of_lt h0 h1]

theorem prim6_counter_small (k : ℕ) (h : (k : ℤ) < 2147483648) : prim6_counter k = (k : ℤ) := by
  simp [prim6_counter, h]

theorem prim6_new_cases (H : Host) (gc : GdkGC) (v : ℤ → double) (scale x y : ℤ) :
    ∃ (g : GdkGC) (ax ay bx b_y cx cy dx dy : ℤ),
      gerbv_gdk_draw_prim6_new H gc v scale x y =
        (List.range (prim6_iterations (trunc (v 5)))).map
            (fun k => prim6_ring gc v scale x y (prim6_counter k)) ++
          [gdk_draw_line g ax ay bx b_y, gdk_draw_line g cx cy dx dy] := by
  unfold gerbv_gdk_draw_prim6_new
  simp only []
  refine ⟨_, _, _, _, _, _, _, _, _, congrArg₂ (· ++ ·) ?_ rfl⟩
  apply List.map_congr_left
  intro k _
  simp [prim6_ring, gerbv_gdk_draw_circle]

theorem prim6_new_rings (H : Host) (gc : GdkGC) (v : ℤ → double) (scale x y : ℤ)
    (h0 : 0 ≤ trunc (v 5)) (h1 : trunc (v 5) < 2147483648) :
    ∃ (g : GdkGC) (ax ay bx b_y cx cy dx dy : ℤ),
      gerbv_gdk_draw_prim6_new H gc v scale x y =
        (List.range (trunc (v 5)).toNat).map
            (fun (k : ℕ) => prim6_ring gc v scale x y (k : ℤ)) ++
          [gdk_draw_line g ax ay bx b_y, gdk_draw_line g cx cy dx dy] := by
  unfold gerbv_gdk_draw_prim6_new
  simp only []
  rw [prim6_iterations_nonneg _ h0 (by omega)]
  refine ⟨_, _, _, _, _, _, _, _, _, congrArg₂ (· ++ ·) ?_ rfl⟩
  apply List.map_congr_left
  intro k hk
  rw [List.mem_range] at hk
  have hk2 : (k : ℤ) < 2147483648 := by omega
  rw [prim6_counter_small k hk2]
  simp [prim6_ring, gerbv_gdk_draw_circle]

theorem prim6_new_length (H : Host) (gc : GdkGC) (v : ℤ → double) (scale x y : ℤ) :
    (gerbv_gdk_draw_prim6_new H gc v scale x y).length = prim6_iterations (trunc (v 5)) + 2 := by
  simp [gerbv_gdk_draw_prim6_new]

theorem prim7_new_cases (H : Host) (gc : GdkGC) (v : ℤ → double) (scale x y : ℤ) :
    gerbv_gdk_draw_prim7_new H gc v scale x y =
      [gerbv_gdk_draw_circle
        (gdk_gc_set_line_attributes gc (round ((scale : double) * ((v 2 - v 3) / 2)))
          GDK_LINE_SOLID GDK_CAP_BUTT)
        false x y (trunc ((v 3 + (v 2 - v 3) / 2) * (scale : double))),
       gdk_draw_line
        ⟨if gc.foreground = 1 then 0 else 1, round ((scale : double) * v 4), GDK_LINE_SOLID,
          GDK_CAP_BUTT⟩
        (prim7_point H v scale x y 0).x (prim7_point H v scale x y 0).y
        (prim7_point H v scale x y 2).x (prim7_point H v scale x y 2).y,
       gdk_draw_line
        ⟨if gc.foreground = 1 then 0 else 1, round ((scale : double) * v 4), GDK_LINE_SOLID,
          GDK_CAP_BUTT⟩
        (prim7_point H v scale x y 1).x (prim7_point H v scale x y 1).y
        (prim7_point H v scale x y 3).x (prim7_point H v scale x y 3).y] := by
  simp [gerbv_gdk_draw_prim7_new, prim7_point, gerbv_gdk_draw_circle,
    gdk_gc_set_line_attributes, gdk_gc_set_foreground]

/-- A `double` whose value is a whole number in the range of `int` converts
to that number. -/
theorem trunc_of_val (x : double) (n : ℤ) (h : x.val = (n : ℚ)) (h1 : -2147483648 ≤ n)
    (h2 : n ≤ 2147483647) : trunc x = n := by
  unfold trunc
  rw [h]
  split_ifs <;> simp [to_gint, h1, h2]

/-- The expression `round(d) + 2` of the cross hair of primitive 7, a sum of
`double`s converted to `int`, is the integer `round(d) + 2` when that is in
the range of `int`. -/
theorem trunc_ceil_add_two (d : double) (h1 : -2147483648 ≤ ⌈d.val⌉)
    (h2 : ⌈d.val⌉ ≤ 2147483645) : trunc (ceil d + 2) = round d + 2 := by
  rw [round_eq, to_gint_of_range _ h1 (by omega)]
  apply trunc_of_val _ _ _ (by omega) (by omega)
  rw [double.val_add, double.val_ceil, double.val_lit 2 (by norm_num)]
  have h := fl_intCast (⌈d.val⌉ + 2) (by rw [abs_le]; constructor <;> omega)
  push_cast at h ⊢
  exact h

theorem tiny_le_100 : (2 : ℚ) ^ (-1075 : ℤ) ≤ 1 / 1000000000000000000000000000000 := by
  have h : (2 : ℚ) ^ (-1075 : ℤ) ≤ 2 ^ (-100 : ℤ) :=
    zpow_le_zpow_right₀ (by norm_num) (by norm_num)
  refine le_trans h ?_
  norm_num

/-- The rounding of a small positive number stays in `(0, 1)`. -/
theorem fl_small_pos (x : ℚ) (h1 : 1 / 100000000000000000000 ≤ x) (h2 : x ≤ 1 / 2) :
    0 < fl x ∧ fl x < 1 := by
  have he := fl_err x
  have ht := tiny_le_100
  have hx : 0 < x := lt_of_lt_of_le (by norm_num) h1
  rw [abs_of_pos hx, abs_le] at he
  have hd : x / 9007199254740992 ≤ x / 2 := by
    apply div_le_div_of_nonneg_left hx.le (by norm_num) (by norm_num)
  constructor <;> linarith [he.1, he.2]

/-- The upward rounding of the product of a tiny positive `double` and a
positive `int` is 1. -/
theorem round_tiny_pos (c : double) (R : ℤ) (hc1 : 1 / 100000000000000000000 ≤ c.val)
    (hc2 : c.val ≤ 1 / 10000000000) (h1 : 1 ≤ R) (h2 : R ≤ 1000000000) :
    round (c * (R : double)) = 1 := by
  have hR1 : (1 : ℚ) ≤ (R : ℚ) := by exact_mod_cast h1
  have hR2 : (R : ℚ) ≤ 1000000000 := by exact_mod_cast h2
  have hc0 : 0 < c.val := lt_of_lt_of_le (by norm_num) hc1
  have hp1 : 1 / 100000000000000000000 ≤ c.val * (R : ℚ) := by nlinarith
  have hp2 : c.val * (R : ℚ) ≤ 1 / 2 := by nlinarith
  obtain ⟨a, b⟩ := fl_small_pos _ hp1 hp2
  rw [round_eq, double.val_mul, double.val_int R (by rw [abs_le]; constructor <;> omega)]
  have hc : ⌈fl (c.val * (R : ℚ))⌉ = 1 := by
    rw [Int.ceil_eq_iff]
    push_cast
    constructor <;> linarith
  rw [hc]
  rfl

/-- The upward rounding of the product of a tiny negative `double` and a
positive `int` is 0. -/
theorem round_tiny_neg (c : double) (R : ℤ) (hc1 : -(1 / 10000000000) ≤ c.val)
    (hc2 : c.val ≤ -(1 / 100000000000000000000)) (h1 : 1 ≤ R) (h2 : R ≤ 1000000000) :
    round (c * (R : double)) = 0 := by
  have hR1 : (1 : ℚ) ≤ (R : ℚ) := by exact_mod_cast h1
  have hR2 : (R : ℚ) ≤ 1000000000 := by exact_mod_cast h2
  have hc0 : c.val < 0 := lt_of_le_of_lt hc2 (by norm_num)
  have hp1 : 1 / 100000000000000000000 ≤ -(c.val * (R : ℚ)) := by nlinarith
  have hp2 : -(c.val * (R : ℚ)) ≤ 1 / 2 := by nlinarith
  obtain ⟨a, b⟩ := fl_small_pos _ hp1 hp2
  rw [fl_neg] at a b
  rw [round_eq, double.val_mul, double.val_int R (by rw [abs_le]; constructor <;> omega)]
  have hc : ⌈fl (c.val * (R : ℚ))⌉ = 0 := by
    rw [Int.ceil_eq_iff]
    push_cast
    constructor <;> linarith
  rw [hc]
  rfl

theorem neg_one_mul_d (a : double) : -1 * a = -a := by
  rw [neg_mul_d, one_mul_d]

theorem round_neg_intCast (R : ℤ) (h1 : 1 ≤ R) (h2 : R ≤ 1000000000) :
    round (-(R : double)) = -R := by
  rw [← intCast_neg_d]
  exact round_intCast _ (by omega) (by omega)

/-- The quarter turn of a point `(R, 0)` with the values of the C library:
`cos(-M_PI/2)` is a small positive number, which the ceiling turns into 1. -/
theorem rotate_glib_quarter (R : ℤ) (h1 : 1 ≤ R) (h2 : R ≤ 1000000000) :
    rotate_point glib_host { x := R, y := 0 } 90 = { x := 1, y := -R } := by
  have hs : glib_host.sin (-((90 : ℤ) : double) * glib_host.M_PI / 180) = -1 := by
    rw [double.eq_iff_val, glib_sin_90, double.val_neg, double.val_one]
  have hx : round (glib_host.cos (-((90 : ℤ) : double) * glib_host.M_PI / 180) * (R : double))
      = 1 :=
    round_tiny_pos _ R (by rw [glib_cos_90]; norm_num) (by rw [glib_cos_90]; norm_num) h1 h2
  simp only [rotate_point]
  rw [if_neg (by norm_num)]
  simp only [hs, intCast_zero_d, mul_zero_d, sub_zero_d, add_zero_d, neg_one_mul_d, hx,
    round_neg_intCast R h1 h2]

/-- The half turn of a point `(R, 0)` with the values of the C library. -/
theorem rotate_glib_half (R : ℤ) (h1 : 1 ≤ R) (h2 : R ≤ 1000000000) :
    rotate_point glib_host { x := R, y := 0 } 180 = { x := -R, y := 0 } := by
  have hc : glib_host.cos (-((180 : ℤ) : double) * glib_host.M_PI / 180) = -1 := by
    rw [double.eq_iff_val, glib_cos_180, double.val_neg, double.val_one]
  have hy : round (glib_host.sin (-((180 : ℤ) : double) * glib_host.M_PI / 180) * (R : double))
      = 0 :=
    round_tiny_neg _ R (by rw [glib_sin_180]; norm_num) (by rw [glib_sin_180]; norm_num) h1 h2
  simp only [rotate_point]
  rw [if_neg (by norm_num)]
  simp only [hc, intCast_zero_d, mul_zero_d, sub_zero_d, add_zero_d, neg_one_mul_d, hy,
    round_neg_intCast R h1 h2]

/-- The three-quarter turn of a point `(R, 0)` with the values of the C
library. -/
theorem rotate_glib_three_quarter (R : ℤ) (h1 : 1 ≤ R) (h2 : R ≤ 1000000000) :
    rotate_point glib_host { x := R, y := 0 } 270 = { x := 0, y := R } := by
  have hs : glib_host.sin (-((270 : ℤ) : double) * glib_host.M_PI / 180) = 1 := by
    rw [double.eq_iff_val, glib_sin_270, double.val_one]
  have hx : round (glib_host.cos (-((270 : ℤ) : double) * glib_host.M_PI / 180) * (R : double))
      = 0 :=
    round_tiny_neg _ R (by rw [glib_cos_270]; norm_num) (by rw [glib_cos_270]; norm_num) h1 h2
  simp only [rotate_point]
  rw [if_neg (by norm_num)]
  simp only [hs, intCast_zero_d, mul_zero_d, sub_zero_d, add_zero_d, one_mul_d, hx,
    round_intCast R (by omega) (by omega)]

theorem prim5_new_cases (H : Host) (gc : GdkGC) (s : macro_stack_t) (scale x y : ℤ) :
    gerbv_gdk_draw_prim5_new H gc s.stack scale x y =
      if H.g_malloc (trunc (s.stack 1)) = true then
        [gdk_draw_polygon (exposure gc (s.stack 0)) true (prim5_points H s scale x y)]
      else [] := by
  unfold gerbv_gdk_draw_prim5_new prim5_points
  by_cases hm : H.g_malloc (trunc (s.stack 1)) = true <;> simp [hm]

/-! ## Lemmas on arcs, macro flashes and the unit of an aperture -/

theorem tile_step_arc (H : Host) (image : gerb_image) (scale : ℤ) (trans_x trans_y : double)
    (polarity : polarity_t) (net : gerb_net) (i j : ℕ) (st : render_state)
    (ap : gerb_aperture) (cs : gerb_cirseg)
    (hfill : st.in_parea_fill = false) (hon : net.aperture_state = ON)
    (harc : net.interpolation = CW_CIRCULAR ∨ net.interpolation = CCW_CIRCULAR)
    (hap : image.aperture net.aperture = some ap) (hcs : net.cirseg = some cs) :
    (tile_step H image scale trans_x trans_y polarity net i j st).1.ops =
      st.ops ++
        [gerbv_gdk_draw_arc
          (gdk_gc_set_line_attributes
            (gdk_gc_set_foreground st.gc (net_pixel net.layer.polarity polarity))
            (round (ap.parameter 0 *
              (if ap.unit = MM then (scale : double) / (127 / 5) else (scale : double))))
            GDK_LINE_SOLID (if ap.type = RECTANGLE then GDK_CAP_PROJECTING else GDK_CAP_ROUND))
          (round ((image.info.offsetA + cs.cp_x) * (scale : double) + trans_x))
          (round ((image.info.offsetB - cs.cp_y) * (scale : double) + trans_y))
          (round (cs.width * (scale : double))) (round (cs.height * (scale : double)))
          cs.angle1 cs.angle2] := by
  unfold tile_step
  rcases harc with h | h <;>
    by_cases hr : ap.type = RECTANGLE <;>
    simp [h, hfill, draw_net, hap, hon, stroke_net, hcs, tile_prepare, hr]

theorem flash_net_program (H : Host) (ap : gerb_aperture) (m : amacro_t) (scale : ℤ)
    (unit_scale : double) (x2 y2 : ℤ) (st : render_state)
    (htype : ap.type = MACRO) (hm : ap.amacro = some m) :
    flash_net H ap scale unit_scale x2 y2 st =
      ({ st with
         ops := st.ops ++ ( gerbv_gdk_draw_amacro H st.gc m.program m.nuf_push ap.parameter
           (trunc unit_scale) x2 y2).ops }, false) := by
  simp [flash_net, htype, hm]

theorem flash_net_fast_path (H : Host) (ap : gerb_aperture) (u : unit_t) (scale : ℤ)
    (us us1 : double) (x2 y2 : ℤ) (st : render_state) (hfast : ap.type.fast_path = true) :
    flash_net H { ap with unit := u } scale us1 x2 y2 st = flash_net H ap scale us x2 y2 st := by
  unfold flash_net
  cases htype : ap.type <;> simp_all [aperture_t.fast_path]

theorem tile_prepare_info (image image1 : gerb_image) (scale : ℤ) (trans_x trans_y : double)
    (polarity : polarity_t) (net : gerb_net) (st : render_state)
    (hinfo : image1.info = image.info) :
    tile_prepare image1 scale trans_x trans_y polarity net st =
      tile_prepare image scale trans_x trans_y polarity net st := by
  simp [tile_prepare, hinfo]

/-! ## Worked values of the thermal and of the millimetre scale -/

/-- The ring width of the thermal with diameters 1 and 1/2 at scale 100. -/
theorem thermal_width : round (((100 : ℤ) : double) * ((1 - (1 / 2)) / 2)) = 25 := by
  have h1 : double.val (((100 : ℤ) : double)) = 100 := by
    rw [double.val_int 100 (by norm_num)]
    norm_num
  have h2 : double.val (1) = 1 := double.val_lit 1 (by norm_num)
  have h3 : double.val (2) = 2 := double.val_lit 2 (by norm_num)
  have h4 : double.val (1 / 2) = 1 / 2 := by
    rw [double.val_div, h2, h3]
    rw [show (1 / 2 : ℚ) = 1 / 2 by norm_num]
    exact fl_cert (1 / 2) (1 / 2) (-1) 4503599627370496 (by norm_num) (by norm_num) (by norm_num)
      (by norm_num) (by norm_num) (by norm_num)
  have h5 : double.val (1 - (1 / 2)) = 1 / 2 := by
    rw [double.val_sub, h2, h4]
    rw [show (1 - (1 / 2) : ℚ) = 1 / 2 by norm_num]
    exact fl_cert (1 / 2) (1 / 2) (-1) 4503599627370496 (by norm_num) (by norm_num) (by norm_num)
      (by norm_num) (by norm_num) (by norm_num)
  have h6 : double.val ((1 - (1 / 2)) / 2) = 1 / 4 := by
    rw [double.val_div, h5, h3]
    rw [show ((1 / 2) / 2 : ℚ) = 1 / 4 by norm_num]
    exact fl_cert (1 / 4) (1 / 4) (-2) 4503599627370496 (by norm_num) (by norm_num) (by norm_num)
      (by norm_num) (by norm_num) (by norm_num)
  have h7 : double.val (((100 : ℤ) : double) * ((1 - (1 / 2)) / 2)) = 25 := by
    rw [double.val_mul, h1, h6]
    rw [show (100 * (1 / 4) : ℚ) = 25 by norm_num]
    exact fl_cert (25) (25) (4) 7036874417766400 (by norm_num) (by norm_num) (by norm_num)
      (by norm_num) (by norm_num) (by norm_num)
  have c9 : ⌈(25 : ℚ)⌉ = 25 := by
    rw [Int.ceil_eq_iff]
    norm_num
  have r8 : round (((100 : ℤ) : double) * ((1 - (1 / 2)) / 2)) = 25 := by
    rw [round_eq, h7, c9]
    norm_num [to_gint]
  exact r8

/-- The ring diameter of the thermal with diameters 1 and 1/2 at scale 100. -/
theorem thermal_diameter : trunc (((1 / 2) + ((1 - (1 / 2)) / 2)) * ((100 : ℤ) : double)) = 75 :=
    by
  have h1 : double.val (1) = 1 := double.val_lit 1 (by norm_num)
  have h2 : double.val (2) = 2 := double.val_lit 2 (by norm_num)
  have h3 : double.val (1 / 2) = 1 / 2 := by
    rw [double.val_div, h1, h2]
    rw [show (1 / 2 : ℚ) = 1 / 2 by norm_num]
    exact fl_cert (1 / 2) (1 / 2) (-1) 4503599627370496 (by norm_num) (by norm_num) (by norm_num)
      (by norm_num) (by norm_num) (by norm_num)
  have h4 : double.val (1 - (1 / 2)) = 1 / 2 := by
    rw [double.val_sub, h1, h3]
    rw [show (1 - (1 / 2) : ℚ) = 1 / 2 by norm_num]
    exact fl_cert (1 / 2) (1 / 2) (-1) 4503599627370496 (by norm_num) (by norm_num) (by norm_num)
      (by norm_num) (by norm_num) (by norm_num)
  have h5 : double.val ((1 - (1 / 2)) / 2) = 1 / 4 := by
    rw [double.val_div, h4, h2]
    rw [show ((1 / 2) / 2 : ℚ) = 1 / 4 by norm_num]
    exact fl_cert (1 / 4) (1 / 4) (-2) 4503599627370496 (by norm_num) (by norm_num) (by norm_num)
      (by norm_num) (by norm_num) (by norm_num)
  have h6 : double.val ((1 / 2) + ((1 - (1 / 2)) / 2)) = 3 / 4 := by
    rw [double.val_add, h3, h5]
    rw [show ((1 / 2) + (1 / 4) : ℚ) = 3 / 4 by norm_num]
    exact fl_cert (3 / 4) (3 / 4) (-1) 6755399441055744 (by norm_num) (by norm_num) (by norm_num)
      (by norm_num) (by norm_num) (by norm_num)
  have h7 : double.val (((100 : ℤ) : double)) = 100 := by
    rw [double.val_int 100 (by norm_num)]
    norm_num
  have h8 : double.val (((1 / 2) + ((1 - (1 / 2)) / 2)) * ((100 : ℤ) : double)) = 75 := by
    rw [double.val_mul, h6, h7]
    rw [show ((3 / 4) * 100 : ℚ) = 75 by norm_num]
    exact fl_cert (75) (75) (6) 5277655813324800 (by norm_num) (by norm_num) (by norm_num)
      (by norm_num) (by norm_num) (by norm_num)
  have c10 : ⌊(75 : ℚ)⌋ = 75 := by
    rw [Int.floor_eq_iff]
    norm_num
  have t9 : trunc (((1 / 2) + ((1 - (1 / 2)) / 2)) * ((100 : ℤ) : double)) = 75 := by
    rw [trunc_eq_of_nonneg _ (by rw [h8]; norm_num), h8, c10]
    norm_num [to_gint]
  exact t9

/-- The reach `round(1 / 2 * 100) + 2` of the cross hair of that thermal. -/
theorem thermal_reach : trunc ((ceil ((1 / 2) * ((100 : ℤ) : double))) + 2) = 52 := by
  have h1 : double.val (1) = 1 := double.val_lit 1 (by norm_num)
  have h2 : double.val (2) = 2 := double.val_lit 2 (by norm_num)
  have h3 : double.val (1 / 2) = 1 / 2 := by
    rw [double.val_div, h1, h2]
    rw [show (1 / 2 : ℚ) = 1 / 2 by norm_num]
    exact fl_cert (1 / 2) (1 / 2) (-1) 4503599627370496 (by norm_num) (by norm_num) (by norm_num)
      (by norm_num) (by norm_num) (by norm_num)
  have h4 : double.val (((100 : ℤ) : double)) = 100 := by
    rw [double.val_int 100 (by norm_num)]
    norm_num
  have h5 : double.val ((1 / 2) * ((100 : ℤ) : double)) = 50 := by
    rw [double.val_mul, h3, h4]
    rw [show ((1 / 2) * 100 : ℚ) = 50 by norm_num]
    exact fl_cert (50) (50) (5) 7036874417766400 (by norm_num) (by norm_num) (by norm_num)
      (by norm_num) (by norm_num) (by norm_num)
  have c6 : ⌈(50 : ℚ)⌉ = 50 := by
    rw [Int.ceil_eq_iff]
    norm_num
  have h7 : double.val (ceil ((1 / 2) * ((100 : ℤ) : double))) = 50 := by
    rw [double.val_ceil, h5, c6]
    norm_num
  have h8 : double.val ((ceil ((1 / 2) * ((100 : ℤ) : double))) + 2) = 52 := by
    rw [double.val_add, h7, h2]
    rw [show (50 + 2 : ℚ) = 52 by norm_num]
    exact fl_cert (52) (52) (5) 7318349394477056 (by norm_num) (by norm_num) (by norm_num)
      (by norm_num) (by norm_num) (by norm_num)
  have c10 : ⌊(52 : ℚ)⌋ = 52 := by
    rw [Int.floor_eq_iff]
    norm_num
  have t9 : trunc ((ceil ((1 / 2) * ((100 : ℤ) : double))) + 2) = 52 := by
    rw [trunc_eq_of_nonneg _ (by rw [h8]; norm_num), h8, c10]
    norm_num [to_gint]
  exact t9

/-- The ring width of the thermal with diameters `0.2` and 0 at scale 100. -/
theorem thermal_width_fifth : round (((100 : ℤ) : double) * (((1 / 5) - 0) / 2)) = 10 := by
  have h1 : double.val (((100 : ℤ) : double)) = 100 := by
    rw [double.val_int 100 (by norm_num)]
    norm_num
  have h2 : double.val (1) = 1 := double.val_lit 1 (by norm_num)
  have h3 : double.val (5) = 5 := double.val_lit 5 (by norm_num)
  have h4 : double.val (1 / 5) = 3602879701896397 / 18014398509481984 := by
    rw [double.val_div, h2, h3]
    rw [show (1 / 5 : ℚ) = 1 / 5 by norm_num]
    exact fl_cert (1 / 5) (3602879701896397 / 18014398509481984) (-3) 7205759403792794
      (by norm_num) (by norm_num) (by norm_num) (by norm_num) (by norm_num) (by norm_num)
  have h5 : double.val (0) = 0 := double.val_lit 0 (by norm_num)
  have h6 : double.val ((1 / 5) - 0) = 3602879701896397 / 18014398509481984 := by
    rw [double.val_sub, h4, h5]
    rw [show ((3602879701896397 / 18014398509481984) - 0 : ℚ) = 3602879701896397 /
      18014398509481984 by norm_num]
    exact fl_cert (3602879701896397 / 18014398509481984) (3602879701896397 / 18014398509481984)
      (-3) 7205759403792794 (by norm_num) (by norm_num) (by norm_num) (by norm_num) (by norm_num)
      (by norm_num)
  have h7 : double.val (2) = 2 := double.val_lit 2 (by norm_num)
  have h8 : double.val (((1 / 5) - 0) / 2) = 3602879701896397 / 36028797018963968 := by
    rw [double.val_div, h6, h7]
    rw [show ((3602879701896397 / 18014398509481984) / 2 : ℚ) = 3602879701896397 /
      36028797018963968 by norm_num]
    exact fl_cert (3602879701896397 / 36028797018963968) (3602879701896397 / 36028797018963968)
      (-4) 7205759403792794 (by norm_num) (by norm_num) (by norm_num) (by norm_num) (by norm_num)
      (by norm_num)
  have h9 : double.val (((100 : ℤ) : double) * (((1 / 5) - 0) / 2)) = 10 := by
    rw [double.val_mul, h1, h8]
    rw [show (100 * (3602879701896397 / 36028797018963968) : ℚ) = 90071992547409925 /
      9007199254740992 by norm_num]
    exact fl_cert (90071992547409925 / 9007199254740992) (10) (3) 5629499534213120 (by norm_num)
      (by norm_num) (by norm_num) (by norm_num) (by norm_num) (by norm_num)
  have c11 : ⌈(10 : ℚ)⌉ = 10 := by
    rw [Int.ceil_eq_iff]
    norm_num
  have r10 : round (((100 : ℤ) : double) * (((1 / 5) - 0) / 2)) = 10 := by
    rw [round_eq, h9, c11]
    norm_num [to_gint]
  exact r10

/-- The reach of the cross hair of the thermal with outside diameter `0.2`. -/
theorem thermal_reach_fifth : trunc ((ceil (((1 / 5) / 2) * ((100 : ℤ) : double))) + 2) = 12 := by
  have h1 : double.val (1) = 1 := double.val_lit 1 (by norm_num)
  have h2 : double.val (5) = 5 := double.val_lit 5 (by norm_num)
  have h3 : double.val (1 / 5) = 3602879701896397 / 18014398509481984 := by
    rw [double.val_div, h1, h2]
    rw [show (1 / 5 : ℚ) = 1 / 5 by norm_num]
    exact fl_cert (1 / 5) (3602879701896397 / 18014398509481984) (-3) 7205759403792794
      (by norm_num) (by norm_num) (by norm_num) (by norm_num) (by norm_num) (by norm_num)
  have h4 : double.val (2) = 2 := double.val_lit 2 (by norm_num)
  have h5 : double.val ((1 / 5) / 2) = 3602879701896397 / 36028797018963968 := by
    rw [double.val_div, h3, h4]
    rw [show ((3602879701896397 / 18014398509481984) / 2 : ℚ) = 3602879701896397 /
      36028797018963968 by norm_num]
    exact fl_cert (3602879701896397 / 36028797018963968) (3602879701896397 / 36028797018963968)
      (-4) 7205759403792794 (by norm_num) (by norm_num) (by norm_num) (by norm_num) (by norm_num)
      (by norm_num)
  have h6 : double.val (((100 : ℤ) : double)) = 100 := by
    rw [double.val_int 100 (by norm_num)]
    norm_num
  have h7 : double.val (((1 / 5) / 2) * ((100 : ℤ) : double)) = 10 := by
    rw [double.val_mul, h5, h6]
    rw [show ((3602879701896397 / 36028797018963968) * 100 : ℚ) = 90071992547409925 /
      9007199254740992 by norm_num]
    exact fl_cert (90071992547409925 / 9007199254740992) (10) (3) 5629499534213120 (by norm_num)
      (by norm_num) (by norm_num) (by norm_num) (by norm_num) (by norm_num)
  have c8 : ⌈(10 : ℚ)⌉ = 10 := by
    rw [Int.ceil_eq_iff]
    norm_num
  have h9 : double.val (ceil (((1 / 5) / 2) * ((100 : ℤ) : double))) = 10 := by
    rw [double.val_ceil, h7, c8]
    norm_num
  have h10 : double.val ((ceil (((1 / 5) / 2) * ((100 : ℤ) : double))) + 2) = 12 := by
    rw [double.val_add, h9, h4]
    rw [show (10 + 2 : ℚ) = 12 by norm_num]
    exact fl_cert (12) (12) (3) 6755399441055744 (by norm_num) (by norm_num) (by norm_num)
      (by norm_num) (by norm_num) (by norm_num)
  have c12 : ⌊(12 : ℚ)⌋ = 12 := by
    rw [Int.floor_eq_iff]
    norm_num
  have t11 : trunc ((ceil (((1 / 5) / 2) * ((100 : ℤ) : double))) + 2) = 12 := by
    rw [trunc_eq_of_nonneg _ (by rw [h10]; norm_num), h10, c12]
    norm_num [to_gint]
  exact t11

/-- The unit-corrected scale `100 / 25.4` cut to an `int`. -/
theorem mm_scale_trunc : trunc (((100 : ℤ) : double) / (127 / 5)) = 3 := by
  have h1 : double.val (((100 : ℤ) : double)) = 100 := by
    rw [double.val_int 100 (by norm_num)]
    norm_num
  have h2 : double.val (127) = 127 := double.val_lit 127 (by norm_num)
  have h3 : double.val (5) = 5 := double.val_lit 5 (by norm_num)
  have h4 : double.val (127 / 5) = 3574732204225331 / 140737488355328 := by
    rw [double.val_div, h2, h3]
    rw [show (127 / 5 : ℚ) = 127 / 5 by norm_num]
    exact fl_cert (127 / 5) (3574732204225331 / 140737488355328) (4) 7149464408450662
      (by norm_num) (by norm_num) (by norm_num) (by norm_num) (by norm_num) (by norm_num)
  have h5 : double.val (((100 : ℤ) : double) / (127 / 5)) = 277042299912063 / 70368744177664 := by
    rw [double.val_div, h1, h4]
    rw [show (100 / (3574732204225331 / 140737488355328) : ℚ) = 14073748835532800 /
      3574732204225331 by norm_num]
    exact fl_cert (14073748835532800 / 3574732204225331) (277042299912063 / 70368744177664) (1)
      8865353597186016 (by norm_num) (by norm_num) (by norm_num) (by norm_num) (by norm_num)
      (by norm_num)
  have c7 : ⌊(277042299912063 / 70368744177664 : ℚ)⌋ = 3 := by
    rw [Int.floor_eq_iff]
    norm_num
  have t6 : trunc (((100 : ℤ) : double) / (127 / 5)) = 3 := by
    rw [trunc_eq_of_nonneg _ (by rw [h5]; norm_num), h5, c7]
    norm_num [to_gint]
  exact t6

/-- The diameter a millimetre circle of diameter 1 has at the scale
`100 / 25.4`. -/
theorem mm_scale_round : round (fabs (1 * (((100 : ℤ) : double) / (127 / 5)))) = 4 := by
  have h1 : double.val (1) = 1 := double.val_lit 1 (by norm_num)
  have h2 : double.val (((100 : ℤ) : double)) = 100 := by
    rw [double.val_int 100 (by norm_num)]
    norm_num
  have h3 : double.val (127) = 127 := double.val_lit 127 (by norm_num)
  have h4 : double.val (5) = 5 := double.val_lit 5 (by norm_num)
  have h5 : double.val (127 / 5) = 3574732204225331 / 140737488355328 := by
    rw [double.val_div, h3, h4]
    rw [show (127 / 5 : ℚ) = 127 / 5 by norm_num]
    exact fl_cert (127 / 5) (3574732204225331 / 140737488355328) (4) 7149464408450662
      (by norm_num) (by norm_num) (by norm_num) (by norm_num) (by norm_num) (by norm_num)
  have h6 : double.val (((100 : ℤ) : double) / (127 / 5)) = 277042299912063 / 70368744177664 := by
    rw [double.val_div, h2, h5]
    rw [show (100 / (3574732204225331 / 140737488355328) : ℚ) = 14073748835532800 /
      3574732204225331 by norm_num]
    exact fl_cert (14073748835532800 / 3574732204225331) (277042299912063 / 70368744177664) (1)
      8865353597186016 (by norm_num) (by norm_num) (by norm_num) (by norm_num) (by norm_num)
      (by norm_num)
  have h7 : double.val (1 * (((100 : ℤ) : double) / (127 / 5))) = 277042299912063 /
    70368744177664 := by
    rw [double.val_mul, h1, h6]
    rw [show (1 * (277042299912063 / 70368744177664) : ℚ) = 277042299912063 / 70368744177664 by
      norm_num]
    exact fl_cert (277042299912063 / 70368744177664) (277042299912063 / 70368744177664) (1)
      8865353597186016 (by norm_num) (by norm_num) (by norm_num) (by norm_num) (by norm_num)
      (by norm_num)
  have h8 : double.val (fabs (1 * (((100 : ℤ) : double) / (127 / 5)))) = 277042299912063 /
    70368744177664 := by
    rw [double.val_fabs, h7]
    norm_num [abs_of_pos, abs_of_neg]
  have c10 : ⌈(277042299912063 / 70368744177664 : ℚ)⌉ = 4 := by
    rw [Int.ceil_eq_iff]
    norm_num
  have r9 : round (fabs (1 * (((100 : ℤ) : double) / (127 / 5)))) = 4 := by
    rw [round_eq, h8, c10]
    norm_num [to_gint]
  exact r9

/-! ## The properties of the third group -/

/-- C21: for every value vector, scale and flash origin, primitive 1 (in both
of its renderers) makes exactly one call, a filled full circle of width and
height `dia = round(fabs(v[1] * scale))` (the product one of `double`s, the
`round` of the source, which is the ceiling, converted to `int`) whose
bounding box has its top-left corner at
`(x - dia/2 + trunc(v[2]*scale), y - dia/2 - trunc(v[3]*scale))`, `dia/2` being
the integer division; the centre of that box is the flash origin moved by
`(trunc(v[2]*scale), -trunc(v[3]*scale))`; and negating `v[1]` leaves the
call unchanged. -/
theorem C21_circle_primitive (gc : GdkGC) (s : macro_stack_t) (v : ℤ → double) (scale x y : ℤ) :
    gerbv_gdk_draw_prim1_new gc v scale x y =
      [gdk_draw_arc
        (gdk_gc_set_line_attributes (exposure gc (v 0)) 1 GDK_LINE_SOLID GDK_CAP_BUTT) true
        (x - (round (fabs (v 1 * (scale : double)))).tdiv 2 + trunc (v 2 * (scale : double)))
        (y - (round (fabs (v 1 * (scale : double)))).tdiv 2 - trunc (v 3 * (scale : double)))
        (round (fabs (v 1 * (scale : double)))) (round (fabs (v 1 * (scale : double))))
        0 full_circle] ∧
    gerbv_gdk_draw_prim1 gc s scale x y = gerbv_gdk_draw_prim1_new gc s.stack scale x y ∧
    round (fabs (v 1 * (scale : double))) = to_gint ⌈|fl ((v 1).val * fl (scale : ℚ))|⌉ ∧
    (x - (round (fabs (v 1 * (scale : double)))).tdiv 2 + trunc (v 2 * (scale : double))
        + (round (fabs (v 1 * (scale : double)))).tdiv 2 = x + trunc (v 2 * (scale : double)) ∧
      y - (round (fabs (v 1 * (scale : double)))).tdiv 2 - trunc (v 3 * (scale : double))
        + (round (fabs (v 1 * (scale : double)))).tdiv 2
          = y - trunc (v 3 * (scale : double))) ∧
    (∀ w : ℤ → double, w 1 = -v 1 → w 0 = v 0 → w 2 = v 2 → w 3 = v 3 →
      gerbv_gdk_draw_prim1_new gc w scale x y = gerbv_gdk_draw_prim1_new gc v scale x y) := by
  refine ⟨rfl, rfl, ?_, ⟨by ring, by ring⟩, ?_⟩
  · rw [round_eq, double.val_fabs, double.val_mul, double.val_intCast]
  · intro w h1 h0 h2 h3
    simp only [gerbv_gdk_draw_prim1_new, h1, h0, h2, h3, neg_mul_d, fabs_neg]

/-- Worked instances of C21 at scale 100 and the origin (50, 50): diameter 2
with offset (1, 1) gives a circle of diameter 200 with its box at (50, -150),
and so does diameter -2; the diameter `0.1` gives a circle of diameter 10
(the product of the `double`s is exactly 10); the diameter 30000000 gives
the diameter -2147483648, the product being outside the range of `int`. -/
theorem C21_circle_primitive_witness :
    gerbv_gdk_draw_prim1 gdk_gc_new (stack_of [1, 2, 1, 1] 4) 100 50 50 =
      [gdk_draw_arc ⟨0, 1, GDK_LINE_SOLID, GDK_CAP_BUTT⟩ true 50 (-150) 200 200 0 full_circle] ∧
    gerbv_gdk_draw_prim1 gdk_gc_new (stack_of [1, -2, 1, 1] 4) 100 50 50 =
      [gdk_draw_arc ⟨0, 1, GDK_LINE_SOLID, GDK_CAP_BUTT⟩ true 50 (-150) 200 200 0
        full_circle] ∧
    gerbv_gdk_draw_prim1 gdk_gc_new (stack_of [1, 1 / 10, 0, 0] 4) 100 50 50 =
      [gdk_draw_arc ⟨0, 1, GDK_LINE_SOLID, GDK_CAP_BUTT⟩ true 45 45 10 10 0 full_circle] ∧
    round (fabs ((30000000 : double) * ((100 : ℤ) : double))) = -2147483648 := by
  have h := C21_circle_primitive gdk_gc_new (stack_of [1, 2, 1, 1] 4)
    (stack_of [1, 2, 1, 1] 4).stack 100 50 50
  have h2 := C21_circle_primitive gdk_gc_new (stack_of [1, -2, 1, 1] 4)
    (stack_of [1, -2, 1, 1] 4).stack 100 50 50
  have h3 := C21_circle_primitive gdk_gc_new (stack_of [1, 1 / 10, 0, 0] 4)
    (stack_of [1, 1 / 10, 0, 0] 4).stack 100 50 50
  have e1 : round (fabs ((2 : double) * ((100 : ℤ) : double))) = 200 := by
    norm_num [round_eq, to_gint, double.val_fabs, double.val_mul, double.val_intCast,
      double.val_lit, fl_lit]
  have e4 : Int.tdiv 200 2 = 100 := by decide
  have e5 : Int.tdiv 10 2 = 5 := by decide
  refine ⟨?_, ?_, ?_, ?_⟩
  · rw [h.2.1, h.1]
    simp [stack_of, exposure, gdk_gc_new, gdk_gc_set_line_attributes, e1, e4]
  · rw [h2.2.1, h2.1]
    simp [stack_of, exposure, gdk_gc_new, gdk_gc_set_line_attributes, neg_mul_d, fabs_neg, e1,
      e4]
  · rw [h3.2.1, h3.1]
    simp [stack_of, exposure, gdk_gc_new, gdk_gc_set_line_attributes, tenth_mul_100, e5]
  · norm_num [round_eq, to_gint, double.val_fabs, double.val_mul, double.val_intCast,
      double.val_lit, fl_lit]

/-- C22 as stated fails: with the values the C library returns at the quarter
turns, primitive 7 with rotation 0, outside diameter 1, inside diameter 1/2
and cross hair thickness 1/10 at scale 100 and origin (0, 0) draws its second
line from (1, -52) to (0, 52), not from (0, -52): `cos(-M_PI/2)` is a small
positive number and `round` is the ceiling.  The ring and the first line are
as claimed. -/
theorem C22_counterexample :
    gerbv_gdk_draw_prim7 glib_host ⟨transparent_pixel, 0, GDK_LINE_SOLID, GDK_CAP_BUTT⟩
        (stack_of [0, 0, 1, 1 / 2, 1 / 10, 0] 6) 100 0 0 =
      [gdk_draw_arc ⟨transparent_pixel, 25, GDK_LINE_SOLID, GDK_CAP_BUTT⟩ false (-37) (-37)
          75 75 0 full_circle,
       gdk_draw_line ⟨opaque_pixel, 10, GDK_LINE_SOLID, GDK_CAP_BUTT⟩ 52 0 (-52) 0,
       gdk_draw_line ⟨opaque_pixel, 10, GDK_LINE_SOLID, GDK_CAP_BUTT⟩ 1 (-52) 0 52] ∧
    round ((1 : double) / 2 * ((100 : ℤ) : double)) = 50 ∧ (1 : ℤ) ≠ 0 := by
  have r : round ((1 : double) / 2 * ((100 : ℤ) : double)) = 50 := by
    have hv : double.val ((1 : double) / 2 * ((100 : ℤ) : double)) = 50 := by
      rw [double.val_mul, double.val_div, double.val_one, double.val_lit 2 (by norm_num),
        double.val_int 100 (by norm_num)]
      rw [show fl ((1 : ℚ) / 2) = 1 / 2 from
        fl_cert (1 / 2) (1 / 2) (-1) 4503599627370496 (by norm_num) (by norm_num)
          (by norm_num) (by norm_num) (by norm_num) (by norm_num)]
      norm_num [fl_lit]
    rw [round_eq, hv]
    norm_num [to_gint]
  have w2 : round (((100 : ℤ) : double) * (1 / 10)) = 10 := by
    rw [round_eq, double.val_mul, tenth_val, double.val_int 100 (by norm_num), mul_comm,
      ← double.val_int 100 (by norm_num), ← tenth_val, ← double.val_mul, tenth_mul_100,
      double.val_lit 10 (by norm_num)]
    norm_num [to_gint]
  have e : Int.tdiv 75 2 = 37 := by decide
  have p0 : rotate_point glib_host { x := 52, y := 0 } 0 = { x := 52, y := 0 } := by
    simp [rotate_point]
  refine ⟨?_, r, by decide⟩
  show gerbv_gdk_draw_prim7_new glib_host _ (stack_of [0, 0, 1, 1 / 2, 1 / 10, 0] 6).stack
    100 0 0 = _
  rw [prim7_new_cases]
  simp only [prim7_point, stack_of]
  simp [thermal_width, thermal_diameter, thermal_reach, w2, e, p0, rotate_glib_90,
    rotate_glib_180, rotate_glib_270, gerbv_gdk_draw_circle, gdk_gc_set_line_attributes,
    GdkPoint.offset, transparent_pixel, opaque_pixel]

/-- C22, amended: primitive 7 (in both of its renderers) makes exactly three
calls: one unfilled ring centred at the flash origin with stroke width
`round(scale * ((outside - inside) / 2))` and diameter
`trunc((inside + (outside - inside) / 2) * scale)` in the current colour, then
two lines of width `round(scale * v[4])` in the inverse of the current colour
(pixel 0 if the current pixel is 1, else pixel 1), the first from `point[0]`
to `point[2]`, the second from `point[1]` to `point[3]`, where `point[i]` is
`(R, 0)`, `R = round(outside / 2 * scale) + 2` computed in `double`s and
converted to `int`, rotated by `rotate_point` through `trunc(v[5] + 90 * i)`
degrees and moved to the origin; all arithmetic is that of `double`s.  With
rotation 0, `point[0]` is `(x + R, y)`, and with the sine and cosine of the C
library and `1 <= R <= 10^9` the other three are `(x + 1, y - R)`,
`(x - R, y)` and `(x, y + R)`. -/
theorem C22_thermal (H : Host) (gc : GdkGC) (s : macro_stack_t) (v : ℤ → double)
    (scale x y : ℤ) :
    gerbv_gdk_draw_prim7_new H gc v scale x y =
      [gerbv_gdk_draw_circle
        (gdk_gc_set_line_attributes gc (round ((scale : double) * ((v 2 - v 3) / 2)))
          GDK_LINE_SOLID GDK_CAP_BUTT)
        false x y (trunc ((v 3 + (v 2 - v 3) / 2) * (scale : double))),
       gdk_draw_line
        ⟨if gc.foreground = 1 then 0 else 1, round ((scale : double) * v 4), GDK_LINE_SOLID,
          GDK_CAP_BUTT⟩
        (prim7_point H v scale x y 0).x (prim7_point H v scale x y 0).y
        (prim7_point H v scale x y 2).x (prim7_point H v scale x y 2).y,
       gdk_draw_line
        ⟨if gc.foreground = 1 then 0 else 1, round ((scale : double) * v 4), GDK_LINE_SOLID,
          GDK_CAP_BUTT⟩
        (prim7_point H v scale x y 1).x (prim7_point H v scale x y 1).y
        (prim7_point H v scale x y 3).x (prim7_point H v scale x y 3).y] ∧
    gerbv_gdk_draw_prim7 H gc s scale x y = gerbv_gdk_draw_prim7_new H gc s.stack scale x y ∧
    (gc.foreground = opaque_pixel ∨ gc.foreground = transparent_pixel →
      (if gc.foreground = 1 then 0 else 1) = swap_pixel gc.foreground) ∧
    (∀ i : ℤ, prim7_point H v scale x y i =
      (rotate_point H { x := trunc (ceil (v 2 / 2 * (scale : double)) + 2), y := 0 }
        (trunc (v 5 + ((90 * i : ℤ) : double)))).offset x y) ∧
    (-2147483648 ≤ ⌈double.val (v 2 / 2 * (scale : double))⌉ →
      ⌈double.val (v 2 / 2 * (scale : double))⌉ ≤ 2147483645 →
      trunc (ceil (v 2 / 2 * (scale : double)) + 2)
        = round (v 2 / 2 * (scale : double)) + 2) ∧
    (v 5 = 0 →
      prim7_point H v scale x y 0 =
        { x := x + trunc (ceil (v 2 / 2 * (scale : double)) + 2), y := y }) ∧
    (v 5 = 0 →
      1 ≤ trunc (ceil (v 2 / 2 * (scale : double)) + 2) →
      trunc (ceil (v 2 / 2 * (scale : double)) + 2) ≤ 1000000000 →
      prim7_point glib_host v scale x y 1 =
        { x := x + 1, y := y - trunc (ceil (v 2 / 2 * (scale : double)) + 2) } ∧
      prim7_point glib_host v scale x y 2 =
        { x := x - trunc (ceil (v 2 / 2 * (scale : double)) + 2), y := y } ∧
      prim7_point glib_host v scale x y 3 =
        { x := x, y := y + trunc (ceil (v 2 / 2 * (scale : double)) + 2) }) := by
  refine ⟨prim7_new_cases H gc v scale x y, rfl, ?_, fun _ => rfl, ?_, ?_, ?_⟩
  · rintro (h | h) <;> simp [h, swap_pixel, opaque_pixel, transparent_pixel]
  · intro h1 h2
    exact trunc_ceil_add_two _ h1 h2
  · intro h5
    simp only [prim7_point, h5, mul_zero, intCast_zero_d, add_zero_d, trunc_zero, rotate_point,
      if_true, GdkPoint.offset]
    congr 1
    · ring
    · ring
  · intro h5 h1 h2
    have t1 : trunc ((0 : double) + ((90 * 1 : ℤ) : double)) = 90 := by simp
    have t2 : trunc ((0 : double) + ((90 * 2 : ℤ) : double)) = 180 := by simp
    have t3 : trunc ((0 : double) + ((90 * 3 : ℤ) : double)) = 270 := by simp
    refine ⟨?_, ?_, ?_⟩
    · simp only [prim7_point, h5, t1, rotate_glib_quarter _ h1 h2, GdkPoint.offset]
      congr 1
      · ring
      · ring
    · simp only [prim7_point, h5, t2, rotate_glib_half _ h1 h2, GdkPoint.offset]
      congr 1
      · ring
      · ring
    · simp only [prim7_point, h5, t3, rotate_glib_three_quarter _ h1 h2, GdkPoint.offset]
      congr 1 <;> ring

/-- Worked instance of C22 with the values of the C library: outside diameter
1 at scale 100 gives `R = 52`, and with rotation 0 the second line runs from
`(1, -52)` to `(0, 52)`; outside diameter `0.2` and inside diameter 0 give the
ring width 10 and `R = 12`. -/
theorem C22_thermal_witness :
    prim7_point glib_host (stack_of [0, 0, 1, 1 / 2, 1 / 10, 0] 6).stack 100 0 0 1 =
      { x := 1, y := -52 } ∧
    prim7_point glib_host (stack_of [0, 0, 1, 1 / 2, 1 / 10, 0] 6).stack 100 0 0 3 =
      { x := 0, y := 52 } ∧
    round (((100 : ℤ) : double) * (((1 : double) / 5 - 0) / 2)) = 10 ∧
    trunc (ceil ((1 : double) / 5 / 2 * ((100 : ℤ) : double)) + 2) = 12 := by
  have e2 : (stack_of [0, 0, 1, 1 / 2, 1 / 10, 0] 6).stack 2 = 1 := by simp [stack_of]
  have e5 : (stack_of [0, 0, 1, 1 / 2, 1 / 10, 0] 6).stack 5 = 0 := by simp [stack_of]
  have h := (C22_thermal glib_host gdk_gc_new (stack_of [0, 0, 1, 1 / 2, 1 / 10, 0] 6)
    (stack_of [0, 0, 1, 1 / 2, 1 / 10, 0] 6).stack 100 0 0).2.2.2.2.2.2 e5
    (by rw [e2, thermal_reach]; norm_num) (by rw [e2, thermal_reach]; norm_num)
  rw [e2, thermal_reach] at h
  refine ⟨?_, ?_, thermal_width_fifth, thermal_reach_fifth⟩
  · rw [h.1]
    norm_num
  · rw [h.2.2]
    norm_num

/-- C23, the code on non-negative and on negative ring counts: for a ring
count `n = trunc(v[5])` with `0 ≤ n` primitive 6 (in both renderers) draws
exactly `n` unfilled circles, the `k`-th of diameter
`trunc(((v[2] - v[3]/2) - k * (v[4] + v[3])) * scale)`, followed by exactly two
lines.  For a negative ring count the loop `for (circle = 0; circle != n;
circle++)` does not stop at once: with a 32-bit counter it draws
`4294967296 + n` rings before the two lines, 4294967295 of them for
`n = -1`. -/
theorem C23_moire_ring_count (H : Host) (gc : GdkGC) (s : macro_stack_t) (v : ℤ → double)
    (scale x y : ℤ) :
    (0 ≤ trunc (v 5) → trunc (v 5) < 2147483648 →
      ∃ (g : GdkGC) (ax ay bx b_y cx cy dx dy : ℤ),
        gerbv_gdk_draw_prim6_new H gc v scale x y =
          (List.range (trunc (v 5)).toNat).map
              (fun (k : ℕ) => prim6_ring gc v scale x y (k : ℤ)) ++
            [gdk_draw_line g ax ay bx b_y, gdk_draw_line g cx cy dx dy]) ∧
    gerbv_gdk_draw_prim6 H gc s scale x y = gerbv_gdk_draw_prim6_new H gc s.stack scale x y ∧
    (∃ (g : GdkGC) (ax ay bx b_y cx cy dx dy : ℤ),
      gerbv_gdk_draw_prim6_new H gc v scale x y =
        (List.range (prim6_iterations (trunc (v 5)))).map
            (fun k => prim6_ring gc v scale x y (prim6_counter k)) ++
          [gdk_draw_line g ax ay bx b_y, gdk_draw_line g cx cy dx dy]) ∧
    (trunc (v 5) < 0 → -2147483648 ≤ trunc (v 5) →
      prim6_iterations (trunc (v 5)) = (4294967296 + trunc (v 5)).toNat ∧
      (gerbv_gdk_draw_prim6_new H gc v scale x y).length =
        (4294967296 + trunc (v 5)).toNat + 2) ∧
    (trunc (v 5) = -1 →
      (gerbv_gdk_draw_prim6_new H gc v scale x y).length = 4294967297) := by
  refine ⟨prim6_new_rings H gc v scale x y, rfl, prim6_new_cases H gc v scale x y, ?_, ?_⟩
  · intro h0 h1
    have h : prim6_iterations (trunc (v 5)) = (4294967296 + trunc (v 5)).toNat := by
      unfold prim6_iterations
      rw [← Int.add_mul_emod_self_left (trunc (v 5)) 4294967296 1,
        Int.emod_eq_of_lt (by omega) (by omega)]
      congr 1
      ring
    exact ⟨h, by rw [prim6_new_length, h]⟩
  · intro h
    rw [prim6_new_length, h]
    rfl

/-- C24, the code on an arc net: for a net in state ON with circular
interpolation, a circular segment and a defined aperture, processed outside a
polygon fill, the arc drawn for the tile `(i, j)` has its centre at
`(round((offsetA + cp_x) * scale + trans_x), round((offsetB - cp_y) * scale + trans_y))`,
in which the tile offset does not occur: the calls made for the tile `(i, j)`
are those made for the tile `(0, 0)`, whatever the pitches are. -/
theorem C24_arc_centre_not_shifted (H : Host) (image : gerb_image) (scale : ℤ)
    (trans_x trans_y : double) (polarity : polarity_t) (net : gerb_net) (i j : ℕ)
    (st : render_state) (ap : gerb_aperture) (cs : gerb_cirseg)
    (hfill : st.in_parea_fill = false) (hon : net.aperture_state = ON)
    (harc : net.interpolation = CW_CIRCULAR ∨ net.interpolation = CCW_CIRCULAR)
    (hap : image.aperture net.aperture = some ap) (hcs : net.cirseg = some cs) :
    (tile_step H image scale trans_x trans_y polarity net i j st).1.ops =
      st.ops ++
        [gerbv_gdk_draw_arc
          (gdk_gc_set_line_attributes
            (gdk_gc_set_foreground st.gc (net_pixel net.layer.polarity polarity))
            (round (ap.parameter 0 *
              (if ap.unit = MM then (scale : double) / (127 / 5) else (scale : double))))
            GDK_LINE_SOLID (if ap.type = RECTANGLE then GDK_CAP_PROJECTING else GDK_CAP_ROUND))
          (round ((image.info.offsetA + cs.cp_x) * (scale : double) + trans_x))
          (round ((image.info.offsetB - cs.cp_y) * (scale : double) + trans_y))
          (round (cs.width * (scale : double))) (round (cs.height * (scale : double)))
          cs.angle1 cs.angle2] ∧
    (tile_step H image scale trans_x trans_y polarity net i j st).1.ops =
      (tile_step H image scale trans_x trans_y polarity net 0 0 st).1.ops := by
  refine ⟨tile_step_arc H image scale trans_x trans_y polarity net i j st ap cs hfill hon harc
    hap hcs, ?_⟩
  rw [tile_step_arc H image scale trans_x trans_y polarity net i j st ap cs hfill hon harc
    hap hcs,
    tile_step_arc H image scale trans_x trans_y polarity net 0 0 st ap cs hfill hon harc
    hap hcs]

/-- Worked instance of C24: an arc net on a layer repeated twice in X with
pitch 10, at scale 100: the calls of tile (1, 0) are those of tile (0, 0). -/
theorem C24_arc_centre_not_shifted_witness :
    (tile_step sample_host
      (sample_image (sample_circle 2)
        [{ sample_net ON CCW_CIRCULAR 1 0 0 (sample_layer DARK 2 1 10 0) with
            cirseg := some ⟨0, 0, 2, 2, 0, 90⟩ }])
      100 0 0 POSITIVE
      { sample_net ON CCW_CIRCULAR 1 0 0 (sample_layer DARK 2 1 10 0) with
          cirseg := some ⟨0, 0, 2, 2, 0, 90⟩ }
      1 0 (render_init POSITIVE)).1.ops =
    (tile_step sample_host
      (sample_image (sample_circle 2)
        [{ sample_net ON CCW_CIRCULAR 1 0 0 (sample_layer DARK 2 1 10 0) with
            cirseg := some ⟨0, 0, 2, 2, 0, 90⟩ }])
      100 0 0 POSITIVE
      { sample_net ON CCW_CIRCULAR 1 0 0 (sample_layer DARK 2 1 10 0) with
          cirseg := some ⟨0, 0, 2, 2, 0, 90⟩ }
      0 0 (render_init POSITIVE)).1.ops :=
  (C24_arc_centre_not_shifted sample_host
    (sample_image (sample_circle 2)
      [{ sample_net ON CCW_CIRCULAR 1 0 0 (sample_layer DARK 2 1 10 0) with
          cirseg := some ⟨0, 0, 2, 2, 0, 90⟩ }])
    100 0 0 POSITIVE
    { sample_net ON CCW_CIRCULAR 1 0 0 (sample_layer DARK 2 1 10 0) with
        cirseg := some ⟨0, 0, 2, 2, 0, 90⟩ }
    1 0 (render_init POSITIVE) (sample_circle 2) ⟨0, 0, 2, 2, 0, 90⟩
    rfl rfl (Or.inr rfl) (by simp [sample_image, sample_net]) rfl).2

/-- C25, the code on a millimetre macro aperture: the flash evaluates the
macro program with the scale `trunc(unit_scale)`, the unit-corrected scale cut
to an `int` by the parameter `int scale` of `gerbv_gdk_draw_amacro`.  At base
scale 100 a millimetre aperture whose program draws primitive 1 with diameter
1 is flashed as a circle of diameter 3 (`trunc(100 / 25.4) = 3`), not of
diameter `round(fabs(1 * (100 / 25.4))) = 4`. -/
theorem C25_macro_scale_truncated :
    (∀ (H : Host) (ap : gerb_aperture) (m : amacro_t) (scale : ℤ) (unit_scale : double)
        (x2 y2 : ℤ) (st : render_state),
      ap.type = MACRO → ap.amacro = some m →
      (flash_net H ap scale unit_scale x2 y2 st).1.ops =
        st.ops ++ ( gerbv_gdk_draw_amacro H st.gc m.program m.nuf_push ap.parameter
          (trunc unit_scale) x2 y2).ops) ∧
    (image2pixmap sample_host
      (some (sample_image
        (sample_program_aperture [instr_push 1, instr_push 1, instr_push 0, instr_push 0,
          instr_i opcodes.PRIM 1] 4 MM)
        [sample_net FLASH LINEARx1 0 0 0 (sample_layer DARK 1 1 0 0)]))
      100 0 0 POSITIVE).ops =
      [gdk_draw_rectangle ⟨0, 0, GDK_LINE_SOLID, GDK_CAP_BUTT⟩ true 0 0 (-1) (-1),
       gdk_draw_arc ⟨1, 1, GDK_LINE_SOLID, GDK_CAP_BUTT⟩ true (-1) (-1) 3 3 0 full_circle] ∧
    trunc (((100 : ℤ) : double) / (127 / 5)) = 3 ∧
    round (fabs ((1 : double) * (((100 : ℤ) : double) / (127 / 5)))) = 4 := by
  refine ⟨?_, ?_, ?_, ?_⟩
  · intro H ap m scale unit_scale x2 y2 st htype hm
    rw [flash_net_program H ap m scale unit_scale x2 y2 st htype hm]
  · have hr : round (fabs ((3 : ℤ) : double)) = 3 := by
      norm_num [round_eq, to_gint, double.val_fabs, double.val_intCast, fl_lit]
    have hd : Int.tdiv 3 2 = 1 := by decide
    rw [image2pixmap_cons sample_host _ 100 0 0 POSITIVE
      (sample_net OFF LINEARx1 0 0 0 (sample_layer DARK 1 1 0 0))
      [sample_net FLASH LINEARx1 0 0 0 (sample_layer DARK 1 1 0 0)] rfl]
    simp only [List.flatMap_cons, List.flatMap_nil, List.append_nil]
    rw [net_tiles_one _ rfl rfl]
    simp only [run_tiles]
    rw [tile_step_flash sample_host _ 100 0 0 POSITIVE _ 0 0 _ (by simp [sample_net])
      (by simp [sample_net]) rfl
      (sample_program_aperture [instr_push 1, instr_push 1, instr_push 0, instr_push 0,
          instr_i opcodes.PRIM 1] 4 MM)
      (by simp [sample_image, sample_net]) rfl]
    rw [flash_net_program sample_host _
      { program := [instr_push 1, instr_push 1, instr_push 0, instr_push 0,
          instr_i opcodes.PRIM 1], nuf_push := 4 } 100 _ _ _ _ rfl rfl]
    simp [ gerbv_gdk_draw_amacro, sample_program_aperture, sample_host, amacro_run, amacro_step, instr_push, instr_i,
      push, prim_dispatch, gerbv_gdk_draw_prim1, amacro_init, new_stack, tile_prepare,
      sample_net, sample_layer, render_init, device_x, device_y, sample_image, net_pixel,
      exposure, gdk_gc_set_foreground, gdk_gc_set_line_attributes, gdk_gc_new,
      opaque_pixel, transparent_pixel, mm_scale_trunc, hr, hd]
  · exact mm_scale_trunc
  · exact mm_scale_round

/-- C26: a flash of an aperture of one of the eight fast-path macro types is
drawn with the base scale, whatever unit the aperture declares: the flash
appends the calls of the renderer of its type (`gerbv_gdk_draw_prim1_new` for
MACRO_CIRCLE, and so on through `gerbv_gdk_draw_prim22_new` for MACRO_LINE22)
on the stored parameters at the base scale `scale` and the device point,
without reading the unit-corrected scale; so the pass through a net in state
FLASH is the same, drawing calls included, for two images that differ only in
the unit declared by the net's aperture. -/
theorem C26_fast_path_ignores_unit (H : Host) (image image1 : gerb_image) (scale : ℤ)
    (trans_x trans_y : double) (polarity : polarity_t) (net : gerb_net) (i j : ℕ)
    (st : render_state) (ap : gerb_aperture) (u : unit_t)
    (hinfo : image1.info = image.info)
    (hap : image.aperture net.aperture = some ap)
    (hap1 : image1.aperture net.aperture = some { ap with unit := u })
    (hfast : ap.type.fast_path = true)
    (hflash : net.aperture_state = FLASH) :
    tile_step H image1 scale trans_x trans_y polarity net i j st =
      tile_step H image scale trans_x trans_y polarity net i j st ∧
    (∀ (us us1 : double) (x2 y2 : ℤ) (st1 : render_state),
      flash_net H ap scale us1 x2 y2 st1 = flash_net H ap scale us x2 y2 st1) ∧
    (∀ (us : double) (x2 y2 : ℤ) (st1 : render_state),
      flash_net H ap scale us x2 y2 st1 =
        ({ st1 with ops := st1.ops ++
            (match ap.type with
             | MACRO_CIRCLE => gerbv_gdk_draw_prim1_new st1.gc ap.parameter scale x2 y2
             | MACRO_OUTLINE => gerbv_gdk_draw_prim4_new H st1.gc ap.parameter scale x2 y2
             | MACRO_POLYGON => gerbv_gdk_draw_prim5_new H st1.gc ap.parameter scale x2 y2
             | MACRO_MOIRE => gerbv_gdk_draw_prim6_new H st1.gc ap.parameter scale x2 y2
             | MACRO_THERMAL => gerbv_gdk_draw_prim7_new H st1.gc ap.parameter scale x2 y2
             | MACRO_LINE20 => gerbv_gdk_draw_prim20_new H st1.gc ap.parameter scale x2 y2
             | MACRO_LINE21 => gerbv_gdk_draw_prim21_new H st1.gc ap.parameter scale x2 y2
             | MACRO_LINE22 => gerbv_gdk_draw_prim22_new H st1.gc ap.parameter scale x2 y2
             | _ => []) }, false)) ∧
    (st.in_parea_fill = false →
      net.interpolation ≠ PAREA_START → net.interpolation ≠ PAREA_END →
      tile_step H image1 scale trans_x trans_y polarity net i j st =
        flash_net H ap scale (scale : double)
          (device_x image scale trans_x net.stop_x
            ((i : double) * net.layer.stepAndRepeat.dist_X))
          (device_y image scale trans_y net.stop_y
            ((j : double) * net.layer.stepAndRepeat.dist_Y))
          (tile_prepare image scale trans_x trans_y polarity net st)) := by
  have h1 : tile_step H image1 scale trans_x trans_y polarity net i j st =
      tile_step H image scale trans_x trans_y polarity net i j st := by
    unfold tile_step draw_net
    simp only [tile_prepare_info image image1 scale trans_x trans_y polarity net st hinfo,
      device_x, device_y, hinfo, hap, hap1, hflash]
    cases hint : net.interpolation <;> simp only []
    all_goals
      split_ifs <;>
        first
        | rfl
        | exact flash_net_fast_path H ap u scale _ _ _ _ _ hfast
  refine ⟨h1, ?_, ?_, ?_⟩
  · intro us us1 x2 y2 st1
    have h := flash_net_fast_path H ap ap.unit scale us us1 x2 y2 st1 hfast
    exact h
  · intro us x2 y2 st1
    unfold flash_net
    cases htype : ap.type <;> simp_all [aperture_t.fast_path]
  · intro hfill hi1 hi2
    rw [h1]
    obtain ⟨-, -, -, -, -, hf⟩ :=
      tile_prepare_fields image scale trans_x trans_y polarity net st
    rw [hfill] at hf
    unfold tile_step draw_net
    cases hint : net.interpolation
    case PAREA_START => exact absurd hint hi1
    case PAREA_END => exact absurd hint hi2
    all_goals
      simp only [hf, hap, hflash]
      exact flash_net_fast_path H ap ap.unit scale _ _ _ _ _ hfast

/-- Worked instance of C26: a MACRO_CIRCLE aperture of diameter 2 declared in
millimetres is flashed at scale 100 as a circle of diameter 200, the base
scale, exactly as the same aperture declared in inches (the unit-corrected
scale 100 / 25.4 would give a diameter of 8). -/
theorem C26_fast_path_ignores_unit_witness :
    (tile_step sample_host
      (sample_image
        { type := MACRO_CIRCLE, amacro := none,
          parameter := fun i => if i = 0 then 1 else if i = 1 then 2 else 0, unit := MM } [])
      100 0 0 POSITIVE (sample_net FLASH LINEARx1 0 0 0 (sample_layer DARK 1 1 0 0)) 0 0
      (render_init POSITIVE)).1.ops =
      [gdk_draw_rectangle ⟨0, 0, GDK_LINE_SOLID, GDK_CAP_BUTT⟩ true 0 0 (-1) (-1),
       gdk_draw_arc ⟨1, 1, GDK_LINE_SOLID, GDK_CAP_BUTT⟩ true (-100) (-100) 200 200 0
         full_circle] := by
  have h := (C26_fast_path_ignores_unit sample_host
    (sample_image
      { type := MACRO_CIRCLE, amacro := none,
        parameter := fun i => if i = 0 then 1 else if i = 1 then 2 else 0, unit := INCH } [])
    (sample_image
      { type := MACRO_CIRCLE, amacro := none,
        parameter := fun i => if i = 0 then 1 else if i = 1 then 2 else 0, unit := MM } [])
    100 0 0 POSITIVE (sample_net FLASH LINEARx1 0 0 0 (sample_layer DARK 1 1 0 0)) 0 0
    (render_init POSITIVE)
    { type := MACRO_CIRCLE, amacro := none,
      parameter := fun i => if i = 0 then 1 else if i = 1 then 2 else 0, unit := INCH } MM
    rfl (by simp [sample_image, sample_net]) (by simp [sample_image, sample_net]) rfl rfl).1
  rw [h]
  have e1 : round (fabs ((2 : double) * ((100 : ℤ) : double))) = 200 := by
    norm_num [round_eq, to_gint, double.val_fabs, double.val_mul, double.val_intCast,
      double.val_lit, fl_lit]
  have e4 : Int.tdiv 200 2 = 100 := by decide
  simp [tile_step, tile_prepare, draw_net, flash_net, sample_image, sample_net, sample_layer,
    render_init, net_pixel, gerbv_gdk_draw_prim1_new, exposure, gdk_gc_set_foreground,
    gdk_gc_set_line_attributes, gdk_gc_new, opaque_pixel, transparent_pixel, device_x,
    device_y, e1, e4]

/-- C27: a flash of a CIRCLE aperture at the device point `(x2, y2)`, entered
with one of the two colours as the current draw colour, with
`p1 = round(parameter[0] * unit_scale)` and `p2 = round(parameter[1] * unit_scale)`:
when `p2 = 0` exactly one filled circle of diameter `p1` is drawn; when
`p2 ≠ 0` the filled circle of diameter `p1` in the current colour is followed
by a filled circle of diameter `p2` at the same centre in the exchanged
colour.  In both cases the graphics context after the flash is the one before
it, and the traversal goes on.  In `image2pixmap` the current colour of every
pass is one of the two colours.  The products are products of `double`s and
`round` is the ceiling converted to `int`. -/
theorem C27_circle_flash (H : Host) (ap : gerb_aperture) (scale : ℤ) (unit_scale : double)
    (x2 y2 : ℤ) (st : render_state) (htype : ap.type = CIRCLE)
    (hfg : st.gc.foreground = opaque_pixel ∨ st.gc.foreground = transparent_pixel) :
    (flash_net H ap scale unit_scale x2 y2 st).1.ops =
      st.ops ++
        gerbv_gdk_draw_circle st.gc true x2 y2 (round (ap.parameter 0 * unit_scale)) ::
          (if round (ap.parameter 1 * unit_scale) = 0 then []
           else [gerbv_gdk_draw_circle st.gc.swap true x2 y2
             (round (ap.parameter 1 * unit_scale))]) ∧
    (flash_net H ap scale unit_scale x2 y2 st).1.gc = st.gc ∧
    (flash_net H ap scale unit_scale x2 y2 st).2 = false ∧
    (∀ k : ℤ, round (ap.parameter k * unit_scale)
      = to_gint ⌈fl ((ap.parameter k).val * unit_scale.val)⌉) ∧
    (∀ (image : gerb_image) (trans_x trans_y : double) (polarity : polarity_t) (net : gerb_net)
        (st1 : render_state),
      (tile_prepare image scale trans_x trans_y polarity net st1).gc.foreground = opaque_pixel ∨
      (tile_prepare image scale trans_x trans_y polarity net st1).gc.foreground
        = transparent_pixel) := by
  have key : ∀ g : GdkGC, g.foreground = opaque_pixel →
      gdk_gc_set_foreground g opaque_pixel = g ∧
      gdk_gc_set_foreground g transparent_pixel = g.swap := by
    intro g hg
    cases g
    simp_all [gdk_gc_set_foreground, GdkGC.swap, swap_pixel]
  have key2 : ∀ g : GdkGC, g.foreground = transparent_pixel →
      gdk_gc_set_foreground g transparent_pixel = g ∧
      gdk_gc_set_foreground g opaque_pixel = g.swap := by
    intro g hg
    cases g
    simp_all [gdk_gc_set_foreground, GdkGC.swap, swap_pixel, opaque_pixel, transparent_pixel]
  refine ⟨?_, ?_, ?_, fun k => by rw [round_eq, double.val_mul], ?_⟩
  · unfold flash_net
    simp only [htype]
    by_cases hp2 : round (ap.parameter 1 * unit_scale) = 0
    · simp [hp2]
    · rcases hfg with h | h
      · by_cases hp3 : round (ap.parameter 2 * unit_scale) = 0 <;>
          simp [hp2, hp3, h, (key st.gc h).2]
      · have hne : st.gc.foreground ≠ opaque_pixel := by
          rw [h]; decide
        by_cases hp3 : round (ap.parameter 2 * unit_scale) = 0 <;>
          simp [hp2, hp3, hne, (key2 st.gc h).2]
  · unfold flash_net
    simp only [htype]
    by_cases hp2 : round (ap.parameter 1 * unit_scale) = 0
    · simp [hp2]
    · rcases hfg with h | h
      · by_cases hp3 : round (ap.parameter 2 * unit_scale) = 0 <;>
          simp [hp2, hp3, h, (key st.gc h).1]
      · have hne : st.gc.foreground ≠ opaque_pixel := by
          rw [h]; decide
        by_cases hp3 : round (ap.parameter 2 * unit_scale) = 0 <;>
          simp [hp2, hp3, hne, (key2 st.gc h).1]
  · exact flash_net_flag H ap scale unit_scale x2 y2 st (by rw [htype]; intro c; simp)
  · intro image trans_x trans_y polarity net st1
    rw [(tile_prepare_fields image scale trans_x trans_y polarity net st1).1]
    exact net_pixel_cases _ _

/-- Worked instances of C27 at the origin, at scale 100 and in the colour
`transparent`: an annulus of diameters 2 and 1 is a filled circle of diameter
200 in that colour followed by one of diameter 100 in the opaque colour; a
circle of diameter `0.1` without a hole is one filled circle of diameter 10
(the product of the `double`s `0.1` and 100 is exactly 10). -/
theorem C27_circle_flash_witness :
    (flash_net sample_host (sample_annulus 2 1) 100 ((100 : ℤ) : double) 0 0
      (blank_state ⟨transparent_pixel, 0, GDK_LINE_SOLID, GDK_CAP_BUTT⟩)).1.ops =
      [gdk_draw_arc ⟨transparent_pixel, 0, GDK_LINE_SOLID, GDK_CAP_BUTT⟩ true (-100) (-100)
          200 200 0 full_circle,
       gdk_draw_arc ⟨opaque_pixel, 0, GDK_LINE_SOLID, GDK_CAP_BUTT⟩ true (-50) (-50)
          100 100 0 full_circle] ∧
    (flash_net sample_host (sample_annulus (1 / 10) 0) 100 ((100 : ℤ) : double) 0 0
      (blank_state ⟨transparent_pixel, 0, GDK_LINE_SOLID, GDK_CAP_BUTT⟩)).1.ops =
      [gdk_draw_arc ⟨transparent_pixel, 0, GDK_LINE_SOLID, GDK_CAP_BUTT⟩ true (-5) (-5)
          10 10 0 full_circle] := by
  have h := (C27_circle_flash sample_host (sample_annulus 2 1) 100 ((100 : ℤ) : double) 0 0
    (blank_state ⟨transparent_pixel, 0, GDK_LINE_SOLID, GDK_CAP_BUTT⟩) rfl (Or.inr rfl)).1
  have h2 := (C27_circle_flash sample_host (sample_annulus (1 / 10) 0) 100
    ((100 : ℤ) : double) 0 0
    (blank_state ⟨transparent_pixel, 0, GDK_LINE_SOLID, GDK_CAP_BUTT⟩) rfl (Or.inr rfl)).1
  have d1 : Int.tdiv 200 2 = 100 := by decide
  have d2 : Int.tdiv 100 2 = 50 := by decide
  have d3 : Int.tdiv 10 2 = 5 := by decide
  rw [h, h2]
  constructor
  · simp [sample_annulus, blank_state, d1, d2, gerbv_gdk_draw_circle, GdkGC.swap,
      swap_pixel, opaque_pixel, transparent_pixel]
  · simp [sample_annulus, blank_state, d3, tenth_mul_100, gerbv_gdk_draw_circle, GdkGC.swap,
      swap_pixel, opaque_pixel, transparent_pixel]

/-- C28 as stated fails: a net processed while the accumulator is collecting
does not always append exactly one vertex.  A net on a layer repeated twice in
X is passed through once per tile and appends two vertices (the cursor goes
from 0 to 2); a net with interpolation PAREA_START appends none: it restarts
the collection, the cursor goes back from 1 to 0.  Neither draws anything. -/
theorem C28_counterexample :
    (collecting_state POSITIVE 4 0).in_parea_fill = true ∧
    (run_tiles sample_host (sample_image (sample_circle 2) []) 100 0 0 POSITIVE
      (net_tiles (sample_net ON LINEARx1 1 0 0 (sample_layer DARK 2 1 10 0)))
      (collecting_state POSITIVE 4 0)).1.curr_point_idx = 2 ∧
    (run_tiles sample_host (sample_image (sample_circle 2) []) 100 0 0 POSITIVE
      (net_tiles (sample_net ON LINEARx1 1 0 0 (sample_layer DARK 2 1 10 0)))
      (collecting_state POSITIVE 4 0)).1.ops = (collecting_state POSITIVE 4 0).ops ∧
    (collecting_state POSITIVE 2 1).curr_point_idx = 1 ∧
    (tile_step sample_host (sample_image (sample_circle 2) []) 100 0 0 POSITIVE
      (sample_net OFF PAREA_START 1 0 2 (sample_layer DARK 1 1 0 0)) 0 0
      (collecting_state POSITIVE 2 1)).1.curr_point_idx = 0 ∧
    (tile_step sample_host (sample_image (sample_circle 2) []) 100 0 0 POSITIVE
      (sample_net OFF PAREA_START 1 0 2 (sample_layer DARK 1 1 0 0)) 0 0
      (collecting_state POSITIVE 2 1)).1.ops = (collecting_state POSITIVE 2 1).ops := by
  have ht : net_tiles (sample_net ON LINEARx1 1 0 0 (sample_layer DARK 2 1 10 0)) =
      [(sample_net ON LINEARx1 1 0 0 (sample_layer DARK 2 1 10 0), 0, 0),
       (sample_net ON LINEARx1 1 0 0 (sample_layer DARK 2 1 10 0), 1, 0)] := by
    have hr : List.range 2 = [0, 1] := by decide
    have hr1 : List.range 1 = [0] := by decide
    simp [net_tiles, sample_net, sample_layer, hr, hr1]
  obtain ⟨s1, e1, f1, c1, o1, -⟩ := tile_step_collect sample_host
    (sample_image (sample_circle 2) []) 100 0 0 POSITIVE
    (sample_net ON LINEARx1 1 0 0 (sample_layer DARK 2 1 10 0)) 0 0
    (collecting_state POSITIVE 4 0) rfl (by simp [sample_net]) (by simp [sample_net])
  obtain ⟨s2, e2, -, c2, o2, -⟩ := tile_step_collect sample_host
    (sample_image (sample_circle 2) []) 100 0 0 POSITIVE
    (sample_net ON LINEARx1 1 0 0 (sample_layer DARK 2 1 10 0)) 1 0
    s1 f1 (by simp [sample_net]) (by simp [sample_net])
  obtain ⟨s3, e3, -, -, c3, o3, -⟩ := tile_step_start sample_host
    (sample_image (sample_circle 2) []) 100 0 0 POSITIVE
    (sample_net OFF PAREA_START 1 0 2 (sample_layer DARK 1 1 0 0)) 0 0
    (collecting_state POSITIVE 2 1) rfl rfl
  have hc0 : (collecting_state POSITIVE 4 0).curr_point_idx = 0 := rfl
  rw [ht, run_tiles_cons_false _ _ _ _ _ _ _ _ _ _ e1,
    run_tiles_cons_false _ _ _ _ _ _ _ _ _ _ e2, e3]
  refine ⟨rfl, ?_, ?_, rfl, c3, o3⟩
  · show s2.curr_point_idx = 2
    rw [c2, c1, hc0]; rfl
  · show s2.ops = _
    rw [o2, o1]

/-- C28, amended: while the accumulator is collecting, a pass through a net
(one pass per step-and-repeat tile) that is not the end marker draws nothing
and, unless it is a start marker whose allocation fails, does not end the
traversal and leaves the accumulator collecting, whatever the aperture state
and the aperture index of the net are.  If the net is not a start marker
either, the pass stores the device-space stop point of the net at the cursor,
advances the cursor by one and issues no diagnostic; a start marker whose
allocation succeeds restarts the collection with the cursor at 0, and one
whose allocation fails ends the call in `GERB_FATAL_ERROR`.  The end marker
draws the one filled polygon of the vertices collected and leaves the
collecting state. -/
theorem C28_collecting (H : Host) (image : gerb_image) (scale : ℤ) (trans_x trans_y : double)
    (polarity : polarity_t) (net : gerb_net) (i j : ℕ) (st : render_state)
    (hfill : st.in_parea_fill = true) :
    (net.interpolation ≠ PAREA_END →
      (tile_step H image scale trans_x trans_y polarity net i j st).1.ops = st.ops) ∧
    (net.interpolation ≠ PAREA_END →
      (net.interpolation = PAREA_START → H.g_malloc (net.nuf_pcorners : ℤ) = true) →
      (tile_step H image scale trans_x trans_y polarity net i j st).2 = false ∧
      (tile_step H image scale trans_x trans_y polarity net i j st).1.in_parea_fill = true) ∧
    (net.interpolation ≠ PAREA_START → net.interpolation ≠ PAREA_END →
      (tile_step H image scale trans_x trans_y polarity net i j st).1.curr_point_idx =
        st.curr_point_idx + 1 ∧
      (tile_step H image scale trans_x trans_y polarity net i j st).1.points =
        buffer_write st.points st.curr_point_idx
          { x := device_x image scale trans_x net.stop_x
              ((i : double) * net.layer.stepAndRepeat.dist_X),
            y := device_y image scale trans_y net.stop_y
              ((j : double) * net.layer.stepAndRepeat.dist_Y) } ∧
      (tile_step H image scale trans_x trans_y polarity net i j st).1.log = st.log) ∧
    (net.interpolation = PAREA_START → H.g_malloc (net.nuf_pcorners : ℤ) = true →
      (tile_step H image scale trans_x trans_y polarity net i j st).1.curr_point_idx = 0) ∧
    (net.interpolation = PAREA_START → H.g_malloc (net.nuf_pcorners : ℤ) = false →
      (tile_step H image scale trans_x trans_y polarity net i j st).2 = true ∧
      (tile_step H image scale trans_x trans_y polarity net i j st).1.log =
        st.log ++ [Diag.malloc_failed]) ∧
    (net.interpolation = PAREA_END →
      (tile_step H image scale trans_x trans_y polarity net i j st).1.ops =
        st.ops ++
          [gdk_draw_polygon
            ⟨net_pixel net.layer.polarity polarity, 1, GDK_LINE_SOLID, GDK_CAP_PROJECTING⟩
            true (buffer_points st.points st.curr_point_idx)] ∧
      (tile_step H image scale trans_x trans_y polarity net i j st).1.in_parea_fill = false) := by
  obtain ⟨-, hops, hlog, hpts, hidx, hf⟩ :=
    tile_prepare_fields image scale trans_x trans_y polarity net st
  rw [hfill] at hf
  refine ⟨?_, ?_, ?_, ?_, ?_, ?_⟩
  · intro hi2
    unfold tile_step
    cases hint : net.interpolation
    case PAREA_END => exact absurd hint hi2
    case PAREA_START => simp only []; split_ifs <;> exact hops
    all_goals
      simp [hf, hops]
  · intro hi2 hm
    unfold tile_step
    cases hint : net.interpolation
    case PAREA_END => exact absurd hint hi2
    case PAREA_START =>
      simp only []
      rw [if_neg (by rw [hm hint]; decide)]
      exact ⟨rfl, rfl⟩
    all_goals
      simp [hf]
  · intro hi1 hi2
    unfold tile_step
    cases hint : net.interpolation
    case PAREA_END => exact absurd hint hi2
    case PAREA_START => exact absurd hint hi1
    all_goals
      simp [hf, hidx, hpts, hlog]
  · intro hi1 hm
    unfold tile_step
    simp only [hi1]
    rw [if_neg (by rw [hm]; decide)]
  · intro hi1 hm
    obtain ⟨h1, -, h3⟩ := tile_step_start_fails H image scale trans_x trans_y polarity net i j
      st hi1 hm
    exact ⟨h1, h3⟩
  · intro hi2
    obtain ⟨st1, h1, h2, -, -, h5⟩ :=
      tile_step_end H image scale trans_x trans_y polarity net i j st hi2
    rw [h1]
    exact ⟨h5, h2⟩

/-- Worked instance of C28: while collecting, a net with an unknown aperture
state and an undefined aperture (index 11) does not end the traversal. -/
theorem C28_collecting_witness :
    (tile_step sample_host (sample_image (sample_circle 2) []) 100 0 0 POSITIVE
      { sample_net (aperture_state_t.other 7) LINEARx1 1 0 0 (sample_layer DARK 1 1 0 0) with
          aperture := 11 }
      0 0 (collecting_state POSITIVE 2 1)).2 = false :=
  ((C28_collecting sample_host (sample_image (sample_circle 2) []) 100 0 0 POSITIVE
    { sample_net (aperture_state_t.other 7) LINEARx1 1 0 0 (sample_layer DARK 1 1 0 0) with
        aperture := 11 }
    0 0 (collecting_state POSITIVE 2 1) rfl).2.1 (by simp [sample_net])
    (by simp [sample_net])).1

/-- C29 as stated fails: at depth 7, with vertex count 0 and an allocator that
returns NULL for an array of no points, the stack renderer and the fast-path
renderer of primitive 5 agree (both draw nothing) although the depth is not
6. -/
theorem C29_counterexample :
    (stack_of [1, 0, 0, 0, 1, 0] 7).sp ≠ 6 ∧
    gerbv_gdk_draw_prim5 glib_host gdk_gc_new (stack_of [1, 0, 0, 0, 1, 0] 7) 100 0 0 =
      gerbv_gdk_draw_prim5_new glib_host gdk_gc_new (stack_of [1, 0, 0, 0, 1, 0] 7).stack
        100 0 0 ∧
    gerbv_gdk_draw_prim5_new glib_host gdk_gc_new (stack_of [1, 0, 0, 0, 1, 0] 7).stack
        100 0 0 = [] := by
  have h : glib_host.g_malloc (trunc ((stack_of [1, 0, 0, 0, 1, 0] 7).stack 1)) = false := by
    simp [stack_of, trunc_zero, trunc_lit, glib_host]
  refine ⟨by simp [stack_of], ?_, ?_⟩
  · rw [prim5_cases, prim5_new_cases]
    simp [h]
  · rw [prim5_new_cases]
    simp [h]

/-- C29, amended: for each primitive code 1, 4, 6, 7, 20, 21, 22 the stack
renderer applied to a stack makes exactly the calls of the fast-path renderer
applied to the values in the stack's slots.  For code 5 the two agree when the
stack depth is 6; when it is not 6 the stack renderer draws nothing, and the
two agree exactly when the allocation of the vertex array fails (the
fast-path renderer has no depth check and draws its polygon whenever that
allocation succeeds). -/
theorem C29_renderers_agree (H : Host) (gc : GdkGC) (s : macro_stack_t) (scale x y : ℤ) :
    gerbv_gdk_draw_prim1 gc s scale x y = gerbv_gdk_draw_prim1_new gc s.stack scale x y ∧
    gerbv_gdk_draw_prim4 H gc s scale x y =
      gerbv_gdk_draw_prim4_new H gc s.stack scale x y ∧
    gerbv_gdk_draw_prim6 H gc s scale x y =
      gerbv_gdk_draw_prim6_new H gc s.stack scale x y ∧
    gerbv_gdk_draw_prim7 H gc s scale x y =
      gerbv_gdk_draw_prim7_new H gc s.stack scale x y ∧
    gerbv_gdk_draw_prim20 H gc s scale x y =
      gerbv_gdk_draw_prim20_new H gc s.stack scale x y ∧
    gerbv_gdk_draw_prim21 H gc s scale x y =
      gerbv_gdk_draw_prim21_new H gc s.stack scale x y ∧
    gerbv_gdk_draw_prim22 H gc s scale x y =
      gerbv_gdk_draw_prim22_new H gc s.stack scale x y ∧
    (s.sp = 6 →
      gerbv_gdk_draw_prim5 H gc s scale x y =
        gerbv_gdk_draw_prim5_new H gc s.stack scale x y) ∧
    (s.sp ≠ 6 →
      gerbv_gdk_draw_prim5 H gc s scale x y = [] ∧
      (gerbv_gdk_draw_prim5 H gc s scale x y =
          gerbv_gdk_draw_prim5_new H gc s.stack scale x y ↔
        H.g_malloc (trunc (s.stack 1)) = false)) := by
  refine ⟨rfl, rfl, rfl, rfl, rfl, rfl, rfl, ?_, ?_⟩
  · intro h6
    rw [prim5_cases, prim5_new_cases]
    simp [h6]
  · intro h6
    rw [prim5_cases, prim5_new_cases]
    by_cases hm : H.g_malloc (trunc (s.stack 1)) = true <;> simp [h6, hm]

/-- C30: `image2pixmap` never looks at the first node of the net list: the
result (return value, drawing calls and diagnostics) is the same when the head
node is replaced by any other node, the rest of the list being kept; and an
image whose net list has only the head node yields the background fill alone
and returns 1. -/
theorem C30_head_is_sentinel (H : Host) (image : gerb_image) (scale : ℤ)
    (trans_x trans_y : double) (polarity : polarity_t) (head head1 : gerb_net)
    (nets : List gerb_net) (hnl : image.netlist = head :: nets) :
    image2pixmap H (some { image with netlist := head1 :: nets }) scale trans_x trans_y
        polarity =
      image2pixmap H (some image) scale trans_x trans_y polarity ∧
    (nets = [] →
      (image2pixmap H (some image) scale trans_x trans_y polarity).ops =
        [gdk_draw_rectangle
          (gdk_gc_set_foreground gdk_gc_new
            (if polarity = NEGATIVE then transparent_pixel else opaque_pixel))
          true 0 0 (-1) (-1)] ∧
      (image2pixmap H (some image) scale trans_x trans_y polarity).ret = 1) := by
  constructor
  · rw [image2pixmap_cons H image scale trans_x trans_y polarity head nets hnl,
      image2pixmap_cons H { image with netlist := head1 :: nets } scale trans_x trans_y
        polarity head1 nets rfl,
      run_tiles_netlist H image (head1 :: nets)]
  · intro hn
    subst hn
    rw [image2pixmap_cons H image scale trans_x trans_y polarity head [] hnl]
    simp [run_tiles, render_init]

/-- Worked instance of C30: an image with only the head node, rendered with
polarity POSITIVE, yields the opaque background fill. -/
theorem C30_head_is_sentinel_witness :
    (image2pixmap sample_host (some (sample_image (sample_circle 2) [])) 100 0 0
      POSITIVE).ops =
      [gdk_draw_rectangle
        (gdk_gc_set_foreground gdk_gc_new
          (if POSITIVE = NEGATIVE then transparent_pixel else opaque_pixel))
        true 0 0 (-1) (-1)] :=
  ((C30_head_is_sentinel sample_host (sample_image (sample_circle 2) []) 100 0 0 POSITIVE
    (sample_net OFF LINEARx1 0 0 0 (sample_layer DARK 1 1 0 0))
    (sample_net FLASH LINEARx1 5 5 0 (sample_layer CLEAR 3 3 1 1)) [] rfl).2 rfl).1

/-! ## Lemmas on the arc centre and on the truncation of angles -/

theorem tile_prepare_centre (image : gerb_image) (scale : ℤ) (trans_x trans_y : double)
    (polarity : polarity_t) (net : gerb_net) (st : render_state) (cs : gerb_cirseg)
    (hcs : net.cirseg = some cs) :
    (tile_prepare image scale trans_x trans_y polarity net st).cp_x =
      round ((image.info.offsetA + cs.cp_x) * (scale : double) + trans_x) ∧
    (tile_prepare image scale trans_x trans_y polarity net st).cp_y =
      round ((image.info.offsetB - cs.cp_y) * (scale : double) + trans_y) := by
  simp [tile_prepare, hcs]

theorem prim7_point_of_angle (H : Host) (v : ℤ → double) (scale x y i a : ℤ)
    (h : trunc (v 5 + ((90 * i : ℤ) : double)) = a) :
    prim7_point H v scale x y i =
      (rotate_point H { x := trunc (ceil (v 2 / 2 * (scale : double)) + 2), y := 0 } a).offset
        x y := by
  simp only [prim7_point, h]

/-- C31, the code on a fill run: after a start marker declaring any number of
corners and a run of `n` ordinary nets (on untiled layers) the accumulator is
still collecting, its buffer still has the declared size, and the cursor is
`n`: every pass stores its vertex at the cursor and advances it without
comparing it with the size.  The end marker then draws a polygon of all `n`
vertices.  Nothing relates `n` to the declared corner count, so with more nets
than declared corners the writes go beyond the allocated array. -/
theorem C31_cursor_unchecked (H : Host) (image : gerb_image) (scale : ℤ)
    (trans_x trans_y : double) (polarity : polarity_t) (start stop : gerb_net)
    (nets : List gerb_net) (st : render_state)
    (hstart : start.interpolation = PAREA_START)
    (hm : H.g_malloc (start.nuf_pcorners : ℤ) = true)
    (hstop : stop.interpolation = PAREA_END)
    (hnets : ∀ n ∈ nets, n.interpolation ≠ PAREA_START ∧ n.interpolation ≠ PAREA_END)
    (hsr : ∀ n ∈ start :: stop :: nets,
      n.layer.stepAndRepeat.X = 1 ∧ n.layer.stepAndRepeat.Y = 1) :
    (∃ st1 b1, run_tiles H image scale trans_x trans_y polarity
        ((start :: nets).flatMap net_tiles) st = (st1, false) ∧
      st1.in_parea_fill = true ∧ st1.points = some b1 ∧
      b1.size = start.nuf_pcorners ∧ st1.curr_point_idx = (nets.length : ℤ)) ∧
    (∃ st2 points, run_tiles H image scale trans_x trans_y polarity
        ((start :: nets ++ [stop]).flatMap net_tiles) st = (st2, false) ∧
      st2.ops = st.ops ++
        [gdk_draw_polygon
          ⟨net_pixel stop.layer.polarity polarity, 1, GDK_LINE_SOLID, GDK_CAP_PROJECTING⟩
          true points] ∧
      points.length = nets.length) := by
  constructor
  · have hs1 := hsr start (by simp)
    obtain ⟨sA, hstepA, hA1, hA2, hA3, -, -⟩ := tile_step_start H image scale trans_x
      trans_y polarity start 0 0 st hstart hm
    obtain ⟨sB, bB, hrunB, hB1, hB2, hB3, -, -, hB6, -⟩ := collect_run H image scale trans_x
      trans_y polarity nets sA _ hA1 hA2 (by rw [hA3]) hnets
      (fun n hn => hsr n (by simp [hn]))
    refine ⟨sB, bB, ?_, hB1, hB2, hB3, by rw [hB6, hA3, zero_add]⟩
    rw [List.flatMap_cons, net_tiles_one start hs1.1 hs1.2, List.singleton_append,
      run_tiles_cons_false _ _ _ _ _ _ _ _ _ _ hstepA, hrunB]
  · obtain ⟨st2, h1, -, -, h4⟩ := fill_run H image scale trans_x trans_y polarity start stop
      nets st hstart hm hstop hnets hsr
    exact ⟨st2, _, h1, h4, by simp⟩

/-- Worked instance of C31: a start marker declaring 1 corner followed by two
ordinary nets: the buffer has 1 entry and the cursor is 2. -/
theorem C31_cursor_unchecked_witness :
    ∃ st1 b1, run_tiles sample_host (sample_image (sample_circle 2) []) 100 0 0 POSITIVE
        ((sample_net OFF PAREA_START 0 0 1 (sample_layer DARK 1 1 0 0) ::
          [sample_net ON LINEARx1 1 0 0 (sample_layer DARK 1 1 0 0),
           sample_net ON LINEARx1 2 0 0 (sample_layer DARK 1 1 0 0)]).flatMap net_tiles)
        (render_init POSITIVE) = (st1, false) ∧
      st1.points = some b1 ∧ b1.size = 1 ∧ st1.curr_point_idx = 2 := by
  obtain ⟨st1, b1, h1, -, h3, h4, h5⟩ :=
    (C31_cursor_unchecked sample_host (sample_image (sample_circle 2) []) 100 0 0 POSITIVE
      (sample_net OFF PAREA_START 0 0 1 (sample_layer DARK 1 1 0 0))
      (sample_net OFF PAREA_END 0 0 0 (sample_layer DARK 1 1 0 0))
      [sample_net ON LINEARx1 1 0 0 (sample_layer DARK 1 1 0 0),
       sample_net ON LINEARx1 2 0 0 (sample_layer DARK 1 1 0 0)]
      (render_init POSITIVE) rfl rfl rfl
      (by intro n hn; simp at hn; rcases hn with h | h <;> subst h <;> simp [sample_net])
      (by
        intro n hn
        simp at hn
        rcases hn with h | h | h | h <;> subst h <;> simp [sample_net, sample_layer])).1
  exact ⟨st1, b1, h1, h3, h4, by simpa using h5⟩

/-- C32, the code on the centre of an arc: for a net whose circular segment
has its centre at the stop point, the device-space centre x equals the
device-space stop x of tile (0, 0), but the centre y is
`round((offsetB - y) * scale + trans_y)` while the stop y is
`round((-offsetB - y) * scale + trans_y)`: the origin offset `offsetB` enters
with the opposite sign.  The two agree when `offsetB = 0`; with `offsetB = 1`,
scale 100, no translation and the point (0, 0) the stop point is at y = -100
and the centre at y = 100. -/
theorem C32_centre_offset_sign :
    (∀ (image : gerb_image) (scale : ℤ) (trans_x trans_y : double) (polarity : polarity_t)
        (net : gerb_net) (st : render_state) (cs : gerb_cirseg),
      net.cirseg = some cs → cs.cp_x = net.stop_x → cs.cp_y = net.stop_y →
      (tile_prepare image scale trans_x trans_y polarity net st).cp_x =
        device_x image scale trans_x net.stop_x 0 ∧
      (tile_prepare image scale trans_x trans_y polarity net st).cp_y =
        round ((image.info.offsetB - net.stop_y) * (scale : double) + trans_y) ∧
      device_y image scale trans_y net.stop_y 0 =
        round ((-image.info.offsetB - net.stop_y) * (scale : double) + trans_y) ∧
      (image.info.offsetB = 0 →
        (tile_prepare image scale trans_x trans_y polarity net st).cp_y =
          device_y image scale trans_y net.stop_y 0)) ∧
    (tile_prepare
      { sample_image (sample_circle 2) [] with info := { offsetA := 0, offsetB := 1 } }
      100 0 0 POSITIVE (sample_arc_net 0 0 2 2 (sample_layer DARK 1 1 0 0))
      (render_init POSITIVE)).cp_y = 100 ∧
    device_y
      { sample_image (sample_circle 2) [] with info := { offsetA := 0, offsetB := 1 } }
      100 0 (sample_arc_net 0 0 2 2 (sample_layer DARK 1 1 0 0)).stop_y 0 = -100 ∧
    (tile_step sample_host
      { sample_image (sample_circle 2) [] with info := { offsetA := 0, offsetB := 1 } }
      100 0 0 POSITIVE (sample_arc_net 0 0 2 2 (sample_layer DARK 1 1 0 0)) 0 0
      (render_init POSITIVE)).1.ops =
      (render_init POSITIVE).ops ++
        [gdk_draw_arc ⟨transparent_pixel, 200, GDK_LINE_SOLID, GDK_CAP_ROUND⟩ false
          (-100) 0 200 200 0 5760] := by
  refine ⟨?_, ?_, ?_, ?_⟩
  · intro image scale trans_x trans_y polarity net st cs hcs hx hy
    obtain ⟨h1, h2⟩ := tile_prepare_centre image scale trans_x trans_y polarity net st cs hcs
    refine ⟨?_, ?_, ?_, ?_⟩
    · rw [h1, hx]; simp [device_x]
    · rw [h2, hy]
    · simp [device_y]
    · intro h0
      rw [h2, hy, h0]
      simp [device_y, h0]
  · simp [tile_prepare, sample_arc_net, sample_net, sample_image, round_zero, round_lit]
  · have rm : round (-(1 : double) * ((100 : ℤ) : double)) = -100 := by
      norm_num [round_eq, to_gint, double.val_mul, double.val_neg, double.val_intCast,
        double.val_lit, fl_lit, fl_neg, ceil_neg_lit]
    simp [device_y, sample_arc_net, sample_net, sample_image, rm]
  · rw [tile_step_arc sample_host _ 100 0 0 POSITIVE _ 0 0 _ (sample_circle 2)
      { cp_x := 0, cp_y := 0, width := 2, height := 2, angle1 := 0, angle2 := 90 }
      rfl rfl (Or.inr rfl) (by simp [sample_image, sample_arc_net, sample_net]) rfl]
    have t2 : trunc (((90 : ℤ) : double) * 64) = 5760 := by
      norm_num [trunc, to_gint, double.val_mul, double.val_intCast, double.val_lit, fl_lit]
    have d1 : Int.tdiv 200 2 = 100 := by decide
    simp [sample_image, sample_circle, sample_arc_net, sample_net, sample_layer, render_init,
      gerbv_gdk_draw_arc, gdk_gc_set_line_attributes, gdk_gc_set_foreground, gdk_gc_new,
      net_pixel, transparent_pixel, opaque_pixel, t2, d1]

end Gerbv
